import Mathlib

/-!
# Galaxian clone: a shallow embedding of `src/main.cpp`

The game session (`struct Game`) and its frame update are translated into
pure Lean functions on an explicit state record.

Modelling conventions
* `float` is modelled by exact rational arithmetic (`ℚ`); rounding is not
  modelled.  `int` is modelled by `Int` (signed overflow is undefined
  behaviour in C++ and is not modelled); `/` and `%` on `int` are the
  truncating `Int.tdiv` and `Int.tmod`.
* The C library functions `sinf`, `cosf`, `sqrt` and the random engine used by
  `std::shuffle` are not rational functions; they are taken as a parameter
  (`Libm`).  Every universally quantified theorem holds for every `Libm`.
* raylib's process-wide random generator is the field `rng` of the state: the
  list of raw values it is going to produce.  `GetRandomValue lo hi` maps the
  next raw value into `lo..hi`.
* The global `gParticles` is a field of the state record as well.
* Keyboard queries (`IsKeyPressed`, `IsKeyDown`) and `GetFrameTime` are the
  fields of the per-frame `Input`.
* A `for (auto& x : xs)` loop is a recursion over the list that threads the
  rest of the state; a block of `updatePlaying` is a function of its own,
  named after its comment in the source, and `updatePlaying` is their
  composition in source order.
* Members the source leaves uninitialised (the control points of a new
  `Enemy`, the stars before `init`) are 0.
-/

namespace Galaxian

/-! ## Constants -/

def SW : Int := 480
def SH : Int := 720

def PLAYER_MAX_SPEED : ℚ := 320
def PLAYER_ACCEL : ℚ := 2400
def PLAYER_DECEL : ℚ := 5200
def PLAYER_Y : ℚ := (SH : ℚ) - 80
def BULLET_SPEED : ℚ := 520
def BULLET_W : ℚ := 3
def BULLET_H : ℚ := 12

def COLS : Int := 10
def ROWS : Int := 4
def CELL_W : ℚ := 44
def CELL_H : ℚ := 50
def FORM_START_X : ℚ := ((SW : ℚ) - (COLS : ℚ) * CELL_W) / 2
def FORM_START_Y : ℚ := 80
def FORM_BOB_AMP : ℚ := 7
def FORM_BOB_FREQ : ℚ := 2.2
def FORM_ROW_AMP : ℚ := 1.0
def FORM_ROW_PHASE : ℚ := 0.55
def FORM_COL_AMP : ℚ := 3.2
def FORM_COL_PHASE : ℚ := 0.60

def EBULLET_W : ℚ := 4
def EBULLET_H : ℚ := 10
def EBULLET_SPEED : ℚ := 240

def PARTICLE_LIFE : ℚ := 0.4
def PARTICLE_COUNT : Nat := 8

/-- The raylib constant `PI`. -/
def PI : ℚ := 3.14159265358979323846

/-! ## Library functions -/

/-- The functions of the C and C++ standard libraries that the game calls and
that have no exact rational definition.  `engine seed k` is the `k`-th raw
draw of `std::default_random_engine(seed)`. -/
structure Libm where
  sinf : ℚ → ℚ
  cosf : ℚ → ℚ
  sqrtf : ℚ → ℚ
  engine : Int → Nat → Nat

/-- The `std::clamp` of `<algorithm>`. -/
def clamp (v lo hi : ℚ) : ℚ :=
  if v < lo then lo else if hi < v then hi else v

/-- The `std::copysign` of `<cmath>` (on a non-zero second argument; the game
calls it only when `|vx| > decel >= 0`, see `movePlayer`). -/
def copysign (m s : ℚ) : ℚ :=
  if s < 0 then -|m| else |m|

/-! ## Enums and records -/

inductive GameState where
  | ATTRACT | PLAYING | PLAYER_DEAD | GAME_OVER | STAGE_CLEAR
deriving DecidableEq, Repr

inductive EnemyType where
  | FLAGSHIP | ESCORT | ZAKO_BLUE | ZAKO_BLUE2 | ZAKO_GREEN
deriving DecidableEq, Repr

inductive EnemyState where
  | IN_FORMATION | DIVING | RETURNING
deriving DecidableEq, Repr

inductive PowerUpType where
  | FIRE_RATE | DOUBLE_SHOT | TRIPLE_SHOT
deriving DecidableEq, Repr

structure Vector2 where
  x : ℚ := 0
  y : ℚ := 0
deriving DecidableEq, Repr

structure Rectangle where
  x : ℚ
  y : ℚ
  width : ℚ
  height : ℚ
deriving DecidableEq, Repr

/-- The raylib function `CheckCollisionRecs`: the two rectangles overlap on
both axes (strictly). -/
def CheckCollisionRecs (rec1 rec2 : Rectangle) : Bool :=
  decide (rec1.x < rec2.x + rec2.width) && decide (rec1.x + rec1.width > rec2.x) &&
  (decide (rec1.y < rec2.y + rec2.height) && decide (rec1.y + rec1.height > rec2.y))

structure Star where
  x : ℚ := 0
  y : ℚ := 0
  speed : ℚ := 0
  size : ℚ := 0
  brightness : Nat := 0
deriving DecidableEq, Repr

structure Bullet where
  x : ℚ := 0
  y : ℚ := 0
  vx : ℚ := 0
  vy : ℚ := 0
  active : Bool := false
  enemy : Bool := false
deriving DecidableEq, Repr

def Bullet.rect (b : Bullet) : Rectangle :=
  let w := if b.enemy then EBULLET_W else BULLET_W
  let h := if b.enemy then EBULLET_H else BULLET_H
  { x := b.x - w / 2, y := b.y - h / 2, width := w, height := h }

structure PowerUp where
  type : PowerUpType := PowerUpType.FIRE_RATE
  x : ℚ := 0
  y : ℚ := 0
  vy : ℚ := 100
  active : Bool := true
deriving DecidableEq, Repr

def PowerUp.rect (p : PowerUp) : Rectangle :=
  { x := p.x - 8, y := p.y - 8, width := 16, height := 16 }

structure Particle where
  x : ℚ := 0
  y : ℚ := 0
  vx : ℚ := 0
  vy : ℚ := 0
  life : ℚ := 0
  maxLife : ℚ := 0
  size : ℚ := 0
  active : Bool := false
deriving DecidableEq, Repr

structure Enemy where
  type : EnemyType := EnemyType.FLAGSHIP
  row : Int := 0
  col : Int := 0
  formX : ℚ := 0
  formY : ℚ := 0
  x : ℚ := 0
  y : ℚ := 0
  state : EnemyState := EnemyState.IN_FORMATION
  alive : Bool := true
  t : ℚ := 0
  diveSpeed : ℚ := 200
  p0 : Vector2 := {}
  p1 : Vector2 := {}
  p2 : Vector2 := {}
  p3 : Vector2 := {}
  diveTargetX : ℚ := (SW : ℚ) * 0.5
  shootTimer : ℚ := 0
  shootInterval : ℚ := 0
  bulletsLeft : Int := 0
  retT : ℚ := 0
  retP0 : Vector2 := {}
  retP1 : Vector2 := {}
  retP2 : Vector2 := {}
  retP3 : Vector2 := {}
deriving DecidableEq, Repr

def Enemy.hitbox (e : Enemy) : Rectangle :=
  let hw : ℚ := 14
  let hh : ℚ := 12
  { x := e.x - hw, y := e.y - hh, width := hw * 2, height := hh * 2 }

structure Boss where
  active : Bool := false
  type : EnemyType := EnemyType.FLAGSHIP
  x : ℚ := (SW : ℚ) * 0.5
  y : ℚ := 130
  vx : ℚ := 120
  size : ℚ := 88
  hp : Int := 0
  maxHp : Int := 0
  shotTimer : ℚ := 0
  shotInterval : ℚ := 1.2
deriving DecidableEq, Repr

def Boss.hitbox (b : Boss) : Rectangle :=
  let hw := b.size * 0.36
  let hh := b.size * 0.32
  { x := b.x - hw, y := b.y - hh, width := hw * 2, height := hh * 2 }

/-- Cubic Bezier evaluation. -/
def bezier (p0 p1 p2 p3 : Vector2) (t : ℚ) : Vector2 :=
  let u := 1 - t
  { x := u*u*u*p0.x + 3*u*u*t*p1.x + 3*u*t*t*p2.x + t*t*t*p3.x,
    y := u*u*u*p0.y + 3*u*u*t*p1.y + 3*u*t*t*p2.y + t*t*t*p3.y }

structure Player where
  x : ℚ := (SW : ℚ) / 2
  y : ℚ := PLAYER_Y
  vx : ℚ := 0
  lives : Int := 3
  shotLevel : Int := 1
  shotCooldown : ℚ := 0.22
  shotTimer : ℚ := 0
  invincible : Bool := false
  invTimer : ℚ := 0
  alive : Bool := true
deriving DecidableEq, Repr

def Player.hitbox (p : Player) : Rectangle :=
  { x := p.x - 5, y := p.y - 16, width := 10, height := 32 }

/-- The game session of `struct Game`, together with the two process-wide
globals its update reads and writes: the particle list `gParticles` and the
state of raylib's random generator (`rng`, the raw values still to come). -/
structure Game where
  state : GameState := GameState.ATTRACT
  stars : List Star := List.replicate 80 {}
  player : Player := {}
  enemies : List Enemy := []
  pBullets : List Bullet := []
  eBullets : List Bullet := []
  powerUps : List PowerUp := []
  boss : Boss := {}
  score : Int := 0
  highScore : Int := 0
  round : Int := 1
  formVX : ℚ := 30
  formOffX : ℚ := 0
  formOffY : ℚ := 0
  formSineT : ℚ := 0
  diveTimer : ℚ := 0
  diveInterval : ℚ := 3
  stateTimer : ℚ := 0
  blinkTimer : ℚ := 0
  blinkOn : Bool := true
  flashTimer : ℚ := 0
  flashActive : Bool := false
  gParticles : List Particle := []
  rng : List Nat := []
deriving DecidableEq, Repr

/-- What one frame reads from the outside: `GetFrameTime()` and the keyboard
queries of `updateAttract` and `updatePlaying`. -/
structure Input where
  dt : ℚ := 0
  pressedEnter : Bool := false
  pressedSpace : Bool := false
  downLeft : Bool := false
  downA : Bool := false
  downRight : Bool := false
  downD : Bool := false
  downSpace : Bool := false
deriving DecidableEq, Repr

/-- The raylib function `GetRandomValue(lo, hi)`: the next raw value of the
generator, mapped into `lo..hi` (both ends included). -/
def GetRandomValue (lo hi : Int) (g : Game) : Int × Game :=
  match g.rng with
  | [] => (lo, g)
  | r :: rs => (lo + (r : Int) % (hi - lo + 1), { g with rng := rs })

/-! ## Star field and particles -/

/-- One round of the loop of `StarField::init` for the star of index `i`. -/
def initStar (i : Nat) (g : Game) : Star × Game :=
  let (rx, g) := GetRandomValue 0 SW g
  let (ry, g) := GetRandomValue 0 SH g
  let layer := i % 3
  if layer = 0 then
    ({ x := (rx : ℚ), y := (ry : ℚ), speed := 20, size := 1, brightness := 120 }, g)
  else if layer = 1 then
    ({ x := (rx : ℚ), y := (ry : ℚ), speed := 50, size := 1, brightness := 180 }, g)
  else
    ({ x := (rx : ℚ), y := (ry : ℚ), speed := 100, size := 2, brightness := 255 }, g)

/-- The loop of `StarField::init` over the star indices `is`. -/
def initStars : List Nat → Game → List Star × Game
  | [], g => ([], g)
  | i :: is, g =>
    let (s, g) := initStar i g
    let (ss, g) := initStars is g
    (s :: ss, g)

/-- The method `StarField::init` on the `stars` member of the session. -/
def starsInit (g : Game) : Game :=
  let (ss, g) := initStars (List.range 80) g
  { g with stars := ss }

/-- The loop of `StarField::update`. -/
def updateStars (dt : ℚ) : List Star → Game → List Star × Game
  | [], g => ([], g)
  | s :: ss, g =>
    let y := s.y + s.speed * dt
    let (s, g) :=
      if y > (SH : ℚ) then
        let (rx, g) := GetRandomValue 0 SW g
        ({ s with y := 0, x := (rx : ℚ) }, g)
      else ({ s with y := y }, g)
    let (ss, g) := updateStars dt ss g
    (s :: ss, g)

/-- The method `StarField::update` on the `stars` member of the session. -/
def starsUpdate (dt : ℚ) (g : Game) : Game :=
  let (ss, g) := updateStars dt g.stars g
  { g with stars := ss }

/-- The loop of `spawnExplosion` for the particle indices `is`. -/
def spawnParticles (L : Libm) (cx cy : ℚ) : List Nat → Game → Game
  | [], g => g
  | i :: is, g =>
    let angle := (i : ℚ) / (PARTICLE_COUNT : ℚ) * 2 * PI
    let (speed, g) := GetRandomValue 60 160 g
    let (size, g) := GetRandomValue 3 5 g
    let p : Particle :=
      { x := cx, y := cy,
        vx := L.cosf angle * (speed : ℚ),
        vy := L.sinf angle * (speed : ℚ),
        life := PARTICLE_LIFE, maxLife := PARTICLE_LIFE,
        size := (size : ℚ), active := true }
    spawnParticles L cx cy is { g with gParticles := g.gParticles ++ [p] }

def spawnExplosion (L : Libm) (cx cy : ℚ) (g : Game) : Game :=
  spawnParticles L cx cy (List.range PARTICLE_COUNT) g

/-- The loop body of `updateParticles`. -/
def stepParticle (dt : ℚ) (p : Particle) : Particle :=
  if !p.active then p
  else
    let p := { p with x := p.x + p.vx * dt, y := p.y + p.vy * dt, life := p.life - dt }
    if p.life ≤ 0 then { p with active := false } else p

def updateParticles (dt : ℚ) (g : Game) : Game :=
  { g with gParticles := (g.gParticles.map (stepParticle dt)).filter (fun p => p.active) }

/-! ## Formation -/

/-- The table `rowType` of `buildFormation`. -/
def rowType (r : Nat) : EnemyType :=
  match r with
  | 0 => EnemyType.ZAKO_GREEN
  | 1 => EnemyType.ZAKO_GREEN
  | 2 => EnemyType.ZAKO_BLUE
  | _ => EnemyType.ESCORT

/-- The table `rowCount` of `buildFormation`. -/
def rowCount (r : Nat) : Nat :=
  match r with
  | 0 => 2
  | 1 => 6
  | 2 => 8
  | _ => 10

/-- The enemy pushed by the inner loop of `buildFormation` for row `r` and
column `c`. -/
def newEnemy (r : Nat) (c : Int) : Enemy :=
  let formX := FORM_START_X + (c : ℚ) * CELL_W + CELL_W / 2
  let formY := FORM_START_Y + (r : ℚ) * CELL_H + CELL_H / 2
  { type := rowType r, row := (r : Int), col := c,
    formX := formX, formY := formY, x := formX, y := formY,
    alive := true, state := EnemyState.IN_FORMATION }

/-- The inner loop of `buildFormation`: the enemies of row `r`. -/
def buildRow (r : Nat) : List Enemy :=
  let count := rowCount r
  let startCol : Int := Int.tdiv (COLS - (count : Int)) 2
  (List.range count).map (fun i => newEnemy r (startCol + (i : Int)))

def buildFormation (g : Game) : Game :=
  let g := { g with
    enemies := [], pBullets := [], eBullets := [], powerUps := [],
    boss := {}, formOffX := 0, formOffY := 0, formSineT := 0,
    diveTimer := g.diveInterval }
  if Int.tmod g.round 3 = 0 then
    let k : Int := Int.tdiv g.round 3
    let cycle := Int.tmod (k - 1) 3
    let maxHp := 10 + k * 2
    { g with boss :=
      { g.boss with
        active := true,
        x := (SW : ℚ) * 0.5,
        y := 130,
        vx := 120 + (k : ℚ) * 8,
        size := 96,
        shotInterval := max 0.45 (1.15 - (k : ℚ) * 0.05),
        shotTimer := 0.5,
        maxHp := maxHp,
        hp := maxHp,
        type := if cycle = 0 then EnemyType.FLAGSHIP
                else if cycle = 1 then EnemyType.ZAKO_BLUE
                else EnemyType.ZAKO_GREEN } }
  else
    { g with enemies := (List.range ROWS.toNat).flatMap buildRow }

def aliveCount (g : Game) : Int :=
  ((g.enemies.filter (fun e => e.alive)).length : Int)

def formationX (g : Game) (col : Int) : ℚ :=
  FORM_START_X + (col : ℚ) * CELL_W + CELL_W / 2 + g.formOffX

def formationY (L : Libm) (g : Game) (row col : Int) : ℚ :=
  let t := g.formSineT * FORM_BOB_FREQ + g.formOffX * 0.08
  let rowBob := L.sinf (t + (row : ℚ) * FORM_ROW_PHASE) * FORM_ROW_AMP
  let colWave := L.sinf (t + (col : ℚ) * FORM_COL_PHASE + (row : ℚ) * 0.25) * FORM_COL_AMP
  FORM_START_Y + (row : ℚ) * CELL_H + CELL_H / 2 + g.formOffY + rowBob + colWave

def speedFactor (g : Game) : ℚ :=
  let total : Int := 26
  let killed := total - aliveCount g
  1 + (killed : ℚ) * 0.008 + ((g.round - 1 : Int) : ℚ) * 0.1

def updateFormationMotion (L : Libm) (dt : ℚ) (g : Game) : Game :=
  let sf : ℚ := if g.state = GameState.PLAYING then speedFactor g else 1
  let dir : ℚ := if g.formVX ≥ 0 then 1 else -1
  let speed := |g.formVX| * sf
  let maxX : ℚ := ((SW : ℚ) - (COLS : ℚ) * CELL_W) / 2 - 10
  let distToEdge := if dir > 0 then maxX - g.formOffX else g.formOffX + maxX
  let softZone : ℚ := 26
  let edgeFactor : ℚ :=
    if distToEdge < softZone then clamp (distToEdge / softZone) 0.35 1 else 1
  let g := { g with formOffX := g.formOffX + dir * speed * edgeFactor * dt }
  let g :=
    if g.formOffX > maxX then
      let overshoot := g.formOffX - maxX
      { g with formOffX := maxX - overshoot, formVX := -|g.formVX| }
    else g
  let g :=
    if g.formOffX < -maxX then
      let overshoot := -maxX - g.formOffX
      { g with formOffX := -maxX + overshoot, formVX := |g.formVX| }
    else g
  let formSineT := g.formSineT + dt
  { g with formSineT := formSineT,
           formOffY := L.sinf (formSineT * FORM_BOB_FREQ) * FORM_BOB_AMP }

/-! ## Dives -/

/-- The enemy a pointer into `enemies` refers to. -/
def enemyAt (g : Game) (i : Nat) : Enemy := g.enemies.getD i {}

/-- The first loop of `startDive`: the positions in `enemies` of the living
in-formation enemies (the source collects pointers to them). -/
def diveCandidates (es : List Enemy) : List Nat :=
  (List.range es.length).filter
    (fun i => (es.getD i {}).alive && decide ((es.getD i {}).state = EnemyState.IN_FORMATION))

/-- The function `std::iter_swap` on positions `i` and `j` of a list. -/
def swapAt (xs : List Nat) (i j : Nat) : List Nat :=
  (xs.set i (xs.getD j 0)).set j (xs.getD i 0)

/-- The first `k` steps of `std::shuffle`: step `i` (from 1) swaps position
`i` with a position drawn from `0..i`. -/
def shuffleLoop (draw : Nat → Nat) (xs : List Nat) : Nat → List Nat
  | 0 => xs
  | k + 1 => swapAt (shuffleLoop draw xs k) (k + 1) (draw k % (k + 2))

/-- The call `std::shuffle(begin, end, std::default_random_engine(seed))`. -/
def shuffle (L : Libm) (seed : Int) (xs : List Nat) : List Nat :=
  shuffleLoop (L.engine seed) xs (xs.length - 1)

def launchDive (g : Game) (e : Enemy) : Enemy × Game :=
  let diveSpeed := (if e.type = EnemyType.FLAGSHIP then (190 : ℚ) else 210) * speedFactor g
  let startX := e.x
  let startY := e.y
  let side : ℚ := if startX < (SW : ℚ) / 2 then 1 else -1
  let (aimError, g) :=
    match e.type with
    | EnemyType.FLAGSHIP => GetRandomValue (-36) 36 g
    | EnemyType.ESCORT => GetRandomValue (-52) 52 g
    | _ => GetRandomValue (-70) 70 g
  let diveTargetX := clamp (g.player.x + (aimError : ℚ)) 24 ((SW : ℚ) - 24)
  let e := { e with
    state := EnemyState.DIVING, t := 0, diveSpeed := diveSpeed,
    diveTargetX := diveTargetX,
    p0 := { x := startX, y := startY },
    p1 := { x := startX + side * 120, y := startY - 80 },
    p2 := { x := diveTargetX + side * 70, y := PLAYER_Y - 200 },
    p3 := { x := diveTargetX, y := (SH : ℚ) + 60 } }
  let (e, g) :=
    if e.type = EnemyType.FLAGSHIP then
      ({ e with bulletsLeft := 3, shootInterval := 0.4 }, g)
    else if e.type = EnemyType.ESCORT then
      ({ e with bulletsLeft := 2, shootInterval := 0.5 }, g)
    else
      let (n, g) := GetRandomValue 1 2 g
      ({ e with bulletsLeft := n, shootInterval := 0.6 }, g)
  ({ e with shootTimer := e.shootInterval * 0.5 }, g)

/-- The call `launchDive(*e)` for the pointer `e` to position `i`. -/
def launchAt (i : Nat) (g : Game) : Game :=
  match g.enemies.get? i with
  | none => g
  | some e =>
    let (e, g) := launchDive g e
    { g with enemies := g.enemies.set i e }

/-- The escort loop of `startDive`: walks the candidates and appends to
`group` the escorts within two columns of the flagship while the group has
fewer than three members. -/
def addEscorts (g : Game) (flagship : Nat) : List Nat → List Nat → List Nat
  | [], group => group
  | i :: is, group =>
    if (enemyAt g i).type = EnemyType.ESCORT ∧
        |(enemyAt g i).col - (enemyAt g flagship).col| ≤ 2 ∧ group.length < 3 then
      addEscorts g flagship is (group ++ [i])
    else addEscorts g flagship is group

/-- The random branch of `startDive`: shuffle the candidates, keep the first
one or two. -/
def randomGroup (L : Libm) (cands : List Nat) (g : Game) : List Nat × Game :=
  let (seed, g) := GetRandomValue 0 99999 g
  let cands := shuffle L seed cands
  let (cnt, g) := GetRandomValue 1 2 g
  (cands.take cnt.toNat, g)

def startDive (L : Libm) (g : Game) : Game :=
  let candidates := diveCandidates g.enemies
  if candidates.isEmpty then g
  else
    let flagship := candidates.find? (fun i => decide ((enemyAt g i).type = EnemyType.FLAGSHIP))
    let (group, g) :=
      match flagship with
      | some f =>
        let (r, g) := GetRandomValue 0 1 g
        if r = 0 then (addEscorts g f candidates [f], g)
        else randomGroup L candidates g
      | none => randomGroup L candidates g
    group.foldl (fun g i => launchAt i g) g

def returnToFormation (L : Libm) (g : Game) (e : Enemy) : Enemy :=
  let side : ℚ := if e.x < (SW : ℚ) / 2 then -1 else 1
  { e with
    state := EnemyState.RETURNING, retT := 0,
    retP0 := { x := e.x, y := (SH : ℚ) + 40 },
    retP1 := { x := e.x + side * 160, y := (SH : ℚ) / 2 },
    retP2 := { x := formationX g e.col, y := FORM_START_Y - 80 },
    retP3 := { x := formationX g e.col, y := formationY L g e.row e.col } }

def updateDiving (L : Libm) (g : Game) (e : Enemy) (dt : ℚ) : Enemy × Game :=
  let arcLen : ℚ := 600
  let e := { e with t := e.t + (e.diveSpeed / arcLen) * dt }
  if e.t ≥ 1 then
    let e := { e with t := 1 }
    let e := { e with x := (bezier e.p0 e.p1 e.p2 e.p3 1).x, y := (SH : ℚ) + 60 }
    (returnToFormation L g e, g)
  else
    let pos := bezier e.p0 e.p1 e.p2 e.p3 e.t
    let e := { e with x := pos.x, y := pos.y }
    if e.bulletsLeft > 0 then
      let e := { e with shootTimer := e.shootTimer - dt }
      if e.shootTimer ≤ 0 then
        let e := { e with shootTimer := e.shootInterval, bulletsLeft := e.bulletsLeft - 1 }
        let dx := g.player.x - e.x
        let dist := |dx| + 200
        let b : Bullet :=
          { active := true, enemy := true, x := e.x, y := e.y + 8,
            vx := (dx / dist) * EBULLET_SPEED * 0.3, vy := EBULLET_SPEED }
        (e, { g with eBullets := g.eBullets ++ [b] })
      else (e, g)
    else (e, g)

def updateReturning (L : Libm) (g : Game) (e : Enemy) (dt : ℚ) : Enemy :=
  let arcLen : ℚ := 700
  let e := { e with retT := e.retT + (e.diveSpeed * 0.8 / arcLen) * dt }
  let e := { e with retP3 := { x := formationX g e.col, y := formationY L g e.row e.col } }
  if e.retT ≥ 1 then
    { e with retT := 1, state := EnemyState.IN_FORMATION, x := e.retP3.x, y := e.retP3.y }
  else
    let pos := bezier e.retP0 e.retP1 e.retP2 e.retP3 e.retT
    { e with x := pos.x, y := pos.y }

/-! ## Player shots and power-ups -/

def firePlayerShot (offsetX : ℚ) (g : Game) : Game :=
  let b : Bullet :=
    { active := true, enemy := false, x := g.player.x + offsetX, y := g.player.y - 14,
      vx := 0, vy := -BULLET_SPEED }
  { g with pBullets := g.pBullets ++ [b] }

def spawnPowerUp (x y : ℚ) (g : Game) : Game :=
  let (r, g) := GetRandomValue 0 99 g
  if r > 22 then g
  else
    let (roll, g) := GetRandomValue 0 99 g
    let type :=
      if roll < 50 then PowerUpType.FIRE_RATE
      else if roll < 80 then PowerUpType.DOUBLE_SHOT
      else PowerUpType.TRIPLE_SHOT
    let p : PowerUp := { type := type, x := x, y := y }
    { g with powerUps := g.powerUps ++ [p] }

def applyPowerUp (type : PowerUpType) (g : Game) : Game :=
  match type with
  | PowerUpType.FIRE_RATE =>
    { g with player := { g.player with shotCooldown := max 0.08 (g.player.shotCooldown - 0.03) } }
  | PowerUpType.DOUBLE_SHOT =>
    { g with player := { g.player with shotLevel := max g.player.shotLevel 2 } }
  | PowerUpType.TRIPLE_SHOT =>
    { g with player := { g.player with shotLevel := 3 } }

def pointsForEnemy (t : EnemyType) (diving : Bool) : Int :=
  match t with
  | EnemyType.FLAGSHIP => if diving then 400 else 150
  | EnemyType.ESCORT => if diving then 160 else 40
  | EnemyType.ZAKO_BLUE => if diving then 100 else 30
  | EnemyType.ZAKO_BLUE2 => if diving then 80 else 20
  | EnemyType.ZAKO_GREEN => if diving then 60 else 10

def killPlayer (L : Libm) (g : Game) : Game :=
  if g.player.invincible then g
  else
    let g := spawnExplosion L g.player.x g.player.y g
    { g with
      player := { g.player with
        lives := g.player.lives - 1, alive := false, shotLevel := 1,
        shotCooldown := 0.22, shotTimer := 0 },
      pBullets := [],
      powerUps := [],
      eBullets := g.eBullets.map (fun b => { b with active := false }),
      enemies := g.enemies.map (fun e =>
        if e.alive && (decide (e.state = EnemyState.DIVING) ||
            decide (e.state = EnemyState.RETURNING)) then
          { e with state := EnemyState.IN_FORMATION }
        else e),
      state := GameState.PLAYER_DEAD,
      stateTimer := 2 }

/-! ## Boss -/

/-- The loop of `fireBossVolley` over the emitter offsets `rels`. -/
def fireBossBullets (L : Libm) : List ℚ → Game → Game
  | [], g => g
  | rel :: rels, g =>
    let bx := g.boss.x + rel * g.boss.size
    let by_ := g.boss.y + g.boss.size * 0.2
    let dx := g.player.x - bx
    let dy := max 24 (g.player.y - by_)
    let dist := L.sqrtf (dx * dx + dy * dy)
    let spd := EBULLET_SPEED * 1.05
    let b : Bullet :=
      { active := true, enemy := true, x := bx, y := by_,
        vx := (dx / dist) * spd * 0.75, vy := (dy / dist) * spd }
    fireBossBullets L rels { g with eBullets := g.eBullets ++ [b] }

def fireBossVolley (L : Libm) (g : Game) : Game :=
  fireBossBullets L [-0.32, 0, 0.32] g

def updateBoss (L : Libm) (dt : ℚ) (g : Game) : Game :=
  let g := { g with boss := { g.boss with x := g.boss.x + g.boss.vx * dt } }
  let half := g.boss.size * 0.5
  let g :=
    if g.boss.x < half + 18 then
      { g with boss := { g.boss with x := half + 18, vx := |g.boss.vx| } }
    else g
  let g :=
    if g.boss.x > (SW : ℚ) - half - 18 then
      { g with boss := { g.boss with x := (SW : ℚ) - half - 18, vx := -|g.boss.vx| } }
    else g
  let g := { g with boss := { g.boss with shotTimer := g.boss.shotTimer - dt } }
  if g.boss.shotTimer ≤ 0 then
    let g := fireBossVolley L g
    { g with boss := { g.boss with shotTimer := g.boss.shotInterval } }
  else g

/-! ## The phases of `updatePlaying`, in source order -/

/-- The invincibility and shot timers (the first statements of
`updatePlaying`). -/
def tickTimers (dt : ℚ) (g : Game) : Game :=
  let g :=
    if g.player.invincible then
      let g := { g with player := { g.player with invTimer := g.player.invTimer - dt } }
      if g.player.invTimer ≤ 0 then { g with player := { g.player with invincible := false } }
      else g
    else g
  if g.player.shotTimer > 0 then
    { g with player := { g.player with shotTimer := g.player.shotTimer - dt } }
  else g

/-- Player movement with acceleration and deceleration ramps. -/
def movePlayer (inp : Input) (g : Game) : Game :=
  let dt := inp.dt
  let moveInput : ℚ := 0
  let moveInput := if inp.downLeft || inp.downA then moveInput - 1 else moveInput
  let moveInput := if inp.downRight || inp.downD then moveInput + 1 else moveInput
  let vx :=
    if moveInput ≠ 0 then
      clamp (g.player.vx + moveInput * PLAYER_ACCEL * dt) (-PLAYER_MAX_SPEED) PLAYER_MAX_SPEED
    else
      let decel := PLAYER_DECEL * dt
      if |g.player.vx| ≤ decel then 0 else g.player.vx - copysign decel g.player.vx
  let g := { g with player := { g.player with vx := vx, x := g.player.x + vx * dt } }
  let g :=
    if g.player.x < 16 then
      { g with player := { g.player with x := 16, vx := if g.player.vx < 0 then 0 else g.player.vx } }
    else g
  if g.player.x > (SW : ℚ) - 16 then
    { g with player := { g.player with
        x := (SW : ℚ) - 16, vx := if g.player.vx > 0 then 0 else g.player.vx } }
  else g

/-- Player shoot (hold to fire). -/
def playerShoot (inp : Input) (g : Game) : Game :=
  if inp.downSpace ∧ g.player.shotTimer ≤ 0 then
    let g :=
      if g.player.shotLevel ≤ 1 then firePlayerShot 0 g
      else if g.player.shotLevel = 2 then firePlayerShot 7 (firePlayerShot (-7) g)
      else firePlayerShot 10 (firePlayerShot 0 (firePlayerShot (-10) g))
    { g with player := { g.player with shotTimer := g.player.shotCooldown } }
  else g

/-- The loop body of "Move player bullets". -/
def movePlayerBullet (dt : ℚ) (b : Bullet) : Bullet :=
  if !b.active then b
  else
    let b := { b with y := b.y + b.vy * dt }
    if b.y < -BULLET_H - 8 then { b with active := false } else b

/-- The loop body of "Enemies in formation: sync position". -/
def syncEnemy (L : Libm) (g : Game) (e : Enemy) : Enemy :=
  if !e.alive then e
  else if e.state = EnemyState.IN_FORMATION then
    { e with x := formationX g e.col, y := formationY L g e.row e.col }
  else e

/-- The dive timer. -/
def diveTimerStep (L : Libm) (dt : ℚ) (g : Game) : Game :=
  let g := { g with diveTimer := g.diveTimer - dt }
  if g.diveTimer ≤ 0 ∧ g.boss.active = false then
    let g := startDive L g
    let (r, g) := GetRandomValue 200 400 g
    { g with diveTimer := (r : ℚ) / 100 / speedFactor g }
  else g

/-- The loop "Update diving / returning enemies" over the enemies `es`. -/
def updateDivers (L : Libm) (dt : ℚ) : List Enemy → Game → List Enemy × Game
  | [], g => ([], g)
  | e :: es, g =>
    let (e, g) :=
      if !e.alive then (e, g)
      else if e.state = EnemyState.DIVING then updateDiving L g e dt
      else if e.state = EnemyState.RETURNING then (updateReturning L g e dt, g)
      else (e, g)
    let (es, g) := updateDivers L dt es g
    (e :: es, g)

/-- The loop body of "Enemy bullets". -/
def moveEnemyBullet (dt : ℚ) (b : Bullet) : Bullet :=
  if !b.active then b
  else
    let b := { b with y := b.y + b.vy * dt }
    let b := { b with x := b.x + b.vx * dt }
    if b.y > (SH : ℚ) + 20 then { b with active := false } else b

/-- The power-up loop over the power-ups `ps`: fall, expire, be collected. -/
def updatePowerUps (dt : ℚ) : List PowerUp → Game → List PowerUp × Game
  | [], g => ([], g)
  | p :: ps, g =>
    let (p, g) :=
      if !p.active then (p, g)
      else
        let p := { p with y := p.y + p.vy * dt }
        let p := if p.y > (SH : ℚ) + 16 then { p with active := false } else p
        if CheckCollisionRecs p.rect g.player.hitbox then
          ({ p with active := false }, applyPowerUp p.type g)
        else (p, g)
    let (ps, g) := updatePowerUps dt ps g
    (p :: ps, g)

/-- The inner loop of the bullet collisions: looks for the first living enemy
whose hitbox overlaps `br`; returns that enemy as it was and the roster with
it marked dead. -/
def hitFirstEnemy (br : Rectangle) : List Enemy → Option (Enemy × List Enemy)
  | [] => none
  | e :: es =>
    if !e.alive then (hitFirstEnemy br es).map (fun r => (r.1, e :: r.2))
    else if CheckCollisionRecs br e.hitbox then some (e, { e with alive := false } :: es)
    else (hitFirstEnemy br es).map (fun r => (r.1, e :: r.2))

/-- The two statements `score += pts; highScore = std::max(highScore, score);`
that follow every kill. -/
def addScore (pts : Int) (g : Game) : Game :=
  let g := { g with score := g.score + pts }
  { g with highScore := max g.highScore g.score }

/-- The body of `if (boss.active && CheckCollisionRecs(br, boss.hitbox()))`
apart from `pb.active = false`: the player bullet `pb` hits the boss. -/
def hitBoss (L : Libm) (pb : Bullet) (g : Game) : Game :=
  let g := { g with boss := { g.boss with hp := g.boss.hp - 1 } }
  let g := spawnExplosion L pb.x pb.y g
  if g.boss.hp ≤ 0 then
    let g := { g with boss := { g.boss with active := false } }
    let g := addScore (1000 + g.round * 80) g
    let g := spawnExplosion L g.boss.x g.boss.y g
    spawnPowerUp g.boss.x g.boss.y g
  else g

/-- The body of `if (CheckCollisionRecs(br, e.hitbox()))` apart from
`pb.active = false`: a player bullet kills the enemy `e`; `es` is the roster
with `e` marked dead. -/
def killEnemy (L : Libm) (e : Enemy) (es : List Enemy) (g : Game) : Game :=
  let g := { g with enemies := es }
  let pts := pointsForEnemy e.type (decide (e.state = EnemyState.DIVING))
  let g := addScore pts g
  let g := spawnExplosion L e.x e.y g
  spawnPowerUp e.x e.y g

/-- The loop body of "Collision: player bullets vs enemies" for the bullet
`pb`. -/
def collideBullet (L : Libm) (pb : Bullet) (g : Game) : Bullet × Game :=
  if !pb.active then (pb, g)
  else
    let br := pb.rect
    if g.boss.active && CheckCollisionRecs br g.boss.hitbox then
      ({ pb with active := false }, hitBoss L pb g)
    else
      match hitFirstEnemy br g.enemies with
      | none => (pb, g)
      | some (e, es) => ({ pb with active := false }, killEnemy L e es g)

/-- The loop "Collision: player bullets vs enemies" over the bullets `pbs`. -/
def collideBullets (L : Libm) : List Bullet → Game → List Bullet × Game
  | [], g => ([], g)
  | pb :: pbs, g =>
    let (pb, g) := collideBullet L pb g
    let (pbs, g) := collideBullets L pbs g
    (pb :: pbs, g)

/-- The three `erase(remove_if(...))` statements. -/
def compact (g : Game) : Game :=
  { g with
    pBullets := g.pBullets.filter (fun b => b.active),
    eBullets := g.eBullets.filter (fun b => b.active),
    powerUps := g.powerUps.filter (fun p => p.active) }

/-- The loop "Collision: enemy bullets vs player": the bullets with the first
active one that overlaps `hb` deactivated, if there is one. -/
def hitByBullet (hb : Rectangle) : List Bullet → Option (List Bullet)
  | [] => none
  | b :: bs =>
    if !b.active then (hitByBullet hb bs).map (fun r => b :: r)
    else if CheckCollisionRecs b.rect hb then some ({ b with active := false } :: bs)
    else (hitByBullet hb bs).map (fun r => b :: r)

/-- The loop "Collision: diving enemy body vs player": the first living diving
enemy that overlaps `hb`, and the roster with it marked dead. -/
def hitByDiver (hb : Rectangle) : List Enemy → Option (Enemy × List Enemy)
  | [] => none
  | e :: es =>
    if !e.alive || decide (e.state ≠ EnemyState.DIVING) then
      (hitByDiver hb es).map (fun r => (r.1, e :: r.2))
    else if CheckCollisionRecs e.hitbox hb then some (e, { e with alive := false } :: es)
    else (hitByDiver hb es).map (fun r => (r.1, e :: r.2))

/-- The lethal checks against the player.  The flag tells whether
`updatePlaying` returned from inside them (the player was hit). -/
def lethalChecks (L : Libm) (g : Game) : Game × Bool :=
  if !g.player.invincible then
    match hitByBullet g.player.hitbox g.eBullets with
    | some bs => (killPlayer L { g with eBullets := bs }, true)
    | none =>
      match hitByDiver g.player.hitbox g.enemies with
      | some (e, es) =>
        let g := { g with enemies := es }
        let g := spawnExplosion L e.x e.y g
        (killPlayer L g, true)
      | none =>
        if g.boss.active && CheckCollisionRecs g.boss.hitbox g.player.hitbox then
          (killPlayer L g, true)
        else (g, false)
  else (g, false)

/-- Check stage clear. -/
def checkStageClear (g : Game) : Game :=
  if aliveCount g = 0 ∧ g.boss.active = false then
    { g with state := GameState.STAGE_CLEAR, stateTimer := 2, flashTimer := 0 }
  else g

/-- The loop "Move player bullets". -/
def movePlayerBullets (dt : ℚ) (g : Game) : Game :=
  { g with pBullets := g.pBullets.map (movePlayerBullet dt) }

/-- The loop "Enemies in formation: sync position". -/
def syncFormation (L : Libm) (g : Game) : Game :=
  { g with enemies := g.enemies.map (syncEnemy L g) }

/-- The loop "Update diving / returning enemies" on the roster of the
session. -/
def diversStep (L : Libm) (dt : ℚ) (g : Game) : Game :=
  let (es, g) := updateDivers L dt g.enemies g
  { g with enemies := es }

/-- The loop "Enemy bullets". -/
def moveEnemyBullets (dt : ℚ) (g : Game) : Game :=
  { g with eBullets := g.eBullets.map (moveEnemyBullet dt) }

/-- The statement `if (boss.active) updateBoss(dt);`. -/
def bossStep (L : Libm) (dt : ℚ) (g : Game) : Game :=
  if g.boss.active then updateBoss L dt g else g

/-- The power-up loop on the power-ups of the session. -/
def powerUpStep (dt : ℚ) (g : Game) : Game :=
  let (ps, g) := updatePowerUps dt g.powerUps g
  { g with powerUps := ps }

/-- The loop "Collision: player bullets vs enemies" on the player bullets of
the session. -/
def collisionStep (L : Libm) (g : Game) : Game :=
  let (pbs, g) := collideBullets L g.pBullets g
  { g with pBullets := pbs }

/-- Everything `updatePlaying` does before the lethal checks, in source
order. -/
def playingFrame (L : Libm) (inp : Input) (g : Game) : Game :=
  let dt := inp.dt
  let g := tickTimers dt g
  let g := movePlayer inp g
  let g := playerShoot inp g
  let g := movePlayerBullets dt g
  let g := updateFormationMotion L dt g
  let g := syncFormation L g
  let g := diveTimerStep L dt g
  let g := diversStep L dt g
  let g := moveEnemyBullets dt g
  let g := bossStep L dt g
  let g := powerUpStep dt g
  let g := collisionStep L g
  compact g

def updatePlaying (L : Libm) (inp : Input) (g : Game) : Game :=
  let (g, returned) := lethalChecks L (playingFrame L inp g)
  if returned then g else checkStageClear g

/-! ## Game flow -/

def init (g : Game) : Game :=
  let g := starsInit g
  let g := { g with
    score := 0, round := 1, formVX := 30,
    player := { g.player with
      x := (SW : ℚ) / 2, vx := 0, lives := 3, shotLevel := 1, shotCooldown := 0.22,
      shotTimer := 0, alive := true, invincible := false },
    pBullets := [], eBullets := [], powerUps := [], gParticles := [] }
  buildFormation g

/-- The blink toggle of `updateAttract`. -/
def blinkStep (dt : ℚ) (g : Game) : Game :=
  let g := { g with blinkTimer := g.blinkTimer + dt }
  if g.blinkTimer ≥ 0.5 then { g with blinkTimer := 0, blinkOn := !g.blinkOn } else g

def updateAttract (L : Libm) (inp : Input) (g : Game) : Game :=
  let g := updateFormationMotion L inp.dt g
  let g := blinkStep inp.dt g
  if inp.pressedEnter || inp.pressedSpace then
    { init g with state := GameState.PLAYING }
  else g

def updateDead (dt : ℚ) (g : Game) : Game :=
  let g := { g with stateTimer := g.stateTimer - dt }
  let g := starsUpdate dt g
  if g.stateTimer ≤ 0 then
    if g.player.lives ≤ 0 then
      { g with state := GameState.GAME_OVER, stateTimer := 3 }
    else
      { g with
        player := { g.player with
          x := (SW : ℚ) / 2, vx := 0, alive := true, invincible := true, invTimer := 2 },
        pBullets := [],
        state := GameState.PLAYING }
  else g

def updateGameOver (dt : ℚ) (g : Game) : Game :=
  let g := { g with stateTimer := g.stateTimer - dt }
  if g.stateTimer ≤ 0 then
    { g with highScore := max g.highScore g.score, state := GameState.ATTRACT }
  else g

def updateClear (dt : ℚ) (g : Game) : Game :=
  let g := { g with stateTimer := g.stateTimer - dt, flashTimer := g.flashTimer + dt }
  if g.stateTimer ≤ 0 then
    let g := { g with round := g.round + 1 }
    let g := { g with formVX := 30 + ((g.round - 1 : Int) : ℚ) * 5 }
    let g := { g with diveInterval := max 1.5 (3 - ((g.round - 1 : Int) : ℚ) * 0.2) }
    let g := buildFormation g
    { g with state := GameState.PLAYING }
  else g

def update (L : Libm) (inp : Input) (g : Game) : Game :=
  let g := starsUpdate inp.dt g
  let g := updateParticles inp.dt g
  match g.state with
  | GameState.ATTRACT => updateAttract L inp g
  | GameState.PLAYING => updatePlaying L inp g
  | GameState.PLAYER_DEAD => updateDead inp.dt g
  | GameState.GAME_OVER => updateGameOver inp.dt g
  | GameState.STAGE_CLEAR => updateClear inp.dt g

/-- The session as `main` sets it up before the first frame: a default
`Game`, `stars.init()` and `buildFormation()`; `rolls` is the stream of raw
values the random generator will produce. -/
def Game.start (rolls : List Nat) : Game :=
  buildFormation (starsInit { rng := rolls })

/-- The states the program can be in between two frames: the start state,
and whatever `update` makes of such a state for a frame time `dt >= 0` and any
keyboard state. -/
inductive Reachable (L : Libm) : Game → Prop
  | start (rolls : List Nat) : Reachable L (Game.start rolls)
  | frame (g : Game) (inp : Input) : Reachable L g → 0 ≤ inp.dt → Reachable L (update L inp g)

/-! ## Predicates and abstractions used by the theorems -/

/-- Boss mode after `buildFormation` for round number `round`: the boss is
active with full health `10 + 2 * (round / 3)` and there is no enemy. -/
def BossMode (round : Int) (g : Game) : Prop :=
  g.boss.active = true ∧ g.boss.hp = 10 + 2 * (round / 3) ∧
    g.boss.maxHp = 10 + 2 * (round / 3) ∧ g.enemies = []

/-- Regular-formation mode: no boss, and 26 enemies, all alive and in
formation, in rows 0..3 of 2, 6, 8 and 10. -/
def RegularMode (g : Game) : Prop :=
  g.boss.active = false ∧ g.enemies.length = 26 ∧
    (∀ e ∈ g.enemies, e.alive = true ∧ e.state = EnemyState.IN_FORMATION) ∧
    g.enemies.map (fun e => e.row) =
      List.replicate 2 0 ++ List.replicate 6 1 ++ List.replicate 8 2 ++ List.replicate 10 3

/-! ## The flow core of a session

The flow state, the scores, the round number and the player's lives and shot
level.  Most phases of a frame leave all of them alone. -/

structure Core where
  state : GameState
  score : Int
  highScore : Int
  round : Int
  lives : Int
  shotLevel : Int
deriving DecidableEq, Repr

def core (g : Game) : Core :=
  { state := g.state, score := g.score, highScore := g.highScore, round := g.round,
    lives := g.player.lives, shotLevel := g.player.shotLevel }

/-- What the part of `updatePlaying` before the lethal checks can do to the
flow core: it leaves the flow state, the round and the lives alone, the high
score can only grow and so can the score (from round 1 on), the high score stays at or above the score (it is
the larger of the old high score and the new score),
and a shot level of at most 3 can only grow and stays at most 3. -/
structure PlayStep (c c' : Core) : Prop where
  state : c'.state = c.state
  round : c'.round = c.round
  lives : c'.lives = c.lives
  score : 1 ≤ c.round → c.score ≤ c'.score
  highScore : c.highScore ≤ c'.highScore
  above : c.score ≤ c.highScore → c'.score ≤ c'.highScore
  track : 1 ≤ c.round → c.score ≤ c.highScore → c'.highScore = max c.highScore c'.score
  shot : c.shotLevel ≤ 3 → c.shotLevel ≤ c'.shotLevel
  shotMax : c.shotLevel ≤ 3 → c'.shotLevel ≤ 3

/-- The flow core after the player has been killed. -/
def Core.killed (c : Core) : Core :=
  { c with state := GameState.PLAYER_DEAD, lives := c.lives - 1, shotLevel := 1 }

/-- The session at the point where `update` dispatches on the flow state:
after `stars.update(dt)` and `updateParticles(dt)`. -/
def preFrame (dt : ℚ) (g : Game) : Game := updateParticles dt (starsUpdate dt g)

/-- The abstract flow machine: what one `update` call can do to the flow core.
`start` tells whether the start key (ENTER or SPACE) was pressed. -/
inductive CoreStep (start : Bool) (c : Core) : Core → Prop
  | attractIdle : c.state = GameState.ATTRACT → start = false → CoreStep start c c
  | attractStart : c.state = GameState.ATTRACT → start = true →
      CoreStep start c
        { c with state := GameState.PLAYING, score := 0, round := 1, lives := 3, shotLevel := 1 }
  | play (m : Core) : c.state = GameState.PLAYING → PlayStep c m → CoreStep start c m
  | playKilled (m : Core) : c.state = GameState.PLAYING → PlayStep c m →
      CoreStep start c m.killed
  | playClear (m : Core) : c.state = GameState.PLAYING → PlayStep c m →
      CoreStep start c { m with state := GameState.STAGE_CLEAR }
  | deadWait : c.state = GameState.PLAYER_DEAD → CoreStep start c c
  | deadOver : c.state = GameState.PLAYER_DEAD → c.lives ≤ 0 →
      CoreStep start c { c with state := GameState.GAME_OVER }
  | deadRespawn : c.state = GameState.PLAYER_DEAD → 0 < c.lives →
      CoreStep start c { c with state := GameState.PLAYING }
  | overWait : c.state = GameState.GAME_OVER → CoreStep start c c
  | overAttract : c.state = GameState.GAME_OVER →
      CoreStep start c { c with highScore := max c.highScore c.score, state := GameState.ATTRACT }
  | clearWait : c.state = GameState.STAGE_CLEAR → CoreStep start c c
  | clearNext : c.state = GameState.STAGE_CLEAR →
      CoreStep start c { c with round := c.round + 1, state := GameState.PLAYING }

/-- The invariant of the flow core in the reachable states. -/
structure CoreInv (c : Core) : Prop where
  round : 1 ≤ c.round
  score : 0 ≤ c.score
  above : c.score ≤ c.highScore
  shotLo : 1 ≤ c.shotLevel
  shotHi : c.shotLevel ≤ 3
  idle : c.state = GameState.ATTRACT ∨ c.state = GameState.PLAYER_DEAD ∨
    c.state = GameState.GAME_OVER → c.shotLevel = 1
  livesLo : 0 ≤ c.lives
  livesHi : c.lives ≤ 3
  playing : c.state = GameState.PLAYING ∨ c.state = GameState.STAGE_CLEAR → 1 ≤ c.lives

/-! ## A reference `Libm` for evaluation on concrete inputs

Rational stand-ins for the library functions, used only where a theorem
evaluates the model on a concrete input. -/

/-- Bhaskara's rational approximation of the sine, after reduction of the
argument to one period around 0 (with 355/113 for pi), rounded down to four
decimal places. -/
def sinApprox (x : ℚ) : ℚ :=
  let q : ℚ := 355 / 113
  let k : Int := Rat.floor (x / (2 * q) + 1 / 2)
  let r := x - 2 * q * (k : ℚ)
  let a := |r|
  let s := 16 * a * (q - a) / (5 * q * q - 4 * a * (q - a))
  let s := ((Rat.floor (s * 10000) : Int) : ℚ) / 10000
  if r < 0 then -s else s

/-- Newton's iteration for the integer square root of `n`, from the guess
`x`, at most `fuel` rounds. -/
def isqrtFrom (n : Nat) : Nat → Nat → Nat
  | 0, x => x
  | fuel + 1, x =>
    let y := (x + n / x) / 2
    if y < x then isqrtFrom n fuel y else x

/-- The square root to six decimal places. -/
def sqrtApprox (x : ℚ) : ℚ :=
  if x ≤ 0 then 0
  else
    let n := (Rat.floor (x * 1000000000000)).toNat
    ((isqrtFrom n 200 (n + 1) : Nat) : ℚ) / 1000000

/-- The generator `std::minstd_rand0` (the `std::default_random_engine` of
libstdc++): the draw number `k` after seeding with `seed`. -/
def minstd (seed : Int) : Nat → Nat
  | 0 =>
    let s := seed.toNat % 2147483647
    (16807 * (if s = 0 then 1 else s)) % 2147483647
  | k + 1 => (16807 * minstd seed k) % 2147483647

def refLibm : Libm :=
  { sinf := sinApprox,
    cosf := fun x => sinApprox (x + PI / 2),
    sqrtf := sqrtApprox,
    engine := minstd }

/-! ## Concrete sessions used by the closed theorems -/

/-- The session after the frames `inps`, played from `g`. -/
def run (L : Libm) (inps : List Input) (g : Game) : Game :=
  inps.foldl (fun g i => update L i g) g

/-- The frames of a short lost game: start, one shot that kills an escort (40
points), then three deaths by diving enemies with the two respawns in
between, the death pause and the game-over pause. -/
def lostGameFrames : List Input :=
  [{ pressedEnter := true }, { dt := 371 / 520, downSpace := true },
   { dt := 59 / 25 }, { dt := 2 },
   { dt := 3 / 2 }, { dt := 119 / 50 }, { dt := 2 },
   { dt := 3 / 2 }, { dt := 117 / 50, downLeft := true }, { dt := 2 },
   { dt := 3 }]

/-- The session after the lost game, with a generator whose raw values are
all 1597. -/
def lostGame : Game :=
  run refLibm lostGameFrames (Game.start (List.replicate 600 1597))

/-- A boss round in play: round 3 as `buildFormation` sets it up (boss at
(240, 130), 12 hit points). -/
def bossRound : Game := buildFormation { state := GameState.PLAYING, round := 3 }

/-- The boss round with the boss down to its last hit point, one player bullet
on the boss, and a generator whose raw values are all 50. -/
def lastHit : Game :=
  { bossRound with
    boss := { bossRound.boss with hp := 1 },
    pBullets := [{ x := 240, y := 150, vy := -BULLET_SPEED, active := true }],
    rng := List.replicate 40 50 }

/-- The state `lastHit` with an exhausted generator: every roll returns its
lower bound. -/
def lastHitLucky : Game := { lastHit with rng := [] }

/-- An escort of slot (3, 9) half way down its dive at the player standing at
x = 240 (the control points are those `launchDive` computes from (438, 255)
without aim error). -/
def lastDiver : Enemy :=
  { type := EnemyType.ESCORT, row := 3, col := 9, formX := 438, formY := 255,
    x := 1071 / 4, y := 360, state := EnemyState.DIVING, alive := true,
    t := 1 / 2, diveSpeed := 252,
    p0 := { x := 438, y := 255 }, p1 := { x := 318, y := 175 },
    p2 := { x := 170, y := 440 }, p3 := { x := 240, y := 780 },
    diveTargetX := 240, shootTimer := 0, shootInterval := 0.5, bulletsLeft := 0 }

/-- The roster of round 1 with every enemy dead except the diving escort
`lastDiver`. -/
def lastEnemyRoster : List Enemy :=
  (buildFormation {}).enemies.map
    (fun e => if e.row = 3 ∧ e.col = 9 then lastDiver else { e with alive := false })

/-- Round 1 in play with one enemy left, and a player bullet about to hit
it. -/
def lastEnemyShot : Game :=
  { state := GameState.PLAYING, enemies := lastEnemyRoster, diveTimer := 3,
    pBullets := [{ x := 1071 / 4, y := 365, vy := -BULLET_SPEED, active := true }] }

/-- The state `lastEnemyShot` with, in addition, an enemy bullet about to hit
the player. -/
def lastEnemyShotUnderFire : Game :=
  { lastEnemyShot with
    eBullets := [{ x := 240, y := 636, vy := EBULLET_SPEED, active := true, enemy := true }] }

/-- Round 3 in play with everything on top of the player at once: two enemy
bullets, two diving enemies and the boss. -/
def crowded : Game :=
  { bossRound with
    boss := { bossRound.boss with x := 240, y := 640 },
    enemies := [{ lastDiver with x := 240, y := 640 }, { lastDiver with x := 244, y := 636 }],
    eBullets := [{ x := 240, y := 640, vy := EBULLET_SPEED, active := true, enemy := true },
                 { x := 238, y := 630, vy := EBULLET_SPEED, active := true, enemy := true }] }

/-! ## Re-entry at frame level -/

/-- The formation parameters `formationX` and `formationY` read. -/
def formCore (g : Game) : ℚ × ℚ × ℚ := (g.formOffX, g.formOffY, g.formSineT)

/-- The session at the point where `updatePlaying` starts the loop "Update
diving / returning enemies". -/
def beforeDivers (L : Libm) (inp : Input) (g : Game) : Game :=
  diveTimerStep L inp.dt (syncFormation L (updateFormationMotion L inp.dt
    (movePlayerBullets inp.dt (playerShoot inp (movePlayer inp (tickTimers inp.dt g))))))

/-- The enemy `e'` is where `e` was, in the same slot, and still in formation
if `e` was. -/
def KeepsPlace (e e' : Enemy) : Prop :=
  e'.x = e.x ∧ e'.y = e.y ∧ e'.row = e.row ∧ e'.col = e.col ∧
    (e.state = EnemyState.IN_FORMATION → e'.state = EnemyState.IN_FORMATION)

/-- The enemy `e`, if it is alive and returning and this frame completes its
return, has become `e'`: in formation, on the slot position computed from the
formation parameters `c`. -/
def ReenteredOn (L : Libm) (dt : ℚ) (g : Game) (e e' : Enemy) : Prop :=
  e.alive = true → e.state = EnemyState.RETURNING →
    e.retT + (e.diveSpeed * 0.8 / 700) * dt ≥ 1 →
    e'.state = EnemyState.IN_FORMATION ∧ e'.x = formationX g e.col ∧
      e'.y = formationY L g e.row e.col

/-- What the phases after the dive/return loop do to the formation parameters
and to the roster: the parameters stay, every enemy stays in place. -/
def Settled (g g' : Game) : Prop :=
  formCore g' = formCore g ∧ List.Forall₂ KeepsPlace g.enemies g'.enemies

/-- Round 1 in play with one enemy, an escort of slot (3, 9) about to complete
its return to the formation. -/
def returningHome : Game :=
  { state := GameState.PLAYING, diveTimer := 3, formOffX := 5, formSineT := 1, formVX := -30,
    enemies := [{ lastDiver with
      state := EnemyState.RETURNING, t := 1, retT := 999 / 1000, x := 430, y := 250,
      retP0 := { x := 240, y := 760 }, retP1 := { x := 400, y := 360 },
      retP2 := { x := 443, y := 0 }, retP3 := { x := 443, y := 255 } }] }

/-! ## The slow fields of a session

The dive cadence, the state countdown, and the player's cooldown,
invincibility and alive flag.  Most phases of a frame leave all of them
alone. -/

structure Aux where
  diveInterval : ℚ
  stateTimer : ℚ
  shotCooldown : ℚ
  invincible : Bool
  invTimer : ℚ
  alive : Bool
deriving DecidableEq, Repr

def aux (g : Game) : Aux :=
  { diveInterval := g.diveInterval, stateTimer := g.stateTimer,
    shotCooldown := g.player.shotCooldown, invincible := g.player.invincible,
    invTimer := g.player.invTimer, alive := g.player.alive }

/-- What the power-up loop can do to the slow fields: it can only lower the
shot cooldown, and not below 0.08 if it was at least that. -/
structure CoolStep (a a' : Aux) : Prop where
  diveInterval : a'.diveInterval = a.diveInterval
  stateTimer : a'.stateTimer = a.stateTimer
  invincible : a'.invincible = a.invincible
  invTimer : a'.invTimer = a.invTimer
  alive : a'.alive = a.alive
  coolLo : 0.08 ≤ a.shotCooldown → 0.08 ≤ a'.shotCooldown
  coolLe : 0.08 ≤ a.shotCooldown → a'.shotCooldown ≤ a.shotCooldown

/-! ## More concrete sessions -/

/-- The state `crowded` with the player half way through the invincibility
window. -/
def crowdedInvincible : Game :=
  { crowded with player := { crowded.player with invincible := true, invTimer := 1 } }

/-- The lost game `lostGame` at the point where the player is down to the last
life and back in play (before its last three frames). -/
def lastLife : Game :=
  run refLibm (lostGameFrames.take 8) (Game.start (List.replicate 600 1597))

/-- The session `lastLife` one frame later: the last life is lost. -/
def lastLifeLost : Game := update refLibm { dt := 117 / 50, downLeft := true } lastLife

/-- A new game: the start state one frame after ENTER was pressed, with a
generator whose raw values are all 1597. -/
def newGame : Game :=
  run refLibm [{ pressedEnter := true }] (Game.start (List.replicate 600 1597))

/-- The invariant of the pace of a session in the reachable states: the shot
cooldown stays between its floor and its default, the dive cadence at or
above its floor, and from round 2 on the dive cadence is the one
`updateClear` computes for the round. -/
structure PaceInv (g : Game) : Prop where
  coolLo : 0.08 ≤ g.player.shotCooldown
  coolHi : g.player.shotCooldown ≤ 0.22
  diveLo : 1.5 ≤ g.diveInterval
  diveRound : 2 ≤ g.round → g.diveInterval = max 1.5 (3 - ((g.round - 1 : Int) : ℚ) * 0.2)

/-- The session `stageCleared`: round 1 right after the last enemy was shot,
in STAGE_CLEAR with the countdown at 2. -/
def stageCleared : Game := updatePlaying refLibm { dt := 1 / 60 } lastEnemyShot

/-- A session at the end of round 8, in STAGE_CLEAR with one second to go. -/
def roundEightCleared : Game :=
  { state := GameState.STAGE_CLEAR, round := 8, stateTimer := 1, formVX := 65,
    diveInterval := 1.6 }

/-- The lost game `lostGame` right after the first death (after its first
three frames). -/
def firstDeath : Game :=
  run refLibm (lostGameFrames.take 3) (Game.start (List.replicate 600 1597))

/-- Round 1 in play with two diving escorts on top of each other and one
player bullet that overlaps both. -/
def twoDivers : Game :=
  { state := GameState.PLAYING, diveTimer := 3,
    enemies := [lastDiver, { lastDiver with col := 8, formX := 394 }],
    pBullets := [{ x := 1071 / 4, y := 365, vy := -BULLET_SPEED, active := true }] }

/-- A player bullet on the first enemy of the round-1 roster, the ZAKO_GREEN of
slot (0, 4) at (218, 105). -/
def greenBullet : Bullet := { x := 218, y := 105, vy := -BULLET_SPEED, active := true }

/-- Round 1 in play as `buildFormation` sets it up, with the bullet
`greenBullet` in flight. -/
def greenShot : Game :=
  { buildFormation { state := GameState.PLAYING } with pBullets := [greenBullet] }

/-! ## Dead enemies -/

/-- The enemy `e`, if it is dead, is the same record `e'` afterwards. -/
def DeadKept (e e' : Enemy) : Prop := e.alive = false → e' = e

/-- The enemy at position `i` of the roster `es`, if there is one, is alive. -/
def AliveAt (es : List Enemy) (i : Nat) : Prop := ∀ e, es.get? i = some e → e.alive = true

/-- The frame rebuilds the formation: a new game is started from ATTRACT, or
the STAGE_CLEAR countdown expires. -/
def Rebuilds (inp : Input) (g : Game) : Prop :=
  (g.state = GameState.ATTRACT ∧ (inp.pressedEnter || inp.pressedSpace) = true) ∨
  (g.state = GameState.STAGE_CLEAR ∧ g.stateTimer - inp.dt ≤ 0)

instance decidableRebuilds (inp : Input) (g : Game) : Decidable (Rebuilds inp g) :=
  inferInstanceAs (Decidable
    ((g.state = GameState.ATTRACT ∧ (inp.pressedEnter || inp.pressedSpace) = true) ∨
     (g.state = GameState.STAGE_CLEAR ∧ g.stateTimer - inp.dt ≤ 0)))

/-- The state `crowdedInvincible` with litter: an inactive enemy bullet, an
inactive player bullet and an inactive power-up. -/
def littered : Game :=
  { crowdedInvincible with
    eBullets := crowdedInvincible.eBullets ++ [{ x := 100, y := 100, enemy := true }],
    pBullets := [{ x := 50, y := 50 }],
    powerUps := [{ x := 60, y := 60, active := false }] }

/-! ## Shots and drops -/

/-- The bullet `firePlayerShot(offsetX)` creates for the player `p`. -/
def shotBullet (p : Player) (offsetX : ℚ) : Bullet :=
  { active := true, enemy := false, x := p.x + offsetX, y := p.y - 14, vx := 0,
    vy := -BULLET_SPEED }

/-- The power-ups `spawnPowerUp(x, y)` adds to an empty collection when the
generator's next two raw values are `r1` and `r2`: `spawnPowerUp` as a
function of its two rolls. -/
def dropOf (x y : ℚ) (r1 r2 : Nat) : List PowerUp :=
  (spawnPowerUp x y { rng := [r1, r2] }).powerUps

/-! ## The player's position and the boss's health -/

structure Stat where
  px : ℚ
  pvx : ℚ
  bossActive : Bool
  bossHp : Int
  bossMaxHp : Int
deriving DecidableEq, Repr

def stat (g : Game) : Stat :=
  { px := g.player.x, pvx := g.player.vx, bossActive := g.boss.active, bossHp := g.boss.hp,
    bossMaxHp := g.boss.maxHp }

/-- The boss's health is between 0 and its maximum, and at least 1 while the
boss is active. -/
structure BossInv (s : Stat) : Prop where
  hpLo : 0 ≤ s.bossHp
  hpHi : s.bossHp ≤ s.bossMaxHp
  live : s.bossActive = true → 1 ≤ s.bossHp

/-- What the collision loop can do to the player's position and the boss's
health: it leaves the position and the maximum alone, does not raise the
health, does not activate the boss and keeps the boss's health
well-behaved. -/
structure BossStep (s s' : Stat) : Prop where
  px : s'.px = s.px
  pvx : s'.pvx = s.pvx
  maxHp : s'.bossMaxHp = s.bossMaxHp
  hp : s'.bossHp ≤ s.bossHp
  active : s'.bossActive = true → s.bossActive = true
  inv : BossInv s → BossInv s'

/-- The velocity the acceleration and deceleration ramps of the movement step
of `updatePlaying` give the player, before the wall checks. -/
def rampVelocity (inp : Input) (g : Game) : ℚ :=
  let dt := inp.dt
  let moveInput : ℚ := 0
  let moveInput := if inp.downLeft || inp.downA then moveInput - 1 else moveInput
  let moveInput := if inp.downRight || inp.downD then moveInput + 1 else moveInput
  if moveInput ≠ 0 then
    clamp (g.player.vx + moveInput * PLAYER_ACCEL * dt) (-PLAYER_MAX_SPEED) PLAYER_MAX_SPEED
  else
    let decel := PLAYER_DECEL * dt
    if |g.player.vx| ≤ decel then 0 else g.player.vx - copysign decel g.player.vx

/-- The player at `x = 20` moving left at full speed. -/
def nearLeftWall : Game := { state := GameState.PLAYING, player := { x := 20, vx := -320 } }

/-- One frame of 1/60 s with the left key held. -/
def holdLeft : Input := { dt := 1 / 60, downLeft := true }

/-- The invariant of the boss in the reachable states: the health lies in
`0 .. maxHp` and an active boss has at least one hit point, no boss is active
during STAGE_CLEAR, and the round number is at least 1. -/
structure BossField (g : Game) : Prop where
  inv : BossInv (stat g)
  clear : g.state = GameState.STAGE_CLEAR → g.boss.active = false
  round : 1 ≤ g.round

/-- The state `lastHit` with three player bullets on the boss instead of
one. -/
def tripleHit : Game :=
  { lastHit with
    pBullets := [{ x := 240, y := 150, vy := -BULLET_SPEED, active := true },
                 { x := 236, y := 140, vy := -BULLET_SPEED, active := true },
                 { x := 244, y := 140, vy := -BULLET_SPEED, active := true }] }

/-! ## Dive-group selection -/

/-- The group `startDive` selects from a non-empty list of candidates (the
part of `startDive` between the emptiness check and the launch loop), with the
session after the random draws. -/
def diveGroup (L : Libm) (g : Game) : List Nat × Game :=
  let candidates := diveCandidates g.enemies
  let flagship := candidates.find? (fun i => decide ((enemyAt g i).type = EnemyType.FLAGSHIP))
  match flagship with
  | some f =>
    let (r, g) := GetRandomValue 0 1 g
    if r = 0 then (addEscorts g f candidates [f], g)
    else randomGroup L candidates g
  | none => randomGroup L candidates g

/-- The condition `flagship && GetRandomValue(0,1) == 0` of `startDive`. -/
def flagshipBranch (g : Game) : Bool :=
  match (diveCandidates g.enemies).find?
      (fun i => decide ((enemyAt g i).type = EnemyType.FLAGSHIP)) with
  | some _ => decide ((GetRandomValue 0 1 g).1 = 0)
  | none => false

/-- The positions at which the roster `es'` differs from the roster `es`. -/
def changedAt (es es' : List Enemy) : List Nat :=
  (List.range es.length).filter (fun j => decide (es.get? j ≠ es'.get? j))

/-- The enemy `e'` is the enemy `e` sent on a dive: same slot, type and life,
now DIVING. -/
def Launched (e e' : Enemy) : Prop :=
  e'.state = EnemyState.DIVING ∧ e'.alive = e.alive ∧ e'.row = e.row ∧ e'.col = e.col ∧
    e'.type = e.type

/-- A formation slot of the given type and column, alive and in formation. -/
def slotOf (t : EnemyType) (c : Int) : Enemy := { type := t, col := c, x := 40 * c, y := 100 }

/-- A roster with a flagship in column 4, escorts in columns 3, 5 and 6, a dead
escort in column 4 and a Zako in column 9; the generator returns raw values
0. -/
def flagshipWing : Game :=
  { state := GameState.PLAYING,
    enemies := [slotOf EnemyType.ZAKO_BLUE 9, slotOf EnemyType.ESCORT 3,
                { slotOf EnemyType.ESCORT 4 with alive := false },
                slotOf EnemyType.FLAGSHIP 4, slotOf EnemyType.ESCORT 5,
                slotOf EnemyType.ESCORT 6],
    rng := List.replicate 10 0 }

/-! ## The course of a dive -/

/-- The largest aim error `launchDive` draws for an enemy of the given type
(the bounds of the `GetRandomValue` calls of its `switch`). -/
def aimSpread : EnemyType → Int
  | EnemyType.FLAGSHIP => 36
  | EnemyType.ESCORT => 52
  | _ => 70

/-- The part of an enemy that describes its dive: the state, the curve
parameter and the position, the four control points, the target, the speed and
the shooting fields. -/
structure DivePath where
  state : EnemyState
  t : ℚ
  x : ℚ
  y : ℚ
  p0 : Vector2
  p1 : Vector2
  p2 : Vector2
  p3 : Vector2
  diveTargetX : ℚ
  diveSpeed : ℚ
  shootTimer : ℚ
  shootInterval : ℚ
  bulletsLeft : Int
deriving DecidableEq, Repr

def divePath (e : Enemy) : DivePath :=
  { state := e.state, t := e.t, x := e.x, y := e.y, p0 := e.p0, p1 := e.p1, p2 := e.p2,
    p3 := e.p3, diveTargetX := e.diveTargetX, diveSpeed := e.diveSpeed,
    shootTimer := e.shootTimer, shootInterval := e.shootInterval,
    bulletsLeft := e.bulletsLeft }

/-- The enemy `e` over successive frames: in the frame `(g, dt)` the loop
"Update diving / returning enemies" calls `updateDiving(e, dt)` on the session
`g` when `e` is DIVING. -/
def diveRun (L : Libm) : List (Game × ℚ) → Enemy → Enemy
  | [], e => e
  | (g, dt) :: fs, e =>
    diveRun L fs (if e.state = EnemyState.DIVING then (updateDiving L g e dt).1 else e)

/-- A session in play with the player at `x` and a generator whose raw values
are all 10. -/
def playerAt (x : ℚ) : Game :=
  { state := GameState.PLAYING, player := { x := x }, rng := List.replicate 10 10 }

/-- The number of enemy bullets the calls `updateDiving(e, dt)` of the run
`diveRun` append to `eBullets`. -/
def diveShots (L : Libm) : List (Game × ℚ) → Enemy → Nat
  | [], _ => 0
  | (g, dt) :: fs, e =>
    if e.state = EnemyState.DIVING then
      ((updateDiving L g e dt).2.eBullets.length - g.eBullets.length) +
        diveShots L fs (updateDiving L g e dt).1
    else 0

/-! ## Dive shots -/

/-- A diving escort with one bullet left and its shot timer run out, to the
right of the player. -/
def readyDiver : Enemy := { lastDiver with bulletsLeft := 1, shootTimer := 0 }

/-! ## The lateral step of the formation

The locals of `updateFormationMotion`, as functions of the session. -/

/-- The local `maxX` of `updateFormationMotion`: the lateral margin. -/
def formMaxX : ℚ := ((SW : ℚ) - (COLS : ℚ) * CELL_W) / 2 - 10

/-- The local `sf`: `speedFactor()` in PLAYING, 1 in every other state. -/
def formSpeedFactor (g : Game) : ℚ := if g.state = GameState.PLAYING then speedFactor g else 1

/-- The local `dir`. -/
def formDir (g : Game) : ℚ := if g.formVX ≥ 0 then 1 else -1

/-- The local `distToEdge`: the distance to the edge being approached. -/
def formDistToEdge (g : Game) : ℚ :=
  if formDir g > 0 then formMaxX - g.formOffX else g.formOffX + formMaxX

/-- The local `edgeFactor`. -/
def formEdgeFactor (g : Game) : ℚ :=
  if formDistToEdge g < 26 then clamp (formDistToEdge g / 26) 0.35 1 else 1

/-- The lateral step `dir * speed * edgeFactor * dt` added to `formOffX`. -/
def formStep (dt : ℚ) (g : Game) : ℚ :=
  formDir g * (|g.formVX| * formSpeedFactor g) * formEdgeFactor g * dt

/-- The formation 58/10 short of the right edge, moving right at 30. -/
def nearRightEdge : Game := { state := GameState.PLAYING, formOffX := 9, formVX := 30 }

/-! ## The boss volley -/

/-- The offset `(dx, dy)` from the emitter `rel` of the boss to the player that
`fireBossVolley` aims by: `dy` is at least 24. -/
def bossAim (g : Game) (rel : ℚ) : ℚ × ℚ :=
  let bx := g.boss.x + rel * g.boss.size
  let by_ := g.boss.y + g.boss.size * 0.2
  (g.player.x - bx, max 24 (g.player.y - by_))

/-- The bullet the loop body of `fireBossVolley` builds for the emitter
`rel`. -/
def bossBullet (L : Libm) (g : Game) (rel : ℚ) : Bullet :=
  let bx := g.boss.x + rel * g.boss.size
  let by_ := g.boss.y + g.boss.size * 0.2
  let dx := g.player.x - bx
  let dy := max 24 (g.player.y - by_)
  let dist := L.sqrtf (dx * dx + dy * dy)
  let spd := EBULLET_SPEED * 1.05
  { active := true, enemy := true, x := bx, y := by_,
    vx := (dx / dist) * spd * 0.75, vy := (dy / dist) * spd }

/-! ## The types of the roster -/

/-- The types of the enemies of a roster, in order. -/
def kinds (es : List Enemy) : List EnemyType := es.map (fun e => e.type)

/-- The session at the point where `updatePlaying` runs the dive timer (after
the formation has been moved and synchronised). -/
def beforeDiveTimer (L : Libm) (inp : Input) (g : Game) : Game :=
  syncFormation L (updateFormationMotion L inp.dt
    (movePlayerBullets inp.dt (playerShoot inp (movePlayer inp (tickTimers inp.dt g)))))

/-- The roster holds at most 26 enemies, of the types `buildFormation`
creates, and the round number is at least 1. -/
structure RosterOk (g : Game) : Prop where
  types : ∀ t ∈ kinds g.enemies,
    t = EnemyType.ZAKO_GREEN ∨ t = EnemyType.ZAKO_BLUE ∨ t = EnemyType.ESCORT
  size : g.enemies.length ≤ 26
  round : 1 ≤ g.round

/-- The types of the roster `buildFormation` creates in a regular round: rows
0 and 1 (2 and 6 enemies) ZAKO_GREEN, row 2 (8) ZAKO_BLUE, row 3 (10)
ESCORT. -/
def regularKinds : List EnemyType :=
  List.replicate 8 EnemyType.ZAKO_GREEN ++ List.replicate 8 EnemyType.ZAKO_BLUE ++
    List.replicate 10 EnemyType.ESCORT

/-- The session on which `updatePlaying`, in the frame `inp` from `g`, calls
`startDive` when the dive timer has run out: the one at the dive timer, with
the timer lowered by `dt`. -/
def diveCall (L : Libm) (inp : Input) (g : Game) : Game :=
  { beforeDiveTimer L inp (preFrame inp.dt g) with
    diveTimer := (beforeDiveTimer L inp (preFrame inp.dt g)).diveTimer - inp.dt }

/-! # The sprite tool: a shallow embedding of `src/tools/sprite_tool.cpp`

The palette quantisation of the importer.  `int` values are `Int`; under the
ranges the argument parser enforces no operation leaves the 32-bit range (see
`palette_quantisation`).  Array indices are `Nat`. -/

/-- The raylib `Color`: four `unsigned char` channels, each in 0..255 (see
`Color.valid`). -/
structure Color where
  r : Nat := 0
  g : Nat := 0
  b : Nat := 0
  a : Nat := 255
deriving DecidableEq, Repr

/-- The channels are `unsigned char` values. -/
def Color.valid (c : Color) : Prop := c.r ≤ 255 ∧ c.g ≤ 255 ∧ c.b ≤ 255 ∧ c.a ≤ 255

instance decidableColorValid (c : Color) : Decidable c.valid :=
  inferInstanceAs (Decidable (c.r ≤ 255 ∧ c.g ≤ 255 ∧ c.b ≤ 255 ∧ c.a ≤ 255))

/-- The fields of `Options` that the palette quantisation reads, with their
default values. -/
structure Options where
  alphaThreshold : Int := 32
  useColorKey : Bool := false
  colorKey : Color := { r := 0, g := 0, b := 0, a := 255 }
  colorKeyTolerance : Int := 24
deriving DecidableEq, Repr

/-- The ranges `parseArgs` and `parseRgb` enforce on the options (the defaults
satisfy them): `--alpha-threshold` and `--colorkey-tolerance` in 0..255, the
colour key channels in 0..255. -/
def Options.valid (o : Options) : Prop :=
  0 ≤ o.alphaThreshold ∧ o.alphaThreshold ≤ 255 ∧
  0 ≤ o.colorKeyTolerance ∧ o.colorKeyTolerance ≤ 255 ∧ o.colorKey.valid

instance decidableOptionsValid (o : Options) : Decidable o.valid :=
  inferInstanceAs (Decidable (0 ≤ o.alphaThreshold ∧ o.alphaThreshold ≤ 255 ∧
    0 ≤ o.colorKeyTolerance ∧ o.colorKeyTolerance ≤ 255 ∧ o.colorKey.valid))

/-- The fixed palette `kPalette`: 32 colours, index 0 transparent. -/
def kPalette : List Color :=
  [{ r := 0, g := 0, b := 0, a := 0 },
   { r := 255, g := 255, b := 255, a := 255 },
   { r := 160, g := 220, b := 255, a := 255 },
   { r := 80, g := 160, b := 255, a := 255 },
   { r := 40, g := 80, b := 200, a := 255 },
   { r := 255, g := 230, b := 60, a := 255 },
   { r := 230, g := 30, b := 20, a := 255 },
   { r := 160, g := 10, b := 5, a := 255 },
   { r := 255, g := 90, b := 40, a := 255 },
   { r := 255, g := 200, b := 180, a := 255 },
   { r := 50, g := 200, b := 50, a := 255 },
   { r := 140, g := 255, b := 140, a := 255 },
   { r := 15, g := 110, b := 15, a := 255 },
   { r := 255, g := 240, b := 80, a := 255 },
   { r := 100, g := 80, b := 255, a := 255 },
   { r := 200, g := 180, b := 255, a := 255 },
   { r := 0, g := 180, b := 180, a := 255 },
   { r := 0, g := 220, b := 220, a := 255 },
   { r := 0, g := 100, b := 120, a := 255 },
   { r := 0, g := 255, b := 200, a := 255 },
   { r := 180, g := 60, b := 200, a := 255 },
   { r := 255, g := 120, b := 200, a := 255 },
   { r := 120, g := 40, b := 0, a := 255 },
   { r := 200, g := 140, b := 60, a := 255 },
   { r := 80, g := 80, b := 80, a := 255 },
   { r := 160, g := 160, b := 160, a := 255 },
   { r := 220, g := 220, b := 220, a := 255 },
   { r := 0, g := 40, b := 100, a := 255 },
   { r := 255, g := 160, b := 0, a := 255 },
   { r := 0, g := 200, b := 100, a := 255 },
   { r := 255, g := 60, b := 120, a := 255 },
   { r := 140, g := 255, b := 255, a := 255 }]

/-- The constant `std::numeric_limits<int>::max()`. -/
def INT_MAX : Int := 2147483647

/-- The squared RGB distance `dr * dr + dg * dg + db * db` of two colours, as
both functions compute it on `int` differences of the channels. -/
def sqDist (p q : Color) : Int :=
  let dr : Int := (p.r : Int) - (q.r : Int)
  let dg : Int := (p.g : Int) - (q.g : Int)
  let db : Int := (p.b : Int) - (q.b : Int)
  dr * dr + dg * dg + db * db

/-- The loop of `nearestPaletteIndex` over the palette indices `is`, on the
state `(bestIdx, bestDist)`. -/
def paletteLoop (px : Color) : List Nat → Nat × Int → Nat × Int
  | [], s => s
  | i :: is, (bestIdx, bestDist) =>
    let dist := sqDist px (kPalette.getD i {})
    if dist < bestDist then paletteLoop px is (i, dist)
    else paletteLoop px is (bestIdx, bestDist)

def nearestPaletteIndex (px : Color) (opt : Options) : Nat :=
  if (px.a : Int) < opt.alphaThreshold then 0
  else if opt.useColorKey = true ∧
      sqDist px opt.colorKey ≤ opt.colorKeyTolerance * opt.colorKeyTolerance then 0
  else (paletteLoop px (List.range' 1 (kPalette.length - 1)) (1, INT_MAX)).1

def isVisiblePixel (px : Color) (opt : Options) : Bool :=
  if (px.a : Int) < opt.alphaThreshold then false
  else if opt.useColorKey = true ∧
      sqDist px opt.colorKey ≤ opt.colorKeyTolerance * opt.colorKeyTolerance then false
  else true

/-! # Theorems -/

/-! ## Round set-up (`buildFormation`) -/

theorem regular_roster :
    ((List.range ROWS.toNat).flatMap buildRow).length = 26 ∧
    (∀ e ∈ (List.range ROWS.toNat).flatMap buildRow,
      e.alive = true ∧ e.state = EnemyState.IN_FORMATION) ∧
    ((List.range ROWS.toNat).flatMap buildRow).map (fun e => e.row) =
      List.replicate 2 0 ++ List.replicate 6 1 ++ List.replicate 8 2 ++ List.replicate 10 3 := by
  refine ⟨by decide, by decide, by decide⟩

theorem tmod_three_of_pos (n : Int) (h : 1 ≤ n) : Int.tmod n 3 = n % 3 := by
  have h0 : 0 ≤ n := by omega
  rw [Int.tmod_eq_emod h0 (by decide)]

theorem tdiv_three_of_pos (n : Int) (h : 1 ≤ n) : Int.tdiv n 3 = n / 3 := by
  have h0 : 0 ≤ n := by omega
  rw [Int.tdiv_eq_ediv h0 (by decide)]

/-- C1. For every round number `>= 1`, `buildFormation` leaves the session in
exactly one of boss mode and regular-formation mode, and it is boss mode
exactly when the round number is divisible by 3. -/
theorem buildFormation_boss_xor_regular (g : Game) (h : 1 ≤ g.round) :
    (BossMode g.round (buildFormation g) ∨ RegularMode (buildFormation g)) ∧
    ¬ (BossMode g.round (buildFormation g) ∧ RegularMode (buildFormation g)) ∧
    (BossMode g.round (buildFormation g) ↔ g.round % 3 = 0) := by
  have hm := tmod_three_of_pos g.round h
  have hd := tdiv_three_of_pos g.round h
  by_cases h3 : g.round % 3 = 0
  · have hb : BossMode g.round (buildFormation g) := by
      simp only [BossMode, buildFormation, hm, h3, hd, if_true]
      refine ⟨trivial, ?_, ?_, trivial⟩ <;> ring
    refine ⟨Or.inl hb, ?_, ⟨fun _ => h3, fun _ => hb⟩⟩
    rintro ⟨-, hr⟩
    have := hb.1
    rw [hr.1] at this
    exact Bool.noConfusion this
  · have hr : RegularMode (buildFormation g) := by
      simp only [RegularMode, buildFormation, hm, h3, if_false]
      exact ⟨trivial, regular_roster⟩
    have hnb : ¬ BossMode g.round (buildFormation g) := by
      intro hb
      have := hb.1
      rw [hr.1] at this
      exact Bool.noConfusion this
    exact ⟨Or.inr hr, fun hh => hnb hh.1, ⟨fun hb => absurd hb hnb, fun hh => absurd hh h3⟩⟩

theorem buildFormation_boss_xor_regular_witness :
    (1 : Int) ≤ ({ round := 3 } : Game).round ∧
    (BossMode 3 (buildFormation { round := 3 }) ↔ (3 : Int) % 3 = 0) :=
  ⟨by decide, (buildFormation_boss_xor_regular { round := 3 } (by decide)).2.2⟩

theorem core_GetRandomValue (lo hi : Int) (g : Game) :
    core (GetRandomValue lo hi g).2 = core g := by
  unfold GetRandomValue
  split <;> rfl

theorem core_updateStars (dt : ℚ) (ss : List Star) (g : Game) :
    core (updateStars dt ss g).2 = core g := by
  induction ss generalizing g with
  | nil => rfl
  | cons s ss ih =>
    simp only [updateStars]
    split
    · rw [ih]; exact core_GetRandomValue _ _ _
    · rw [ih]

theorem core_starsUpdate (dt : ℚ) (g : Game) : core (starsUpdate dt g) = core g := by
  have := core_updateStars dt g.stars g
  simpa [starsUpdate, core] using this

theorem core_initStar (i : Nat) (g : Game) : core (initStar i g).2 = core g := by
  unfold initStar
  simp only
  split_ifs <;> exact (core_GetRandomValue 0 SH _).trans (core_GetRandomValue 0 SW g)

theorem core_initStars (is : List Nat) (g : Game) : core (initStars is g).2 = core g := by
  induction is generalizing g with
  | nil => rfl
  | cons i is ih =>
    simp only [initStars]
    rw [ih]
    exact core_initStar i g

theorem core_starsInit (g : Game) : core (starsInit g) = core g := by
  unfold starsInit
  generalize List.range 80 = is
  exact core_initStars is g

theorem core_spawnParticles (L : Libm) (cx cy : ℚ) (is : List Nat) (g : Game) :
    core (spawnParticles L cx cy is g) = core g := by
  induction is generalizing g with
  | nil => rfl
  | cons i is ih =>
    simp only [spawnParticles]
    rw [ih]
    exact (core_GetRandomValue 3 5 _).trans (core_GetRandomValue 60 160 g)

theorem core_spawnExplosion (L : Libm) (cx cy : ℚ) (g : Game) :
    core (spawnExplosion L cx cy g) = core g :=
  core_spawnParticles L cx cy _ g

theorem core_updateParticles (dt : ℚ) (g : Game) : core (updateParticles dt g) = core g := rfl

theorem core_spawnPowerUp (x y : ℚ) (g : Game) : core (spawnPowerUp x y g) = core g := by
  simp only [spawnPowerUp]
  split
  · exact core_GetRandomValue _ _ _
  · exact (core_GetRandomValue 0 99 _).trans (core_GetRandomValue 0 99 g)

theorem core_tickTimers (dt : ℚ) (g : Game) : core (tickTimers dt g) = core g := by
  simp only [tickTimers, core, apply_ite Game.state, apply_ite Game.score, apply_ite Game.highScore,
    apply_ite Game.round, apply_ite Game.player, apply_ite Player.lives,
    apply_ite Player.shotLevel, ite_self]

theorem core_movePlayer (inp : Input) (g : Game) : core (movePlayer inp g) = core g := by
  simp only [movePlayer, core, apply_ite Game.state, apply_ite Game.score, apply_ite Game.highScore,
    apply_ite Game.round, apply_ite Game.player, apply_ite Player.lives,
    apply_ite Player.shotLevel, ite_self]

theorem core_firePlayerShot (o : ℚ) (g : Game) : core (firePlayerShot o g) = core g := rfl

theorem core_playerShoot (inp : Input) (g : Game) : core (playerShoot inp g) = core g := by
  simp only [playerShoot, firePlayerShot, core, apply_ite Game.state, apply_ite Game.score, apply_ite Game.highScore,
    apply_ite Game.round, apply_ite Game.player, apply_ite Player.lives,
    apply_ite Player.shotLevel, ite_self]

theorem core_updateFormationMotion (L : Libm) (dt : ℚ) (g : Game) :
    core (updateFormationMotion L dt g) = core g := by
  simp only [updateFormationMotion, core, apply_ite Game.state, apply_ite Game.score, apply_ite Game.highScore,
    apply_ite Game.round, apply_ite Game.player, apply_ite Player.lives,
    apply_ite Player.shotLevel, ite_self]

theorem core_launchDive (g : Game) (e : Enemy) : core (launchDive g e).2 = core g := by
  unfold launchDive
  simp only
  split_ifs <;> (try split) <;> simp only [core_GetRandomValue]

theorem core_launchAt (i : Nat) (g : Game) : core (launchAt i g) = core g := by
  unfold launchAt
  split
  · rfl
  · exact core_launchDive g _

theorem core_foldl_launchAt (is : List Nat) (g : Game) :
    core (is.foldl (fun g i => launchAt i g) g) = core g := by
  induction is generalizing g with
  | nil => rfl
  | cons i is ih => simp only [List.foldl_cons, ih, core_launchAt]

theorem core_randomGroup (L : Libm) (c : List Nat) (g : Game) :
    core (randomGroup L c g).2 = core g := by
  simp only [randomGroup, core_GetRandomValue]

theorem core_startDive (L : Libm) (g : Game) : core (startDive L g) = core g := by
  unfold startDive
  by_cases hc : (diveCandidates g.enemies).isEmpty = true
  · simp only [hc, if_true]
  · simp only [hc, Bool.false_eq_true, if_false]
    rw [core_foldl_launchAt]
    cases List.find? (fun i => decide ((enemyAt g i).type = EnemyType.FLAGSHIP))
        (diveCandidates g.enemies) with
    | none => exact core_randomGroup L _ g
    | some f =>
      simp only
      split_ifs
      · exact core_GetRandomValue _ _ _
      · rw [core_randomGroup, core_GetRandomValue]

theorem core_diveTimerStep (L : Libm) (dt : ℚ) (g : Game) :
    core (diveTimerStep L dt g) = core g := by
  unfold diveTimerStep
  simp only
  split_ifs
  · show core (GetRandomValue 200 400 (startDive L _)).2 = _
    rw [core_GetRandomValue, core_startDive]
    rfl
  · rfl

theorem core_updateDiving (L : Libm) (g : Game) (e : Enemy) (dt : ℚ) :
    core (updateDiving L g e dt).2 = core g := by
  unfold updateDiving
  simp only
  split_ifs <;> rfl

theorem core_updateDivers (L : Libm) (dt : ℚ) (es : List Enemy) (g : Game) :
    core (updateDivers L dt es g).2 = core g := by
  induction es generalizing g with
  | nil => rfl
  | cons e es ih =>
    simp only [updateDivers]
    rw [ih]
    split_ifs <;> first | rfl | exact core_updateDiving L g e dt

theorem core_fireBossBullets (L : Libm) (rels : List ℚ) (g : Game) :
    core (fireBossBullets L rels g) = core g := by
  induction rels generalizing g with
  | nil => rfl
  | cons r rs ih => simp only [fireBossBullets]; rw [ih]; rfl

theorem core_updateBoss (L : Libm) (dt : ℚ) (g : Game) : core (updateBoss L dt g) = core g := by
  unfold updateBoss
  simp only [fireBossVolley]
  split_ifs <;> rfl

theorem core_compact (g : Game) : core (compact g) = core g := rfl

theorem core_buildFormation (g : Game) : core (buildFormation g) = core g := by
  simp only [buildFormation, core, apply_ite Game.state, apply_ite Game.score, apply_ite Game.highScore,
    apply_ite Game.round, apply_ite Game.player, apply_ite Player.lives,
    apply_ite Player.shotLevel, ite_self]

/-! ## Frame lemmas: what the random and cosmetic helpers leave alone -/

theorem GetRandomValue_frame (lo hi : Int) (g : Game) :
    (GetRandomValue lo hi g).2 = { g with rng := (GetRandomValue lo hi g).2.rng } := by
  unfold GetRandomValue
  split <;> rfl

theorem spawnParticles_frame (L : Libm) (cx cy : ℚ) (is : List Nat) (g : Game) :
    spawnParticles L cx cy is g =
      { g with gParticles := (spawnParticles L cx cy is g).gParticles,
               rng := (spawnParticles L cx cy is g).rng } := by
  induction is generalizing g with
  | nil => rfl
  | cons i is ih =>
    simp only [spawnParticles]
    rw [ih]
    rw [GetRandomValue_frame 3 5, GetRandomValue_frame 60 160]

theorem spawnExplosion_frame (L : Libm) (cx cy : ℚ) (g : Game) :
    spawnExplosion L cx cy g =
      { g with gParticles := (spawnExplosion L cx cy g).gParticles,
               rng := (spawnExplosion L cx cy g).rng } :=
  spawnParticles_frame L cx cy _ g

theorem spawnPowerUp_frame (x y : ℚ) (g : Game) :
    spawnPowerUp x y g =
      { g with powerUps := (spawnPowerUp x y g).powerUps,
               rng := (spawnPowerUp x y g).rng } := by
  simp only [spawnPowerUp]
  split
  · rw [GetRandomValue_frame 0 99]
  · rw [GetRandomValue_frame 0 99 (GetRandomValue 0 99 g).2, GetRandomValue_frame 0 99 g]

/-! Field by field. -/

@[simp] theorem GetRandomValue_state (lo hi : Int) (g : Game) :
    (GetRandomValue lo hi g).2.state = g.state := by
  rw [GetRandomValue_frame]

@[simp] theorem GetRandomValue_stars (lo hi : Int) (g : Game) :
    (GetRandomValue lo hi g).2.stars = g.stars := by
  rw [GetRandomValue_frame]

@[simp] theorem GetRandomValue_player (lo hi : Int) (g : Game) :
    (GetRandomValue lo hi g).2.player = g.player := by
  rw [GetRandomValue_frame]

@[simp] theorem GetRandomValue_enemies (lo hi : Int) (g : Game) :
    (GetRandomValue lo hi g).2.enemies = g.enemies := by
  rw [GetRandomValue_frame]

@[simp] theorem GetRandomValue_pBullets (lo hi : Int) (g : Game) :
    (GetRandomValue lo hi g).2.pBullets = g.pBullets := by
  rw [GetRandomValue_frame]

@[simp] theorem GetRandomValue_eBullets (lo hi : Int) (g : Game) :
    (GetRandomValue lo hi g).2.eBullets = g.eBullets := by
  rw [GetRandomValue_frame]

@[simp] theorem GetRandomValue_powerUps (lo hi : Int) (g : Game) :
    (GetRandomValue lo hi g).2.powerUps = g.powerUps := by
  rw [GetRandomValue_frame]

@[simp] theorem GetRandomValue_boss (lo hi : Int) (g : Game) :
    (GetRandomValue lo hi g).2.boss = g.boss := by
  rw [GetRandomValue_frame]

@[simp] theorem GetRandomValue_score (lo hi : Int) (g : Game) :
    (GetRandomValue lo hi g).2.score = g.score := by
  rw [GetRandomValue_frame]

@[simp] theorem GetRandomValue_highScore (lo hi : Int) (g : Game) :
    (GetRandomValue lo hi g).2.highScore = g.highScore := by
  rw [GetRandomValue_frame]

@[simp] theorem GetRandomValue_round (lo hi : Int) (g : Game) :
    (GetRandomValue lo hi g).2.round = g.round := by
  rw [GetRandomValue_frame]

@[simp] theorem GetRandomValue_formVX (lo hi : Int) (g : Game) :
    (GetRandomValue lo hi g).2.formVX = g.formVX := by
  rw [GetRandomValue_frame]

@[simp] theorem GetRandomValue_formOffX (lo hi : Int) (g : Game) :
    (GetRandomValue lo hi g).2.formOffX = g.formOffX := by
  rw [GetRandomValue_frame]

@[simp] theorem GetRandomValue_formOffY (lo hi : Int) (g : Game) :
    (GetRandomValue lo hi g).2.formOffY = g.formOffY := by
  rw [GetRandomValue_frame]

@[simp] theorem GetRandomValue_formSineT (lo hi : Int) (g : Game) :
    (GetRandomValue lo hi g).2.formSineT = g.formSineT := by
  rw [GetRandomValue_frame]

@[simp] theorem GetRandomValue_diveTimer (lo hi : Int) (g : Game) :
    (GetRandomValue lo hi g).2.diveTimer = g.diveTimer := by
  rw [GetRandomValue_frame]

@[simp] theorem GetRandomValue_diveInterval (lo hi : Int) (g : Game) :
    (GetRandomValue lo hi g).2.diveInterval = g.diveInterval := by
  rw [GetRandomValue_frame]

@[simp] theorem GetRandomValue_stateTimer (lo hi : Int) (g : Game) :
    (GetRandomValue lo hi g).2.stateTimer = g.stateTimer := by
  rw [GetRandomValue_frame]

@[simp] theorem GetRandomValue_blinkTimer (lo hi : Int) (g : Game) :
    (GetRandomValue lo hi g).2.blinkTimer = g.blinkTimer := by
  rw [GetRandomValue_frame]

@[simp] theorem GetRandomValue_blinkOn (lo hi : Int) (g : Game) :
    (GetRandomValue lo hi g).2.blinkOn = g.blinkOn := by
  rw [GetRandomValue_frame]

@[simp] theorem GetRandomValue_flashTimer (lo hi : Int) (g : Game) :
    (GetRandomValue lo hi g).2.flashTimer = g.flashTimer := by
  rw [GetRandomValue_frame]

@[simp] theorem GetRandomValue_flashActive (lo hi : Int) (g : Game) :
    (GetRandomValue lo hi g).2.flashActive = g.flashActive := by
  rw [GetRandomValue_frame]

@[simp] theorem GetRandomValue_gParticles (lo hi : Int) (g : Game) :
    (GetRandomValue lo hi g).2.gParticles = g.gParticles := by
  rw [GetRandomValue_frame]

@[simp] theorem spawnExplosion_state (L : Libm) (cx cy : ℚ) (g : Game) :
    (spawnExplosion L cx cy g).state = g.state := by
  rw [spawnExplosion_frame]

@[simp] theorem spawnExplosion_stars (L : Libm) (cx cy : ℚ) (g : Game) :
    (spawnExplosion L cx cy g).stars = g.stars := by
  rw [spawnExplosion_frame]

@[simp] theorem spawnExplosion_player (L : Libm) (cx cy : ℚ) (g : Game) :
    (spawnExplosion L cx cy g).player = g.player := by
  rw [spawnExplosion_frame]

@[simp] theorem spawnExplosion_enemies (L : Libm) (cx cy : ℚ) (g : Game) :
    (spawnExplosion L cx cy g).enemies = g.enemies := by
  rw [spawnExplosion_frame]

@[simp] theorem spawnExplosion_pBullets (L : Libm) (cx cy : ℚ) (g : Game) :
    (spawnExplosion L cx cy g).pBullets = g.pBullets := by
  rw [spawnExplosion_frame]

@[simp] theorem spawnExplosion_eBullets (L : Libm) (cx cy : ℚ) (g : Game) :
    (spawnExplosion L cx cy g).eBullets = g.eBullets := by
  rw [spawnExplosion_frame]

@[simp] theorem spawnExplosion_powerUps (L : Libm) (cx cy : ℚ) (g : Game) :
    (spawnExplosion L cx cy g).powerUps = g.powerUps := by
  rw [spawnExplosion_frame]

@[simp] theorem spawnExplosion_boss (L : Libm) (cx cy : ℚ) (g : Game) :
    (spawnExplosion L cx cy g).boss = g.boss := by
  rw [spawnExplosion_frame]

@[simp] theorem spawnExplosion_score (L : Libm) (cx cy : ℚ) (g : Game) :
    (spawnExplosion L cx cy g).score = g.score := by
  rw [spawnExplosion_frame]

@[simp] theorem spawnExplosion_highScore (L : Libm) (cx cy : ℚ) (g : Game) :
    (spawnExplosion L cx cy g).highScore = g.highScore := by
  rw [spawnExplosion_frame]

@[simp] theorem spawnExplosion_round (L : Libm) (cx cy : ℚ) (g : Game) :
    (spawnExplosion L cx cy g).round = g.round := by
  rw [spawnExplosion_frame]

@[simp] theorem spawnExplosion_formVX (L : Libm) (cx cy : ℚ) (g : Game) :
    (spawnExplosion L cx cy g).formVX = g.formVX := by
  rw [spawnExplosion_frame]

@[simp] theorem spawnExplosion_formOffX (L : Libm) (cx cy : ℚ) (g : Game) :
    (spawnExplosion L cx cy g).formOffX = g.formOffX := by
  rw [spawnExplosion_frame]

@[simp] theorem spawnExplosion_formOffY (L : Libm) (cx cy : ℚ) (g : Game) :
    (spawnExplosion L cx cy g).formOffY = g.formOffY := by
  rw [spawnExplosion_frame]

@[simp] theorem spawnExplosion_formSineT (L : Libm) (cx cy : ℚ) (g : Game) :
    (spawnExplosion L cx cy g).formSineT = g.formSineT := by
  rw [spawnExplosion_frame]

@[simp] theorem spawnExplosion_diveTimer (L : Libm) (cx cy : ℚ) (g : Game) :
    (spawnExplosion L cx cy g).diveTimer = g.diveTimer := by
  rw [spawnExplosion_frame]

@[simp] theorem spawnExplosion_diveInterval (L : Libm) (cx cy : ℚ) (g : Game) :
    (spawnExplosion L cx cy g).diveInterval = g.diveInterval := by
  rw [spawnExplosion_frame]

@[simp] theorem spawnExplosion_stateTimer (L : Libm) (cx cy : ℚ) (g : Game) :
    (spawnExplosion L cx cy g).stateTimer = g.stateTimer := by
  rw [spawnExplosion_frame]

@[simp] theorem spawnExplosion_blinkTimer (L : Libm) (cx cy : ℚ) (g : Game) :
    (spawnExplosion L cx cy g).blinkTimer = g.blinkTimer := by
  rw [spawnExplosion_frame]

@[simp] theorem spawnExplosion_blinkOn (L : Libm) (cx cy : ℚ) (g : Game) :
    (spawnExplosion L cx cy g).blinkOn = g.blinkOn := by
  rw [spawnExplosion_frame]

@[simp] theorem spawnExplosion_flashTimer (L : Libm) (cx cy : ℚ) (g : Game) :
    (spawnExplosion L cx cy g).flashTimer = g.flashTimer := by
  rw [spawnExplosion_frame]

@[simp] theorem spawnExplosion_flashActive (L : Libm) (cx cy : ℚ) (g : Game) :
    (spawnExplosion L cx cy g).flashActive = g.flashActive := by
  rw [spawnExplosion_frame]

@[simp] theorem spawnPowerUp_state (x y : ℚ) (g : Game) :
    (spawnPowerUp x y g).state = g.state := by
  rw [spawnPowerUp_frame]

@[simp] theorem spawnPowerUp_stars (x y : ℚ) (g : Game) :
    (spawnPowerUp x y g).stars = g.stars := by
  rw [spawnPowerUp_frame]

@[simp] theorem spawnPowerUp_player (x y : ℚ) (g : Game) :
    (spawnPowerUp x y g).player = g.player := by
  rw [spawnPowerUp_frame]

@[simp] theorem spawnPowerUp_enemies (x y : ℚ) (g : Game) :
    (spawnPowerUp x y g).enemies = g.enemies := by
  rw [spawnPowerUp_frame]

@[simp] theorem spawnPowerUp_pBullets (x y : ℚ) (g : Game) :
    (spawnPowerUp x y g).pBullets = g.pBullets := by
  rw [spawnPowerUp_frame]

@[simp] theorem spawnPowerUp_eBullets (x y : ℚ) (g : Game) :
    (spawnPowerUp x y g).eBullets = g.eBullets := by
  rw [spawnPowerUp_frame]

@[simp] theorem spawnPowerUp_boss (x y : ℚ) (g : Game) :
    (spawnPowerUp x y g).boss = g.boss := by
  rw [spawnPowerUp_frame]

@[simp] theorem spawnPowerUp_score (x y : ℚ) (g : Game) :
    (spawnPowerUp x y g).score = g.score := by
  rw [spawnPowerUp_frame]

@[simp] theorem spawnPowerUp_highScore (x y : ℚ) (g : Game) :
    (spawnPowerUp x y g).highScore = g.highScore := by
  rw [spawnPowerUp_frame]

@[simp] theorem spawnPowerUp_round (x y : ℚ) (g : Game) :
    (spawnPowerUp x y g).round = g.round := by
  rw [spawnPowerUp_frame]

@[simp] theorem spawnPowerUp_formVX (x y : ℚ) (g : Game) :
    (spawnPowerUp x y g).formVX = g.formVX := by
  rw [spawnPowerUp_frame]

@[simp] theorem spawnPowerUp_formOffX (x y : ℚ) (g : Game) :
    (spawnPowerUp x y g).formOffX = g.formOffX := by
  rw [spawnPowerUp_frame]

@[simp] theorem spawnPowerUp_formOffY (x y : ℚ) (g : Game) :
    (spawnPowerUp x y g).formOffY = g.formOffY := by
  rw [spawnPowerUp_frame]

@[simp] theorem spawnPowerUp_formSineT (x y : ℚ) (g : Game) :
    (spawnPowerUp x y g).formSineT = g.formSineT := by
  rw [spawnPowerUp_frame]

@[simp] theorem spawnPowerUp_diveTimer (x y : ℚ) (g : Game) :
    (spawnPowerUp x y g).diveTimer = g.diveTimer := by
  rw [spawnPowerUp_frame]

@[simp] theorem spawnPowerUp_diveInterval (x y : ℚ) (g : Game) :
    (spawnPowerUp x y g).diveInterval = g.diveInterval := by
  rw [spawnPowerUp_frame]

@[simp] theorem spawnPowerUp_stateTimer (x y : ℚ) (g : Game) :
    (spawnPowerUp x y g).stateTimer = g.stateTimer := by
  rw [spawnPowerUp_frame]

@[simp] theorem spawnPowerUp_blinkTimer (x y : ℚ) (g : Game) :
    (spawnPowerUp x y g).blinkTimer = g.blinkTimer := by
  rw [spawnPowerUp_frame]

@[simp] theorem spawnPowerUp_blinkOn (x y : ℚ) (g : Game) :
    (spawnPowerUp x y g).blinkOn = g.blinkOn := by
  rw [spawnPowerUp_frame]

@[simp] theorem spawnPowerUp_flashTimer (x y : ℚ) (g : Game) :
    (spawnPowerUp x y g).flashTimer = g.flashTimer := by
  rw [spawnPowerUp_frame]

@[simp] theorem spawnPowerUp_flashActive (x y : ℚ) (g : Game) :
    (spawnPowerUp x y g).flashActive = g.flashActive := by
  rw [spawnPowerUp_frame]

@[simp] theorem spawnPowerUp_gParticles (x y : ℚ) (g : Game) :
    (spawnPowerUp x y g).gParticles = g.gParticles := by
  rw [spawnPowerUp_frame]

theorem updateStars_frame (dt : ℚ) (ss : List Star) (g : Game) :
    (updateStars dt ss g).2 = { g with rng := (updateStars dt ss g).2.rng } := by
  induction ss generalizing g with
  | nil => rfl
  | cons s ss ih =>
    simp only [updateStars]
    split
    · rw [ih, GetRandomValue_frame 0 SW g]
    · rw [ih]

theorem starsUpdate_frame (dt : ℚ) (g : Game) :
    starsUpdate dt g =
      { g with stars := (starsUpdate dt g).stars, rng := (starsUpdate dt g).rng } := by
  unfold starsUpdate
  simp only
  rw [updateStars_frame]

theorem initStars_frame (is : List Nat) (g : Game) :
    (initStars is g).2 = { g with rng := (initStars is g).2.rng } := by
  induction is generalizing g with
  | nil => rfl
  | cons i is ih =>
    simp only [initStars]
    rw [ih]
    unfold initStar
    simp only
    split_ifs <;> rw [GetRandomValue_frame 0 SH, GetRandomValue_frame 0 SW g]

theorem starsInit_frame (g : Game) :
    starsInit g = { g with stars := (starsInit g).stars, rng := (starsInit g).rng } := by
  unfold starsInit
  generalize List.range 80 = is
  simp only
  rw [initStars_frame]

@[simp] theorem starsUpdate_state (dt : ℚ) (g : Game) :
    (starsUpdate dt g).state = g.state := by
  rw [starsUpdate_frame]

@[simp] theorem starsUpdate_player (dt : ℚ) (g : Game) :
    (starsUpdate dt g).player = g.player := by
  rw [starsUpdate_frame]

@[simp] theorem starsUpdate_enemies (dt : ℚ) (g : Game) :
    (starsUpdate dt g).enemies = g.enemies := by
  rw [starsUpdate_frame]

@[simp] theorem starsUpdate_pBullets (dt : ℚ) (g : Game) :
    (starsUpdate dt g).pBullets = g.pBullets := by
  rw [starsUpdate_frame]

@[simp] theorem starsUpdate_eBullets (dt : ℚ) (g : Game) :
    (starsUpdate dt g).eBullets = g.eBullets := by
  rw [starsUpdate_frame]

@[simp] theorem starsUpdate_powerUps (dt : ℚ) (g : Game) :
    (starsUpdate dt g).powerUps = g.powerUps := by
  rw [starsUpdate_frame]

@[simp] theorem starsUpdate_boss (dt : ℚ) (g : Game) :
    (starsUpdate dt g).boss = g.boss := by
  rw [starsUpdate_frame]

@[simp] theorem starsUpdate_score (dt : ℚ) (g : Game) :
    (starsUpdate dt g).score = g.score := by
  rw [starsUpdate_frame]

@[simp] theorem starsUpdate_highScore (dt : ℚ) (g : Game) :
    (starsUpdate dt g).highScore = g.highScore := by
  rw [starsUpdate_frame]

@[simp] theorem starsUpdate_round (dt : ℚ) (g : Game) :
    (starsUpdate dt g).round = g.round := by
  rw [starsUpdate_frame]

@[simp] theorem starsUpdate_formVX (dt : ℚ) (g : Game) :
    (starsUpdate dt g).formVX = g.formVX := by
  rw [starsUpdate_frame]

@[simp] theorem starsUpdate_formOffX (dt : ℚ) (g : Game) :
    (starsUpdate dt g).formOffX = g.formOffX := by
  rw [starsUpdate_frame]

@[simp] theorem starsUpdate_formOffY (dt : ℚ) (g : Game) :
    (starsUpdate dt g).formOffY = g.formOffY := by
  rw [starsUpdate_frame]

@[simp] theorem starsUpdate_formSineT (dt : ℚ) (g : Game) :
    (starsUpdate dt g).formSineT = g.formSineT := by
  rw [starsUpdate_frame]

@[simp] theorem starsUpdate_diveTimer (dt : ℚ) (g : Game) :
    (starsUpdate dt g).diveTimer = g.diveTimer := by
  rw [starsUpdate_frame]

@[simp] theorem starsUpdate_diveInterval (dt : ℚ) (g : Game) :
    (starsUpdate dt g).diveInterval = g.diveInterval := by
  rw [starsUpdate_frame]

@[simp] theorem starsUpdate_stateTimer (dt : ℚ) (g : Game) :
    (starsUpdate dt g).stateTimer = g.stateTimer := by
  rw [starsUpdate_frame]

@[simp] theorem starsUpdate_blinkTimer (dt : ℚ) (g : Game) :
    (starsUpdate dt g).blinkTimer = g.blinkTimer := by
  rw [starsUpdate_frame]

@[simp] theorem starsUpdate_blinkOn (dt : ℚ) (g : Game) :
    (starsUpdate dt g).blinkOn = g.blinkOn := by
  rw [starsUpdate_frame]

@[simp] theorem starsUpdate_flashTimer (dt : ℚ) (g : Game) :
    (starsUpdate dt g).flashTimer = g.flashTimer := by
  rw [starsUpdate_frame]

@[simp] theorem starsUpdate_flashActive (dt : ℚ) (g : Game) :
    (starsUpdate dt g).flashActive = g.flashActive := by
  rw [starsUpdate_frame]

@[simp] theorem starsUpdate_gParticles (dt : ℚ) (g : Game) :
    (starsUpdate dt g).gParticles = g.gParticles := by
  rw [starsUpdate_frame]

@[simp] theorem starsInit_state (g : Game) :
    (starsInit g).state = g.state := by
  rw [starsInit_frame]

@[simp] theorem starsInit_player (g : Game) :
    (starsInit g).player = g.player := by
  rw [starsInit_frame]

@[simp] theorem starsInit_enemies (g : Game) :
    (starsInit g).enemies = g.enemies := by
  rw [starsInit_frame]

@[simp] theorem starsInit_pBullets (g : Game) :
    (starsInit g).pBullets = g.pBullets := by
  rw [starsInit_frame]

@[simp] theorem starsInit_eBullets (g : Game) :
    (starsInit g).eBullets = g.eBullets := by
  rw [starsInit_frame]

@[simp] theorem starsInit_powerUps (g : Game) :
    (starsInit g).powerUps = g.powerUps := by
  rw [starsInit_frame]

@[simp] theorem starsInit_boss (g : Game) :
    (starsInit g).boss = g.boss := by
  rw [starsInit_frame]

@[simp] theorem starsInit_score (g : Game) :
    (starsInit g).score = g.score := by
  rw [starsInit_frame]

@[simp] theorem starsInit_highScore (g : Game) :
    (starsInit g).highScore = g.highScore := by
  rw [starsInit_frame]

@[simp] theorem starsInit_round (g : Game) :
    (starsInit g).round = g.round := by
  rw [starsInit_frame]

@[simp] theorem starsInit_formVX (g : Game) :
    (starsInit g).formVX = g.formVX := by
  rw [starsInit_frame]

@[simp] theorem starsInit_formOffX (g : Game) :
    (starsInit g).formOffX = g.formOffX := by
  rw [starsInit_frame]

@[simp] theorem starsInit_formOffY (g : Game) :
    (starsInit g).formOffY = g.formOffY := by
  rw [starsInit_frame]

@[simp] theorem starsInit_formSineT (g : Game) :
    (starsInit g).formSineT = g.formSineT := by
  rw [starsInit_frame]

@[simp] theorem starsInit_diveTimer (g : Game) :
    (starsInit g).diveTimer = g.diveTimer := by
  rw [starsInit_frame]

@[simp] theorem starsInit_diveInterval (g : Game) :
    (starsInit g).diveInterval = g.diveInterval := by
  rw [starsInit_frame]

@[simp] theorem starsInit_stateTimer (g : Game) :
    (starsInit g).stateTimer = g.stateTimer := by
  rw [starsInit_frame]

@[simp] theorem starsInit_blinkTimer (g : Game) :
    (starsInit g).blinkTimer = g.blinkTimer := by
  rw [starsInit_frame]

@[simp] theorem starsInit_blinkOn (g : Game) :
    (starsInit g).blinkOn = g.blinkOn := by
  rw [starsInit_frame]

@[simp] theorem starsInit_flashTimer (g : Game) :
    (starsInit g).flashTimer = g.flashTimer := by
  rw [starsInit_frame]

@[simp] theorem starsInit_flashActive (g : Game) :
    (starsInit g).flashActive = g.flashActive := by
  rw [starsInit_frame]

@[simp] theorem starsInit_gParticles (g : Game) :
    (starsInit g).gParticles = g.gParticles := by
  rw [starsInit_frame]

@[simp] theorem updateParticles_state (dt : ℚ) (g : Game) :
    (updateParticles dt g).state = g.state := by
  rw [show updateParticles dt g = { g with gParticles := (updateParticles dt g).gParticles } from rfl]

@[simp] theorem updateParticles_stars (dt : ℚ) (g : Game) :
    (updateParticles dt g).stars = g.stars := by
  rw [show updateParticles dt g = { g with gParticles := (updateParticles dt g).gParticles } from rfl]

@[simp] theorem updateParticles_player (dt : ℚ) (g : Game) :
    (updateParticles dt g).player = g.player := by
  rw [show updateParticles dt g = { g with gParticles := (updateParticles dt g).gParticles } from rfl]

@[simp] theorem updateParticles_enemies (dt : ℚ) (g : Game) :
    (updateParticles dt g).enemies = g.enemies := by
  rw [show updateParticles dt g = { g with gParticles := (updateParticles dt g).gParticles } from rfl]

@[simp] theorem updateParticles_pBullets (dt : ℚ) (g : Game) :
    (updateParticles dt g).pBullets = g.pBullets := by
  rw [show updateParticles dt g = { g with gParticles := (updateParticles dt g).gParticles } from rfl]

@[simp] theorem updateParticles_eBullets (dt : ℚ) (g : Game) :
    (updateParticles dt g).eBullets = g.eBullets := by
  rw [show updateParticles dt g = { g with gParticles := (updateParticles dt g).gParticles } from rfl]

@[simp] theorem updateParticles_powerUps (dt : ℚ) (g : Game) :
    (updateParticles dt g).powerUps = g.powerUps := by
  rw [show updateParticles dt g = { g with gParticles := (updateParticles dt g).gParticles } from rfl]

@[simp] theorem updateParticles_boss (dt : ℚ) (g : Game) :
    (updateParticles dt g).boss = g.boss := by
  rw [show updateParticles dt g = { g with gParticles := (updateParticles dt g).gParticles } from rfl]

@[simp] theorem updateParticles_score (dt : ℚ) (g : Game) :
    (updateParticles dt g).score = g.score := by
  rw [show updateParticles dt g = { g with gParticles := (updateParticles dt g).gParticles } from rfl]

@[simp] theorem updateParticles_highScore (dt : ℚ) (g : Game) :
    (updateParticles dt g).highScore = g.highScore := by
  rw [show updateParticles dt g = { g with gParticles := (updateParticles dt g).gParticles } from rfl]

@[simp] theorem updateParticles_round (dt : ℚ) (g : Game) :
    (updateParticles dt g).round = g.round := by
  rw [show updateParticles dt g = { g with gParticles := (updateParticles dt g).gParticles } from rfl]

@[simp] theorem updateParticles_formVX (dt : ℚ) (g : Game) :
    (updateParticles dt g).formVX = g.formVX := by
  rw [show updateParticles dt g = { g with gParticles := (updateParticles dt g).gParticles } from rfl]

@[simp] theorem updateParticles_formOffX (dt : ℚ) (g : Game) :
    (updateParticles dt g).formOffX = g.formOffX := by
  rw [show updateParticles dt g = { g with gParticles := (updateParticles dt g).gParticles } from rfl]

@[simp] theorem updateParticles_formOffY (dt : ℚ) (g : Game) :
    (updateParticles dt g).formOffY = g.formOffY := by
  rw [show updateParticles dt g = { g with gParticles := (updateParticles dt g).gParticles } from rfl]

@[simp] theorem updateParticles_formSineT (dt : ℚ) (g : Game) :
    (updateParticles dt g).formSineT = g.formSineT := by
  rw [show updateParticles dt g = { g with gParticles := (updateParticles dt g).gParticles } from rfl]

@[simp] theorem updateParticles_diveTimer (dt : ℚ) (g : Game) :
    (updateParticles dt g).diveTimer = g.diveTimer := by
  rw [show updateParticles dt g = { g with gParticles := (updateParticles dt g).gParticles } from rfl]

@[simp] theorem updateParticles_diveInterval (dt : ℚ) (g : Game) :
    (updateParticles dt g).diveInterval = g.diveInterval := by
  rw [show updateParticles dt g = { g with gParticles := (updateParticles dt g).gParticles } from rfl]

@[simp] theorem updateParticles_stateTimer (dt : ℚ) (g : Game) :
    (updateParticles dt g).stateTimer = g.stateTimer := by
  rw [show updateParticles dt g = { g with gParticles := (updateParticles dt g).gParticles } from rfl]

@[simp] theorem updateParticles_blinkTimer (dt : ℚ) (g : Game) :
    (updateParticles dt g).blinkTimer = g.blinkTimer := by
  rw [show updateParticles dt g = { g with gParticles := (updateParticles dt g).gParticles } from rfl]

@[simp] theorem updateParticles_blinkOn (dt : ℚ) (g : Game) :
    (updateParticles dt g).blinkOn = g.blinkOn := by
  rw [show updateParticles dt g = { g with gParticles := (updateParticles dt g).gParticles } from rfl]

@[simp] theorem updateParticles_flashTimer (dt : ℚ) (g : Game) :
    (updateParticles dt g).flashTimer = g.flashTimer := by
  rw [show updateParticles dt g = { g with gParticles := (updateParticles dt g).gParticles } from rfl]

@[simp] theorem updateParticles_flashActive (dt : ℚ) (g : Game) :
    (updateParticles dt g).flashActive = g.flashActive := by
  rw [show updateParticles dt g = { g with gParticles := (updateParticles dt g).gParticles } from rfl]

@[simp] theorem updateParticles_rng (dt : ℚ) (g : Game) :
    (updateParticles dt g).rng = g.rng := by
  rw [show updateParticles dt g = { g with gParticles := (updateParticles dt g).gParticles } from rfl]

attribute [irreducible] spawnExplosion spawnPowerUp GetRandomValue starsUpdate starsInit

/-! ## What a frame of play does to the flow core -/

theorem playStep_refl (c : Core) : PlayStep c c :=
  ⟨rfl, rfl, rfl, fun _ => le_refl _, le_refl _, id, fun _ h => (max_eq_left h).symm,
    fun _ => le_refl _, id⟩

theorem playStep_of_eq {c c' : Core} (h : c' = c) : PlayStep c c' := h ▸ playStep_refl c

theorem playStep_trans {a b c : Core} (h₁ : PlayStep a b) (h₂ : PlayStep b c) : PlayStep a c :=
  ⟨h₂.state.trans h₁.state, h₂.round.trans h₁.round, h₂.lives.trans h₁.lives,
    fun hr => le_trans (h₁.score hr) (h₂.score (h₁.round ▸ hr)),
    le_trans h₁.highScore h₂.highScore,
    fun h => h₂.above (h₁.above h),
    fun hr h => by
      rw [h₂.track (h₁.round ▸ hr) (h₁.above h), h₁.track hr h, max_assoc,
        max_eq_right (h₂.score (h₁.round ▸ hr))],
    fun h => le_trans (h₁.shot h) (h₂.shot (h₁.shotMax h)),
    fun h => h₂.shotMax (h₁.shotMax h)⟩

theorem playStep_applyPowerUp (t : PowerUpType) (g : Game) :
    PlayStep (core g) (core (applyPowerUp t g)) := by
  cases t
  · exact playStep_of_eq rfl
  · refine ⟨rfl, rfl, rfl, fun _ => le_refl _, le_refl _, id, fun _ h => (max_eq_left h).symm,
      ?_, ?_⟩
    · intro _; exact le_max_left _ _
    · intro h; exact max_le h (by decide)
  · exact ⟨rfl, rfl, rfl, fun _ => le_refl _, le_refl _, id, fun _ h => (max_eq_left h).symm, id,
      fun _ => le_refl _⟩

theorem playStep_updatePowerUps (dt : ℚ) (ps : List PowerUp) (g : Game) :
    PlayStep (core g) (core (updatePowerUps dt ps g).2) := by
  induction ps generalizing g with
  | nil => exact playStep_refl _
  | cons p ps ih =>
    simp only [updatePowerUps]
    refine playStep_trans ?_ (ih _)
    split_ifs
    · exact playStep_refl _
    · exact playStep_applyPowerUp _ g
    · exact playStep_refl _
    · exact playStep_applyPowerUp _ g
    · exact playStep_refl _

theorem pointsForEnemy_pos (t : EnemyType) (d : Bool) : 0 < pointsForEnemy t d := by
  cases t <;> cases d <;> decide

theorem playStep_addScore (pts : Int) (g : Game) (h : 1 ≤ g.round → 0 ≤ pts) :
    PlayStep (core g) (core (addScore pts g)) := by
  refine ⟨rfl, rfl, rfl, ?_, ?_, ?_, fun _ _ => rfl, fun _ => le_refl _, id⟩
  · intro hr
    have := h hr
    show g.score ≤ g.score + pts
    omega
  · exact le_max_left _ _
  · intro _; exact le_max_right _ _

theorem core_hitBoss (L : Libm) (pb : Bullet) (g : Game) :
    core (hitBoss L pb g) =
      if g.boss.hp - 1 ≤ 0 then core (addScore (1000 + g.round * 80) g) else core g := by
  simp only [hitBoss, addScore, core, apply_ite Game.state, apply_ite Game.score, apply_ite Game.highScore,
    apply_ite Game.round, apply_ite Game.player, apply_ite Player.lives,
    apply_ite Player.shotLevel, ite_self, spawnExplosion_boss, spawnExplosion_round,
    spawnExplosion_state, spawnExplosion_score, spawnExplosion_highScore, spawnExplosion_player,
    spawnPowerUp_state, spawnPowerUp_score, spawnPowerUp_highScore, spawnPowerUp_player,
    spawnPowerUp_round]
  split_ifs <;> rfl

theorem playStep_hitBoss (L : Libm) (pb : Bullet) (g : Game) :
    PlayStep (core g) (core (hitBoss L pb g)) := by
  rw [core_hitBoss]
  split_ifs
  · exact playStep_addScore _ _ (fun hr => by omega)
  · exact playStep_refl _

theorem playStep_killEnemy (L : Libm) (e : Enemy) (es : List Enemy) (g : Game) :
    PlayStep (core g) (core (killEnemy L e es g)) := by
  unfold killEnemy
  simp only
  rw [core_spawnPowerUp, core_spawnExplosion]
  exact playStep_addScore _ { g with enemies := es } (fun _ => le_of_lt (pointsForEnemy_pos _ _))

theorem playStep_collideBullet (L : Libm) (pb : Bullet) (g : Game) :
    PlayStep (core g) (core (collideBullet L pb g).2) := by
  unfold collideBullet
  simp only
  split_ifs
  · exact playStep_refl _
  · exact playStep_hitBoss L pb g
  · split
    · exact playStep_refl _
    · exact playStep_killEnemy L _ _ g

theorem playStep_collideBullets (L : Libm) (pbs : List Bullet) (g : Game) :
    PlayStep (core g) (core (collideBullets L pbs g).2) := by
  induction pbs generalizing g with
  | nil => exact playStep_refl _
  | cons pb pbs ih =>
    simp only [collideBullets]
    exact playStep_trans (playStep_collideBullet L pb g) (ih _)

theorem core_diversStep (L : Libm) (dt : ℚ) (g : Game) : core (diversStep L dt g) = core g :=
  core_updateDivers L dt g.enemies g

theorem core_bossStep (L : Libm) (dt : ℚ) (g : Game) : core (bossStep L dt g) = core g := by
  unfold bossStep
  split
  · exact core_updateBoss L dt g
  · rfl

theorem playStep_powerUpStep (dt : ℚ) (g : Game) :
    PlayStep (core g) (core (powerUpStep dt g)) :=
  playStep_updatePowerUps dt g.powerUps g

theorem playStep_collisionStep (L : Libm) (g : Game) :
    PlayStep (core g) (core (collisionStep L g)) :=
  playStep_collideBullets L g.pBullets g

/-- The part of `updatePlaying` before the lethal checks, up to the power-up
loop, leaves the flow core alone. -/
theorem core_beforePowerUps (L : Libm) (inp : Input) (g : Game) :
    core (bossStep L inp.dt (moveEnemyBullets inp.dt (diversStep L inp.dt (diveTimerStep L inp.dt
      (syncFormation L (updateFormationMotion L inp.dt (movePlayerBullets inp.dt
        (playerShoot inp (movePlayer inp (tickTimers inp.dt g))))))))))
      = core g := by
  rw [core_bossStep]
  show core (diversStep L inp.dt _) = _
  rw [core_diversStep, core_diveTimerStep]
  show core (updateFormationMotion L inp.dt _) = _
  rw [core_updateFormationMotion]
  show core (playerShoot inp _) = _
  rw [core_playerShoot, core_movePlayer, core_tickTimers]

theorem playStep_playingFrame (L : Libm) (inp : Input) (g : Game) :
    PlayStep (core g) (core (playingFrame L inp g)) := by
  unfold playingFrame
  simp only
  rw [core_compact]
  have h0 := core_beforePowerUps L inp g
  refine playStep_trans ?_ (playStep_collisionStep L _)
  exact playStep_trans (playStep_of_eq h0) (playStep_powerUpStep _ _)
theorem core_killPlayer (L : Libm) (g : Game) (h : g.player.invincible = false) :
    core (killPlayer L g) = (core g).killed := by
  simp only [killPlayer, h, Bool.false_eq_true, if_false, core, Core.killed,
    spawnExplosion_score, spawnExplosion_highScore, spawnExplosion_round, spawnExplosion_player]

/-- The lethal checks either hit nobody and change nothing, or kill the
player. -/
theorem lethalChecks_cases (L : Libm) (g : Game) :
    lethalChecks L g = (g, false) ∨
    (g.player.invincible = false ∧ (lethalChecks L g).2 = true ∧
      core (lethalChecks L g).1 = (core g).killed) := by
  unfold lethalChecks
  cases hi : g.player.invincible
  · simp only [Bool.not_false, if_true]
    split
    · right
      exact ⟨trivial, rfl, core_killPlayer L _ hi⟩
    · split
      · right
        refine ⟨trivial, rfl, ?_⟩
        simp only
        rw [core_killPlayer L _ (by simpa using hi), core_spawnExplosion]
        rfl
      · split_ifs
        · right
          exact ⟨trivial, rfl, core_killPlayer L g hi⟩
        · left
          rfl
  · left
    rfl

theorem core_checkStageClear (g : Game) :
    core (checkStageClear g) = core g ∨
    core (checkStageClear g) = { core g with state := GameState.STAGE_CLEAR } := by
  unfold checkStageClear
  split
  · right; rfl
  · left; rfl

/-- What `updatePlaying` does to the flow core: a `PlayStep`, then either the
player is killed, or the stage is cleared, or nothing more. -/
theorem updatePlaying_core (L : Libm) (inp : Input) (g : Game) :
    ∃ c, PlayStep (core g) c ∧
      (core (updatePlaying L inp g) = c.killed ∨ core (updatePlaying L inp g) = c ∨
        core (updatePlaying L inp g) = { c with state := GameState.STAGE_CLEAR }) := by
  refine ⟨core (playingFrame L inp g), playStep_playingFrame L inp g, ?_⟩
  unfold updatePlaying
  rcases lethalChecks_cases L (playingFrame L inp g) with h | ⟨-, h2, h3⟩
  · rw [h]
    simp only [Bool.false_eq_true, if_false]
    rcases core_checkStageClear (playingFrame L inp g) with h' | h'
    · exact Or.inr (Or.inl h')
    · exact Or.inr (Or.inr h')
  · left
    simp only [h2, if_true]
    exact h3

theorem core_init (g : Game) :
    core (init g) = { core g with score := 0, round := 1, lives := 3, shotLevel := 1 } := by
  unfold init
  simp only
  rw [core_buildFormation]
  have h := core_starsInit g
  simp only [core, Core.mk.injEq] at h ⊢
  simp only [h, and_self]

theorem core_blinkStep (dt : ℚ) (g : Game) : core (blinkStep dt g) = core g := by
  simp only [blinkStep, core, apply_ite Game.state, apply_ite Game.score, apply_ite Game.highScore,
    apply_ite Game.round, apply_ite Game.player, apply_ite Player.lives,
    apply_ite Player.shotLevel, ite_self]

theorem core_updateAttract (L : Libm) (inp : Input) (g : Game) :
    core (updateAttract L inp g) =
      if inp.pressedEnter || inp.pressedSpace then
        { core g with state := GameState.PLAYING, score := 0, round := 1, lives := 3,
                      shotLevel := 1 }
      else core g := by
  have hs : ∀ x : Game, core { x with state := GameState.PLAYING } =
      { core x with state := GameState.PLAYING } := fun _ => rfl
  unfold updateAttract
  by_cases h1 : (inp.pressedEnter || inp.pressedSpace) = true
  · rw [if_pos h1, if_pos h1, hs, core_init, core_blinkStep, core_updateFormationMotion]
  · rw [if_neg h1, if_neg h1, core_blinkStep, core_updateFormationMotion]

theorem core_updateDead (dt : ℚ) (g : Game) :
    core (updateDead dt g) =
      if g.stateTimer - dt ≤ 0 then
        (if g.player.lives ≤ 0 then { core g with state := GameState.GAME_OVER }
         else { core g with state := GameState.PLAYING })
      else core g := by
  simp only [updateDead, core, apply_ite Game.state, apply_ite Game.score, apply_ite Game.highScore,
    apply_ite Game.round, apply_ite Game.player, apply_ite Player.lives,
    apply_ite Player.shotLevel, ite_self, starsUpdate_stateTimer, starsUpdate_player,
    starsUpdate_state, starsUpdate_score, starsUpdate_highScore, starsUpdate_round]
  split_ifs <;> rfl

theorem core_updateGameOver (dt : ℚ) (g : Game) :
    core (updateGameOver dt g) =
      if g.stateTimer - dt ≤ 0 then
        { core g with highScore := max g.highScore g.score, state := GameState.ATTRACT }
      else core g := by
  simp only [updateGameOver, core]
  split_ifs <;> rfl

theorem core_updateClear (dt : ℚ) (g : Game) :
    core (updateClear dt g) =
      if g.stateTimer - dt ≤ 0 then
        { core g with round := g.round + 1, state := GameState.PLAYING }
      else core g := by
  have hs : ∀ x : Game, core { x with state := GameState.PLAYING } =
      { core x with state := GameState.PLAYING } := fun _ => rfl
  unfold updateClear
  simp only
  split_ifs
  · rw [hs, core_buildFormation]
    rfl
  · rfl
/-! ## The frame update as a step of the abstract flow machine -/

theorem core_preFrame (dt : ℚ) (g : Game) : core (preFrame dt g) = core g := by
  unfold preFrame
  rw [core_updateParticles, core_starsUpdate]

theorem update_eq (L : Libm) (inp : Input) (g : Game) :
    update L inp g =
      match g.state with
      | GameState.ATTRACT => updateAttract L inp (preFrame inp.dt g)
      | GameState.PLAYING => updatePlaying L inp (preFrame inp.dt g)
      | GameState.PLAYER_DEAD => updateDead inp.dt (preFrame inp.dt g)
      | GameState.GAME_OVER => updateGameOver inp.dt (preFrame inp.dt g)
      | GameState.STAGE_CLEAR => updateClear inp.dt (preFrame inp.dt g) := by
  unfold update preFrame
  simp only [updateParticles_state, starsUpdate_state]

theorem update_coreStep (L : Libm) (inp : Input) (g : Game) :
    CoreStep (inp.pressedEnter || inp.pressedSpace) (core g) (core (update L inp g)) := by
  have hp := core_preFrame inp.dt g
  have hpr : (preFrame inp.dt g).round = g.round := congrArg Core.round hp
  have hpl : (preFrame inp.dt g).player.lives = g.player.lives := congrArg Core.lives hp
  have hps : (preFrame inp.dt g).score = g.score := congrArg Core.score hp
  have hph : (preFrame inp.dt g).highScore = g.highScore := congrArg Core.highScore hp
  rw [update_eq]
  cases hs : g.state
  · simp only
    rw [core_updateAttract, hp]
    split_ifs with h
    · exact CoreStep.attractStart hs h
    · exact CoreStep.attractIdle hs (by simpa using h)
  · simp only
    obtain ⟨m, hm, h⟩ := updatePlaying_core L inp (preFrame inp.dt g)
    rw [hp] at hm
    rcases h with h | h | h <;> rw [h]
    · exact CoreStep.playKilled m hs hm
    · exact CoreStep.play m hs hm
    · exact CoreStep.playClear m hs hm
  · simp only
    rw [core_updateDead, hp, hpl]
    split_ifs with h1 h2
    · exact CoreStep.deadOver hs h2
    · exact CoreStep.deadRespawn hs (by simpa using h2)
    · exact CoreStep.deadWait hs
  · simp only
    rw [core_updateGameOver, hp, hps, hph]
    split_ifs
    · exact CoreStep.overAttract hs
    · exact CoreStep.overWait hs
  · simp only
    rw [core_updateClear, hp, hpr]
    split_ifs
    · exact CoreStep.clearNext hs
    · exact CoreStep.clearWait hs

theorem coreInv_playStep {c m : Core} (hi : CoreInv c) (hp : c.state = GameState.PLAYING)
    (h : PlayStep c m) : CoreInv m := by
  obtain ⟨h1, h2, h3, h4, h5, h6, -, h7, h8⟩ := h
  obtain ⟨i1, i2, i3, i4, i5, i6, i7, i8, i9⟩ := hi
  have h4 := h4 i1
  have s1 := h7 i5
  have s2 := h8 i5
  have a1 := h6 i3
  refine ⟨by omega, by omega, a1, by omega, s2, ?_, by omega, by omega, ?_⟩
  · intro hs
    rw [h1, hp] at hs
    rcases hs with hs | hs | hs <;> exact GameState.noConfusion hs
  · intro hs
    rw [h1] at hs
    have := i9 hs
    omega

theorem coreInv_step {start : Bool} {c c' : Core} (hi : CoreInv c) (h : CoreStep start c c') :
    CoreInv c' := by
  cases h with
  | attractIdle _ _ => exact hi
  | attractStart hs _ =>
    exact ⟨le_refl _, le_refl _, le_trans hi.score hi.above, le_refl _, by simp,
      fun _ => rfl, by simp, le_refl _, fun _ => by simp⟩
  | play m hs hm => exact coreInv_playStep hi hs hm
  | playKilled m hs hm =>
    have hm' := coreInv_playStep hi hs hm
    have hl : 1 ≤ m.lives := hm'.playing (Or.inl (hm.state.trans hs))
    refine ⟨hm'.round, hm'.score, hm'.above, le_refl _, by simp [Core.killed], fun _ => rfl,
      ?_, ?_, ?_⟩
    · show 0 ≤ m.lives - 1
      omega
    · show m.lives - 1 ≤ 3
      have := hm'.livesHi
      omega
    · intro h
      rcases h with h | h <;> exact GameState.noConfusion h
  | playClear m hs hm =>
    have hm' := coreInv_playStep hi hs hm
    have hl : 1 ≤ m.lives := hm'.playing (Or.inl (hm.state.trans hs))
    refine ⟨hm'.round, hm'.score, hm'.above, hm'.shotLo, hm'.shotHi, ?_, hm'.livesLo,
      hm'.livesHi, fun _ => hl⟩
    intro h
    rcases h with h | h | h <;> exact GameState.noConfusion h
  | deadWait _ => exact hi
  | deadOver hs hl =>
    exact ⟨hi.round, hi.score, hi.above, hi.shotLo, hi.shotHi,
      fun _ => hi.idle (Or.inr (Or.inl hs)), hi.livesLo, hi.livesHi,
      fun h => by rcases h with h | h <;> exact GameState.noConfusion h⟩
  | deadRespawn hs hl =>
    refine ⟨hi.round, hi.score, hi.above, hi.shotLo, hi.shotHi, ?_, hi.livesLo, hi.livesHi,
      fun _ => hl⟩
    intro h
    rcases h with h | h | h <;> exact GameState.noConfusion h
  | overWait _ => exact hi
  | overAttract hs =>
    refine ⟨hi.round, hi.score, le_max_right _ _, hi.shotLo, hi.shotHi,
      fun _ => hi.idle (Or.inr (Or.inr hs)), hi.livesLo, hi.livesHi, ?_⟩
    intro h
    rcases h with h | h <;> exact GameState.noConfusion h
  | clearWait _ => exact hi
  | clearNext hs =>
    refine ⟨?_, hi.score, hi.above, hi.shotLo, hi.shotHi, ?_, hi.livesLo, hi.livesHi,
      fun _ => hi.playing (Or.inr hs)⟩
    · show 1 ≤ c.round + 1
      have := hi.round
      omega
    · intro h
      rcases h with h | h | h <;> exact GameState.noConfusion h

theorem coreInv_start (rolls : List Nat) : CoreInv (core (Game.start rolls)) := by
  have h : core (Game.start rolls) = core ({ rng := rolls } : Game) := by
    unfold Game.start
    rw [core_buildFormation, core_starsInit]
  rw [h]
  exact ⟨by simp [core], by simp [core], by simp [core], by simp [core], by simp [core],
    fun _ => rfl, by simp [core], by simp [core], fun _ => by simp [core]⟩

/-- Every reachable state satisfies the invariant of the flow core. -/
theorem reachable_coreInv (L : Libm) (g : Game) (h : Reachable L g) : CoreInv (core g) := by
  induction h with
  | start rolls => exact coreInv_start rolls
  | frame g inp _ _ ih => exact coreInv_step ih (update_coreStep L inp g)
/-! ## Scores -/

theorem coreStep_highScore {start : Bool} {c c' : Core} (hi : CoreInv c)
    (h : CoreStep start c c') :
    c.highScore ≤ c'.highScore ∧ c'.highScore = max c.highScore c'.score := by
  have h0 : c.highScore = max c.highScore c.score := (max_eq_left hi.above).symm
  cases h with
  | attractIdle _ _ => exact ⟨le_refl _, h0⟩
  | attractStart _ _ => exact ⟨le_refl _, (max_eq_left (le_trans hi.score hi.above)).symm⟩
  | play m _ hm => exact ⟨hm.highScore, hm.track hi.round hi.above⟩
  | playKilled m _ hm => exact ⟨hm.highScore, hm.track hi.round hi.above⟩
  | playClear m _ hm => exact ⟨hm.highScore, hm.track hi.round hi.above⟩
  | deadWait _ => exact ⟨le_refl _, h0⟩
  | deadOver _ _ => exact ⟨le_refl _, h0⟩
  | deadRespawn _ _ => exact ⟨le_refl _, h0⟩
  | overWait _ => exact ⟨le_refl _, h0⟩
  | overAttract _ => exact ⟨le_max_left _ _, rfl⟩
  | clearWait _ => exact ⟨le_refl _, h0⟩
  | clearNext _ => exact ⟨le_refl _, h0⟩

/-- C2. In every reachable state and for every frame (any frame time, keys
and random rolls), after `update` the high score is at least the score, the
high score has not decreased, and it is the larger of the previous high score
and the new score. -/
theorem highScore_tracks_score (L : Libm) (g : Game) (h : Reachable L g) (inp : Input) :
    (update L inp g).score ≤ (update L inp g).highScore ∧
    g.highScore ≤ (update L inp g).highScore ∧
    (update L inp g).highScore = max g.highScore (update L inp g).score := by
  have hi := reachable_coreInv L g h
  have hs := update_coreStep L inp g
  exact ⟨(coreInv_step hi hs).above, coreStep_highScore hi hs⟩

theorem coreStep_score {start : Bool} {c c' : Core} (hr : 1 ≤ c.round)
    (h : CoreStep start c c') :
    (¬ (c.state = GameState.ATTRACT ∧ start = true) → c.score ≤ c'.score) ∧
    (c.state = GameState.ATTRACT ∧ start = true → c'.score = 0) := by
  cases h with
  | attractIdle hs hn =>
    exact ⟨fun _ => le_refl _, fun h => by rw [hn] at h; exact Bool.noConfusion h.2⟩
  | attractStart hs ht => exact ⟨fun h => absurd ⟨hs, ht⟩ h, fun _ => rfl⟩
  | play m hs hm =>
    exact ⟨fun _ => hm.score hr, fun h => by rw [hs] at h; exact GameState.noConfusion h.1⟩
  | playKilled m hs hm =>
    exact ⟨fun _ => hm.score hr, fun h => by rw [hs] at h; exact GameState.noConfusion h.1⟩
  | playClear m hs hm =>
    exact ⟨fun _ => hm.score hr, fun h => by rw [hs] at h; exact GameState.noConfusion h.1⟩
  | deadWait hs =>
    exact ⟨fun _ => le_refl _, fun h => by rw [hs] at h; exact GameState.noConfusion h.1⟩
  | deadOver hs _ =>
    exact ⟨fun _ => le_refl _, fun h => by rw [hs] at h; exact GameState.noConfusion h.1⟩
  | deadRespawn hs _ =>
    exact ⟨fun _ => le_refl _, fun h => by rw [hs] at h; exact GameState.noConfusion h.1⟩
  | overWait hs =>
    exact ⟨fun _ => le_refl _, fun h => by rw [hs] at h; exact GameState.noConfusion h.1⟩
  | overAttract hs =>
    exact ⟨fun _ => le_refl _, fun h => by rw [hs] at h; exact GameState.noConfusion h.1⟩
  | clearWait hs =>
    exact ⟨fun _ => le_refl _, fun h => by rw [hs] at h; exact GameState.noConfusion h.1⟩
  | clearNext hs =>
    exact ⟨fun _ => le_refl _, fun h => by rw [hs] at h; exact GameState.noConfusion h.1⟩

/-- C3, as amended. In every reachable state and for every frame, `update`
does not lower the score, except in the one frame that starts a new game
(flow state ATTRACT with ENTER or SPACE pressed), which resets the score to
0. -/
theorem score_monotone_except_new_game (L : Libm) (g : Game) (h : Reachable L g)
    (inp : Input) :
    (¬ (g.state = GameState.ATTRACT ∧ (inp.pressedEnter || inp.pressedSpace) = true) →
      g.score ≤ (update L inp g).score) ∧
    (g.state = GameState.ATTRACT ∧ (inp.pressedEnter || inp.pressedSpace) = true →
      (update L inp g).score = 0) :=
  coreStep_score (reachable_coreInv L g h).round (update_coreStep L inp g)

/-! ## Shot level -/

theorem coreStep_shotLevel {start : Bool} {c c' : Core} (hi : CoreInv c)
    (h : CoreStep start c c') :
    (c'.lives < c.lives → c'.shotLevel = 1) ∧
    (¬ c'.lives < c.lives → c.shotLevel ≤ c'.shotLevel) := by
  have hirr : ¬ c.lives < c.lives := lt_irrefl _
  cases h with
  | attractIdle _ _ => exact ⟨fun h => absurd h hirr, fun _ => le_refl _⟩
  | attractStart hs _ =>
    exact ⟨fun _ => rfl, fun _ => le_of_eq (hi.idle (Or.inl hs))⟩
  | play m _ hm =>
    exact ⟨fun h => by rw [hm.lives] at h; exact absurd h hirr, fun _ => hm.shot hi.shotHi⟩
  | playKilled m _ hm => exact ⟨fun _ => rfl, fun h => absurd (by
      show m.lives - 1 < c.lives
      rw [hm.lives]
      omega) h⟩
  | playClear m _ hm =>
    exact ⟨fun h => by
      have : m.lives < c.lives := h
      rw [hm.lives] at this
      exact absurd this hirr, fun _ => hm.shot hi.shotHi⟩
  | deadWait _ => exact ⟨fun h => absurd h hirr, fun _ => le_refl _⟩
  | deadOver _ _ => exact ⟨fun h => absurd h hirr, fun _ => le_refl _⟩
  | deadRespawn _ _ => exact ⟨fun h => absurd h hirr, fun _ => le_refl _⟩
  | overWait _ => exact ⟨fun h => absurd h hirr, fun _ => le_refl _⟩
  | overAttract _ => exact ⟨fun h => absurd h hirr, fun _ => le_refl _⟩
  | clearWait _ => exact ⟨fun h => absurd h hirr, fun _ => le_refl _⟩
  | clearNext _ => exact ⟨fun h => absurd h hirr, fun _ => le_refl _⟩

/-- C10. In every reachable state the shot level is 1, 2 or 3; `applyPowerUp`
does not lower it (DOUBLE_SHOT gives the larger of the level and 2,
TRIPLE_SHOT gives 3, FIRE_RATE leaves it alone); and across any `update`
call the shot level does not decrease unless the player is killed in that
call (a life is lost), in which case it is exactly 1 afterwards. -/
theorem shotLevel_only_increases_except_on_death (L : Libm) (g : Game) (h : Reachable L g)
    (inp : Input) :
    (g.player.shotLevel = 1 ∨ g.player.shotLevel = 2 ∨ g.player.shotLevel = 3) ∧
    (∀ t : PowerUpType, g.player.shotLevel ≤ (applyPowerUp t g).player.shotLevel) ∧
    (applyPowerUp PowerUpType.DOUBLE_SHOT g).player.shotLevel = max g.player.shotLevel 2 ∧
    (applyPowerUp PowerUpType.TRIPLE_SHOT g).player.shotLevel = 3 ∧
    (applyPowerUp PowerUpType.FIRE_RATE g).player.shotLevel = g.player.shotLevel ∧
    ((update L inp g).player.lives < g.player.lives → (update L inp g).player.shotLevel = 1) ∧
    (¬ (update L inp g).player.lives < g.player.lives →
      g.player.shotLevel ≤ (update L inp g).player.shotLevel) := by
  have hi := reachable_coreInv L g h
  have hs := update_coreStep L inp g
  have hlo : 1 ≤ g.player.shotLevel := hi.shotLo
  have hhi : g.player.shotLevel ≤ 3 := hi.shotHi
  refine ⟨by omega, ?_, rfl, rfl, rfl, coreStep_shotLevel hi hs⟩
  intro t
  exact (playStep_applyPowerUp t g).shot hhi
theorem reachable_run (L : Libm) (inps : List Input) (g : Game) (h : Reachable L g)
    (hdt : ∀ i ∈ inps, 0 ≤ i.dt) : Reachable L (run L inps g) := by
  induction inps generalizing g with
  | nil => exact h
  | cons i is ih =>
    exact ih (update L i g) (Reachable.frame g i h (hdt i (List.mem_cons_self i is)))
      (fun j hj => hdt j (List.mem_cons_of_mem i hj))

theorem lostGame_reachable : Reachable refLibm lostGame :=
  reachable_run refLibm lostGameFrames _ (Reachable.start _) (by decide!)

theorem highScore_tracks_score_witness :
    Reachable refLibm lostGame ∧
    (update refLibm { pressedEnter := true } lostGame).score ≤
      (update refLibm { pressedEnter := true } lostGame).highScore ∧
    lostGame.highScore ≤ (update refLibm { pressedEnter := true } lostGame).highScore ∧
    (update refLibm { pressedEnter := true } lostGame).highScore =
      max lostGame.highScore (update refLibm { pressedEnter := true } lostGame).score :=
  ⟨lostGame_reachable,
    highScore_tracks_score refLibm lostGame lostGame_reachable { pressedEnter := true }⟩

set_option maxRecDepth 1000000 in
/-- C3, counterexample. After the lost game `lostGame`, which is reachable, the
flow state is ATTRACT and the score is 40; the frame in which ENTER is pressed
then lowers the score to 0. -/
theorem score_drops_when_new_game_starts :
    Reachable refLibm lostGame ∧ lostGame.state = GameState.ATTRACT ∧ lostGame.score = 40 ∧
    (update refLibm { pressedEnter := true } lostGame).score = 0 ∧
    ¬ (lostGame.score ≤ (update refLibm { pressedEnter := true } lostGame).score) :=
  ⟨lostGame_reachable, by decide!⟩

set_option maxRecDepth 1000000 in
theorem score_monotone_except_new_game_witness :
    Reachable refLibm (run refLibm [{ pressedEnter := true }] (Game.start [])) ∧
    (run refLibm [{ pressedEnter := true }] (Game.start [])).score ≤
      (update refLibm { dt := 371 / 520, downSpace := true }
        (run refLibm [{ pressedEnter := true }] (Game.start []))).score :=
  ⟨reachable_run refLibm _ _ (Reachable.start []) (by decide!),
    (score_monotone_except_new_game refLibm _
      (reachable_run refLibm _ _ (Reachable.start []) (by decide!))
      { dt := 371 / 520, downSpace := true }).1 (by decide!)⟩

set_option maxRecDepth 1000000 in
theorem shotLevel_only_increases_except_on_death_witness :
    Reachable refLibm (run refLibm (lostGameFrames.take 2) (Game.start (List.replicate 600 1597))) ∧
    (update refLibm { dt := 59 / 25 }
      (run refLibm (lostGameFrames.take 2) (Game.start (List.replicate 600 1597)))).player.shotLevel
      = 1 :=
  ⟨reachable_run refLibm _ _ (Reachable.start _) (by decide!),
    (shotLevel_only_increases_except_on_death refLibm _
      (reachable_run refLibm _ _ (Reachable.start _) (by decide!)) { dt := 59 / 25 }).2.2.2.2.2.1
      (by decide!)⟩
/-! ## Formation motion and re-entry -/

set_option maxRecDepth 100000 in
/-- C8, the code at the failing input. From the start state (offset 0, inside
the margin of 10) one call of `updateFormationMotion` with a frame time of 10
seconds leaves the lateral offset at 980/13, about 75: the step of 1500/13 is
reflected at +10 to -1240/13 and then at -10 to 980/13. -/
theorem formation_offset_escapes_on_long_frame :
    (Game.start []).formOffX = 0 ∧ (Game.start []).formVX = 30 ∧
    (updateFormationMotion refLibm 10 (Game.start [])).formOffX = 980 / 13 ∧
    ¬ ((updateFormationMotion refLibm 10 (Game.start [])).formOffX ≤ 10) := by
  decide!

theorem clamp_bounds (v lo hi : ℚ) (h : lo ≤ hi) : lo ≤ clamp v lo hi ∧ clamp v lo hi ≤ hi := by
  unfold clamp
  split_ifs with h1 h2
  · exact ⟨le_refl _, h⟩
  · exact ⟨h, le_refl _⟩
  · exact ⟨not_lt.mp h1, not_lt.mp h2⟩

theorem bounce_bounds (x d S ef dt : ℚ) (hlo : -10 ≤ x) (hhi : x ≤ 10)
    (hd : d = 1 ∨ d = -1) (hS : 0 ≤ S * dt) (hS2 : S * dt ≤ 20) (he0 : 0 ≤ ef) (he1 : ef ≤ 1) :
    -10 ≤ (if (if x + d * S * ef * dt > 10 then 10 - (x + d * S * ef * dt - 10)
              else x + d * S * ef * dt) < -10
           then -10 + (-10 - (if x + d * S * ef * dt > 10 then 10 - (x + d * S * ef * dt - 10)
              else x + d * S * ef * dt))
           else (if x + d * S * ef * dt > 10 then 10 - (x + d * S * ef * dt - 10)
              else x + d * S * ef * dt)) ∧
    (if (if x + d * S * ef * dt > 10 then 10 - (x + d * S * ef * dt - 10)
              else x + d * S * ef * dt) < -10
           then -10 + (-10 - (if x + d * S * ef * dt > 10 then 10 - (x + d * S * ef * dt - 10)
              else x + d * S * ef * dt))
           else (if x + d * S * ef * dt > 10 then 10 - (x + d * S * ef * dt - 10)
              else x + d * S * ef * dt)) ≤ 10 := by
  have h1 : 0 ≤ S * dt * ef := mul_nonneg hS he0
  have h2 : S * dt * ef ≤ 20 := by
    calc S * dt * ef ≤ S * dt * 1 := mul_le_mul_of_nonneg_left he1 hS
      _ = S * dt := mul_one _
      _ ≤ 20 := hS2
  have h3 : S * ef * dt = S * dt * ef := by ring
  rcases hd with hd | hd
  · have e : x + d * S * ef * dt = x + S * dt * ef := by rw [hd]; ring
    rw [e]
    split_ifs <;> constructor <;> linarith
  · have e : x + d * S * ef * dt = x - S * dt * ef := by rw [hd]; ring
    rw [e]
    split_ifs <;> constructor <;> linarith

/-- The formation offset does stay within the margin when the step of the frame
is at most twice the margin: `|formVX| * sf * dt <= 20` for the speed factor
`sf >= 0` in force. -/
theorem formation_offset_within_margin_of_short_step (L : Libm) (dt : ℚ) (g : Game)
    (hdt : 0 ≤ dt) (hlo : -10 ≤ g.formOffX) (hhi : g.formOffX ≤ 10)
    (hsf : 0 ≤ (if g.state = GameState.PLAYING then speedFactor g else 1))
    (hstep : |g.formVX| * (if g.state = GameState.PLAYING then speedFactor g else 1) * dt ≤ 20) :
    -10 ≤ (updateFormationMotion L dt g).formOffX ∧
    (updateFormationMotion L dt g).formOffX ≤ 10 := by
  have hm : ((SW : ℚ) - (COLS : ℚ) * CELL_W) / 2 - 10 = 10 := by
    norm_num [SW, COLS, CELL_W]
  simp only [updateFormationMotion, hm, apply_ite Game.formOffX]
  generalize (if g.state = GameState.PLAYING then speedFactor g else 1) = sf at hsf hstep ⊢
  have hS : 0 ≤ |g.formVX| * sf * dt := mul_nonneg (mul_nonneg (abs_nonneg _) hsf) hdt
  have hd : (if g.formVX ≥ 0 then (1 : ℚ) else -1) = 1 ∨
      (if g.formVX ≥ 0 then (1 : ℚ) else -1) = -1 := by
    split_ifs
    · exact Or.inl rfl
    · exact Or.inr rfl
  generalize (if g.formVX ≥ 0 then (1 : ℚ) else -1) = d at hd ⊢
  have hef : ∀ q : ℚ, 0 ≤ (if q < 26 then clamp (q / 26) 0.35 1 else 1) ∧
      (if q < 26 then clamp (q / 26) 0.35 1 else 1) ≤ 1 := by
    intro q
    split_ifs
    · have := clamp_bounds (q / 26) 0.35 1 (by norm_num)
      exact ⟨le_trans (by norm_num) this.1, this.2⟩
    · exact ⟨by norm_num, le_refl _⟩
  generalize (if d > 0 then 10 - g.formOffX else g.formOffX + 10) = q
  obtain ⟨he0, he1⟩ := hef q
  generalize (if q < 26 then clamp (q / 26) 0.35 1 else 1) = ef at he0 he1 ⊢
  have hS' : |g.formVX| * sf * dt ≤ 20 := hstep
  have := bounce_bounds g.formOffX d (|g.formVX| * sf) ef dt hlo hhi hd hS hS' he0 he1
  exact this
/-! ## Player bullets against the boss -/

theorem hitBoss_boss (L : Libm) (pb : Bullet) (g : Game) :
    (hitBoss L pb g).boss =
      if g.boss.hp - 1 ≤ 0 then { g.boss with hp := g.boss.hp - 1, active := false }
      else { g.boss with hp := g.boss.hp - 1 } := by
  simp only [hitBoss, addScore, spawnExplosion_boss, spawnPowerUp_boss, apply_ite Game.boss]

theorem hitBoss_score (L : Libm) (pb : Bullet) (g : Game) :
    (hitBoss L pb g).score =
      if g.boss.hp - 1 ≤ 0 then g.score + (1000 + g.round * 80) else g.score := by
  simp only [hitBoss, addScore, spawnExplosion_boss, spawnExplosion_round, spawnExplosion_score,
    spawnPowerUp_score, apply_ite Game.score]

theorem hitBoss_round (L : Libm) (pb : Bullet) (g : Game) : (hitBoss L pb g).round = g.round := by
  simp only [hitBoss, addScore, spawnExplosion_boss, spawnExplosion_round, spawnPowerUp_round,
    apply_ite Game.round, ite_self]

theorem hitBoss_enemies (L : Libm) (pb : Bullet) (g : Game) :
    (hitBoss L pb g).enemies = g.enemies := by
  simp only [hitBoss, addScore, spawnExplosion_boss, spawnExplosion_enemies,
    spawnPowerUp_enemies, apply_ite Game.enemies, ite_self]

/-- One hit: what `collideBullet` does with an active bullet that overlaps the
active boss. -/
theorem collideBullet_boss_hit (L : Libm) (pb : Bullet) (g : Game) (ha : pb.active = true)
    (hb : g.boss.active = true) (ho : CheckCollisionRecs pb.rect g.boss.hitbox = true) :
    collideBullet L pb g = ({ pb with active := false }, hitBoss L pb g) := by
  simp only [collideBullet, ha, hb, ho, Bool.not_true, Bool.and_self, Bool.false_eq_true,
    if_false, if_true]

theorem boss_hitbox_hitBoss (L : Libm) (pb : Bullet) (g : Game) :
    (hitBoss L pb g).boss.hitbox = g.boss.hitbox := by
  rw [hitBoss_boss]
  split_ifs <;> rfl

/-- A volley of hits: `pbs` active bullets, all overlapping the active boss, at
most as many as the boss has hit points. -/
theorem collideBullets_boss_volley (L : Libm) (pbs : List Bullet) (g : Game)
    (hb : g.boss.active = true) (hh : 1 ≤ g.boss.hp)
    (hall : ∀ pb ∈ pbs, pb.active = true ∧ CheckCollisionRecs pb.rect g.boss.hitbox = true)
    (hn : (pbs.length : Int) ≤ g.boss.hp) :
    (∀ pb ∈ (collideBullets L pbs g).1, pb.active = false) ∧
    (collideBullets L pbs g).2.boss.hp = g.boss.hp - pbs.length ∧
    ((collideBullets L pbs g).2.boss.active = true ↔ (pbs.length : Int) < g.boss.hp) ∧
    (collideBullets L pbs g).2.score =
      g.score + (if (pbs.length : Int) = g.boss.hp then 1000 + g.round * 80 else 0) ∧
    (collideBullets L pbs g).2.round = g.round := by
  induction pbs generalizing g with
  | nil =>
    have hne : ¬ (0 : Int) = g.boss.hp := by omega
    refine ⟨fun pb h => absurd h (List.not_mem_nil pb), ?_, ?_, ?_, rfl⟩
    · show g.boss.hp = g.boss.hp - ((0 : Nat) : Int)
      simp
    · show g.boss.active = true ↔ ((0 : Nat) : Int) < g.boss.hp
      exact ⟨fun _ => by simpa using hh, fun _ => hb⟩
    · show g.score = g.score + (if ((0 : Nat) : Int) = g.boss.hp then _ else 0)
      simp only [Nat.cast_zero, hne, if_false, add_zero]
  | cons pb pbs ih =>
    obtain ⟨ha, ho⟩ := hall pb (List.mem_cons_self pb pbs)
    have hlen : (((pb :: pbs).length : Nat) : Int) = (pbs.length : Int) + 1 := by
      simp only [List.length_cons, Nat.cast_add, Nat.cast_one]
    rw [hlen] at hn ⊢
    simp only [collideBullets, collideBullet_boss_hit L pb g ha hb ho]
    by_cases h1 : g.boss.hp = 1
    · have hp0 : pbs = [] := by
        have : (pbs.length : Int) ≤ 0 := by omega
        exact List.length_eq_zero.mp (by omega)
      subst hp0
      have hle : g.boss.hp - 1 ≤ 0 := by omega
      refine ⟨?_, ?_, ?_, ?_, ?_⟩
      · intro b hm
        simp only [collideBullets, List.mem_singleton] at hm
        rw [hm]
      · simp only [collideBullets, hitBoss_boss, hle, if_true, List.length_nil, Nat.cast_zero]
        omega
      · simp only [collideBullets, hitBoss_boss, hle, if_true, List.length_nil, Nat.cast_zero]
        constructor
        · intro h; exact absurd h (by simp)
        · intro h; omega
      · simp only [collideBullets, hitBoss_score, hle, if_true, List.length_nil, Nat.cast_zero]
        rw [if_pos (by omega)]
      · simp only [collideBullets, hitBoss_round]
    · have hgt : ¬ (g.boss.hp - 1 ≤ 0) := by omega
      have hb1 : (hitBoss L pb g).boss.active = true := by
        rw [hitBoss_boss, if_neg hgt]
        exact hb
      have hh1 : (hitBoss L pb g).boss.hp = g.boss.hp - 1 := by
        rw [hitBoss_boss, if_neg hgt]
      have hall1 : ∀ b ∈ pbs, b.active = true ∧
          CheckCollisionRecs b.rect (hitBoss L pb g).boss.hitbox = true := by
        intro b hm
        rw [boss_hitbox_hitBoss]
        exact hall b (List.mem_cons_of_mem pb hm)
      obtain ⟨i1, i2, i3, i4, i5⟩ := ih (hitBoss L pb g) hb1 (by omega) hall1 (by omega)
      refine ⟨?_, ?_, ?_, ?_, ?_⟩
      · intro b hm
        rcases List.mem_cons.mp hm with hm | hm
        · rw [hm]
        · exact i1 b hm
      · rw [i2, hh1]
        omega
      · rw [i3, hh1]
        constructor <;> intro h <;> omega
      · rw [i4, hitBoss_score, if_neg hgt, hh1, hitBoss_round]
        by_cases hc : (pbs.length : Int) = g.boss.hp - 1
        · rw [if_pos hc, if_pos (by omega)]
        · rw [if_neg hc, if_neg (by omega)]
      · rw [i5, hitBoss_round]

/-- C7. For an active boss with `hp >= 1`: an active player bullet that overlaps
the boss hitbox is consumed, lowers `hp` by exactly 1 and is not tested
against the enemies; the boss stays active unless that hit brings `hp` to 0,
and exactly then the score rises by `1000 + round * 80`.  For a volley of `n`
such bullets with `n <= hp`, `hp` drops by `n`, the boss is still active
after it exactly when `n < hp`, and the bonus is paid exactly when `n = hp`:
from `hp = maxHp` the boss goes on the `maxHp`-th hit, not before. -/
theorem boss_loses_one_hp_per_hit (L : Libm) (g : Game) (hb : g.boss.active = true)
    (hh : 1 ≤ g.boss.hp) :
    (∀ pb : Bullet, pb.active = true → CheckCollisionRecs pb.rect g.boss.hitbox = true →
      (collideBullet L pb g).1.active = false ∧
      (collideBullet L pb g).2.boss.hp = g.boss.hp - 1 ∧
      ((collideBullet L pb g).2.boss.active = true ↔ 1 < g.boss.hp) ∧
      (collideBullet L pb g).2.score =
        g.score + (if g.boss.hp = 1 then 1000 + g.round * 80 else 0) ∧
      (collideBullet L pb g).2.enemies = g.enemies) ∧
    (∀ pbs : List Bullet,
      (∀ pb ∈ pbs, pb.active = true ∧ CheckCollisionRecs pb.rect g.boss.hitbox = true) →
      (pbs.length : Int) ≤ g.boss.hp →
      (∀ pb ∈ (collideBullets L pbs g).1, pb.active = false) ∧
      (collideBullets L pbs g).2.boss.hp = g.boss.hp - pbs.length ∧
      ((collideBullets L pbs g).2.boss.active = true ↔ (pbs.length : Int) < g.boss.hp) ∧
      (collideBullets L pbs g).2.score =
        g.score + (if (pbs.length : Int) = g.boss.hp then 1000 + g.round * 80 else 0)) := by
  constructor
  · intro pb ha ho
    rw [collideBullet_boss_hit L pb g ha hb ho]
    refine ⟨rfl, ?_, ?_, ?_, hitBoss_enemies L pb g⟩
    · show (hitBoss L pb g).boss.hp = _
      rw [hitBoss_boss]
      split_ifs <;> rfl
    · show (hitBoss L pb g).boss.active = true ↔ _
      rw [hitBoss_boss]
      split_ifs with h
      · exact ⟨fun h' => absurd h' (by simp), fun h' => by omega⟩
      · exact ⟨fun _ => by omega, fun _ => hb⟩
    · show (hitBoss L pb g).score = _
      rw [hitBoss_score]
      by_cases h1 : g.boss.hp = 1
      · rw [if_pos (by omega), if_pos h1]
      · rw [if_neg (by omega), if_neg h1, add_zero]
  · intro pbs hall hn
    obtain ⟨i1, i2, i3, i4, -⟩ := collideBullets_boss_volley L pbs g hb hh hall hn
    exact ⟨i1, i2, i3, i4⟩
set_option maxRecDepth 100000 in
theorem boss_loses_one_hp_per_hit_witness :
    bossRound.boss.active = true ∧ 1 ≤ bossRound.boss.hp ∧
    (collideBullet refLibm { x := 240, y := 150, vy := -BULLET_SPEED, active := true }
      bossRound).2.boss.hp = 11 :=
  ⟨by decide!, by decide!,
    ((boss_loses_one_hp_per_hit refLibm bossRound (by decide!) (by decide!)).1
      { x := 240, y := 150, vy := -BULLET_SPEED, active := true } rfl (by decide!)).2.1.trans
      (by decide!)⟩

/-! ## Power-up drops -/

theorem spawnPowerUp_powerUps (x y : ℚ) (g : Game) :
    (spawnPowerUp x y g).powerUps =
      if (GetRandomValue 0 99 g).1 > 22 then g.powerUps
      else g.powerUps ++
        [{ type :=
            if (GetRandomValue 0 99 (GetRandomValue 0 99 g).2).1 < 50 then PowerUpType.FIRE_RATE
            else if (GetRandomValue 0 99 (GetRandomValue 0 99 g).2).1 < 80 then
              PowerUpType.DOUBLE_SHOT
            else PowerUpType.TRIPLE_SHOT,
           x := x, y := y }] := by
  simp only [spawnPowerUp]
  split_ifs <;> simp only [GetRandomValue_powerUps]

/-- C6, as amended. When a player-bullet hit brings the boss's hp to 0, the
drop is the one `spawnPowerUp(boss.x, boss.y)` makes on the generator state
`g2` reached after the two explosions: a power-up at the boss position is
added when the first roll of 0..99 is at most 22, and none is added when it
is above 22. -/
theorem boss_death_drop_depends_on_roll (L : Libm) (pb : Bullet) (g : Game)
    (h : g.boss.hp - 1 ≤ 0) :
    ∃ g2 : Game, g2.powerUps = g.powerUps ∧
      hitBoss L pb g = spawnPowerUp g.boss.x g.boss.y g2 ∧
      ((GetRandomValue 0 99 g2).1 ≤ 22 →
        ∃ t : PowerUpType, (hitBoss L pb g).powerUps =
          g.powerUps ++ [{ type := t, x := g.boss.x, y := g.boss.y, vy := 100, active := true }]) ∧
      (22 < (GetRandomValue 0 99 g2).1 → (hitBoss L pb g).powerUps = g.powerUps) := by
  have hb : (spawnExplosion L pb.x pb.y
      { g with boss := { g.boss with hp := g.boss.hp - 1 } }).boss.hp ≤ 0 := by
    rw [spawnExplosion_boss]
    exact h
  have key : ∃ g2 : Game, g2.powerUps = g.powerUps ∧
      hitBoss L pb g = spawnPowerUp g.boss.x g.boss.y g2 := by
    unfold hitBoss
    simp only
    rw [if_pos hb]
    refine ⟨?w, ?h1, ?h2⟩
    case h2 =>
      simp only [spawnExplosion_boss, addScore]
      exact rfl
    case h1 => simp only [spawnExplosion_powerUps]
  obtain ⟨g2, hp, he⟩ := key
  refine ⟨g2, hp, he, ?_, ?_⟩
  · intro hr
    rw [he, spawnPowerUp_powerUps, if_neg (by omega), hp]
    exact ⟨_, rfl⟩
  · intro hr
    rw [he, spawnPowerUp_powerUps, if_pos (by omega), hp]

set_option maxRecDepth 1000000 in
/-- C6, counterexample. In the boss round state `lastHit` (boss at 1 hit point,
a player bullet on it, all raw random values 50) the frame kills the boss:
hp 0, inactive, bonus of 1240 paid; but the drop roll is 50 > 22 and no
power-up is added. -/
theorem boss_death_without_power_up :
    lastHit.boss.active = true ∧ lastHit.boss.hp = 1 ∧ lastHit.powerUps = [] ∧
    (update refLibm { dt := 0 } lastHit).boss.hp = 0 ∧
    (update refLibm { dt := 0 } lastHit).boss.active = false ∧
    (update refLibm { dt := 0 } lastHit).score = lastHit.score + 1240 ∧
    (update refLibm { dt := 0 } lastHit).powerUps = [] ∧
    (collisionStep refLibm lastHit).powerUps = [] := by
  decide!

set_option maxRecDepth 1000000 in
theorem boss_death_drop_depends_on_roll_witness :
    lastHitLucky.boss.hp - 1 ≤ 0 ∧
    (update refLibm { dt := 0 } lastHitLucky).powerUps =
      [{ type := PowerUpType.FIRE_RATE, x := 240, y := 130 }] ∧
    ∃ g2 : Game, g2.powerUps = lastHitLucky.powerUps ∧
      hitBoss refLibm { x := 240, y := 150, vy := -BULLET_SPEED, active := true } lastHitLucky =
        spawnPowerUp lastHitLucky.boss.x lastHitLucky.boss.y g2 ∧
      ((GetRandomValue 0 99 g2).1 ≤ 22 →
        ∃ t : PowerUpType,
          (hitBoss refLibm { x := 240, y := 150, vy := -BULLET_SPEED, active := true }
            lastHitLucky).powerUps =
          lastHitLucky.powerUps ++
            [{ type := t, x := lastHitLucky.boss.x, y := lastHitLucky.boss.y, vy := 100,
               active := true }]) ∧
      (22 < (GetRandomValue 0 99 g2).1 →
        (hitBoss refLibm { x := 240, y := 150, vy := -BULLET_SPEED, active := true }
          lastHitLucky).powerUps = lastHitLucky.powerUps) :=
  ⟨by decide!, by decide!,
    boss_death_drop_depends_on_roll refLibm
      { x := 240, y := 150, vy := -BULLET_SPEED, active := true } lastHitLucky (by decide!)⟩
/-! ## Stage clear and the lethal checks -/

theorem checkStageClear_aliveCount (g : Game) : aliveCount (checkStageClear g) = aliveCount g := by
  unfold checkStageClear
  split <;> rfl

theorem checkStageClear_boss (g : Game) : (checkStageClear g).boss = g.boss := by
  unfold checkStageClear
  split <;> rfl

/-- C5, as amended. If after an `updatePlaying` call no boss is active and no
enemy is alive, the call ends in STAGE_CLEAR with `stateTimer = 2` when the
player was not killed in it; when the player was killed in it (the lethal
checks return before the stage-clear check) it ends in PLAYER_DEAD, one life
down, and the stage-clear transition is not taken in that call. -/
theorem stage_clear_in_same_frame_unless_killed (L : Libm) (inp : Input) (g : Game)
    (h0 : aliveCount (updatePlaying L inp g) = 0)
    (hb : (updatePlaying L inp g).boss.active = false) :
    ((lethalChecks L (playingFrame L inp g)).2 = false →
      (updatePlaying L inp g).state = GameState.STAGE_CLEAR ∧
      (updatePlaying L inp g).stateTimer = 2) ∧
    ((lethalChecks L (playingFrame L inp g)).2 = true →
      (updatePlaying L inp g).state = GameState.PLAYER_DEAD ∧
      (updatePlaying L inp g).player.lives = g.player.lives - 1) := by
  have hl : (playingFrame L inp g).player.lives = g.player.lives :=
    (playStep_playingFrame L inp g).lives
  unfold updatePlaying at h0 hb ⊢
  rcases lethalChecks_cases L (playingFrame L inp g) with h | ⟨-, h2, h3⟩
  · rw [h] at h0 hb ⊢
    simp only [Bool.false_eq_true, if_false, false_implies, and_true, true_implies] at h0 hb ⊢
    rw [checkStageClear_aliveCount] at h0
    rw [checkStageClear_boss] at hb
    unfold checkStageClear
    rw [if_pos ⟨h0, hb⟩]
    exact ⟨rfl, rfl⟩
  · simp only [h2, if_true, true_implies, Bool.true_eq_false, false_implies, true_and]
    have h4 := congrArg Core.state h3
    have h5 := congrArg Core.lives h3
    simp only [core, Core.killed] at h4 h5
    exact ⟨h4, by rw [h5, hl]⟩

set_option maxRecDepth 1000000 in
/-- C5, counterexample. Round 1, one enemy left (a diving escort), no boss. In
one frame of 1/60 s the player's bullet kills that enemy and an enemy bullet
hits the player: afterwards no enemy is alive and no boss is active, but the
flow state is PLAYER_DEAD, not STAGE_CLEAR. -/
theorem last_enemy_killed_but_player_dead :
    lastEnemyShotUnderFire.state = GameState.PLAYING ∧ lastEnemyShotUnderFire.round = 1 ∧
    aliveCount lastEnemyShotUnderFire = 1 ∧
    aliveCount (updatePlaying refLibm { dt := 1 / 60 } lastEnemyShotUnderFire) = 0 ∧
    (updatePlaying refLibm { dt := 1 / 60 } lastEnemyShotUnderFire).boss.active = false ∧
    (updatePlaying refLibm { dt := 1 / 60 } lastEnemyShotUnderFire).score = 160 ∧
    (updatePlaying refLibm { dt := 1 / 60 } lastEnemyShotUnderFire).state =
      GameState.PLAYER_DEAD ∧
    (updatePlaying refLibm { dt := 1 / 60 } lastEnemyShotUnderFire).state ≠
      GameState.STAGE_CLEAR := by
  decide!

set_option maxRecDepth 1000000 in
theorem stage_clear_in_same_frame_unless_killed_witness :
    aliveCount lastEnemyShot = 1 ∧
    aliveCount (updatePlaying refLibm { dt := 1 / 60 } lastEnemyShot) = 0 ∧
    (updatePlaying refLibm { dt := 1 / 60 } lastEnemyShot).boss.active = false ∧
    (updatePlaying refLibm { dt := 1 / 60 } lastEnemyShot).state = GameState.STAGE_CLEAR ∧
    (updatePlaying refLibm { dt := 1 / 60 } lastEnemyShot).stateTimer = 2 :=
  ⟨by decide!, by decide!, by decide!,
    (stage_clear_in_same_frame_unless_killed refLibm { dt := 1 / 60 } lastEnemyShot
      (by decide!) (by decide!)).1 (by decide!)⟩
theorem killPlayer_alive (L : Libm) (g : Game) :
    (killPlayer L g).enemies.map (fun e => e.alive) = g.enemies.map (fun e => e.alive) := by
  unfold killPlayer
  split
  · rfl
  · simp only [spawnExplosion_enemies, List.map_map]
    apply List.map_congr_left
    intro e _
    simp only [Function.comp]
    split <;> rfl

theorem aliveCount_eq_of_alive_eq (g g' : Game)
    (h : g'.enemies.map (fun e => e.alive) = g.enemies.map (fun e => e.alive)) :
    aliveCount g' = aliveCount g := by
  have key : ∀ es : List Enemy, (es.filter (fun e => e.alive)).length =
      ((es.map (fun e => e.alive)).filter id).length := by
    intro es
    induction es with
    | nil => rfl
    | cons e es ih =>
      cases he : e.alive <;> simp [List.filter_cons, he, ih]
  unfold aliveCount
  rw [key, key, h]

theorem hitByBullet_isSome (hb : Rectangle) (bs : List Bullet)
    (h : ∃ b ∈ bs, b.active = true ∧ CheckCollisionRecs b.rect hb = true) :
    ∃ bs', hitByBullet hb bs = some bs' := by
  induction bs with
  | nil =>
    obtain ⟨b, hm, _⟩ := h
    exact absurd hm (List.not_mem_nil b)
  | cons b bs ih =>
    unfold hitByBullet
    by_cases ha : b.active = true
    · by_cases ho : CheckCollisionRecs b.rect hb = true
      · simp only [ha, ho, Bool.not_true, Bool.false_eq_true, if_false, if_true]
        exact ⟨_, rfl⟩
      · obtain ⟨b', hm, ha', ho'⟩ := h
        rcases List.mem_cons.mp hm with hm | hm
        · rw [hm] at ho'
          exact absurd ho' ho
        · obtain ⟨bs', hbs⟩ := ih ⟨b', hm, ha', ho'⟩
          simp only [ha, ho, Bool.not_true, Bool.false_eq_true, if_false, hbs, Option.map_some']
          exact ⟨_, rfl⟩
    · obtain ⟨b', hm, ha', ho'⟩ := h
      rcases List.mem_cons.mp hm with hm | hm
      · rw [hm] at ha'
        exact absurd ha' ha
      · obtain ⟨bs', hbs⟩ := ih ⟨b', hm, ha', ho'⟩
        have ha2 : b.active = false := by simpa using ha
        simp only [ha2, Bool.not_false, if_true, hbs, Option.map_some']
        exact ⟨_, rfl⟩

/-- The body-contact loop kills exactly one enemy when it finds one. -/
theorem hitByDiver_count (hb : Rectangle) (es : List Enemy) (e : Enemy) (es' : List Enemy)
    (h : hitByDiver hb es = some (e, es')) :
    ((es'.filter (fun e => e.alive)).length : Int) + 1 = (es.filter (fun e => e.alive)).length := by
  induction es generalizing es' with
  | nil => simp [hitByDiver] at h
  | cons a as ih =>
    unfold hitByDiver at h
    split_ifs at h with h1 h2
    · cases hr : hitByDiver hb as with
      | none => simp [hr] at h
      | some r =>
        rw [hr] at h
        simp only [Option.map_some', Option.some.injEq, Prod.mk.injEq] at h
        obtain ⟨h3, h4⟩ := h
        have := ih r.2 (by rw [hr, ← h3])
        rw [← h4]
        cases ha : a.alive <;> simp [List.filter_cons, ha] <;> omega
    · simp only [Option.some.injEq, Prod.mk.injEq] at h
      obtain ⟨_, h4⟩ := h
      have ha : a.alive = true := by
        simp only [Bool.or_eq_true, Bool.not_eq_true', decide_eq_true_eq, not_or] at h1
        simpa using h1.1
      rw [← h4]
      simp [List.filter_cons, ha]
    · cases hr : hitByDiver hb as with
      | none => simp [hr] at h
      | some r =>
        rw [hr] at h
        simp only [Option.map_some', Option.some.injEq, Prod.mk.injEq] at h
        obtain ⟨h3, h4⟩ := h
        have := ih r.2 (by rw [hr, ← h3])
        rw [← h4]
        cases ha : a.alive <;> simp [List.filter_cons, ha] <;> omega
theorem coreStep_lives {start : Bool} {c c' : Core} (hi : CoreInv c) (h : CoreStep start c c') :
    c.lives - 1 ≤ c'.lives := by
  have h0 : c.lives - 1 ≤ c.lives := by omega
  cases h with
  | attractIdle _ _ => exact h0
  | attractStart _ _ =>
    have := hi.livesHi
    show c.lives - 1 ≤ 3
    omega
  | play m _ hm => rw [hm.lives]; exact h0
  | playKilled m _ hm =>
    show c.lives - 1 ≤ m.lives - 1
    rw [hm.lives]
  | playClear m _ hm =>
    show c.lives - 1 ≤ m.lives
    rw [hm.lives]; exact h0
  | deadWait _ => exact h0
  | deadOver _ _ => exact h0
  | deadRespawn _ _ => exact h0
  | overWait _ => exact h0
  | overAttract _ => exact h0
  | clearWait _ => exact h0
  | clearNext _ => exact h0

/-- The lethal checks lower the lives by at most one and kill at most one
enemy by body contact. -/
theorem lethalChecks_at_most_one (L : Libm) (s : Game) :
    s.player.lives - 1 ≤ (lethalChecks L s).1.player.lives ∧
    aliveCount s - 1 ≤ aliveCount (lethalChecks L s).1 := by
  constructor
  · rcases lethalChecks_cases L s with h | ⟨-, -, h⟩
    · rw [h]
      show s.player.lives - 1 ≤ s.player.lives
      omega
    · have := congrArg Core.lives h
      simp only [core, Core.killed] at this
      rw [this]
  · have hself : aliveCount s - 1 ≤ aliveCount s := by omega
    unfold lethalChecks
    by_cases hi : (!s.player.invincible) = true
    · rw [if_pos hi]
      cases hb : hitByBullet s.player.hitbox s.eBullets with
      | some bs =>
        simp only
        rw [aliveCount_eq_of_alive_eq _ _ (killPlayer_alive L _)]
        exact hself
      | none =>
        simp only
        cases hd : hitByDiver s.player.hitbox s.enemies with
        | some r =>
          obtain ⟨e, es⟩ := r
          simp only
          rw [aliveCount_eq_of_alive_eq _ _ (killPlayer_alive L _)]
          have h1 := hitByDiver_count _ _ _ _ hd
          unfold aliveCount
          rw [spawnExplosion_enemies]
          show ((s.enemies.filter (fun e => e.alive)).length : Int) - 1 ≤
            (es.filter (fun e => e.alive)).length
          omega
        | none =>
          simp only
          split_ifs
          · rw [aliveCount_eq_of_alive_eq _ _ (killPlayer_alive L _)]
            exact hself
          · exact hself
    · rw [if_neg hi]
      exact hself

/-- C4. First hit wins.  In every reachable state one `update` call lowers the
player's lives by at most 1.  Whatever overlaps the player, the lethal checks
of `updatePlaying` lower the lives by at most 1 and kill at most one enemy by
body contact.  And when the player is not invincible and some active enemy
bullet overlaps the player's hitbox, the checks return on that bullet: the
player loses exactly one life and no enemy is killed by body contact (the
alive flags of the roster are unchanged). -/
theorem first_lethal_hit_wins (L : Libm) (g : Game) (hg : Reachable L g) (inp : Input) :
    g.player.lives - 1 ≤ (update L inp g).player.lives ∧
    (∀ s : Game, s.player.lives - 1 ≤ (lethalChecks L s).1.player.lives ∧
      aliveCount s - 1 ≤ aliveCount (lethalChecks L s).1) ∧
    (∀ s : Game, s.player.invincible = false →
      (∃ b ∈ s.eBullets, b.active = true ∧ CheckCollisionRecs b.rect s.player.hitbox = true) →
      (lethalChecks L s).2 = true ∧
      (lethalChecks L s).1.player.lives = s.player.lives - 1 ∧
      (lethalChecks L s).1.state = GameState.PLAYER_DEAD ∧
      (lethalChecks L s).1.enemies.map (fun e => e.alive) = s.enemies.map (fun e => e.alive)) := by
  refine ⟨coreStep_lives (reachable_coreInv L g hg) (update_coreStep L inp g),
    lethalChecks_at_most_one L, ?_⟩
  intro s hi hb
  obtain ⟨bs, hbs⟩ := hitByBullet_isSome _ _ hb
  have he : lethalChecks L s = (killPlayer L { s with eBullets := bs }, true) := by
    unfold lethalChecks
    simp only [hi, Bool.not_false, if_true, hbs]
  have hc := core_killPlayer L { s with eBullets := bs } hi
  rw [he]
  refine ⟨rfl, ?_, ?_, ?_⟩
  · exact congrArg Core.lives hc
  · exact congrArg Core.state hc
  · exact killPlayer_alive L { s with eBullets := bs }

set_option maxRecDepth 1000000 in
theorem first_lethal_hit_wins_witness :
    Reachable refLibm (Game.start []) ∧
    crowded.player.invincible = false ∧ crowded.player.lives = 3 ∧
    (crowded.enemies.map (fun e => e.alive) = [true, true]) ∧
    (lethalChecks refLibm crowded).1.player.lives = crowded.player.lives - 1 ∧
    (lethalChecks refLibm crowded).1.enemies.map (fun e => e.alive) =
      crowded.enemies.map (fun e => e.alive) :=
  ⟨Reachable.start [], by decide!, by decide!, by decide!,
    ((first_lethal_hit_wins refLibm (Game.start []) (Reachable.start []) {}).2.2 crowded
      (by decide!) (by decide!)).2.1,
    ((first_lethal_hit_wins refLibm (Game.start []) (Reachable.start []) {}).2.2 crowded
      (by decide!) (by decide!)).2.2.2⟩
/-! ## Re-entry at frame level -/

theorem formationX_congr (g g' : Game) (h : formCore g' = formCore g) (c : Int) :
    formationX g' c = formationX g c := by
  simp only [formCore, Prod.mk.injEq] at h
  simp only [formationX, h.1]

theorem formationY_congr (L : Libm) (g g' : Game) (h : formCore g' = formCore g) (r c : Int) :
    formationY L g' r c = formationY L g r c := by
  simp only [formCore, Prod.mk.injEq] at h
  simp only [formationY, h.1, h.2.1, h.2.2]

theorem formCore_spawnExplosion (L : Libm) (cx cy : ℚ) (g : Game) :
    formCore (spawnExplosion L cx cy g) = formCore g := by
  simp only [formCore, spawnExplosion_formOffX, spawnExplosion_formOffY,
    spawnExplosion_formSineT]

theorem formCore_spawnPowerUp (x y : ℚ) (g : Game) :
    formCore (spawnPowerUp x y g) = formCore g := by
  simp only [formCore, spawnPowerUp_formOffX, spawnPowerUp_formOffY, spawnPowerUp_formSineT]

theorem formCore_updateDiving (L : Libm) (g : Game) (e : Enemy) (dt : ℚ) :
    formCore (updateDiving L g e dt).2 = formCore g := by
  unfold updateDiving
  simp only
  split_ifs <;> rfl

theorem formCore_updateDivers (L : Libm) (dt : ℚ) (es : List Enemy) (g : Game) :
    formCore (updateDivers L dt es g).2 = formCore g := by
  induction es generalizing g with
  | nil => rfl
  | cons e es ih =>
    simp only [updateDivers]
    rw [ih]
    split_ifs <;> first | rfl | exact formCore_updateDiving L g e dt

theorem formCore_updateBoss (L : Libm) (dt : ℚ) (g : Game) :
    formCore (updateBoss L dt g) = formCore g := by
  unfold updateBoss
  simp only [fireBossVolley]
  split_ifs <;> rfl

theorem formCore_bossStep (L : Libm) (dt : ℚ) (g : Game) :
    formCore (bossStep L dt g) = formCore g := by
  unfold bossStep
  split
  · exact formCore_updateBoss L dt g
  · rfl

theorem formCore_updatePowerUps (dt : ℚ) (ps : List PowerUp) (g : Game) :
    formCore (updatePowerUps dt ps g).2 = formCore g ∧
    (updatePowerUps dt ps g).2.enemies = g.enemies := by
  induction ps generalizing g with
  | nil => exact ⟨rfl, rfl⟩
  | cons p ps ih =>
    simp only [updatePowerUps]
    split_ifs
    · exact ih g
    · obtain ⟨h1, h2⟩ := ih (applyPowerUp p.type g)
      rw [h1, h2]
      cases p.type <;> exact ⟨rfl, rfl⟩
    · exact ih g
    · obtain ⟨h1, h2⟩ := ih (applyPowerUp p.type g)
      rw [h1, h2]
      cases p.type <;> exact ⟨rfl, rfl⟩
    · exact ih g

theorem formCore_hitBoss (L : Libm) (pb : Bullet) (g : Game) :
    formCore (hitBoss L pb g) = formCore g := by
  simp only [hitBoss, addScore, formCore, apply_ite Game.formOffX, apply_ite Game.formOffY, apply_ite Game.formSineT, ite_self, spawnExplosion_boss, spawnExplosion_formOffX,
    spawnExplosion_formOffY, spawnExplosion_formSineT, spawnPowerUp_formOffX,
    spawnPowerUp_formOffY, spawnPowerUp_formSineT]

theorem formCore_killEnemy (L : Libm) (e : Enemy) (es : List Enemy) (g : Game) :
    formCore (killEnemy L e es g) = formCore g := by
  unfold killEnemy
  simp only
  rw [formCore_spawnPowerUp, formCore_spawnExplosion]
  rfl

theorem killEnemy_enemies (L : Libm) (e : Enemy) (es : List Enemy) (g : Game) :
    (killEnemy L e es g).enemies = es := by
  unfold killEnemy
  simp only
  rw [spawnPowerUp_enemies, spawnExplosion_enemies]
  rfl

theorem keepsPlace_refl (e : Enemy) : KeepsPlace e e := ⟨rfl, rfl, rfl, rfl, id⟩

theorem keepsPlace_trans {a b c : Enemy} (h₁ : KeepsPlace a b) (h₂ : KeepsPlace b c) :
    KeepsPlace a c :=
  ⟨h₂.1.trans h₁.1, h₂.2.1.trans h₁.2.1, h₂.2.2.1.trans h₁.2.2.1,
    h₂.2.2.2.1.trans h₁.2.2.2.1, fun h => h₂.2.2.2.2 (h₁.2.2.2.2 h)⟩

theorem keepsPlace_list_refl (es : List Enemy) : List.Forall₂ KeepsPlace es es := by
  induction es with
  | nil => exact List.Forall₂.nil
  | cons e es ih => exact List.Forall₂.cons (keepsPlace_refl e) ih

theorem forall₂_compose {α : Type} {R S T : α → α → Prop} {as bs cs : List α}
    (h₁ : List.Forall₂ R as bs) (h₂ : List.Forall₂ S bs cs)
    (h : ∀ a b c, R a b → S b c → T a c) : List.Forall₂ T as cs := by
  induction h₁ generalizing cs with
  | nil =>
    cases h₂
    exact List.Forall₂.nil
  | cons hab _ ih =>
    cases h₂ with
    | cons hbc hrest => exact List.Forall₂.cons (h _ _ _ hab hbc) (ih hrest)

theorem keepsPlace_list_trans {as bs cs : List Enemy} (h₁ : List.Forall₂ KeepsPlace as bs)
    (h₂ : List.Forall₂ KeepsPlace bs cs) : List.Forall₂ KeepsPlace as cs :=
  forall₂_compose h₁ h₂ (fun _ _ _ => keepsPlace_trans)

theorem keepsPlace_list_map (f : Enemy → Enemy) (hf : ∀ e, KeepsPlace e (f e))
    (es : List Enemy) : List.Forall₂ KeepsPlace es (es.map f) := by
  induction es with
  | nil => exact List.Forall₂.nil
  | cons e es ih => exact List.Forall₂.cons (hf e) ih

theorem keepsPlace_hitFirstEnemy (br : Rectangle) (es : List Enemy) (e : Enemy)
    (es' : List Enemy) (h : hitFirstEnemy br es = some (e, es')) :
    List.Forall₂ KeepsPlace es es' := by
  induction es generalizing es' with
  | nil => simp [hitFirstEnemy] at h
  | cons a as ih =>
    unfold hitFirstEnemy at h
    split_ifs at h
    · cases hr : hitFirstEnemy br as with
      | none => simp [hr] at h
      | some r =>
        rw [hr] at h
        simp only [Option.map_some', Option.some.injEq, Prod.mk.injEq] at h
        rw [← h.2]
        exact List.Forall₂.cons (keepsPlace_refl a) (ih r.2 (by rw [hr, ← h.1]))
    · simp only [Option.some.injEq, Prod.mk.injEq] at h
      rw [← h.2]
      exact List.Forall₂.cons ⟨rfl, rfl, rfl, rfl, id⟩ (keepsPlace_list_refl as)
    · cases hr : hitFirstEnemy br as with
      | none => simp [hr] at h
      | some r =>
        rw [hr] at h
        simp only [Option.map_some', Option.some.injEq, Prod.mk.injEq] at h
        rw [← h.2]
        exact List.Forall₂.cons (keepsPlace_refl a) (ih r.2 (by rw [hr, ← h.1]))

theorem keepsPlace_hitByDiver (hb : Rectangle) (es : List Enemy) (e : Enemy)
    (es' : List Enemy) (h : hitByDiver hb es = some (e, es')) :
    List.Forall₂ KeepsPlace es es' := by
  induction es generalizing es' with
  | nil => simp [hitByDiver] at h
  | cons a as ih =>
    unfold hitByDiver at h
    split_ifs at h
    · cases hr : hitByDiver hb as with
      | none => simp [hr] at h
      | some r =>
        rw [hr] at h
        simp only [Option.map_some', Option.some.injEq, Prod.mk.injEq] at h
        rw [← h.2]
        exact List.Forall₂.cons (keepsPlace_refl a) (ih r.2 (by rw [hr, ← h.1]))
    · simp only [Option.some.injEq, Prod.mk.injEq] at h
      rw [← h.2]
      exact List.Forall₂.cons ⟨rfl, rfl, rfl, rfl, id⟩ (keepsPlace_list_refl as)
    · cases hr : hitByDiver hb as with
      | none => simp [hr] at h
      | some r =>
        rw [hr] at h
        simp only [Option.map_some', Option.some.injEq, Prod.mk.injEq] at h
        rw [← h.2]
        exact List.Forall₂.cons (keepsPlace_refl a) (ih r.2 (by rw [hr, ← h.1]))
theorem settled_refl (g : Game) : Settled g g := ⟨rfl, keepsPlace_list_refl _⟩

theorem settled_trans {a b c : Game} (h₁ : Settled a b) (h₂ : Settled b c) : Settled a c :=
  ⟨h₂.1.trans h₁.1, keepsPlace_list_trans h₁.2 h₂.2⟩

theorem settled_of_eq {g g' : Game} (h₁ : formCore g' = formCore g)
    (h₂ : g'.enemies = g.enemies) : Settled g g' :=
  ⟨h₁, h₂ ▸ keepsPlace_list_refl _⟩

theorem settled_collideBullet (L : Libm) (pb : Bullet) (g : Game) :
    Settled g (collideBullet L pb g).2 := by
  unfold collideBullet
  simp only
  split_ifs
  · exact settled_refl g
  · exact settled_of_eq (formCore_hitBoss L pb g) (hitBoss_enemies L pb g)
  · split
    · exact settled_refl g
    · rename_i e es he
      refine ⟨formCore_killEnemy L e es g, ?_⟩
      rw [killEnemy_enemies]
      exact keepsPlace_hitFirstEnemy _ _ _ _ he

theorem settled_collideBullets (L : Libm) (pbs : List Bullet) (g : Game) :
    Settled g (collideBullets L pbs g).2 := by
  induction pbs generalizing g with
  | nil => exact settled_refl g
  | cons pb pbs ih =>
    simp only [collideBullets]
    exact settled_trans (settled_collideBullet L pb g) (ih _)

theorem settled_killPlayer (L : Libm) (g : Game) : Settled g (killPlayer L g) := by
  unfold killPlayer
  split
  · exact settled_refl g
  · refine ⟨?_, ?_⟩
    · simp only [formCore, spawnExplosion_formOffX, spawnExplosion_formOffY,
        spawnExplosion_formSineT]
    · simp only [spawnExplosion_enemies]
      apply keepsPlace_list_map
      intro e
      split
      · exact ⟨rfl, rfl, rfl, rfl, fun _ => rfl⟩
      · exact keepsPlace_refl e

theorem settled_lethalChecks (L : Libm) (g : Game) : Settled g (lethalChecks L g).1 := by
  unfold lethalChecks
  by_cases hi : (!g.player.invincible) = true
  · rw [if_pos hi]
    cases hb : hitByBullet g.player.hitbox g.eBullets with
    | some bs =>
      simp only
      exact settled_trans (settled_of_eq rfl rfl) (settled_killPlayer L _)
    | none =>
      simp only
      cases hd : hitByDiver g.player.hitbox g.enemies with
      | some r =>
        obtain ⟨e, es⟩ := r
        simp only
        refine settled_trans ?_ (settled_killPlayer L _)
        refine ⟨?_, ?_⟩
        · rw [formCore_spawnExplosion]
          rfl
        · rw [spawnExplosion_enemies]
          exact keepsPlace_hitByDiver _ _ _ _ hd
      | none =>
        simp only
        split_ifs
        · exact settled_killPlayer L g
        · exact settled_refl g
  · rw [if_neg hi]
    exact settled_refl g

theorem settled_checkStageClear (g : Game) : Settled g (checkStageClear g) := by
  unfold checkStageClear
  split
  · exact settled_of_eq rfl rfl
  · exact settled_refl g

theorem updateBoss_enemies (L : Libm) (dt : ℚ) (g : Game) :
    (updateBoss L dt g).enemies = g.enemies := by
  unfold updateBoss
  simp only [fireBossVolley]
  split_ifs <;> rfl

theorem settled_bossStep (L : Libm) (dt : ℚ) (g : Game) : Settled g (bossStep L dt g) := by
  refine settled_of_eq (formCore_bossStep L dt g) ?_
  unfold bossStep
  split
  · exact updateBoss_enemies L dt g
  · rfl

theorem settled_moveEnemyBullets (dt : ℚ) (g : Game) : Settled g (moveEnemyBullets dt g) :=
  settled_of_eq rfl rfl

theorem settled_compact (g : Game) : Settled g (compact g) := settled_of_eq rfl rfl

theorem settled_powerUpStep (dt : ℚ) (g : Game) : Settled g (powerUpStep dt g) :=
  settled_of_eq (formCore_updatePowerUps dt g.powerUps g).1
    (formCore_updatePowerUps dt g.powerUps g).2

theorem settled_collisionStep (L : Libm) (g : Game) : Settled g (collisionStep L g) :=
  settled_collideBullets L g.pBullets g

theorem playingFrame_eq (L : Libm) (inp : Input) (g : Game) :
    playingFrame L inp g =
      compact (collisionStep L (powerUpStep inp.dt (bossStep L inp.dt
        (moveEnemyBullets inp.dt (diversStep L inp.dt (beforeDivers L inp g)))))) := by
  unfold playingFrame beforeDivers
  rfl

/-- Everything `updatePlaying` does after the dive/return loop leaves the
formation parameters alone and every enemy in place. -/
theorem settled_after_divers (L : Libm) (inp : Input) (g : Game) :
    Settled (diversStep L inp.dt (beforeDivers L inp g)) (updatePlaying L inp g) := by
  have h1 : Settled (diversStep L inp.dt (beforeDivers L inp g)) (playingFrame L inp g) := by
    rw [playingFrame_eq]
    exact settled_trans (settled_moveEnemyBullets _ _)
      (settled_trans (settled_bossStep L _ _)
        (settled_trans (settled_powerUpStep _ _)
          (settled_trans (settled_collisionStep L _) (settled_compact _))))
  unfold updatePlaying
  refine settled_trans h1 ?_
  have h2 := settled_lethalChecks L (playingFrame L inp g)
  show Settled _ (if (lethalChecks L (playingFrame L inp g)).2 = true then
    (lethalChecks L (playingFrame L inp g)).1
    else checkStageClear (lethalChecks L (playingFrame L inp g)).1)
  split_ifs
  · exact h2
  · exact settled_trans h2 (settled_checkStageClear _)

theorem updateReturning_reentry (L : Libm) (g : Game) (e : Enemy) (dt : ℚ)
    (h : e.retT + (e.diveSpeed * 0.8 / 700) * dt ≥ 1) :
    (updateReturning L g e dt).state = EnemyState.IN_FORMATION ∧
    (updateReturning L g e dt).x = formationX g e.col ∧
    (updateReturning L g e dt).y = formationY L g e.row e.col := by
  simp only [updateReturning, h, if_true, and_self]

theorem reenteredOn_updateDivers (L : Libm) (dt : ℚ) (es : List Enemy) (g g0 : Game)
    (h : formCore g = formCore g0) :
    List.Forall₂ (ReenteredOn L dt g0) es (updateDivers L dt es g).1 := by
  induction es generalizing g with
  | nil => exact List.Forall₂.nil
  | cons e es ih =>
    simp only [updateDivers]
    refine List.Forall₂.cons ?_ (ih _ ?_)
    · intro ha hs hr
      have hnd : ¬ (EnemyState.RETURNING = EnemyState.DIVING) := by decide
      simp only [ha, Bool.not_true, Bool.false_eq_true, if_false, hs, hnd, if_true]
      obtain ⟨r1, r2, r3⟩ := updateReturning_reentry L g e dt hr
      exact ⟨r1, by rw [r2, formationX_congr g0 g h], by rw [r3, formationY_congr L g0 g h]⟩
    · split_ifs
      · exact h
      · exact (formCore_updateDiving L g e dt).trans h
      · exact h
      · exact h

/-- Re-entry at frame level: take the roster as it is when `updatePlaying`
starts the loop "Update diving / returning enemies".  Every enemy of it that
is alive and RETURNING and whose `retT` reaches 1 in this frame is, in the
state `updatePlaying` returns, IN_FORMATION and exactly on
`(formationX(col), formationY(row, col))` evaluated on that returned state. -/
theorem returning_enemy_on_slot_at_end_of_frame (L : Libm) (inp : Input) (g : Game) :
    List.Forall₂ (ReenteredOn L inp.dt (updatePlaying L inp g))
      (beforeDivers L inp g).enemies (updatePlaying L inp g).enemies := by
  have h1 := reenteredOn_updateDivers L inp.dt (beforeDivers L inp g).enemies
    (beforeDivers L inp g) (beforeDivers L inp g) rfl
  have h2 := settled_after_divers L inp g
  have hf : formCore (updatePlaying L inp g) = formCore (beforeDivers L inp g) :=
    h2.1.trans (formCore_updateDivers L inp.dt _ _)
  refine forall₂_compose h1 h2.2 ?_
  intro a b c hab hbc ha hs hr
  obtain ⟨s1, s2, s3⟩ := hab ha hs hr
  obtain ⟨k1, k2, -, -, k5⟩ := hbc
  exact ⟨k5 s1, by rw [k1, s2, formationX_congr _ _ hf], by rw [k2, s3, formationY_congr L _ _ hf]⟩

/-- C9. Zero drift on re-entry.  When `updateReturning` brings `retT` to 1 or
beyond, the enemy is IN_FORMATION again, `retT` is 1 and its position is
exactly `(formationX(col), formationY(row, col))` of the session state the
call runs on, whatever the enemy's slot, the lateral offset and the rest of
the state.  And at frame level: every enemy that is alive and RETURNING when
`updatePlaying` starts its dive/return loop and whose `retT` reaches 1 in the
frame is IN_FORMATION and exactly on its slot position in the state
`updatePlaying` returns, the slot position being evaluated on that returned
state. -/
theorem returning_enemy_reenters_without_drift (L : Libm) (g : Game) (e : Enemy) (dt : ℚ)
    (h : e.retT + (e.diveSpeed * 0.8 / 700) * dt ≥ 1) :
    ((updateReturning L g e dt).state = EnemyState.IN_FORMATION ∧
      (updateReturning L g e dt).x = formationX g e.col ∧
      (updateReturning L g e dt).y = formationY L g e.row e.col ∧
      (updateReturning L g e dt).retT = 1 ∧
      (updateReturning L g e dt).row = e.row ∧ (updateReturning L g e dt).col = e.col) ∧
    (∀ (inp : Input) (s : Game),
      List.Forall₂ (ReenteredOn L inp.dt (updatePlaying L inp s))
        (beforeDivers L inp s).enemies (updatePlaying L inp s).enemies) := by
  constructor
  · unfold updateReturning
    simp only [h, if_true, and_self]
  · intro inp s
    exact returning_enemy_on_slot_at_end_of_frame L inp s

set_option maxRecDepth 1000000 in
theorem returning_enemy_reenters_without_drift_witness :
    ({ row := 3, col := 9, state := EnemyState.RETURNING, retT := 9 / 10, diveSpeed := 210 }
        : Enemy).retT + ((210 : ℚ) * 0.8 / 700) * (1 / 2) ≥ 1 ∧
    (updateReturning refLibm { formOffX := 5, formSineT := 1 }
      { row := 3, col := 9, state := EnemyState.RETURNING, retT := 9 / 10, diveSpeed := 210 }
      (1 / 2)).x = 443 ∧
    (updatePlaying refLibm { dt := 1 / 60 } returningHome).enemies.map
        (fun e => (e.state, e.x, e.y)) =
      [(EnemyState.IN_FORMATION,
        formationX (updatePlaying refLibm { dt := 1 / 60 } returningHome) 9,
        formationY refLibm (updatePlaying refLibm { dt := 1 / 60 } returningHome) 3 9)] ∧
    formationX (updatePlaying refLibm { dt := 1 / 60 } returningHome) 9 ≠
      formationX returningHome 9 :=
  ⟨by decide!,
    (returning_enemy_reenters_without_drift refLibm { formOffX := 5, formSineT := 1 }
      { row := 3, col := 9, state := EnemyState.RETURNING, retT := 9 / 10, diveSpeed := 210 }
      (1 / 2) (by decide!)).1.2.1.trans (by decide!),
    by decide!, by decide!⟩

/-! ## What a frame does to the slow fields -/

theorem aux_GetRandomValue (lo hi : Int) (g : Game) :
    aux (GetRandomValue lo hi g).2 = aux g := by
  simp only [aux, GetRandomValue_diveInterval, GetRandomValue_stateTimer, GetRandomValue_player]

theorem aux_spawnExplosion (L : Libm) (cx cy : ℚ) (g : Game) :
    aux (spawnExplosion L cx cy g) = aux g := by
  simp only [aux, spawnExplosion_diveInterval, spawnExplosion_stateTimer, spawnExplosion_player]

theorem aux_spawnPowerUp (x y : ℚ) (g : Game) : aux (spawnPowerUp x y g) = aux g := by
  simp only [aux, spawnPowerUp_diveInterval, spawnPowerUp_stateTimer, spawnPowerUp_player]

theorem aux_starsUpdate (dt : ℚ) (g : Game) : aux (starsUpdate dt g) = aux g := by
  simp only [aux, starsUpdate_diveInterval, starsUpdate_stateTimer, starsUpdate_player]

theorem aux_starsInit (g : Game) : aux (starsInit g) = aux g := by
  simp only [aux, starsInit_diveInterval, starsInit_stateTimer, starsInit_player]

theorem aux_updateParticles (dt : ℚ) (g : Game) : aux (updateParticles dt g) = aux g := rfl

theorem aux_movePlayer (inp : Input) (g : Game) : aux (movePlayer inp g) = aux g := by
  simp only [movePlayer, aux, apply_ite Game.diveInterval, apply_ite Game.stateTimer, apply_ite Game.player,
    apply_ite Player.shotCooldown, apply_ite Player.invincible, apply_ite Player.invTimer,
    apply_ite Player.alive, ite_self]

theorem aux_playerShoot (inp : Input) (g : Game) : aux (playerShoot inp g) = aux g := by
  simp only [playerShoot, firePlayerShot, aux, apply_ite Game.diveInterval, apply_ite Game.stateTimer, apply_ite Game.player,
    apply_ite Player.shotCooldown, apply_ite Player.invincible, apply_ite Player.invTimer,
    apply_ite Player.alive, ite_self]

theorem aux_updateFormationMotion (L : Libm) (dt : ℚ) (g : Game) :
    aux (updateFormationMotion L dt g) = aux g := by
  simp only [updateFormationMotion, aux, apply_ite Game.diveInterval, apply_ite Game.stateTimer, apply_ite Game.player,
    apply_ite Player.shotCooldown, apply_ite Player.invincible, apply_ite Player.invTimer,
    apply_ite Player.alive, ite_self]

theorem aux_launchDive (g : Game) (e : Enemy) : aux (launchDive g e).2 = aux g := by
  unfold launchDive
  simp only
  split_ifs <;> (try split) <;> simp only [aux_GetRandomValue]

theorem aux_launchAt (i : Nat) (g : Game) : aux (launchAt i g) = aux g := by
  unfold launchAt
  split
  · rfl
  · exact aux_launchDive g _

theorem aux_foldl_launchAt (is : List Nat) (g : Game) :
    aux (is.foldl (fun g i => launchAt i g) g) = aux g := by
  induction is generalizing g with
  | nil => rfl
  | cons i is ih => simp only [List.foldl_cons, ih, aux_launchAt]

theorem aux_randomGroup (L : Libm) (c : List Nat) (g : Game) :
    aux (randomGroup L c g).2 = aux g := by
  simp only [randomGroup, aux_GetRandomValue]

theorem aux_startDive (L : Libm) (g : Game) : aux (startDive L g) = aux g := by
  unfold startDive
  by_cases hc : (diveCandidates g.enemies).isEmpty = true
  · simp only [hc, if_true]
  · simp only [hc, Bool.false_eq_true, if_false]
    rw [aux_foldl_launchAt]
    cases List.find? (fun i => decide ((enemyAt g i).type = EnemyType.FLAGSHIP))
        (diveCandidates g.enemies) with
    | none => exact aux_randomGroup L _ g
    | some f =>
      simp only
      split_ifs
      · exact aux_GetRandomValue _ _ _
      · rw [aux_randomGroup, aux_GetRandomValue]

theorem aux_diveTimerStep (L : Libm) (dt : ℚ) (g : Game) :
    aux (diveTimerStep L dt g) = aux g := by
  unfold diveTimerStep
  simp only
  split_ifs
  · show aux (GetRandomValue 200 400 (startDive L _)).2 = _
    rw [aux_GetRandomValue, aux_startDive]
    rfl
  · rfl

theorem aux_updateDiving (L : Libm) (g : Game) (e : Enemy) (dt : ℚ) :
    aux (updateDiving L g e dt).2 = aux g := by
  unfold updateDiving
  simp only
  split_ifs <;> rfl

theorem aux_updateDivers (L : Libm) (dt : ℚ) (es : List Enemy) (g : Game) :
    aux (updateDivers L dt es g).2 = aux g := by
  induction es generalizing g with
  | nil => rfl
  | cons e es ih =>
    simp only [updateDivers]
    rw [ih]
    split_ifs <;> first | rfl | exact aux_updateDiving L g e dt

theorem aux_diversStep (L : Libm) (dt : ℚ) (g : Game) : aux (diversStep L dt g) = aux g :=
  aux_updateDivers L dt g.enemies g

theorem aux_fireBossBullets (L : Libm) (rels : List ℚ) (g : Game) :
    aux (fireBossBullets L rels g) = aux g := by
  induction rels generalizing g with
  | nil => rfl
  | cons r rs ih => simp only [fireBossBullets]; rw [ih]; rfl

theorem aux_updateBoss (L : Libm) (dt : ℚ) (g : Game) : aux (updateBoss L dt g) = aux g := by
  unfold updateBoss
  simp only [fireBossVolley]
  split_ifs <;> rfl

theorem aux_bossStep (L : Libm) (dt : ℚ) (g : Game) : aux (bossStep L dt g) = aux g := by
  unfold bossStep
  split
  · exact aux_updateBoss L dt g
  · rfl

theorem aux_compact (g : Game) : aux (compact g) = aux g := rfl

theorem aux_buildFormation (g : Game) : aux (buildFormation g) = aux g := by
  simp only [buildFormation, aux, apply_ite Game.diveInterval, apply_ite Game.stateTimer, apply_ite Game.player,
    apply_ite Player.shotCooldown, apply_ite Player.invincible, apply_ite Player.invTimer,
    apply_ite Player.alive, ite_self]

theorem aux_blinkStep (dt : ℚ) (g : Game) : aux (blinkStep dt g) = aux g := by
  simp only [blinkStep, aux, apply_ite Game.diveInterval, apply_ite Game.stateTimer, apply_ite Game.player,
    apply_ite Player.shotCooldown, apply_ite Player.invincible, apply_ite Player.invTimer,
    apply_ite Player.alive, ite_self]

theorem tickTimers_aux (dt : ℚ) (g : Game) :
    (tickTimers dt g).diveInterval = g.diveInterval ∧
    (tickTimers dt g).stateTimer = g.stateTimer ∧
    (tickTimers dt g).player.shotCooldown = g.player.shotCooldown ∧
    (tickTimers dt g).player.alive = g.player.alive := by
  simp only [tickTimers, aux, apply_ite Game.diveInterval, apply_ite Game.stateTimer, apply_ite Game.player,
    apply_ite Player.shotCooldown, apply_ite Player.invincible, apply_ite Player.invTimer,
    apply_ite Player.alive, ite_self, and_self]

theorem coolStep_refl (a : Aux) : CoolStep a a :=
  ⟨rfl, rfl, rfl, rfl, rfl, id, fun _ => le_refl _⟩

theorem coolStep_of_eq {a a' : Aux} (h : a' = a) : CoolStep a a' := h ▸ coolStep_refl a

theorem coolStep_trans {a b c : Aux} (h₁ : CoolStep a b) (h₂ : CoolStep b c) : CoolStep a c :=
  ⟨h₂.diveInterval.trans h₁.diveInterval, h₂.stateTimer.trans h₁.stateTimer,
    h₂.invincible.trans h₁.invincible, h₂.invTimer.trans h₁.invTimer,
    h₂.alive.trans h₁.alive, fun h => h₂.coolLo (h₁.coolLo h),
    fun h => le_trans (h₂.coolLe (h₁.coolLo h)) (h₁.coolLe h)⟩

theorem coolStep_applyPowerUp (t : PowerUpType) (g : Game) :
    CoolStep (aux g) (aux (applyPowerUp t g)) := by
  cases t
  · refine ⟨rfl, rfl, rfl, rfl, rfl, ?_, ?_⟩
    · intro _
      exact le_max_left _ _
    · intro h
      show max (0.08 : ℚ) (g.player.shotCooldown - 0.03) ≤ g.player.shotCooldown
      have h' : (0.08 : ℚ) ≤ g.player.shotCooldown := h
      refine max_le h' ?_
      linarith
  · exact coolStep_of_eq rfl
  · exact coolStep_of_eq rfl

theorem coolStep_updatePowerUps (dt : ℚ) (ps : List PowerUp) (g : Game) :
    CoolStep (aux g) (aux (updatePowerUps dt ps g).2) := by
  induction ps generalizing g with
  | nil => exact coolStep_refl _
  | cons p ps ih =>
    simp only [updatePowerUps]
    refine coolStep_trans ?_ (ih _)
    split_ifs
    · exact coolStep_refl _
    · exact coolStep_applyPowerUp _ g
    · exact coolStep_refl _
    · exact coolStep_applyPowerUp _ g
    · exact coolStep_refl _

theorem coolStep_powerUpStep (dt : ℚ) (g : Game) :
    CoolStep (aux g) (aux (powerUpStep dt g)) :=
  coolStep_updatePowerUps dt g.powerUps g

theorem aux_addScore (pts : Int) (g : Game) : aux (addScore pts g) = aux g := rfl

theorem aux_hitBoss (L : Libm) (pb : Bullet) (g : Game) : aux (hitBoss L pb g) = aux g := by
  unfold hitBoss
  simp only
  split_ifs
  · rw [aux_spawnPowerUp, aux_spawnExplosion]
    show aux (spawnExplosion L pb.x pb.y _) = _
    rw [aux_spawnExplosion]
    rfl
  · rw [aux_spawnExplosion]
    rfl

theorem aux_killEnemy (L : Libm) (e : Enemy) (es : List Enemy) (g : Game) :
    aux (killEnemy L e es g) = aux g := by
  unfold killEnemy
  simp only
  rw [aux_spawnPowerUp, aux_spawnExplosion]
  rfl

theorem aux_collideBullet (L : Libm) (pb : Bullet) (g : Game) :
    aux (collideBullet L pb g).2 = aux g := by
  unfold collideBullet
  simp only
  split_ifs
  · rfl
  · exact aux_hitBoss L pb g
  · split
    · rfl
    · exact aux_killEnemy L _ _ g

theorem aux_collideBullets (L : Libm) (pbs : List Bullet) (g : Game) :
    aux (collideBullets L pbs g).2 = aux g := by
  induction pbs generalizing g with
  | nil => rfl
  | cons pb pbs ih =>
    simp only [collideBullets]
    rw [ih, aux_collideBullet]

theorem aux_collisionStep (L : Libm) (g : Game) : aux (collisionStep L g) = aux g :=
  aux_collideBullets L g.pBullets g

/-- The part of `updatePlaying` between the timers and the power-up loop leaves
the slow fields alone. -/
theorem aux_beforePowerUps (L : Libm) (inp : Input) (g : Game) :
    aux (bossStep L inp.dt (moveEnemyBullets inp.dt (diversStep L inp.dt (diveTimerStep L inp.dt
      (syncFormation L (updateFormationMotion L inp.dt (movePlayerBullets inp.dt
        (playerShoot inp (movePlayer inp g)))))))))
      = aux g := by
  rw [aux_bossStep]
  show aux (diversStep L inp.dt _) = _
  rw [aux_diversStep, aux_diveTimerStep]
  show aux (updateFormationMotion L inp.dt _) = _
  rw [aux_updateFormationMotion]
  show aux (playerShoot inp _) = _
  rw [aux_playerShoot, aux_movePlayer]

/-- Everything `updatePlaying` does between the timers and the lethal checks
is a `CoolStep` on the slow fields. -/
theorem coolStep_playingFrame (L : Libm) (inp : Input) (g : Game) :
    CoolStep (aux (tickTimers inp.dt g)) (aux (playingFrame L inp g)) := by
  unfold playingFrame
  simp only
  rw [aux_compact, aux_collisionStep]
  exact coolStep_trans (coolStep_of_eq (aux_beforePowerUps L inp _)) (coolStep_powerUpStep _ _)

theorem aux_killPlayer (L : Libm) (g : Game) (h : g.player.invincible = false) :
    aux (killPlayer L g) =
      { aux g with stateTimer := 2, shotCooldown := 0.22, alive := false } := by
  simp only [killPlayer, h, Bool.false_eq_true, if_false, aux,
    spawnExplosion_diveInterval, spawnExplosion_player]

/-- The lethal checks either hit nobody and change nothing, or kill the
player: the countdown is set to 2 and the cooldown to its default. -/
theorem lethalChecks_aux_cases (L : Libm) (g : Game) :
    lethalChecks L g = (g, false) ∨
    (g.player.invincible = false ∧ (lethalChecks L g).2 = true ∧
      aux (lethalChecks L g).1 =
        { aux g with stateTimer := 2, shotCooldown := 0.22, alive := false }) := by
  unfold lethalChecks
  cases hi : g.player.invincible
  · simp only [Bool.not_false, if_true]
    split
    · right
      exact ⟨trivial, rfl, aux_killPlayer L _ hi⟩
    · split
      · right
        refine ⟨trivial, rfl, ?_⟩
        simp only
        rw [aux_killPlayer L _ (by simpa using hi), aux_spawnExplosion]
        rfl
      · split_ifs
        · right
          exact ⟨trivial, rfl, aux_killPlayer L g hi⟩
        · left
          rfl
  · left
    rfl

theorem lethalChecks_aux (L : Libm) (g : Game) (h : (lethalChecks L g).2 = true) :
    aux (lethalChecks L g).1 =
      { aux g with stateTimer := 2, shotCooldown := 0.22, alive := false } := by
  rcases lethalChecks_aux_cases L g with h' | ⟨-, -, h'⟩
  · rw [h'] at h
    exact absurd h (by simp)
  · exact h'

theorem aux_checkStageClear (g : Game) :
    aux (checkStageClear g) =
      if aliveCount g = 0 ∧ g.boss.active = false then { aux g with stateTimer := 2 }
      else aux g := by
  unfold checkStageClear
  split_ifs <;> rfl

theorem aux_init (g : Game) :
    aux (init g) = { aux g with shotCooldown := 0.22, alive := true, invincible := false } := by
  unfold init
  simp only
  rw [aux_buildFormation]
  have h := aux_starsInit g
  simp only [aux, Aux.mk.injEq] at h ⊢
  simp only [h, and_self]

theorem aux_updateAttract (L : Libm) (inp : Input) (g : Game) :
    aux (updateAttract L inp g) =
      if inp.pressedEnter || inp.pressedSpace then
        { aux g with shotCooldown := 0.22, alive := true, invincible := false }
      else aux g := by
  have hs : ∀ x : Game, aux { x with state := GameState.PLAYING } = aux x := fun _ => rfl
  unfold updateAttract
  by_cases h1 : (inp.pressedEnter || inp.pressedSpace) = true
  · rw [if_pos h1, if_pos h1, hs, aux_init, aux_blinkStep, aux_updateFormationMotion]
  · rw [if_neg h1, if_neg h1, aux_blinkStep, aux_updateFormationMotion]

theorem aux_updateDead (dt : ℚ) (g : Game) :
    aux (updateDead dt g) =
      if g.stateTimer - dt ≤ 0 then
        (if g.player.lives ≤ 0 then { aux g with stateTimer := 3 }
         else { aux g with stateTimer := g.stateTimer - dt, alive := true, invincible := true,
                           invTimer := 2 })
      else { aux g with stateTimer := g.stateTimer - dt } := by
  simp only [updateDead, aux, apply_ite Game.diveInterval, apply_ite Game.stateTimer, apply_ite Game.player,
    apply_ite Player.shotCooldown, apply_ite Player.invincible, apply_ite Player.invTimer,
    apply_ite Player.alive, ite_self, starsUpdate_stateTimer, starsUpdate_player,
    starsUpdate_diveInterval]
  split_ifs <;> rfl

theorem aux_updateGameOver (dt : ℚ) (g : Game) :
    aux (updateGameOver dt g) = { aux g with stateTimer := g.stateTimer - dt } := by
  simp only [updateGameOver, aux]
  split_ifs <;> rfl

theorem aux_updateClear (dt : ℚ) (g : Game) :
    aux (updateClear dt g) =
      if g.stateTimer - dt ≤ 0 then
        { aux g with stateTimer := g.stateTimer - dt,
                     diveInterval := max 1.5 (3 - ((g.round + 1 - 1 : Int) : ℚ) * 0.2) }
      else { aux g with stateTimer := g.stateTimer - dt } := by
  have hs : ∀ x : Game, aux { x with state := GameState.PLAYING } = aux x := fun _ => rfl
  unfold updateClear
  simp only
  split_ifs
  · rw [hs, aux_buildFormation]
    rfl
  · rfl

theorem aux_preFrame (dt : ℚ) (g : Game) : aux (preFrame dt g) = aux g := by
  unfold preFrame
  rw [aux_updateParticles, aux_starsUpdate]

/-! ## Invincibility -/

theorem lethalChecks_invincible (L : Libm) (s : Game) (h : s.player.invincible = true) :
    lethalChecks L s = (s, false) := by
  unfold lethalChecks
  simp only [h, Bool.not_true, Bool.false_eq_true, if_false]

theorem tickTimers_player_congr (dt : ℚ) (g g' : Game) (h : g'.player = g.player) :
    (tickTimers dt g').player = (tickTimers dt g).player := by
  simp only [tickTimers, apply_ite Game.player, h]

theorem checkStageClear_state (g : Game) :
    (checkStageClear g).state = g.state ∨ (checkStageClear g).state = GameState.STAGE_CLEAR := by
  unfold checkStageClear
  split
  · right; rfl
  · left; rfl

theorem checkStageClear_rest (g : Game) :
    (checkStageClear g).player = g.player ∧ (checkStageClear g).enemies = g.enemies ∧
    (checkStageClear g).eBullets = g.eBullets ∧ (checkStageClear g).pBullets = g.pBullets ∧
    (checkStageClear g).score = g.score ∧ (checkStageClear g).round = g.round := by
  unfold checkStageClear
  split <;> exact ⟨rfl, rfl, rfl, rfl, rfl, rfl⟩

/-- C11. If the player is still invincible after the invincibility timer of an
`updatePlaying` call has been decremented, the lethal checks of that call are
skipped whatever overlaps the player: they leave the session as it is (no
enemy bullet is deactivated, no diving enemy is killed), the call is the
stage-clear check on the state before them, the player is still invincible,
the lives are unchanged, and the flow state is the old one or STAGE_CLEAR, so
PLAYER_DEAD is not entered.  The same holds for the `update` call of a frame
in PLAYING. -/
theorem invincible_player_takes_no_damage (L : Libm) (inp : Input) (g : Game)
    (h : (tickTimers inp.dt g).player.invincible = true) :
    (playingFrame L inp g).player.invincible = true ∧
    lethalChecks L (playingFrame L inp g) = (playingFrame L inp g, false) ∧
    (∀ s : Game, s.player.invincible = true → lethalChecks L s = (s, false)) ∧
    updatePlaying L inp g = checkStageClear (playingFrame L inp g) ∧
    (updatePlaying L inp g).eBullets = (playingFrame L inp g).eBullets ∧
    (updatePlaying L inp g).enemies = (playingFrame L inp g).enemies ∧
    (updatePlaying L inp g).player.lives = g.player.lives ∧
    ((updatePlaying L inp g).state = g.state ∨
      (updatePlaying L inp g).state = GameState.STAGE_CLEAR) ∧
    (g.state = GameState.PLAYING →
      (update L inp g).player.lives = g.player.lives ∧
      (update L inp g).state ≠ GameState.PLAYER_DEAD) := by
  have hf : ∀ g0 : Game, (tickTimers inp.dt g0).player.invincible = true →
      (playingFrame L inp g0).player.invincible = true := fun g0 h0 =>
    ((coolStep_playingFrame L inp g0).invincible).trans h0
  have hu : ∀ g0 : Game, (tickTimers inp.dt g0).player.invincible = true →
      updatePlaying L inp g0 = checkStageClear (playingFrame L inp g0) := by
    intro g0 h0
    unfold updatePlaying
    rw [lethalChecks_invincible L _ (hf g0 h0)]
    simp only [Bool.false_eq_true, if_false]
  have hl : ∀ g0 : Game, (tickTimers inp.dt g0).player.invincible = true →
      (updatePlaying L inp g0).player.lives = g0.player.lives := by
    intro g0 h0
    rw [hu g0 h0, (checkStageClear_rest _).1]
    exact (playStep_playingFrame L inp g0).lives
  have hs : ∀ g0 : Game, (tickTimers inp.dt g0).player.invincible = true →
      ((updatePlaying L inp g0).state = g0.state ∨
        (updatePlaying L inp g0).state = GameState.STAGE_CLEAR) := by
    intro g0 h0
    rw [hu g0 h0]
    have h1 : (playingFrame L inp g0).state = g0.state := (playStep_playingFrame L inp g0).state
    rcases checkStageClear_state (playingFrame L inp g0) with h2 | h2
    · exact Or.inl (h2.trans h1)
    · exact Or.inr h2
  refine ⟨hf g h, lethalChecks_invincible L _ (hf g h), lethalChecks_invincible L, hu g h, ?_, ?_,
    hl g h, hs g h, ?_⟩
  · rw [hu g h, (checkStageClear_rest _).2.2.1]
  · rw [hu g h, (checkStageClear_rest _).2.1]
  · intro hp
    have hpre : (preFrame inp.dt g).player = g.player := by
      unfold preFrame
      rw [updateParticles_player, starsUpdate_player]
    have hpst : (preFrame inp.dt g).state = g.state := congrArg Core.state (core_preFrame inp.dt g)
    have h0 : (tickTimers inp.dt (preFrame inp.dt g)).player.invincible = true := by
      rw [tickTimers_player_congr inp.dt g _ hpre]
      exact h
    rw [update_eq, hp]
    simp only
    refine ⟨by rw [hl _ h0, hpre], ?_⟩
    rcases hs _ h0 with h1 | h1
    · rw [h1, hpst, hp]
      decide
    · rw [h1]
      decide

set_option maxRecDepth 1000000 in
theorem invincible_player_takes_no_damage_witness :
    (tickTimers (1 / 60) crowdedInvincible).player.invincible = true ∧
    (hitByBullet (playingFrame refLibm { dt := 1 / 60 } crowdedInvincible).player.hitbox
      (playingFrame refLibm { dt := 1 / 60 } crowdedInvincible).eBullets).isSome = true ∧
    crowdedInvincible.player.lives = 3 ∧
    (updatePlaying refLibm { dt := 1 / 60 } crowdedInvincible).player.lives =
      crowdedInvincible.player.lives ∧
    (updatePlaying refLibm { dt := 1 / 60 } crowdedInvincible).eBullets =
      (playingFrame refLibm { dt := 1 / 60 } crowdedInvincible).eBullets :=
  ⟨by decide!, by decide!, by decide!,
    (invincible_player_takes_no_damage refLibm { dt := 1 / 60 } crowdedInvincible
      (by decide!)).2.2.2.2.2.2.1,
    (invincible_player_takes_no_damage refLibm { dt := 1 / 60 } crowdedInvincible
      (by decide!)).2.2.2.2.1⟩

/-! ## The end of a game -/

/-- What `update` does in PLAYING when it lowers the lives: the player was
killed by the lethal checks. -/
theorem update_playing_killed (L : Libm) (inp : Input) (g : Game)
    (hs : g.state = GameState.PLAYING)
    (hk : (update L inp g).player.lives < g.player.lives) :
    (update L inp g).state = GameState.PLAYER_DEAD ∧ (update L inp g).stateTimer = 2 ∧
    (update L inp g).player.lives = g.player.lives - 1 := by
  have hp := core_preFrame inp.dt g
  have hpl : (preFrame inp.dt g).player.lives = g.player.lives := congrArg Core.lives hp
  have hf := playStep_playingFrame L inp (preFrame inp.dt g)
  rw [update_eq, hs] at hk ⊢
  simp only at hk ⊢
  unfold updatePlaying at hk ⊢
  rcases lethalChecks_aux_cases L (playingFrame L inp (preFrame inp.dt g)) with h | ⟨hi, h2, h3⟩
  · rw [h] at hk
    simp only [Bool.false_eq_true, if_false] at hk
    rw [(checkStageClear_rest _).1] at hk
    have := hf.lives
    simp only [core] at this
    omega
  · have hc : core (lethalChecks L (playingFrame L inp (preFrame inp.dt g))).1 =
        (core (playingFrame L inp (preFrame inp.dt g))).killed := by
      rcases lethalChecks_cases L (playingFrame L inp (preFrame inp.dt g)) with h | ⟨-, -, h⟩
      · rw [h] at h2
        exact absurd h2 (by simp)
      · exact h
    simp only [h2, if_true]
    refine ⟨congrArg Core.state hc, congrArg Aux.stateTimer h3, ?_⟩
    have h5 := congrArg Core.lives hc
    have h6 := hf.lives
    simp only [core, Core.killed] at h5 h6
    rw [h5, h6, hpl]

/-- C12. Losing the last life.  A frame in PLAYING with exactly 1 life in which
the player is killed (the lives drop) ends in PLAYER_DEAD with a countdown of
2 and 0 lives.  A frame in PLAYER_DEAD with no life left keeps the lives and
either leaves the countdown above 0, staying in PLAYER_DEAD with the countdown
lowered by the frame time, or goes to GAME_OVER with a countdown of 3.  A
frame in GAME_OVER keeps the lives and either stays there with the countdown
lowered by the frame time or, when the countdown expires, goes to ATTRACT. -/
theorem last_life_ends_game (L : Libm) (inp : Input) (g : Game) :
    (g.state = GameState.PLAYING → g.player.lives = 1 →
      (update L inp g).player.lives < g.player.lives →
      (update L inp g).state = GameState.PLAYER_DEAD ∧ (update L inp g).stateTimer = 2 ∧
      (update L inp g).player.lives = 0) ∧
    (g.state = GameState.PLAYER_DEAD → g.player.lives ≤ 0 →
      (update L inp g).player.lives = g.player.lives ∧
      (g.stateTimer - inp.dt ≤ 0 →
        (update L inp g).state = GameState.GAME_OVER ∧ (update L inp g).stateTimer = 3) ∧
      (¬ g.stateTimer - inp.dt ≤ 0 →
        (update L inp g).state = GameState.PLAYER_DEAD ∧
        (update L inp g).stateTimer = g.stateTimer - inp.dt)) ∧
    (g.state = GameState.GAME_OVER →
      (update L inp g).player.lives = g.player.lives ∧
      (g.stateTimer - inp.dt ≤ 0 → (update L inp g).state = GameState.ATTRACT) ∧
      (¬ g.stateTimer - inp.dt ≤ 0 →
        (update L inp g).state = GameState.GAME_OVER ∧
        (update L inp g).stateTimer = g.stateTimer - inp.dt)) := by
  have hp := core_preFrame inp.dt g
  have ha := aux_preFrame inp.dt g
  have hpl : (preFrame inp.dt g).player.lives = g.player.lives := congrArg Core.lives hp
  have hpt : (preFrame inp.dt g).stateTimer = g.stateTimer := congrArg Aux.stateTimer ha
  refine ⟨?_, ?_, ?_⟩
  · intro hs h1 hk
    obtain ⟨k1, k2, k3⟩ := update_playing_killed L inp g hs hk
    exact ⟨k1, k2, by rw [k3, h1]; rfl⟩
  · intro hs h0
    have hc := core_updateDead inp.dt (preFrame inp.dt g)
    have hx := aux_updateDead inp.dt (preFrame inp.dt g)
    rw [hpl, hpt, hp] at hc
    rw [hpl, hpt, ha] at hx
    rw [update_eq, hs]
    simp only
    by_cases ht : g.stateTimer - inp.dt ≤ 0
    · rw [if_pos ht, if_pos h0] at hc hx
      exact ⟨congrArg Core.lives hc,
        fun _ => ⟨congrArg Core.state hc, congrArg Aux.stateTimer hx⟩, fun h => absurd ht h⟩
    · rw [if_neg ht] at hc hx
      exact ⟨congrArg Core.lives hc, fun h => absurd h ht,
        fun _ => ⟨(congrArg Core.state hc).trans hs, congrArg Aux.stateTimer hx⟩⟩
  · intro hs
    have hc := core_updateGameOver inp.dt (preFrame inp.dt g)
    have hx := aux_updateGameOver inp.dt (preFrame inp.dt g)
    rw [hpt, hp] at hc
    rw [hpt, ha] at hx
    rw [update_eq, hs]
    simp only
    by_cases ht : g.stateTimer - inp.dt ≤ 0
    · rw [if_pos ht] at hc
      exact ⟨congrArg Core.lives hc, fun _ => congrArg Core.state hc, fun h => absurd ht h⟩
    · rw [if_neg ht] at hc
      exact ⟨congrArg Core.lives hc, fun h => absurd h ht,
        fun _ => ⟨(congrArg Core.state hc).trans hs, congrArg Aux.stateTimer hx⟩⟩

set_option maxRecDepth 1000000 in
theorem last_life_ends_game_witness :
    (lastLife.state = GameState.PLAYING ∧ lastLife.player.lives = 1 ∧
      (update refLibm { dt := 117 / 50, downLeft := true } lastLife).state =
        GameState.PLAYER_DEAD ∧
      (update refLibm { dt := 117 / 50, downLeft := true } lastLife).stateTimer = 2 ∧
      (update refLibm { dt := 117 / 50, downLeft := true } lastLife).player.lives = 0) ∧
    ((update refLibm { dt := 2 } lastLifeLost).state = GameState.GAME_OVER ∧
      (update refLibm { dt := 2 } lastLifeLost).stateTimer = 3) ∧
    (update refLibm { dt := 3 } (update refLibm { dt := 2 } lastLifeLost)).state =
      GameState.ATTRACT :=
  ⟨⟨by decide!, by decide!,
      (last_life_ends_game refLibm { dt := 117 / 50, downLeft := true } lastLife).1
        (by decide!) (by decide!) (by decide!)⟩,
    ((last_life_ends_game refLibm { dt := 2 } lastLifeLost).2.1
        (by decide!) (by decide!)).2.1 (by decide!),
    ((last_life_ends_game refLibm { dt := 3 } (update refLibm { dt := 2 } lastLifeLost)).2.2
        (by decide!)).2.1 (by decide!)⟩

/-! ## When the high score is raised -/

/-- C13, as amended. The high score is raised in the frame that raises the
score.  In every reachable state: a frame in PLAYING leaves the high score at
the larger of its old value and the new score, so when the new score exceeds
the old high score the high score is that new score at once; and a frame in
PLAYER_DEAD or GAME_OVER, the one that moves GAME_OVER to ATTRACT included,
changes neither score nor high score. -/
theorem highScore_raised_with_the_score (L : Libm) (g : Game) (h : Reachable L g)
    (inp : Input) :
    (g.state = GameState.PLAYING →
      (update L inp g).highScore = max g.highScore (update L inp g).score ∧
      (g.highScore < (update L inp g).score →
        (update L inp g).highScore = (update L inp g).score)) ∧
    (g.state = GameState.PLAYER_DEAD ∨ g.state = GameState.GAME_OVER →
      (update L inp g).score = g.score ∧ (update L inp g).highScore = g.highScore) := by
  have hi := reachable_coreInv L g h
  have hs := update_coreStep L inp g
  have hm := (coreStep_highScore hi hs).2
  have hp := core_preFrame inp.dt g
  refine ⟨?_, ?_⟩
  · intro _
    refine ⟨hm, fun hlt => ?_⟩
    have hm' : (update L inp g).highScore = max g.highScore (update L inp g).score := hm
    rw [hm']
    exact max_eq_right (le_of_lt hlt)
  · intro hst
    have ha : g.score ≤ g.highScore := hi.above
    rcases hst with hst | hst
    · have hc := core_updateDead inp.dt (preFrame inp.dt g)
      rw [hp] at hc
      rw [update_eq, hst]
      simp only
      constructor
      · have := congrArg Core.score hc
        refine this.trans ?_
        split_ifs <;> rfl
      · have := congrArg Core.highScore hc
        refine this.trans ?_
        split_ifs <;> rfl
    · have hc := core_updateGameOver inp.dt (preFrame inp.dt g)
      have hps : (preFrame inp.dt g).score = g.score := congrArg Core.score hp
      have hph : (preFrame inp.dt g).highScore = g.highScore := congrArg Core.highScore hp
      rw [hp, hps, hph] at hc
      rw [update_eq, hst]
      simp only
      constructor
      · have := congrArg Core.score hc
        refine this.trans ?_
        split_ifs <;> rfl
      · have := congrArg Core.highScore hc
        refine this.trans ?_
        split_ifs
        · exact max_eq_left ha
        · rfl

theorem newGame_reachable : Reachable refLibm newGame :=
  reachable_run refLibm _ _ (Reachable.start _) (by decide)

set_option maxRecDepth 1000000 in
/-- C13, counterexample. In the new game `newGame` (reachable, in PLAYING,
score and high score 0) the frame in which the first shot kills an escort
raises the score to 40 and, in the same frame, the high score to 40, while the
flow state is still PLAYING. -/
theorem highScore_raised_during_play :
    Reachable refLibm newGame ∧ newGame.state = GameState.PLAYING ∧
    newGame.score = 0 ∧ newGame.highScore = 0 ∧
    (update refLibm { dt := 371 / 520, downSpace := true } newGame).state = GameState.PLAYING ∧
    (update refLibm { dt := 371 / 520, downSpace := true } newGame).score = 40 ∧
    (update refLibm { dt := 371 / 520, downSpace := true } newGame).highScore = 40 ∧
    (update refLibm { dt := 371 / 520, downSpace := true } newGame).highScore ≠
      newGame.highScore :=
  ⟨newGame_reachable, by decide!⟩

set_option maxRecDepth 1000000 in
theorem highScore_raised_with_the_score_witness :
    Reachable refLibm newGame ∧ newGame.state = GameState.PLAYING ∧
    newGame.highScore < (update refLibm { dt := 371 / 520, downSpace := true } newGame).score ∧
    (update refLibm { dt := 371 / 520, downSpace := true } newGame).highScore =
      (update refLibm { dt := 371 / 520, downSpace := true } newGame).score :=
  ⟨newGame_reachable, by decide!, by decide!,
    ((highScore_raised_with_the_score refLibm newGame newGame_reachable
      { dt := 371 / 520, downSpace := true }).1 (by decide!)).2 (by decide!)⟩

/-! ## Points -/

/-- C15. For every enemy type a diving kill is worth strictly more than an
in-formation kill, which is worth more than 0; the values are the table
400/150, 160/40, 100/30, 80/20, 60/10. -/
theorem diving_kill_worth_more (t : EnemyType) :
    pointsForEnemy t true > pointsForEnemy t false ∧ pointsForEnemy t false > 0 ∧
    (pointsForEnemy EnemyType.FLAGSHIP true = 400 ∧
      pointsForEnemy EnemyType.FLAGSHIP false = 150) ∧
    (pointsForEnemy EnemyType.ESCORT true = 160 ∧ pointsForEnemy EnemyType.ESCORT false = 40) ∧
    (pointsForEnemy EnemyType.ZAKO_BLUE true = 100 ∧
      pointsForEnemy EnemyType.ZAKO_BLUE false = 30) ∧
    (pointsForEnemy EnemyType.ZAKO_BLUE2 true = 80 ∧
      pointsForEnemy EnemyType.ZAKO_BLUE2 false = 20) ∧
    (pointsForEnemy EnemyType.ZAKO_GREEN true = 60 ∧
      pointsForEnemy EnemyType.ZAKO_GREEN false = 10) := by
  refine ⟨?_, ?_, ⟨rfl, rfl⟩, ⟨rfl, rfl⟩, ⟨rfl, rfl⟩, ⟨rfl, rfl⟩, ⟨rfl, rfl⟩⟩
  · cases t <;> decide
  · cases t <;> decide

/-! ## Shot cooldown and dive cadence in the reachable states -/

theorem checkStageClear_diveInterval (g : Game) :
    (checkStageClear g).diveInterval = g.diveInterval := by
  unfold checkStageClear
  split <;> rfl

theorem updatePlaying_pace (L : Libm) (inp : Input) (g : Game) :
    (updatePlaying L inp g).diveInterval = g.diveInterval ∧
    ((updatePlaying L inp g).player.shotCooldown = 0.22 ∨
      ((0.08 ≤ g.player.shotCooldown → 0.08 ≤ (updatePlaying L inp g).player.shotCooldown) ∧
       (0.08 ≤ g.player.shotCooldown →
          (updatePlaying L inp g).player.shotCooldown ≤ g.player.shotCooldown))) := by
  have hc := coolStep_playingFrame L inp g
  obtain ⟨t1, -, t3, -⟩ := tickTimers_aux inp.dt g
  have hd : (playingFrame L inp g).diveInterval = g.diveInterval := hc.diveInterval.trans t1
  have hlo : 0.08 ≤ g.player.shotCooldown → 0.08 ≤ (playingFrame L inp g).player.shotCooldown := by
    intro h
    exact hc.coolLo (by show (0.08 : ℚ) ≤ (tickTimers inp.dt g).player.shotCooldown; rw [t3]; exact h)
  have hle : 0.08 ≤ g.player.shotCooldown →
      (playingFrame L inp g).player.shotCooldown ≤ g.player.shotCooldown := by
    intro h
    have := hc.coolLe (by show (0.08 : ℚ) ≤ (tickTimers inp.dt g).player.shotCooldown; rw [t3]; exact h)
    have h2 : (aux (tickTimers inp.dt g)).shotCooldown = g.player.shotCooldown := t3
    rw [h2] at this
    exact this
  unfold updatePlaying
  generalize playingFrame L inp g = s at hd hlo hle ⊢
  rcases lethalChecks_aux_cases L s with h | ⟨-, h2, h3⟩
  · rw [h]
    simp only [Bool.false_eq_true, if_false]
    rw [checkStageClear_diveInterval, (checkStageClear_rest s).1]
    exact ⟨hd, Or.inr ⟨hlo, hle⟩⟩
  · simp only [h2, if_true]
    have e1 : (lethalChecks L s).1.diveInterval = s.diveInterval := congrArg Aux.diveInterval h3
    have e2 : (lethalChecks L s).1.player.shotCooldown = 0.22 := congrArg Aux.shotCooldown h3
    exact ⟨e1.trans hd, Or.inl e2⟩

theorem paceInv_update (L : Libm) (inp : Input) (g : Game) (h : PaceInv g) :
    PaceInv (update L inp g) := by
  have hp := core_preFrame inp.dt g
  have ha := aux_preFrame inp.dt g
  have hpr : (preFrame inp.dt g).round = g.round := congrArg Core.round hp
  have hpc : (preFrame inp.dt g).player.shotCooldown = g.player.shotCooldown :=
    congrArg Aux.shotCooldown ha
  have hpd : (preFrame inp.dt g).diveInterval = g.diveInterval := congrArg Aux.diveInterval ha
  have hpt : (preFrame inp.dt g).stateTimer = g.stateTimer := congrArg Aux.stateTimer ha
  have hstep := update_coreStep L inp g
  obtain ⟨i1, i2, i3, i5⟩ := h
  rw [update_eq] at hstep ⊢
  cases hs : g.state
  · -- ATTRACT
    simp only
    have hc := core_updateAttract L inp (preFrame inp.dt g)
    have hx := aux_updateAttract L inp (preFrame inp.dt g)
    rw [hp] at hc
    rw [ha] at hx
    have hd : (updateAttract L inp (preFrame inp.dt g)).diveInterval = g.diveInterval := by
      refine (congrArg Aux.diveInterval hx).trans ?_
      split_ifs <;> rfl
    by_cases hk : (inp.pressedEnter || inp.pressedSpace) = true
    · rw [if_pos hk] at hc hx
      have hr : (updateAttract L inp (preFrame inp.dt g)).round = 1 := congrArg Core.round hc
      have hcd : (updateAttract L inp (preFrame inp.dt g)).player.shotCooldown = 0.22 :=
        congrArg Aux.shotCooldown hx
      refine ⟨by rw [hcd]; norm_num, by rw [hcd], by rw [hd]; exact i3, ?_⟩
      intro h2
      rw [hr] at h2
      exact absurd h2 (by decide)
    · rw [if_neg hk] at hc hx
      have hr : (updateAttract L inp (preFrame inp.dt g)).round = g.round := congrArg Core.round hc
      have hcd : (updateAttract L inp (preFrame inp.dt g)).player.shotCooldown =
          g.player.shotCooldown := congrArg Aux.shotCooldown hx
      exact ⟨by rw [hcd]; exact i1, by rw [hcd]; exact i2, by rw [hd]; exact i3,
        by rw [hr, hd]; exact i5⟩
  · -- PLAYING
    simp only
    obtain ⟨hd, hcd⟩ := updatePlaying_pace L inp (preFrame inp.dt g)
    rw [hpd] at hd
    rw [hpc] at hcd
    have hr : (updatePlaying L inp (preFrame inp.dt g)).round = g.round := by
      obtain ⟨m, hm, hc⟩ := updatePlaying_core L inp (preFrame inp.dt g)
      rw [hp] at hm
      have := hm.round
      rcases hc with hc | hc | hc <;> exact (congrArg Core.round hc).trans this
    refine ⟨?_, ?_, by rw [hd]; exact i3, by rw [hr, hd]; exact i5⟩
    · rcases hcd with hcd | hcd
      · rw [hcd]; norm_num
      · exact hcd.1 i1
    · rcases hcd with hcd | hcd
      · rw [hcd]
      · exact le_trans (hcd.2 i1) i2
  · -- PLAYER_DEAD
    simp only
    have hc := core_updateDead inp.dt (preFrame inp.dt g)
    have hx := aux_updateDead inp.dt (preFrame inp.dt g)
    rw [hp] at hc
    rw [ha] at hx
    have hr : (updateDead inp.dt (preFrame inp.dt g)).round = g.round := by
      refine (congrArg Core.round hc).trans ?_
      split_ifs <;> rfl
    have hd : (updateDead inp.dt (preFrame inp.dt g)).diveInterval = g.diveInterval := by
      refine (congrArg Aux.diveInterval hx).trans ?_
      split_ifs <;> rfl
    have hcd : (updateDead inp.dt (preFrame inp.dt g)).player.shotCooldown =
        g.player.shotCooldown := by
      refine (congrArg Aux.shotCooldown hx).trans ?_
      split_ifs <;> rfl
    exact ⟨by rw [hcd]; exact i1, by rw [hcd]; exact i2, by rw [hd]; exact i3,
      by rw [hr, hd]; exact i5⟩
  · -- GAME_OVER
    simp only
    have hc := core_updateGameOver inp.dt (preFrame inp.dt g)
    have hx := aux_updateGameOver inp.dt (preFrame inp.dt g)
    rw [hp] at hc
    rw [ha] at hx
    have hr : (updateGameOver inp.dt (preFrame inp.dt g)).round = g.round := by
      refine (congrArg Core.round hc).trans ?_
      split_ifs <;> rfl
    have hd : (updateGameOver inp.dt (preFrame inp.dt g)).diveInterval = g.diveInterval :=
      congrArg Aux.diveInterval hx
    have hcd : (updateGameOver inp.dt (preFrame inp.dt g)).player.shotCooldown =
        g.player.shotCooldown := congrArg Aux.shotCooldown hx
    exact ⟨by rw [hcd]; exact i1, by rw [hcd]; exact i2, by rw [hd]; exact i3,
      by rw [hr, hd]; exact i5⟩
  · -- STAGE_CLEAR
    simp only
    have hc := core_updateClear inp.dt (preFrame inp.dt g)
    have hx := aux_updateClear inp.dt (preFrame inp.dt g)
    rw [hp, hpt, hpr] at hc
    rw [ha, hpt, hpr] at hx
    have hcd : (updateClear inp.dt (preFrame inp.dt g)).player.shotCooldown =
        g.player.shotCooldown := by
      refine (congrArg Aux.shotCooldown hx).trans ?_
      split_ifs <;> rfl
    by_cases ht : g.stateTimer - inp.dt ≤ 0
    · rw [if_pos ht] at hc hx
      have hr : (updateClear inp.dt (preFrame inp.dt g)).round = g.round + 1 :=
        congrArg Core.round hc
      have hd : (updateClear inp.dt (preFrame inp.dt g)).diveInterval =
          max 1.5 (3 - ((g.round + 1 - 1 : Int) : ℚ) * 0.2) := congrArg Aux.diveInterval hx
      refine ⟨by rw [hcd]; exact i1, by rw [hcd]; exact i2, by rw [hd]; exact le_max_left _ _,
        by intro _; rw [hr, hd]⟩
    · rw [if_neg ht] at hc hx
      have hr : (updateClear inp.dt (preFrame inp.dt g)).round = g.round := congrArg Core.round hc
      have hd : (updateClear inp.dt (preFrame inp.dt g)).diveInterval = g.diveInterval :=
        congrArg Aux.diveInterval hx
      exact ⟨by rw [hcd]; exact i1, by rw [hcd]; exact i2, by rw [hd]; exact i3,
        by rw [hr, hd]; exact i5⟩

theorem paceInv_start (rolls : List Nat) : PaceInv (Game.start rolls) := by
  have ha : aux (Game.start rolls) = aux ({ rng := rolls } : Game) := by
    unfold Game.start
    rw [aux_buildFormation, aux_starsInit]
  have hc : core (Game.start rolls) = core ({ rng := rolls } : Game) := by
    unfold Game.start
    rw [core_buildFormation, core_starsInit]
  have h1 : (Game.start rolls).player.shotCooldown = 0.22 := congrArg Aux.shotCooldown ha
  have h2 : (Game.start rolls).diveInterval = 3 := congrArg Aux.diveInterval ha
  have h3 : (Game.start rolls).round = 1 := congrArg Core.round hc
  refine ⟨by rw [h1]; norm_num, by rw [h1], by rw [h2]; norm_num, ?_⟩
  intro h
  rw [h3] at h
  exact absurd h (by decide)

/-- Every reachable state satisfies the pace invariant. -/
theorem reachable_paceInv (L : Libm) (g : Game) (h : Reachable L g) : PaceInv g := by
  induction h with
  | start rolls => exact paceInv_start rolls
  | frame g inp _ _ ih => exact paceInv_update L inp g ih

/-- C18. The shot cooldown is floored at 0.08: `applyPowerUp(FIRE_RATE)` sets it
to `max(0.08, c - 0.03)`, the other two power-up types leave it alone,
`killPlayer` on a player who is not invincible resets it to 0.22, and in every
reachable state it lies between 0.08 and 0.22. -/
theorem shotCooldown_floored (L : Libm) (g : Game) (h : Reachable L g) :
    (∀ s : Game, (applyPowerUp PowerUpType.FIRE_RATE s).player.shotCooldown =
      max 0.08 (s.player.shotCooldown - 0.03)) ∧
    (∀ s : Game, (applyPowerUp PowerUpType.DOUBLE_SHOT s).player.shotCooldown =
      s.player.shotCooldown) ∧
    (∀ s : Game, (applyPowerUp PowerUpType.TRIPLE_SHOT s).player.shotCooldown =
      s.player.shotCooldown) ∧
    (∀ s : Game, s.player.invincible = false → (killPlayer L s).player.shotCooldown = 0.22) ∧
    0.08 ≤ g.player.shotCooldown ∧ g.player.shotCooldown ≤ 0.22 :=
  ⟨fun _ => rfl, fun _ => rfl, fun _ => rfl,
    fun s hs => congrArg Aux.shotCooldown (aux_killPlayer L s hs),
    (reachable_paceInv L g h).coolLo, (reachable_paceInv L g h).coolHi⟩

theorem shotCooldown_floored_witness :
    Reachable refLibm lostGame ∧
    (applyPowerUp PowerUpType.FIRE_RATE
      { player := { shotCooldown := 0.1 } }).player.shotCooldown = 0.08 ∧
    0.08 ≤ lostGame.player.shotCooldown ∧ lostGame.player.shotCooldown ≤ 0.22 :=
  ⟨lostGame_reachable,
    ((shotCooldown_floored refLibm lostGame lostGame_reachable).1
      { player := { shotCooldown := 0.1 } }).trans (by norm_num),
    (shotCooldown_floored refLibm lostGame lostGame_reachable).2.2.2.2⟩

/-! ## Round progression and respawn -/

theorem buildFormation_mode (g : Game) (h : 1 ≤ g.round) :
    (g.round % 3 = 0 → BossMode g.round (buildFormation g)) ∧
    (g.round % 3 ≠ 0 → RegularMode (buildFormation g)) := by
  have hm := tmod_three_of_pos g.round h
  have hd := tdiv_three_of_pos g.round h
  constructor
  · intro h3
    simp only [BossMode, buildFormation, hm, h3, hd, if_true]
    refine ⟨trivial, ?_, ?_, trivial⟩ <;> ring
  · intro h3
    simp only [RegularMode, buildFormation, hm, h3, if_false]
    exact ⟨trivial, regular_roster⟩

theorem buildFormation_formVX (g : Game) : (buildFormation g).formVX = g.formVX := by
  simp only [buildFormation, apply_ite Game.formVX, ite_self]

theorem preFrame_fields (dt : ℚ) (g : Game) :
    (preFrame dt g).state = g.state ∧ (preFrame dt g).player = g.player ∧
    (preFrame dt g).enemies = g.enemies ∧ (preFrame dt g).pBullets = g.pBullets ∧
    (preFrame dt g).eBullets = g.eBullets ∧ (preFrame dt g).powerUps = g.powerUps ∧
    (preFrame dt g).boss = g.boss ∧ (preFrame dt g).score = g.score ∧
    (preFrame dt g).highScore = g.highScore ∧ (preFrame dt g).round = g.round ∧
    (preFrame dt g).formVX = g.formVX ∧ (preFrame dt g).diveInterval = g.diveInterval ∧
    (preFrame dt g).stateTimer = g.stateTimer := by
  unfold preFrame
  simp only [updateParticles_state, updateParticles_player, updateParticles_enemies,
    updateParticles_pBullets, updateParticles_eBullets, updateParticles_powerUps,
    updateParticles_boss, updateParticles_score, updateParticles_highScore,
    updateParticles_round, updateParticles_formVX, updateParticles_diveInterval,
    updateParticles_stateTimer, starsUpdate_state, starsUpdate_player, starsUpdate_enemies,
    starsUpdate_pBullets, starsUpdate_eBullets, starsUpdate_powerUps, starsUpdate_boss,
    starsUpdate_score, starsUpdate_highScore, starsUpdate_round, starsUpdate_formVX,
    starsUpdate_diveInterval, starsUpdate_stateTimer, and_self]

theorem buildFormation_diveTimer (g : Game) : (buildFormation g).diveTimer = g.diveInterval := by
  simp only [buildFormation, apply_ite Game.diveTimer, ite_self]

/-- What `updateClear` does when the countdown expires. -/
theorem updateClear_next (dt : ℚ) (g : Game) (ht : g.stateTimer - dt ≤ 0) :
    (updateClear dt g).state = GameState.PLAYING ∧
    (updateClear dt g).round = g.round + 1 ∧
    (updateClear dt g).formVX = 30 + 5 * (((g.round + 1 : Int) : ℚ) - 1) ∧
    (updateClear dt g).diveInterval = max 1.5 (3 - 0.2 * (((g.round + 1 : Int) : ℚ) - 1)) ∧
    (updateClear dt g).diveTimer = (updateClear dt g).diveInterval ∧
    (1 ≤ g.round + 1 → (g.round + 1) % 3 = 0 → BossMode (g.round + 1) (updateClear dt g)) ∧
    (1 ≤ g.round + 1 → (g.round + 1) % 3 ≠ 0 → RegularMode (updateClear dt g)) := by
  obtain ⟨g4, h4, hr, hv, hd⟩ : ∃ g4 : Game,
      updateClear dt g = { buildFormation g4 with state := GameState.PLAYING } ∧
      g4.round = g.round + 1 ∧ g4.formVX = 30 + ((g.round + 1 - 1 : Int) : ℚ) * 5 ∧
      g4.diveInterval = max 1.5 (3 - ((g.round + 1 - 1 : Int) : ℚ) * 0.2) := by
    refine ⟨{ g with stateTimer := g.stateTimer - dt, flashTimer := g.flashTimer + dt,
                     round := g.round + 1, formVX := 30 + ((g.round + 1 - 1 : Int) : ℚ) * 5,
                     diveInterval := max 1.5 (3 - ((g.round + 1 - 1 : Int) : ℚ) * 0.2) },
      ?_, ?_, ?_, ?_⟩
    · unfold updateClear
      simp only
      rw [if_pos ht]
    · rfl
    · rfl
    · rfl
  have hc : ((g.round + 1 - 1 : Int) : ℚ) = ((g.round + 1 : Int) : ℚ) - 1 := by push_cast; ring
  have b1 : (buildFormation g4).round = g4.round := congrArg Core.round (core_buildFormation g4)
  have b2 : (buildFormation g4).diveInterval = g4.diveInterval :=
    congrArg Aux.diveInterval (aux_buildFormation g4)
  rw [h4]
  refine ⟨rfl, b1.trans hr, ?_, ?_, ?_, ?_, ?_⟩
  · show (buildFormation g4).formVX = _
    rw [buildFormation_formVX, hv, hc]
    ring
  · show (buildFormation g4).diveInterval = _
    rw [b2, hd, hc]
    congr 1
    ring
  · show (buildFormation g4).diveTimer = (buildFormation g4).diveInterval
    rw [buildFormation_diveTimer, b2]
  · intro h1 h3
    have := (buildFormation_mode g4 (by rw [hr]; exact h1)).1 (by rw [hr]; exact h3)
    rw [hr] at this
    exact this
  · intro h1 h3
    exact (buildFormation_mode g4 (by rw [hr]; exact h1)).2 (by rw [hr]; exact h3)

theorem diveInterval_floor (r : Int) :
    (1.5 : ℚ) ≤ max 1.5 (3 - 0.2 * ((r : ℚ) - 1)) ∧
    (9 ≤ r → max (1.5 : ℚ) (3 - 0.2 * ((r : ℚ) - 1)) = 1.5) := by
  refine ⟨le_max_left _ _, fun h => max_eq_left ?_⟩
  have h9 : (9 : ℚ) ≤ (r : ℚ) := by exact_mod_cast h
  linarith

/-- C19. Round progression.  For a frame in STAGE_CLEAR (round number at least
1): if the countdown stays above 0 the frame changes neither the round nor the
flow state (nor the formation speed, the dive cadence or the roster) and
lowers the countdown by the frame time; if the countdown reaches 0 or less the
frame raises the round by exactly 1, sets `formVX = 30 + 5 * (round - 1)` and
`diveInterval = max(1.5, 3 - 0.2 * (round - 1))` for the new round, rebuilds
the formation (boss mode exactly when the new round is divisible by 3,
regular mode otherwise) and sets the flow state to PLAYING; the new dive
cadence is at least 1.5 and exactly 1.5 from round 9 on.  In every reachable
state the dive cadence is at least 1.5, and exactly 1.5 when the round is 9
or more. -/
theorem round_progression (L : Libm) (inp : Input) (g : Game)
    (hs : g.state = GameState.STAGE_CLEAR) (hr : 1 ≤ g.round) :
    (¬ g.stateTimer - inp.dt ≤ 0 →
      (update L inp g).round = g.round ∧ (update L inp g).state = GameState.STAGE_CLEAR ∧
      (update L inp g).stateTimer = g.stateTimer - inp.dt ∧
      (update L inp g).formVX = g.formVX ∧ (update L inp g).diveInterval = g.diveInterval ∧
      (update L inp g).enemies = g.enemies ∧ (update L inp g).boss = g.boss) ∧
    (g.stateTimer - inp.dt ≤ 0 →
      (update L inp g).state = GameState.PLAYING ∧
      (update L inp g).round = g.round + 1 ∧
      (update L inp g).formVX = 30 + 5 * (((g.round + 1 : Int) : ℚ) - 1) ∧
      (update L inp g).diveInterval = max 1.5 (3 - 0.2 * (((g.round + 1 : Int) : ℚ) - 1)) ∧
      ((g.round + 1) % 3 = 0 → BossMode (g.round + 1) (update L inp g)) ∧
      ((g.round + 1) % 3 ≠ 0 → RegularMode (update L inp g)) ∧
      1.5 ≤ (update L inp g).diveInterval ∧
      (9 ≤ g.round + 1 → (update L inp g).diveInterval = 1.5)) ∧
    (∀ s : Game, Reachable L s → 1.5 ≤ s.diveInterval ∧ (9 ≤ s.round → s.diveInterval = 1.5)) := by
  obtain ⟨p1, p2, p3, p4, p5, p6, p7, p8, p9, p10, p11, p12, p13⟩ := preFrame_fields inp.dt g
  rw [update_eq, hs]
  simp only
  generalize preFrame inp.dt g = p at *
  refine ⟨?_, ?_, ?_⟩
  · intro ht
    have e : updateClear inp.dt p =
        { p with stateTimer := p.stateTimer - inp.dt, flashTimer := p.flashTimer + inp.dt } := by
      unfold updateClear
      simp only
      rw [if_neg (by rw [p13]; exact ht)]
    rw [e]
    exact ⟨p10, p1.trans hs, by rw [← p13], p11, p12, p3, p7⟩
  · intro ht
    obtain ⟨h1, h2, h3, h4, -, h6, h7⟩ := updateClear_next inp.dt p (by rw [p13]; exact ht)
    rw [p10] at h2 h3 h4 h6 h7
    have hr1 : 1 ≤ g.round + 1 := by omega
    refine ⟨h1, h2, h3, h4, h6 hr1, h7 hr1, ?_, ?_⟩
    · rw [h4]
      exact (diveInterval_floor _).1
    · intro h9
      rw [h4]
      exact (diveInterval_floor _).2 h9
  · intro s hs
    have hi := reachable_paceInv L s hs
    refine ⟨hi.diveLo, fun h9 => ?_⟩
    rw [hi.diveRound (by omega)]
    have hc : ((s.round - 1 : Int) : ℚ) = (s.round : ℚ) - 1 := by push_cast; ring
    rw [hc]
    have := (diveInterval_floor s.round).2 h9
    rw [← this]
    congr 1
    ring

set_option maxRecDepth 1000000 in
theorem round_progression_witness :
    (stageCleared.state = GameState.STAGE_CLEAR ∧ stageCleared.round = 1 ∧
      stageCleared.stateTimer = 2 ∧
      (update refLibm { dt := 1 } stageCleared).state = GameState.STAGE_CLEAR ∧
      (update refLibm { dt := 1 } stageCleared).round = 1 ∧
      (update refLibm { dt := 2 } stageCleared).state = GameState.PLAYING ∧
      (update refLibm { dt := 2 } stageCleared).round = 1 + 1 ∧
      RegularMode (update refLibm { dt := 2 } stageCleared)) ∧
    (BossMode (8 + 1) (update refLibm { dt := 1 } roundEightCleared) ∧
      (update refLibm { dt := 1 } roundEightCleared).diveInterval = 1.5) ∧
    1.5 ≤ lostGame.diveInterval :=
  ⟨⟨by decide!, by decide!, by decide!,
      ((round_progression refLibm { dt := 1 } stageCleared (by decide!) (by decide!)).1
        (by decide!)).2.1,
      ((round_progression refLibm { dt := 1 } stageCleared (by decide!) (by decide!)).1
        (by decide!)).1.trans (by decide!),
      ((round_progression refLibm { dt := 2 } stageCleared (by decide!) (by decide!)).2.1
        (by decide!)).1,
      ((round_progression refLibm { dt := 2 } stageCleared (by decide!) (by decide!)).2.1
        (by decide!)).2.1.trans (by decide!),
      ((round_progression refLibm { dt := 2 } stageCleared (by decide!) (by decide!)).2.1
        (by decide!)).2.2.2.2.2.1 (by decide!)⟩,
    ⟨((round_progression refLibm { dt := 1 } roundEightCleared (by decide) (by decide)).2.1
        (by decide!)).2.2.2.2.1 (by decide),
      ((round_progression refLibm { dt := 1 } roundEightCleared (by decide) (by decide)).2.1
        (by decide!)).2.2.2.2.2.2.2 (by decide)⟩,
    ((round_progression refLibm { dt := 1 } roundEightCleared (by decide) (by decide)).2.2
      lostGame lostGame_reachable).1⟩

/-- C20. Respawn.  A frame in PLAYER_DEAD in which the countdown expires while
at least one life is left puts the player at the centre `SW / 2` with
`vx = 0`, alive and invincible with `invTimer = 2`, clears the player's
bullets and sets the flow state to PLAYING; the lives, the score, the round,
the enemy roster, the shot level and the shot cooldown are unchanged. -/
theorem respawn_after_death_pause (L : Libm) (inp : Input) (g : Game)
    (hs : g.state = GameState.PLAYER_DEAD) (ht : g.stateTimer - inp.dt ≤ 0)
    (hl : 1 ≤ g.player.lives) :
    (update L inp g).player.x = (SW : ℚ) / 2 ∧ (update L inp g).player.vx = 0 ∧
    (update L inp g).player.alive = true ∧ (update L inp g).player.invincible = true ∧
    (update L inp g).player.invTimer = 2 ∧ (update L inp g).pBullets = [] ∧
    (update L inp g).state = GameState.PLAYING ∧
    (update L inp g).player.lives = g.player.lives ∧ (update L inp g).score = g.score ∧
    (update L inp g).round = g.round ∧ (update L inp g).enemies = g.enemies ∧
    (update L inp g).player.shotLevel = g.player.shotLevel ∧
    (update L inp g).player.shotCooldown = g.player.shotCooldown := by
  obtain ⟨p1, p2, p3, p4, p5, p6, p7, p8, p9, p10, p11, p12, p13⟩ := preFrame_fields inp.dt g
  rw [update_eq, hs]
  simp only
  generalize preFrame inp.dt g = p at *
  have e : updateDead inp.dt p =
      { starsUpdate inp.dt { p with stateTimer := p.stateTimer - inp.dt } with
        player := { p.player with
          x := (SW : ℚ) / 2, vx := 0, alive := true, invincible := true, invTimer := 2 },
        pBullets := [],
        state := GameState.PLAYING } := by
    unfold updateDead
    simp only [starsUpdate_stateTimer, starsUpdate_player]
    rw [if_pos (by rw [p13]; exact ht), if_neg (by rw [p2]; omega)]
  rw [e]
  simp only [starsUpdate_score, starsUpdate_round, starsUpdate_enemies, p2, p8, p10, p3,
    and_self]

set_option maxRecDepth 1000000 in
theorem respawn_after_death_pause_witness :
    firstDeath.state = GameState.PLAYER_DEAD ∧ firstDeath.stateTimer = 2 ∧
    firstDeath.player.lives = 2 ∧ firstDeath.player.alive = false ∧
    (update refLibm { dt := 2 } firstDeath).player.x = 240 ∧
    (update refLibm { dt := 2 } firstDeath).player.invincible = true ∧
    (update refLibm { dt := 2 } firstDeath).player.invTimer = 2 ∧
    (update refLibm { dt := 2 } firstDeath).state = GameState.PLAYING ∧
    (update refLibm { dt := 2 } firstDeath).player.lives = firstDeath.player.lives :=
  ⟨by decide!, by decide!, by decide!, by decide!,
    (respawn_after_death_pause refLibm { dt := 2 } firstDeath (by decide!) (by decide!)
      (by decide!)).1.trans (by decide!),
    (respawn_after_death_pause refLibm { dt := 2 } firstDeath (by decide!) (by decide!)
      (by decide!)).2.2.2.1,
    (respawn_after_death_pause refLibm { dt := 2 } firstDeath (by decide!) (by decide!)
      (by decide!)).2.2.2.2.1,
    (respawn_after_death_pause refLibm { dt := 2 } firstDeath (by decide!) (by decide!)
      (by decide!)).2.2.2.2.2.2.1,
    (respawn_after_death_pause refLibm { dt := 2 } firstDeath (by decide!) (by decide!)
      (by decide!)).2.2.2.2.2.2.2.1⟩

/-! ## Player bullets against the roster: first match wins -/

theorem hitFirstEnemy_none (br : Rectangle) (es : List Enemy) :
    hitFirstEnemy br es = none ↔
      ∀ e ∈ es, ¬ (e.alive = true ∧ CheckCollisionRecs br e.hitbox = true) := by
  induction es with
  | nil => simp [hitFirstEnemy]
  | cons e es ih =>
    by_cases ha : e.alive = true
    · by_cases ho : CheckCollisionRecs br e.hitbox = true
      · simp [hitFirstEnemy, ha, ho]
      · simp [hitFirstEnemy, ha, ho, ih]
    · simp [hitFirstEnemy, ha, ih]

/-- The enemy `hitFirstEnemy` picks is the first living enemy in roster order
whose hitbox overlaps `br`; the roster it returns differs from the old one in
that enemy's alive flag only. -/
theorem hitFirstEnemy_first (br : Rectangle) (pre post : List Enemy) (e : Enemy)
    (hpre : ∀ x ∈ pre, ¬ (x.alive = true ∧ CheckCollisionRecs br x.hitbox = true))
    (ha : e.alive = true) (ho : CheckCollisionRecs br e.hitbox = true) :
    hitFirstEnemy br (pre ++ e :: post) =
      some (e, pre ++ { e with alive := false } :: post) := by
  induction pre with
  | nil => simp [hitFirstEnemy, ha, ho]
  | cons x xs ih =>
    have hx := hpre x (List.mem_cons_self _ _)
    have ih' := ih (fun y hy => hpre y (List.mem_cons_of_mem _ hy))
    by_cases hxa : x.alive = true
    · have hxo : ¬ CheckCollisionRecs br x.hitbox = true := fun h => hx ⟨hxa, h⟩
      simp [hitFirstEnemy, hxa, hxo, ih']
    · simp [hitFirstEnemy, hxa, ih']

theorem hitFirstEnemy_some (br : Rectangle) (es : List Enemy) (e : Enemy) (es' : List Enemy)
    (h : hitFirstEnemy br es = some (e, es')) :
    ∃ pre post, es = pre ++ e :: post ∧
      (∀ x ∈ pre, ¬ (x.alive = true ∧ CheckCollisionRecs br x.hitbox = true)) ∧
      e.alive = true ∧ CheckCollisionRecs br e.hitbox = true ∧
      es' = pre ++ { e with alive := false } :: post := by
  induction es generalizing es' with
  | nil => simp [hitFirstEnemy] at h
  | cons x xs ih =>
    by_cases hxa : x.alive = true
    · by_cases hxo : CheckCollisionRecs br x.hitbox = true
      · simp only [hitFirstEnemy, hxa, hxo, Bool.not_true, Bool.false_eq_true, if_false, if_true,
          Option.some.injEq, Prod.mk.injEq] at h
        obtain ⟨h1, h2⟩ := h
        subst h1
        exact ⟨[], xs, rfl, fun _ hm => absurd hm (List.not_mem_nil _), hxa, hxo, h2.symm⟩
      · simp only [hitFirstEnemy, hxa, hxo, Bool.not_true, Bool.false_eq_true, if_false,
          Option.map_eq_some', Prod.mk.injEq] at h
        obtain ⟨r, hr, h1, h2⟩ := h
        obtain ⟨pre, post, e1, e2, e3, e4, e5⟩ := ih r.2 (by rw [hr, ← h1])
        refine ⟨x :: pre, post, by rw [e1]; rfl, ?_, e3, e4, by rw [← h2, e5]; rfl⟩
        intro y hy
        rcases List.mem_cons.mp hy with hy | hy
        · rw [hy]
          exact fun hh => hxo hh.2
        · exact e2 y hy
    · have hxa' : x.alive = false := by simpa using hxa
      simp only [hitFirstEnemy, hxa', Bool.not_false, if_true, Option.map_eq_some',
        Prod.mk.injEq] at h
      obtain ⟨r, hr, h1, h2⟩ := h
      obtain ⟨pre, post, e1, e2, e3, e4, e5⟩ := ih r.2 (by rw [hr, ← h1])
      refine ⟨x :: pre, post, by rw [e1]; rfl, ?_, e3, e4, by rw [← h2, e5]; rfl⟩
      intro y hy
      rcases List.mem_cons.mp hy with hy | hy
      · rw [hy]
        exact fun hh => hxa hh.1
      · exact e2 y hy

theorem spawnParticles_gParticles (L : Libm) (cx cy : ℚ) (is : List Nat) (g : Game) :
    ∃ ps : List Particle, (spawnParticles L cx cy is g).gParticles = g.gParticles ++ ps ∧
      ps.length = is.length ∧
      ∀ p ∈ ps, p.x = cx ∧ p.y = cy ∧ p.active = true ∧ p.life = PARTICLE_LIFE := by
  induction is generalizing g with
  | nil => exact ⟨[], by simp [spawnParticles], rfl, fun _ h => absurd h (List.not_mem_nil _)⟩
  | cons i is ih =>
    simp only [spawnParticles]
    obtain ⟨ps, h1, h2, h3⟩ := ih
      { (GetRandomValue 3 5 (GetRandomValue 60 160 g).2).2 with
        gParticles := (GetRandomValue 3 5 (GetRandomValue 60 160 g).2).2.gParticles ++
          [{ x := cx, y := cy,
             vx := L.cosf ((i : ℚ) / (PARTICLE_COUNT : ℚ) * 2 * PI) *
               ((GetRandomValue 60 160 g).1 : ℚ),
             vy := L.sinf ((i : ℚ) / (PARTICLE_COUNT : ℚ) * 2 * PI) *
               ((GetRandomValue 60 160 g).1 : ℚ),
             life := PARTICLE_LIFE, maxLife := PARTICLE_LIFE,
             size := ((GetRandomValue 3 5 (GetRandomValue 60 160 g).2).1 : ℚ),
             active := true }] }
    refine ⟨({ x := cx, y := cy,
               vx := L.cosf ((i : ℚ) / (PARTICLE_COUNT : ℚ) * 2 * PI) *
                 ((GetRandomValue 60 160 g).1 : ℚ),
               vy := L.sinf ((i : ℚ) / (PARTICLE_COUNT : ℚ) * 2 * PI) *
                 ((GetRandomValue 60 160 g).1 : ℚ),
               life := PARTICLE_LIFE, maxLife := PARTICLE_LIFE,
               size := ((GetRandomValue 3 5 (GetRandomValue 60 160 g).2).1 : ℚ),
               active := true } : Particle) :: ps, ?_,
      by rw [List.length_cons, List.length_cons, h2], ?_⟩
    · rw [h1]
      simp only [GetRandomValue_gParticles, List.append_assoc, List.singleton_append]
    · intro p hp
      rcases List.mem_cons.mp hp with hp | hp
      · rw [hp]
        exact ⟨rfl, rfl, rfl, rfl⟩
      · exact h3 p hp

/-- An explosion appends one burst of 8 particles, all at the centre given. -/
theorem spawnExplosion_burst (L : Libm) (cx cy : ℚ) (g : Game) :
    ∃ ps : List Particle, (spawnExplosion L cx cy g).gParticles = g.gParticles ++ ps ∧
      ps.length = 8 ∧
      ∀ p ∈ ps, p.x = cx ∧ p.y = cy ∧ p.active = true ∧ p.life = PARTICLE_LIFE := by
  unfold spawnExplosion
  exact spawnParticles_gParticles L cx cy _ g

theorem killEnemy_score (L : Libm) (e : Enemy) (es : List Enemy) (g : Game) :
    (killEnemy L e es g).score =
      g.score + pointsForEnemy e.type (decide (e.state = EnemyState.DIVING)) := by
  simp only [killEnemy, addScore, spawnPowerUp_score, spawnExplosion_score]

theorem killEnemy_burst (L : Libm) (e : Enemy) (es : List Enemy) (g : Game) :
    ∃ ps : List Particle, (killEnemy L e es g).gParticles = g.gParticles ++ ps ∧
      ps.length = 8 ∧
      ∀ p ∈ ps, p.x = e.x ∧ p.y = e.y ∧ p.active = true ∧ p.life = PARTICLE_LIFE := by
  unfold killEnemy
  simp only [spawnPowerUp_gParticles]
  exact spawnExplosion_burst L e.x e.y _

/-- The iteration of the collision loop for an active bullet that no boss
absorbs and whose first living overlapping enemy in roster order is `e`. -/
theorem collideBullet_regular_kill (L : Libm) (pb : Bullet) (g : Game) (pre post : List Enemy)
    (e : Enemy) (hp : pb.active = true)
    (hb : ¬ (g.boss.active = true ∧ CheckCollisionRecs pb.rect g.boss.hitbox = true))
    (hr : g.enemies = pre ++ e :: post)
    (hpre : ∀ x ∈ pre, ¬ (x.alive = true ∧ CheckCollisionRecs pb.rect x.hitbox = true))
    (ha : e.alive = true) (ho : CheckCollisionRecs pb.rect e.hitbox = true) :
    collideBullet L pb g =
      ({ pb with active := false },
        killEnemy L e (pre ++ { e with alive := false } :: post) g) := by
  have hb' : (g.boss.active && CheckCollisionRecs pb.rect g.boss.hitbox) = false := by
    simpa using hb
  unfold collideBullet
  simp only [hp, Bool.not_true, Bool.false_eq_true, if_false, hb', hr,
    hitFirstEnemy_first pb.rect pre post e hpre ha ho]

/-- C14, as amended. In the collision loop of `updatePlaying`, when an active
player bullet that no boss absorbs reaches the first living enemy in roster
order whose hitbox it overlaps, that enemy becomes not alive and the rest of
the roster is untouched, the bullet becomes inactive (so the compaction that
follows the loop removes it), the score rises by exactly
`pointsForEnemy(type, state == DIVING)` (10 for a ZAKO_GREEN in formation),
and one burst of exactly 8 particles, each at the enemy's `(x, y)`, is
appended to the particle list. -/
theorem regular_kill_effect (L : Libm) (pb : Bullet) (g : Game) (pre post : List Enemy)
    (e : Enemy) (hp : pb.active = true)
    (hb : ¬ (g.boss.active = true ∧ CheckCollisionRecs pb.rect g.boss.hitbox = true))
    (hr : g.enemies = pre ++ e :: post)
    (hpre : ∀ x ∈ pre, ¬ (x.alive = true ∧ CheckCollisionRecs pb.rect x.hitbox = true))
    (ha : e.alive = true) (ho : CheckCollisionRecs pb.rect e.hitbox = true) :
    (collideBullet L pb g).2.enemies = pre ++ { e with alive := false } :: post ∧
    (collideBullet L pb g).1.active = false ∧
    (∀ bs : List Bullet, ((collideBullet L pb g).1 :: bs).filter (fun b => b.active) =
      bs.filter (fun b => b.active)) ∧
    (∀ s : Game, ∀ b ∈ (compact s).pBullets, b.active = true) ∧
    (collideBullet L pb g).2.score =
      g.score + pointsForEnemy e.type (decide (e.state = EnemyState.DIVING)) ∧
    (e.type = EnemyType.ZAKO_GREEN → e.state = EnemyState.IN_FORMATION →
      (collideBullet L pb g).2.score = g.score + 10) ∧
    (∃ ps : List Particle, (collideBullet L pb g).2.gParticles = g.gParticles ++ ps ∧
      ps.length = 8 ∧ ∀ p ∈ ps, p.x = e.x ∧ p.y = e.y ∧ p.active = true) := by
  rw [collideBullet_regular_kill L pb g pre post e hp hb hr hpre ha ho]
  refine ⟨killEnemy_enemies L e _ g, rfl, fun bs => ?_, ?_, killEnemy_score L e _ g, ?_, ?_⟩
  · simp only [List.filter_cons, Bool.false_eq_true, if_false]
  · intro s b hb
    have : b ∈ s.pBullets.filter (fun b => b.active) := hb
    exact (List.mem_filter.mp this).2
  · intro ht hst
    show (killEnemy L e _ g).score = _
    rw [killEnemy_score, ht, hst]
    rfl
  · obtain ⟨ps, h1, h2, h3⟩ := killEnemy_burst L e (pre ++ { e with alive := false } :: post) g
    exact ⟨ps, h1, h2, fun p hp => ⟨(h3 p hp).1, (h3 p hp).2.1, (h3 p hp).2.2.1⟩⟩

set_option maxRecDepth 1000000 in
/-- C14, counterexample. In `twoDivers` no boss is active and the one active
player bullet overlaps the hitboxes of two living enemies.  The collision loop
kills the first of them only: the second, overlapped by the same bullet, is
still alive after the loop and after the whole frame, in which 160 points are
scored for one kill. -/
theorem second_overlapped_enemy_survives :
    twoDivers.boss.active = false ∧
    (∀ pb ∈ twoDivers.pBullets, pb.active = true ∧
      ∀ e ∈ twoDivers.enemies, e.alive = true ∧ CheckCollisionRecs pb.rect e.hitbox = true) ∧
    (collisionStep refLibm twoDivers).enemies.map (fun e => e.alive) = [false, true] ∧
    (update refLibm { dt := 1 / 60 } twoDivers).enemies.map (fun e => e.alive) = [false, true] ∧
    (update refLibm { dt := 1 / 60 } twoDivers).score = twoDivers.score + 160 := by
  decide!

set_option maxRecDepth 1000000 in
theorem regular_kill_effect_witness :
    greenShot.score = 0 ∧ greenShot.enemies.length = 26 ∧
    (collideBullet refLibm greenBullet greenShot).2.enemies =
      { newEnemy 0 4 with alive := false } :: greenShot.enemies.tail ∧
    (collideBullet refLibm greenBullet greenShot).1.active = false ∧
    (collideBullet refLibm greenBullet greenShot).2.score = greenShot.score + 10 :=
  ⟨by decide!, by decide!,
    (regular_kill_effect refLibm greenBullet greenShot [] greenShot.enemies.tail (newEnemy 0 4)
      (by decide!) (by decide!) (by decide!) (fun _ h => absurd h (List.not_mem_nil _))
      (by decide!) (by decide!)).1,
    (regular_kill_effect refLibm greenBullet greenShot [] greenShot.enemies.tail (newEnemy 0 4)
      (by decide!) (by decide!) (by decide!) (fun _ h => absurd h (List.not_mem_nil _))
      (by decide!) (by decide!)).2.1,
    (regular_kill_effect refLibm greenBullet greenShot [] greenShot.enemies.tail (newEnemy 0 4)
      (by decide!) (by decide!) (by decide!) (fun _ h => absurd h (List.not_mem_nil _))
      (by decide!) (by decide!)).2.2.2.2.2.1 (by decide!) (by decide!)⟩

/-- What one iteration of the collision loop does to the roster: nothing, or
(for an active bullet that no boss absorbs) it kills the first living enemy
in roster order whose hitbox the bullet overlaps, consumes the bullet and
leaves every other enemy as it was. -/
theorem collideBullet_roster (L : Libm) (pb : Bullet) (g : Game) :
    (collideBullet L pb g).2.enemies = g.enemies ∨
    (pb.active = true ∧
      ¬ (g.boss.active = true ∧ CheckCollisionRecs pb.rect g.boss.hitbox = true) ∧
      ∃ pre e post, g.enemies = pre ++ e :: post ∧
        (∀ x ∈ pre, ¬ (x.alive = true ∧ CheckCollisionRecs pb.rect x.hitbox = true)) ∧
        e.alive = true ∧ CheckCollisionRecs pb.rect e.hitbox = true ∧
        (collideBullet L pb g).2.enemies = pre ++ { e with alive := false } :: post ∧
        (collideBullet L pb g).1.active = false) := by
  unfold collideBullet
  by_cases hp : pb.active = true
  · by_cases hb : (g.boss.active && CheckCollisionRecs pb.rect g.boss.hitbox) = true
    · left
      simp only [hp, Bool.not_true, Bool.false_eq_true, if_false, hb, if_true]
      exact hitBoss_enemies L pb g
    · simp only [hp, Bool.not_true, Bool.false_eq_true, if_false, hb]
      cases hh : hitFirstEnemy pb.rect g.enemies with
      | none => left; rfl
      | some r =>
        obtain ⟨e, es⟩ := r
        right
        obtain ⟨pre, post, e1, e2, e3, e4, e5⟩ := hitFirstEnemy_some _ _ _ _ hh
        refine ⟨trivial, by simpa using hb, pre, e, post, e1, e2, e3, e4, ?_, rfl⟩
        simp only
        rw [killEnemy_enemies, e5]
  · left
    have hp' : pb.active = false := by simpa using hp
    simp only [hp', Bool.not_false, if_true]

theorem alive_length_kill (pre post : List Enemy) (e : Enemy) (ha : e.alive = true) :
    (((pre ++ { e with alive := false } :: post).filter (fun e => e.alive)).length : Int) + 1 =
      ((pre ++ e :: post).filter (fun e => e.alive)).length := by
  simp [List.filter_append, List.filter_cons, ha]
  omega

theorem collideBullet_aliveCount (L : Libm) (pb : Bullet) (g : Game) :
    aliveCount g - (if pb.active = true then 1 else 0) ≤ aliveCount (collideBullet L pb g).2 := by
  rcases collideBullet_roster L pb g with h | ⟨hp, -, pre, e, post, e1, -, e3, -, e5, -⟩
  · unfold aliveCount
    rw [h]
    split_ifs <;> omega
  · unfold aliveCount
    rw [e5, e1, if_pos hp]
    have := alive_length_kill pre post e e3
    omega

/-- In one pass of the collision loop the bullets kill at most as many enemies
as there are active bullets. -/
theorem collideBullets_aliveCount (L : Libm) (pbs : List Bullet) (g : Game) :
    aliveCount g - ((pbs.filter (fun b => b.active)).length : Int) ≤
      aliveCount (collideBullets L pbs g).2 := by
  induction pbs generalizing g with
  | nil =>
    simp only [collideBullets, List.filter_nil, List.length_nil]
    omega
  | cons pb pbs ih =>
    simp only [collideBullets]
    have h1 := collideBullet_aliveCount L pb g
    have h2 := ih (collideBullet L pb g).2
    by_cases hp : pb.active = true
    · rw [if_pos hp] at h1
      simp only [List.filter_cons, hp, if_true, List.length_cons]
      push_cast
      omega
    · rw [if_neg hp] at h1
      simp only [List.filter_cons, hp, Bool.false_eq_true, if_false]
      omega

/-- C16. First match wins per bullet.  One iteration of the collision loop
either leaves the roster as it is or, for an active bullet that no boss
absorbs, kills exactly the first living enemy in roster order whose hitbox
the bullet overlaps, consumes the bullet and leaves every other enemy,
overlapped or not, as it was; so a bullet kills at most one enemy.  A bullet
that overlaps no living enemy (and no active boss) passes the loop unchanged,
whatever dead enemies it overlaps.  A bullet that hits the active boss is
consumed and leaves the roster alone.  Hence a pass of the loop lowers the
number of living enemies by at most the number of active player bullets. -/
theorem first_match_wins_per_bullet (L : Libm) (pb : Bullet) (g : Game) :
    ((collideBullet L pb g).2.enemies = g.enemies ∨
      (pb.active = true ∧
        ¬ (g.boss.active = true ∧ CheckCollisionRecs pb.rect g.boss.hitbox = true) ∧
        ∃ pre e post, g.enemies = pre ++ e :: post ∧
          (∀ x ∈ pre, ¬ (x.alive = true ∧ CheckCollisionRecs pb.rect x.hitbox = true)) ∧
          e.alive = true ∧ CheckCollisionRecs pb.rect e.hitbox = true ∧
          (collideBullet L pb g).2.enemies = pre ++ { e with alive := false } :: post ∧
          (collideBullet L pb g).1.active = false)) ∧
    aliveCount g - 1 ≤ aliveCount (collideBullet L pb g).2 ∧
    ((∀ e ∈ g.enemies, e.alive = true → CheckCollisionRecs pb.rect e.hitbox = false) →
      ¬ (g.boss.active = true ∧ CheckCollisionRecs pb.rect g.boss.hitbox = true) →
      collideBullet L pb g = (pb, g)) ∧
    (pb.active = true → g.boss.active = true →
      CheckCollisionRecs pb.rect g.boss.hitbox = true →
      (collideBullet L pb g).2.enemies = g.enemies ∧
      (collideBullet L pb g).1.active = false) ∧
    (∀ (pbs : List Bullet) (s : Game),
      aliveCount s - ((pbs.filter (fun b => b.active)).length : Int) ≤
        aliveCount (collideBullets L pbs s).2) ∧
    aliveCount g - ((g.pBullets.filter (fun b => b.active)).length : Int) ≤
      aliveCount (collisionStep L g) := by
  refine ⟨collideBullet_roster L pb g, ?_, ?_, ?_, collideBullets_aliveCount L,
    collideBullets_aliveCount L g.pBullets g⟩
  · have := collideBullet_aliveCount L pb g
    split_ifs at this <;> omega
  · intro hd hb
    have hn : hitFirstEnemy pb.rect g.enemies = none := by
      rw [hitFirstEnemy_none]
      intro e he hh
      have := hd e he hh.1
      rw [hh.2] at this
      exact Bool.noConfusion this
    have hb' : (g.boss.active && CheckCollisionRecs pb.rect g.boss.hitbox) = false := by
      simpa using hb
    unfold collideBullet
    simp only [hb', hn, Bool.false_eq_true, if_false]
    split_ifs <;> rfl
  · intro hp h1 h2
    unfold collideBullet
    simp only [hp, h1, h2, Bool.not_true, Bool.false_eq_true, if_false, Bool.and_self, if_true]
    exact ⟨hitBoss_enemies L pb g, trivial⟩

set_option maxRecDepth 1000000 in
theorem first_match_wins_per_bullet_witness :
    aliveCount twoDivers = 2 ∧
    aliveCount twoDivers - ((twoDivers.pBullets.filter (fun b => b.active)).length : Int) ≤
      aliveCount (collisionStep refLibm twoDivers) ∧
    aliveCount (collisionStep refLibm twoDivers) = 1 ∧
    CheckCollisionRecs greenBullet.rect (lastEnemyShot.enemies.getD 0 {}).hitbox = true ∧
    (lastEnemyShot.enemies.getD 0 {}).alive = false ∧
    collideBullet refLibm greenBullet lastEnemyShot = (greenBullet, lastEnemyShot) :=
  ⟨by decide!,
    (first_match_wins_per_bullet refLibm greenBullet twoDivers).2.2.2.2.2,
    by decide!, by decide!, by decide!,
    (first_match_wins_per_bullet refLibm greenBullet lastEnemyShot).2.2.1
      (by decide!) (by decide!)⟩

/-! ## Dead enemies are inert -/

theorem deadKept_refl (e : Enemy) : DeadKept e e := fun _ => rfl

theorem deadKept_trans {a b c : Enemy} (h₁ : DeadKept a b) (h₂ : DeadKept b c) :
    DeadKept a c := by
  intro ha
  have hb := h₁ ha
  rw [hb] at h₂
  exact h₂ ha

theorem deadKept_list_refl (es : List Enemy) : List.Forall₂ DeadKept es es := by
  induction es with
  | nil => exact List.Forall₂.nil
  | cons e es ih => exact List.Forall₂.cons (deadKept_refl e) ih

theorem deadKept_list_of_eq {es es' : List Enemy} (h : es' = es) :
    List.Forall₂ DeadKept es es' := h ▸ deadKept_list_refl es

theorem deadKept_list_trans {as bs cs : List Enemy} (h₁ : List.Forall₂ DeadKept as bs)
    (h₂ : List.Forall₂ DeadKept bs cs) : List.Forall₂ DeadKept as cs :=
  forall₂_compose h₁ h₂ (fun _ _ _ => deadKept_trans)

theorem deadKept_list_map (f : Enemy → Enemy) (hf : ∀ e, DeadKept e (f e))
    (es : List Enemy) : List.Forall₂ DeadKept es (es.map f) := by
  induction es with
  | nil => exact List.Forall₂.nil
  | cons e es ih => exact List.Forall₂.cons (hf e) ih

theorem deadKept_list_kill (pre post : List Enemy) (e e' : Enemy) (h : DeadKept e e') :
    List.Forall₂ DeadKept (pre ++ e :: post) (pre ++ e' :: post) := by
  induction pre with
  | nil => exact List.Forall₂.cons h (deadKept_list_refl post)
  | cons x xs ih => exact List.Forall₂.cons (deadKept_refl x) ih

/-- Replacing a living enemy of the roster keeps the dead ones. -/
theorem deadKept_list_set (es : List Enemy) (i : Nat) (a : Enemy) (h : AliveAt es i) :
    List.Forall₂ DeadKept es (es.set i a) := by
  induction es generalizing i with
  | nil => exact List.Forall₂.nil
  | cons e es ih =>
    cases i with
    | zero =>
      have he : e.alive = true := h e rfl
      refine List.Forall₂.cons ?_ (deadKept_list_refl es)
      intro hd
      rw [he] at hd
      exact Bool.noConfusion hd
    | succ i =>
      exact List.Forall₂.cons (deadKept_refl e) (ih i (fun x hx => h x hx))

/-- Replacing an enemy by one with the same alive flag keeps the positions of
the living enemies. -/
theorem aliveAt_set (es : List Enemy) (i j : Nat) (a : Enemy)
    (ha : ∀ e, es.get? i = some e → a.alive = e.alive) (h : AliveAt es j) :
    AliveAt (es.set i a) j := by
  induction es generalizing i j with
  | nil => exact h
  | cons e es ih =>
    cases i with
    | zero =>
      cases j with
      | zero =>
        intro x hx
        have : x = a := by simpa using hx.symm
        rw [this, ha e rfl]
        exact h e rfl
      | succ j => exact fun x hx => h x hx
    | succ i =>
      cases j with
      | zero => exact fun x hx => h x hx
      | succ j => exact ih i j (fun x hx => ha x hx) (fun x hx => h x hx)

theorem launchDive_enemies (g : Game) (e : Enemy) :
    (launchDive g e).2.enemies = g.enemies := by
  unfold launchDive
  simp only
  split_ifs <;> (try split) <;> simp only [GetRandomValue_enemies]

theorem launchDive_alive (g : Game) (e : Enemy) : (launchDive g e).1.alive = e.alive := by
  unfold launchDive
  simp only
  split_ifs <;> rfl

theorem launchAt_enemies (i : Nat) (g : Game) :
    (launchAt i g).enemies = g.enemies ∨
    ∃ e, g.enemies.get? i = some e ∧
      (launchAt i g).enemies = g.enemies.set i (launchDive g e).1 := by
  unfold launchAt
  cases h : g.enemies.get? i with
  | none => left; rfl
  | some e =>
    right
    refine ⟨e, rfl, ?_⟩
    simp only
    rw [launchDive_enemies]

/-- Launching the living enemy at position `i` keeps the dead enemies, and the
living ones stay alive. -/
theorem launchAt_deadKept (i : Nat) (g : Game) (h : AliveAt g.enemies i) :
    List.Forall₂ DeadKept g.enemies (launchAt i g).enemies ∧
    ∀ j, AliveAt g.enemies j → AliveAt (launchAt i g).enemies j := by
  rcases launchAt_enemies i g with h1 | ⟨e, he, h1⟩
  · rw [h1]
    exact ⟨deadKept_list_refl _, fun _ hj => hj⟩
  · rw [h1]
    refine ⟨deadKept_list_set _ _ _ h, fun j hj => aliveAt_set _ _ _ _ ?_ hj⟩
    intro x hx
    rw [he] at hx
    have : x = e := by simpa using hx.symm
    rw [this]
    exact launchDive_alive g e

theorem foldl_launchAt_deadKept (group : List Nat) (g : Game)
    (h : ∀ i ∈ group, AliveAt g.enemies i) :
    List.Forall₂ DeadKept g.enemies (group.foldl (fun g i => launchAt i g) g).enemies := by
  induction group generalizing g with
  | nil => exact deadKept_list_refl _
  | cons i is ih =>
    simp only [List.foldl_cons]
    obtain ⟨h1, h2⟩ := launchAt_deadKept i g (h i (List.mem_cons_self _ _))
    exact deadKept_list_trans h1
      (ih (launchAt i g) (fun j hj => h2 j (h j (List.mem_cons_of_mem _ hj))))

/-- The dive candidates are positions of living enemies in formation. -/
theorem diveCandidates_alive (es : List Enemy) (i : Nat) (h : i ∈ diveCandidates es) :
    AliveAt es i ∧ ∀ e, es.get? i = some e → e.state = EnemyState.IN_FORMATION := by
  unfold diveCandidates at h
  obtain ⟨-, h2⟩ := List.mem_filter.mp h
  simp only [Bool.and_eq_true, decide_eq_true_eq] at h2
  constructor
  · intro e he
    have : es.getD i {} = e := by
      rw [List.getD_eq_getElem?_getD, ← List.get?_eq_getElem?, he]
      rfl
    rw [← this]
    exact h2.1
  · intro e he
    have : es.getD i {} = e := by
      rw [List.getD_eq_getElem?_getD, ← List.get?_eq_getElem?, he]
      rfl
    rw [← this]
    exact h2.2

theorem swapAt_mem (xs : List Nat) (i j : Nat) (hi : i < xs.length) (hj : j < xs.length) :
    ∀ x ∈ swapAt xs i j, x ∈ xs := by
  intro x hx
  unfold swapAt at hx
  rcases List.mem_or_eq_of_mem_set hx with h | h
  · rcases List.mem_or_eq_of_mem_set h with h | h
    · exact h
    · rw [h, List.getD_eq_getElem _ _ hj]
      exact List.getElem_mem hj
  · rw [h, List.getD_eq_getElem _ _ hi]
    exact List.getElem_mem hi

theorem swapAt_length (xs : List Nat) (i j : Nat) : (swapAt xs i j).length = xs.length := by
  unfold swapAt
  rw [List.length_set, List.length_set]

theorem shuffleLoop_mem (draw : Nat → Nat) (xs : List Nat) (k : Nat) (hk : k + 1 ≤ xs.length) :
    (shuffleLoop draw xs k).length = xs.length ∧ ∀ x ∈ shuffleLoop draw xs k, x ∈ xs := by
  induction k with
  | zero => exact ⟨rfl, fun _ h => h⟩
  | succ k ih =>
    obtain ⟨h1, h2⟩ := ih (by omega)
    have hj : draw k % (k + 2) < k + 2 := Nat.mod_lt _ (by omega)
    simp only [shuffleLoop]
    refine ⟨by rw [swapAt_length, h1], fun x hx => h2 x ?_⟩
    exact swapAt_mem _ _ _ (by omega) (by omega) x hx

/-- The shuffle only rearranges: every position it returns was a candidate. -/
theorem shuffle_mem (L : Libm) (seed : Int) (xs : List Nat) :
    ∀ x ∈ shuffle L seed xs, x ∈ xs := by
  unfold shuffle
  cases xs with
  | nil => exact fun _ h => h
  | cons a as => exact (shuffleLoop_mem _ _ _ (by simp)).2

theorem randomGroup_mem (L : Libm) (cands : List Nat) (g : Game) :
    (∀ i ∈ (randomGroup L cands g).1, i ∈ cands) ∧
    (randomGroup L cands g).2.enemies = g.enemies := by
  unfold randomGroup
  simp only [GetRandomValue_enemies, and_true]
  intro i hi
  exact shuffle_mem L _ _ i (List.mem_of_mem_take hi)

theorem addEscorts_mem (g : Game) (f : Nat) (cands group : List Nat) :
    ∀ i ∈ addEscorts g f cands group, i ∈ group ∨ i ∈ cands := by
  induction cands generalizing group with
  | nil => exact fun i hi => Or.inl hi
  | cons c cs ih =>
    intro i hi
    unfold addEscorts at hi
    split_ifs at hi
    · rcases ih _ i hi with h | h
      · rcases List.mem_append.mp h with h | h
        · exact Or.inl h
        · have : i = c := by simpa using h
          exact Or.inr (this ▸ List.mem_cons_self _ _)
      · exact Or.inr (List.mem_cons_of_mem _ h)
    · rcases ih _ i hi with h | h
      · exact Or.inl h
      · exact Or.inr (List.mem_cons_of_mem _ h)

/-- The enemies `startDive` launches are dive candidates of the roster it
starts from. -/
theorem startDive_group (L : Libm) (g : Game) :
    startDive L g = g ∨
    ∃ (group : List Nat) (g' : Game),
      startDive L g = group.foldl (fun g i => launchAt i g) g' ∧
      g'.enemies = g.enemies ∧ ∀ i ∈ group, i ∈ diveCandidates g.enemies := by
  unfold startDive
  by_cases hc : (diveCandidates g.enemies).isEmpty = true
  · left
    simp only [hc, if_true]
  · right
    simp only [hc, Bool.false_eq_true, if_false]
    cases hf : List.find? (fun i => decide ((enemyAt g i).type = EnemyType.FLAGSHIP))
        (diveCandidates g.enemies) with
    | none =>
      exact ⟨_, _, rfl, (randomGroup_mem L _ g).2, (randomGroup_mem L _ g).1⟩
    | some f =>
      simp only
      have hfm : f ∈ diveCandidates g.enemies := List.mem_of_find?_eq_some hf
      by_cases hr : (GetRandomValue 0 1 g).1 = 0
      · simp only [hr, if_true]
        refine ⟨_, _, rfl, GetRandomValue_enemies 0 1 g, ?_⟩
        intro i hi
        rcases addEscorts_mem _ _ _ _ i hi with h | h
        · have : i = f := by simpa using h
          exact this ▸ hfm
        · exact h
      · simp only [hr, if_false]
        refine ⟨_, _, rfl, ?_, (randomGroup_mem L _ _).1⟩
        rw [(randomGroup_mem L _ _).2, GetRandomValue_enemies]

theorem startDive_deadKept (L : Libm) (g : Game) :
    List.Forall₂ DeadKept g.enemies (startDive L g).enemies := by
  rcases startDive_group L g with h | ⟨group, g', h1, h2, h3⟩
  · rw [h]
    exact deadKept_list_refl _
  · rw [h1, ← h2]
    apply foldl_launchAt_deadKept
    intro i hi
    rw [h2]
    exact (diveCandidates_alive _ i (h3 i hi)).1

theorem diveTimerStep_deadKept (L : Libm) (dt : ℚ) (g : Game) :
    List.Forall₂ DeadKept g.enemies (diveTimerStep L dt g).enemies := by
  unfold diveTimerStep
  simp only
  split_ifs
  · show List.Forall₂ DeadKept g.enemies (GetRandomValue 200 400 (startDive L _)).2.enemies
    rw [GetRandomValue_enemies]
    exact startDive_deadKept L { g with diveTimer := g.diveTimer - dt }
  · exact deadKept_list_refl _

theorem syncFormation_deadKept (L : Libm) (g : Game) :
    List.Forall₂ DeadKept g.enemies (syncFormation L g).enemies := by
  unfold syncFormation
  apply deadKept_list_map
  intro e hd
  simp only [syncEnemy, hd, Bool.not_false, if_true]

theorem updateDivers_deadKept (L : Libm) (dt : ℚ) (es : List Enemy) (g : Game) :
    List.Forall₂ DeadKept es (updateDivers L dt es g).1 := by
  induction es generalizing g with
  | nil => exact List.Forall₂.nil
  | cons e es ih =>
    simp only [updateDivers]
    refine List.Forall₂.cons ?_ (ih _)
    intro hd
    simp only [hd, Bool.not_false, if_true]

theorem diversStep_deadKept (L : Libm) (dt : ℚ) (g : Game) :
    List.Forall₂ DeadKept g.enemies (diversStep L dt g).enemies :=
  updateDivers_deadKept L dt g.enemies g

theorem collideBullets_deadKept (L : Libm) (pbs : List Bullet) (g : Game) :
    List.Forall₂ DeadKept g.enemies (collideBullets L pbs g).2.enemies := by
  induction pbs generalizing g with
  | nil => exact deadKept_list_refl _
  | cons pb pbs ih =>
    simp only [collideBullets]
    refine deadKept_list_trans ?_ (ih _)
    rcases collideBullet_roster L pb g with h | ⟨-, -, pre, e, post, e1, -, e3, -, e5, -⟩
    · rw [h]
      exact deadKept_list_refl _
    · rw [e5, e1]
      apply deadKept_list_kill
      intro hd
      rw [e3] at hd
      exact Bool.noConfusion hd

theorem collisionStep_deadKept (L : Libm) (g : Game) :
    List.Forall₂ DeadKept g.enemies (collisionStep L g).enemies :=
  collideBullets_deadKept L g.pBullets g

/-- The enemy the body-contact loop picks is alive and diving; the roster it
returns differs from the old one in that enemy's alive flag only. -/
theorem hitByDiver_some (hb : Rectangle) (es : List Enemy) (e : Enemy) (es' : List Enemy)
    (h : hitByDiver hb es = some (e, es')) :
    e.alive = true ∧ e.state = EnemyState.DIVING ∧
    ∃ pre post, es = pre ++ e :: post ∧ es' = pre ++ { e with alive := false } :: post := by
  induction es generalizing es' with
  | nil => simp [hitByDiver] at h
  | cons a as ih =>
    unfold hitByDiver at h
    split_ifs at h with h1 h2
    · cases hr : hitByDiver hb as with
      | none => simp [hr] at h
      | some r =>
        rw [hr] at h
        simp only [Option.map_some', Option.some.injEq, Prod.mk.injEq] at h
        obtain ⟨k1, k2, pre, post, k3, k4⟩ := ih r.2 (by rw [hr, ← h.1])
        exact ⟨k1, k2, a :: pre, post, by rw [k3]; rfl, by rw [← h.2, k4]; rfl⟩
    · simp only [Option.some.injEq, Prod.mk.injEq] at h
      simp only [Bool.or_eq_true, Bool.not_eq_true', decide_eq_true_eq, not_or,
        Bool.not_eq_false, Decidable.not_not] at h1
      obtain ⟨ha, hes⟩ := h
      subst ha
      exact ⟨h1.1, h1.2, [], as, rfl, hes.symm⟩
    · cases hr : hitByDiver hb as with
      | none => simp [hr] at h
      | some r =>
        rw [hr] at h
        simp only [Option.map_some', Option.some.injEq, Prod.mk.injEq] at h
        obtain ⟨k1, k2, pre, post, k3, k4⟩ := ih r.2 (by rw [hr, ← h.1])
        exact ⟨k1, k2, a :: pre, post, by rw [k3]; rfl, by rw [← h.2, k4]; rfl⟩

theorem killPlayer_deadKept (L : Libm) (g : Game) :
    List.Forall₂ DeadKept g.enemies (killPlayer L g).enemies := by
  unfold killPlayer
  split
  · exact deadKept_list_refl _
  · simp only [spawnExplosion_enemies]
    apply deadKept_list_map
    intro e hd
    simp only [hd, Bool.false_and, Bool.false_eq_true, if_false]

theorem lethalChecks_deadKept (L : Libm) (g : Game) :
    List.Forall₂ DeadKept g.enemies (lethalChecks L g).1.enemies := by
  unfold lethalChecks
  by_cases hi : (!g.player.invincible) = true
  · rw [if_pos hi]
    cases hb : hitByBullet g.player.hitbox g.eBullets with
    | some bs =>
      simp only
      exact killPlayer_deadKept L { g with eBullets := bs }
    | none =>
      simp only
      cases hd : hitByDiver g.player.hitbox g.enemies with
      | some r =>
        obtain ⟨e, es⟩ := r
        simp only
        obtain ⟨k1, -, pre, post, k3, k4⟩ := hitByDiver_some _ _ _ _ hd
        refine deadKept_list_trans ?_ (killPlayer_deadKept L _)
        rw [spawnExplosion_enemies]
        show List.Forall₂ DeadKept g.enemies es
        rw [k3, k4]
        apply deadKept_list_kill
        intro hdd
        rw [k1] at hdd
        exact Bool.noConfusion hdd
      | none =>
        simp only
        split_ifs
        · exact killPlayer_deadKept L g
        · exact deadKept_list_refl _
  · rw [if_neg hi]
    exact deadKept_list_refl _

theorem beforeSync_enemies (L : Libm) (inp : Input) (g : Game) :
    (updateFormationMotion L inp.dt (movePlayerBullets inp.dt
      (playerShoot inp (movePlayer inp (tickTimers inp.dt g))))).enemies = g.enemies := by
  have h1 : ∀ s : Game, (updateFormationMotion L inp.dt s).enemies = s.enemies := by
    intro s
    simp only [updateFormationMotion, apply_ite Game.enemies, ite_self]
  have h2 : ∀ s : Game, (playerShoot inp s).enemies = s.enemies := by
    intro s
    simp only [playerShoot, firePlayerShot, apply_ite Game.enemies, ite_self]
  have h3 : ∀ s : Game, (movePlayer inp s).enemies = s.enemies := by
    intro s
    simp only [movePlayer, apply_ite Game.enemies, ite_self]
  have h4 : ∀ s : Game, (tickTimers inp.dt s).enemies = s.enemies := by
    intro s
    simp only [tickTimers, apply_ite Game.enemies, ite_self]
  rw [h1]
  show (playerShoot inp _).enemies = _
  rw [h2, h3, h4]

/-- A call of `updatePlaying` keeps the dead enemies. -/
theorem updatePlaying_deadKept (L : Libm) (inp : Input) (g : Game) :
    List.Forall₂ DeadKept g.enemies (updatePlaying L inp g).enemies := by
  have h0 : List.Forall₂ DeadKept g.enemies (beforeDivers L inp g).enemies := by
    unfold beforeDivers
    refine deadKept_list_trans ?_ (diveTimerStep_deadKept L inp.dt _)
    refine deadKept_list_trans ?_ (syncFormation_deadKept L _)
    rw [beforeSync_enemies]
    exact deadKept_list_refl _
  have h1 : List.Forall₂ DeadKept g.enemies (playingFrame L inp g).enemies := by
    rw [playingFrame_eq]
    show List.Forall₂ DeadKept g.enemies (collisionStep L _).enemies
    refine deadKept_list_trans ?_ (collisionStep_deadKept L _)
    have hpw : ∀ s : Game, (powerUpStep inp.dt s).enemies = s.enemies :=
      fun s => (formCore_updatePowerUps inp.dt s.powerUps s).2
    rw [hpw]
    have hb : ∀ s : Game, (bossStep L inp.dt s).enemies = s.enemies := by
      intro s
      unfold bossStep
      split
      · exact updateBoss_enemies L inp.dt s
      · rfl
    rw [hb]
    show List.Forall₂ DeadKept g.enemies (diversStep L inp.dt _).enemies
    exact deadKept_list_trans h0 (diversStep_deadKept L inp.dt _)
  unfold updatePlaying
  have h2 := lethalChecks_deadKept L (playingFrame L inp g)
  show List.Forall₂ DeadKept _ (if (lethalChecks L (playingFrame L inp g)).2 = true then
    (lethalChecks L (playingFrame L inp g)).1
    else checkStageClear (lethalChecks L (playingFrame L inp g)).1).enemies
  split_ifs
  · exact deadKept_list_trans h1 h2
  · rw [(checkStageClear_rest _).2.1]
    exact deadKept_list_trans h1 h2

theorem updateDiving_eBullets_length (L : Libm) (g : Game) (e : Enemy) (dt : ℚ) :
    (updateDiving L g e dt).2.eBullets.length ≤ g.eBullets.length + 1 := by
  unfold updateDiving
  simp only
  split_ifs <;> simp

/-- The dive/return loop appends at most one enemy bullet per living diving
enemy: a dead enemy emits none. -/
theorem updateDivers_eBullets_length (L : Libm) (dt : ℚ) (es : List Enemy) (g : Game) :
    (updateDivers L dt es g).2.eBullets.length ≤
      g.eBullets.length +
        (es.filter (fun e => e.alive && decide (e.state = EnemyState.DIVING))).length := by
  induction es generalizing g with
  | nil => simp [updateDivers]
  | cons e es ih =>
    simp only [updateDivers]
    refine le_trans (ih _) ?_
    by_cases ha : e.alive = true
    · by_cases hs : e.state = EnemyState.DIVING
      · have := updateDiving_eBullets_length L g e dt
        simp only [ha, hs, Bool.not_true, Bool.false_eq_true, if_false, if_true,
          List.filter_cons, decide_True, Bool.and_self, List.length_cons]
        omega
      · simp only [ha, hs, Bool.not_true, Bool.false_eq_true, if_false, List.filter_cons,
          decide_False, Bool.and_false]
        split_ifs <;> exact le_refl _
    · have ha' : e.alive = false := by simpa using ha
      simp only [ha', Bool.not_false, if_true, List.filter_cons, Bool.false_and,
        Bool.false_eq_true, if_false]
      exact le_refl _

theorem update_deadKept (L : Libm) (inp : Input) (g : Game) (h : ¬ Rebuilds inp g) :
    List.Forall₂ DeadKept g.enemies (update L inp g).enemies := by
  obtain ⟨p1, p2, p3, p4, p5, p6, p7, p8, p9, p10, p11, p12, p13⟩ := preFrame_fields inp.dt g
  unfold Rebuilds at h
  rw [update_eq]
  generalize preFrame inp.dt g = p at *
  cases hs : g.state
  · -- ATTRACT
    simp only
    have hk : ¬ (inp.pressedEnter || inp.pressedSpace) = true := fun hk => h (Or.inl ⟨hs, hk⟩)
    apply deadKept_list_of_eq
    unfold updateAttract
    rw [if_neg hk]
    simp only [blinkStep, updateFormationMotion, apply_ite Game.enemies, ite_self]
    exact p3
  · -- PLAYING
    simp only
    rw [← p3]
    exact updatePlaying_deadKept L inp p
  · -- PLAYER_DEAD
    simp only
    apply deadKept_list_of_eq
    simp only [updateDead, apply_ite Game.enemies, starsUpdate_enemies, ite_self]
    exact p3
  · -- GAME_OVER
    simp only
    apply deadKept_list_of_eq
    simp only [updateGameOver, apply_ite Game.enemies, ite_self]
    exact p3
  · -- STAGE_CLEAR
    simp only
    have ht : ¬ p.stateTimer - inp.dt ≤ 0 := by
      rw [p13]
      exact fun ht => h (Or.inr ⟨hs, ht⟩)
    apply deadKept_list_of_eq
    unfold updateClear
    simp only
    rw [if_neg ht]
    exact p3

/-- C17. A dead enemy is inert.  In every frame that does not rebuild the
formation (no new game started from ATTRACT, no STAGE_CLEAR countdown
expiring) every enemy of the roster that is dead before the frame is the
same record after it: alive stays false and state, position, path parameters
and `bulletsLeft` are unchanged.  A dead enemy is no dive candidate, the
dive/return loop appends at most one enemy bullet per living diving enemy (a
dead enemy emits none), the enemy a player bullet hits is alive (a dead one
absorbs no bullet), and the enemy whose body kills the player is alive. -/
theorem dead_enemy_is_inert (L : Libm) (inp : Input) (g : Game) (h : ¬ Rebuilds inp g) :
    List.Forall₂ DeadKept g.enemies (update L inp g).enemies ∧
    (∀ i ∈ diveCandidates g.enemies, AliveAt g.enemies i) ∧
    (∀ (dt : ℚ) (es : List Enemy) (s : Game),
      (updateDivers L dt es s).2.eBullets.length ≤
        s.eBullets.length +
          (es.filter (fun e => e.alive && decide (e.state = EnemyState.DIVING))).length) ∧
    (∀ (br : Rectangle) (es : List Enemy) (e : Enemy) (es' : List Enemy),
      hitFirstEnemy br es = some (e, es') → e.alive = true) ∧
    (∀ (hb : Rectangle) (es : List Enemy) (e : Enemy) (es' : List Enemy),
      hitByDiver hb es = some (e, es') → e.alive = true) := by
  refine ⟨update_deadKept L inp g h, fun i hi => (diveCandidates_alive _ i hi).1,
    updateDivers_eBullets_length L, ?_, ?_⟩
  · intro br es e es' he
    obtain ⟨_, _, _, _, h3, _⟩ := hitFirstEnemy_some br es e es' he
    exact h3
  · intro hb es e es' he
    exact (hitByDiver_some hb es e es' he).1

set_option maxRecDepth 1000000 in
theorem dead_enemy_is_inert_witness :
    ¬ Rebuilds { dt := 1 / 60 } lastEnemyShot ∧
    (lastEnemyShot.enemies.filter (fun e => !e.alive)).length = 25 ∧
    (update refLibm { dt := 1 / 60 } lastEnemyShot).enemies.take 25 =
      lastEnemyShot.enemies.take 25 ∧
    List.Forall₂ DeadKept lastEnemyShot.enemies
      (update refLibm { dt := 1 / 60 } lastEnemyShot).enemies :=
  ⟨by decide!, by decide!, by decide!,
    (dead_enemy_is_inert refLibm { dt := 1 / 60 } lastEnemyShot
      (by decide!)).1⟩

/-! ## The flow state machine -/

/-- What one `update` call does to the flow state and the countdown, state by
state. -/
theorem update_flow (L : Libm) (inp : Input) (g : Game) :
    (g.state = GameState.ATTRACT →
      ((inp.pressedEnter || inp.pressedSpace) = true →
        (update L inp g).state = GameState.PLAYING) ∧
      (¬ (inp.pressedEnter || inp.pressedSpace) = true →
        (update L inp g).state = GameState.ATTRACT)) ∧
    (g.state = GameState.PLAYING →
      (update L inp g).state = GameState.PLAYING ∨
      (update L inp g).state = GameState.PLAYER_DEAD ∨
      (update L inp g).state = GameState.STAGE_CLEAR) ∧
    (g.state = GameState.PLAYER_DEAD →
      (¬ g.stateTimer - inp.dt ≤ 0 →
        (update L inp g).state = GameState.PLAYER_DEAD ∧
        (update L inp g).stateTimer = g.stateTimer - inp.dt) ∧
      (g.stateTimer - inp.dt ≤ 0 → g.player.lives ≤ 0 →
        (update L inp g).state = GameState.GAME_OVER ∧ (update L inp g).stateTimer = 3) ∧
      (g.stateTimer - inp.dt ≤ 0 → ¬ g.player.lives ≤ 0 →
        (update L inp g).state = GameState.PLAYING ∧
        (update L inp g).stateTimer = g.stateTimer - inp.dt)) ∧
    (g.state = GameState.GAME_OVER →
      (update L inp g).stateTimer = g.stateTimer - inp.dt ∧
      (¬ g.stateTimer - inp.dt ≤ 0 → (update L inp g).state = GameState.GAME_OVER) ∧
      (g.stateTimer - inp.dt ≤ 0 → (update L inp g).state = GameState.ATTRACT)) ∧
    (g.state = GameState.STAGE_CLEAR →
      (update L inp g).stateTimer = g.stateTimer - inp.dt ∧
      (¬ g.stateTimer - inp.dt ≤ 0 → (update L inp g).state = GameState.STAGE_CLEAR) ∧
      (g.stateTimer - inp.dt ≤ 0 → (update L inp g).state = GameState.PLAYING)) := by
  have hp := core_preFrame inp.dt g
  have ha := aux_preFrame inp.dt g
  have hpl : (preFrame inp.dt g).player.lives = g.player.lives := congrArg Core.lives hp
  have hpr : (preFrame inp.dt g).round = g.round := congrArg Core.round hp
  have hpt : (preFrame inp.dt g).stateTimer = g.stateTimer := congrArg Aux.stateTimer ha
  refine ⟨?_, ?_, ?_, ?_, ?_⟩
  · intro hs
    have hc := core_updateAttract L inp (preFrame inp.dt g)
    rw [hp] at hc
    rw [update_eq, hs]
    simp only
    constructor
    · intro hk
      rw [if_pos hk] at hc
      exact congrArg Core.state hc
    · intro hk
      rw [if_neg hk] at hc
      exact (congrArg Core.state hc).trans hs
  · intro hs
    rw [update_eq, hs]
    simp only
    obtain ⟨m, hm, hc⟩ := updatePlaying_core L inp (preFrame inp.dt g)
    rw [hp] at hm
    have hms : m.state = GameState.PLAYING := hm.state.trans hs
    rcases hc with hc | hc | hc
    · exact Or.inr (Or.inl (congrArg Core.state hc))
    · exact Or.inl ((congrArg Core.state hc).trans hms)
    · exact Or.inr (Or.inr (congrArg Core.state hc))
  · intro hs
    have hc := core_updateDead inp.dt (preFrame inp.dt g)
    have hx := aux_updateDead inp.dt (preFrame inp.dt g)
    rw [hpl, hpt, hp] at hc
    rw [hpl, hpt, ha] at hx
    rw [update_eq, hs]
    simp only
    refine ⟨?_, ?_, ?_⟩
    · intro ht
      rw [if_neg ht] at hc hx
      exact ⟨(congrArg Core.state hc).trans hs, congrArg Aux.stateTimer hx⟩
    · intro ht hl
      rw [if_pos ht, if_pos hl] at hc hx
      exact ⟨congrArg Core.state hc, congrArg Aux.stateTimer hx⟩
    · intro ht hl
      rw [if_pos ht, if_neg hl] at hc hx
      exact ⟨congrArg Core.state hc, congrArg Aux.stateTimer hx⟩
  · intro hs
    have hc := core_updateGameOver inp.dt (preFrame inp.dt g)
    have hx := aux_updateGameOver inp.dt (preFrame inp.dt g)
    rw [hpt, hp] at hc
    rw [hpt, ha] at hx
    rw [update_eq, hs]
    simp only
    refine ⟨congrArg Aux.stateTimer hx, ?_, ?_⟩
    · intro ht
      rw [if_neg ht] at hc
      exact (congrArg Core.state hc).trans hs
    · intro ht
      rw [if_pos ht] at hc
      exact congrArg Core.state hc
  · intro hs
    have hc := core_updateClear inp.dt (preFrame inp.dt g)
    have hx := aux_updateClear inp.dt (preFrame inp.dt g)
    rw [hpt, hp, hpr] at hc
    rw [hpt, ha, hpr] at hx
    rw [update_eq, hs]
    simp only
    refine ⟨?_, ?_, ?_⟩
    · refine (congrArg Aux.stateTimer hx).trans ?_
      split_ifs <;> rfl
    · intro ht
      rw [if_neg ht] at hc
      exact (congrArg Core.state hc).trans hs
    · intro ht
      rw [if_pos ht] at hc
      exact congrArg Core.state hc

/-- C25. The flow state machine.  One `update` call either keeps the flow state
or moves it along one of ATTRACT -> PLAYING, PLAYING -> PLAYER_DEAD,
PLAYING -> STAGE_CLEAR, PLAYER_DEAD -> PLAYING, PLAYER_DEAD -> GAME_OVER,
GAME_OVER -> ATTRACT, STAGE_CLEAR -> PLAYING.  PLAYER_DEAD, GAME_OVER and
STAGE_CLEAR are left exactly by the call in which the countdown, lowered by
the frame time, is 0 or less; the call lowers the countdown by the frame time
exactly once (only the move to GAME_OVER then sets it to 3).  ATTRACT is left
exactly by a call with the start key pressed. -/
theorem flow_has_only_specified_edges (L : Libm) (inp : Input) (g : Game) :
    ((update L inp g).state = g.state ∨
      (g.state = GameState.ATTRACT ∧ (update L inp g).state = GameState.PLAYING) ∨
      (g.state = GameState.PLAYING ∧ (update L inp g).state = GameState.PLAYER_DEAD) ∨
      (g.state = GameState.PLAYING ∧ (update L inp g).state = GameState.STAGE_CLEAR) ∨
      (g.state = GameState.PLAYER_DEAD ∧ (update L inp g).state = GameState.PLAYING) ∨
      (g.state = GameState.PLAYER_DEAD ∧ (update L inp g).state = GameState.GAME_OVER) ∨
      (g.state = GameState.GAME_OVER ∧ (update L inp g).state = GameState.ATTRACT) ∨
      (g.state = GameState.STAGE_CLEAR ∧ (update L inp g).state = GameState.PLAYING)) ∧
    (g.state = GameState.PLAYER_DEAD ∨ g.state = GameState.GAME_OVER ∨
        g.state = GameState.STAGE_CLEAR →
      ((update L inp g).state ≠ g.state ↔ g.stateTimer - inp.dt ≤ 0) ∧
      ((update L inp g).stateTimer = g.stateTimer - inp.dt ∨
        (g.state = GameState.PLAYER_DEAD ∧ (update L inp g).state = GameState.GAME_OVER ∧
          (update L inp g).stateTimer = 3))) ∧
    (g.state = GameState.ATTRACT →
      ((update L inp g).state ≠ g.state ↔ (inp.pressedEnter || inp.pressedSpace) = true)) := by
  obtain ⟨f1, f2, f3, f4, f5⟩ := update_flow L inp g
  refine ⟨?_, ?_, ?_⟩
  · cases hs : g.state
    · by_cases hk : (inp.pressedEnter || inp.pressedSpace) = true
      · exact Or.inr (Or.inl ⟨rfl, (f1 hs).1 hk⟩)
      · exact Or.inl ((f1 hs).2 hk)
    · rcases f2 hs with h | h | h
      · exact Or.inl h
      · exact Or.inr (Or.inr (Or.inl ⟨rfl, h⟩))
      · exact Or.inr (Or.inr (Or.inr (Or.inl ⟨rfl, h⟩)))
    · by_cases ht : g.stateTimer - inp.dt ≤ 0
      · by_cases hl : g.player.lives ≤ 0
        · exact Or.inr (Or.inr (Or.inr (Or.inr (Or.inr (Or.inl ⟨rfl, ((f3 hs).2.1 ht hl).1⟩)))))
        · exact Or.inr (Or.inr (Or.inr (Or.inr (Or.inl ⟨rfl, ((f3 hs).2.2 ht hl).1⟩))))
      · exact Or.inl ((f3 hs).1 ht).1
    · by_cases ht : g.stateTimer - inp.dt ≤ 0
      · exact Or.inr (Or.inr (Or.inr (Or.inr (Or.inr (Or.inr (Or.inl ⟨rfl, (f4 hs).2.2 ht⟩))))))
      · exact Or.inl ((f4 hs).2.1 ht)
    · by_cases ht : g.stateTimer - inp.dt ≤ 0
      · exact Or.inr (Or.inr (Or.inr (Or.inr (Or.inr (Or.inr (Or.inr ⟨rfl, (f5 hs).2.2 ht⟩))))))
      · exact Or.inl ((f5 hs).2.1 ht)
  · intro hs
    rcases hs with hs | hs | hs
    · by_cases ht : g.stateTimer - inp.dt ≤ 0
      · by_cases hl : g.player.lives ≤ 0
        · obtain ⟨h1, h2⟩ := (f3 hs).2.1 ht hl
          refine ⟨⟨fun _ => ht, fun _ => ?_⟩, Or.inr ⟨hs, h1, h2⟩⟩
          rw [h1, hs]
          decide
        · obtain ⟨h1, h2⟩ := (f3 hs).2.2 ht hl
          refine ⟨⟨fun _ => ht, fun _ => ?_⟩, Or.inl h2⟩
          rw [h1, hs]
          decide
      · obtain ⟨h1, h2⟩ := (f3 hs).1 ht
        refine ⟨⟨fun hne => absurd ?_ hne, fun h => absurd h ht⟩, Or.inl h2⟩
        rw [h1, hs]
    · obtain ⟨h0, h1, h2⟩ := f4 hs
      refine ⟨?_, Or.inl h0⟩
      by_cases ht : g.stateTimer - inp.dt ≤ 0
      · refine ⟨fun _ => ht, fun _ => ?_⟩
        rw [h2 ht, hs]
        decide
      · refine ⟨fun hne => absurd ?_ hne, fun h => absurd h ht⟩
        rw [h1 ht, hs]
    · obtain ⟨h0, h1, h2⟩ := f5 hs
      refine ⟨?_, Or.inl h0⟩
      by_cases ht : g.stateTimer - inp.dt ≤ 0
      · refine ⟨fun _ => ht, fun _ => ?_⟩
        rw [h2 ht, hs]
        decide
      · refine ⟨fun hne => absurd ?_ hne, fun h => absurd h ht⟩
        rw [h1 ht, hs]
  · intro hs
    by_cases hk : (inp.pressedEnter || inp.pressedSpace) = true
    · refine ⟨fun _ => hk, fun _ => ?_⟩
      rw [(f1 hs).1 hk, hs]
      decide
    · refine ⟨fun hne => absurd ?_ hne, fun h => absurd h hk⟩
      rw [(f1 hs).2 hk, hs]

set_option maxRecDepth 1000000 in
theorem flow_has_only_specified_edges_witness :
    lastLifeLost.state = GameState.PLAYER_DEAD ∧ lastLifeLost.stateTimer = 2 ∧
    (update refLibm { dt := 1 } lastLifeLost).state = GameState.PLAYER_DEAD ∧
    ((update refLibm { dt := 2 } lastLifeLost).state ≠ lastLifeLost.state ↔
      lastLifeLost.stateTimer - 2 ≤ 0) ∧
    (update refLibm { dt := 2 } lastLifeLost).state = GameState.GAME_OVER :=
  ⟨by decide!, by decide!, by decide!,
    ((flow_has_only_specified_edges refLibm { dt := 2 } lastLifeLost).2.1
      (Or.inl (by decide!))).1,
    by decide!⟩

/-! ## Lives -/

/-- C26. In every reachable state the lives are at least 0 (and at most 3), and
at least 1 whenever the flow state is PLAYING. -/
theorem lives_never_negative (L : Libm) (g : Game) (h : Reachable L g) :
    0 ≤ g.player.lives ∧ g.player.lives ≤ 3 ∧
    (g.state = GameState.PLAYING → 1 ≤ g.player.lives) :=
  ⟨(reachable_coreInv L g h).livesLo, (reachable_coreInv L g h).livesHi,
    fun hs => (reachable_coreInv L g h).playing (Or.inl hs)⟩

theorem lastLife_reachable : Reachable refLibm lastLife :=
  reachable_run refLibm _ _ (Reachable.start _) (by decide!)

set_option maxRecDepth 1000000 in
theorem lives_never_negative_witness :
    Reachable refLibm lastLife ∧ lastLife.state = GameState.PLAYING ∧
    lastLife.player.lives = 1 ∧ 1 ≤ lastLife.player.lives ∧
    Reachable refLibm lostGame ∧ lostGame.player.lives = 0 ∧ 0 ≤ lostGame.player.lives :=
  ⟨lastLife_reachable, by decide!, by decide!,
    (lives_never_negative refLibm lastLife lastLife_reachable).2.2 (by decide!),
    lostGame_reachable, by decide!,
    (lives_never_negative refLibm lostGame lostGame_reachable).1⟩

/-! ## Compaction -/

theorem compact_active (s : Game) :
    (∀ b ∈ (compact s).pBullets, b.active = true) ∧
    (∀ b ∈ (compact s).eBullets, b.active = true) ∧
    (∀ p ∈ (compact s).powerUps, p.active = true) := by
  refine ⟨fun b hb => ?_, fun b hb => ?_, fun p hp => ?_⟩
  · have : b ∈ s.pBullets.filter (fun b => b.active) := hb
    exact (List.mem_filter.mp this).2
  · have : b ∈ s.eBullets.filter (fun b => b.active) := hb
    exact (List.mem_filter.mp this).2
  · have : p ∈ s.powerUps.filter (fun p => p.active) := hp
    exact (List.mem_filter.mp this).2

theorem playingFrame_active (L : Libm) (inp : Input) (g : Game) :
    (∀ b ∈ (playingFrame L inp g).pBullets, b.active = true) ∧
    (∀ b ∈ (playingFrame L inp g).eBullets, b.active = true) ∧
    (∀ p ∈ (playingFrame L inp g).powerUps, p.active = true) := by
  rw [playingFrame_eq]
  exact compact_active _

theorem killPlayer_lists (L : Libm) (g : Game) (h : g.player.invincible = false) :
    (killPlayer L g).pBullets = [] ∧ (killPlayer L g).powerUps = [] ∧
    (killPlayer L g).eBullets = g.eBullets.map (fun b => { b with active := false }) := by
  simp only [killPlayer, h, Bool.false_eq_true, if_false, spawnExplosion_eBullets, and_self]

theorem hitByBullet_length (hb : Rectangle) (bs bs' : List Bullet)
    (h : hitByBullet hb bs = some bs') : bs'.length = bs.length := by
  induction bs generalizing bs' with
  | nil => simp [hitByBullet] at h
  | cons b bs ih =>
    unfold hitByBullet at h
    split_ifs at h
    · cases hr : hitByBullet hb bs with
      | none => simp [hr] at h
      | some r =>
        rw [hr] at h
        simp only [Option.map_some', Option.some.injEq] at h
        rw [← h, List.length_cons, List.length_cons, ih r hr]
    · simp only [Option.some.injEq] at h
      rw [← h]
      rfl
    · cases hr : hitByBullet hb bs with
      | none => simp [hr] at h
      | some r =>
        rw [hr] at h
        simp only [Option.map_some', Option.some.injEq] at h
        rw [← h, List.length_cons, List.length_cons, ih r hr]

/-- When the lethal checks kill the player they leave no player bullet and no
power-up, and every enemy bullet inactive but still in its collection. -/
theorem lethalChecks_lists (L : Libm) (s : Game) (h : (lethalChecks L s).2 = true) :
    (lethalChecks L s).1.pBullets = [] ∧ (lethalChecks L s).1.powerUps = [] ∧
    (∀ b ∈ (lethalChecks L s).1.eBullets, b.active = false) ∧
    (lethalChecks L s).1.eBullets.length = s.eBullets.length := by
  have key : ∀ g : Game, g.player.invincible = false →
      (killPlayer L g).pBullets = [] ∧ (killPlayer L g).powerUps = [] ∧
      (∀ b ∈ (killPlayer L g).eBullets, b.active = false) ∧
      (killPlayer L g).eBullets.length = g.eBullets.length := by
    intro g hg
    obtain ⟨k1, k2, k3⟩ := killPlayer_lists L g hg
    refine ⟨k1, k2, ?_, by rw [k3, List.length_map]⟩
    intro b hb
    rw [k3] at hb
    obtain ⟨b0, -, hb0⟩ := List.mem_map.mp hb
    rw [← hb0]
  unfold lethalChecks at h ⊢
  cases hi : s.player.invincible
  · simp only [hi, Bool.not_false, if_true] at h ⊢
    cases hb : hitByBullet s.player.hitbox s.eBullets with
    | some bs =>
      simp only
      obtain ⟨k1, k2, k3, k4⟩ := key { s with eBullets := bs } hi
      refine ⟨k1, k2, k3, k4.trans ?_⟩
      exact hitByBullet_length _ _ _ hb
    | none =>
      simp only [hb] at h ⊢
      cases hd : hitByDiver s.player.hitbox s.enemies with
      | some r =>
        obtain ⟨e, es⟩ := r
        simp only
        have hi2 : (spawnExplosion L e.x e.y { s with enemies := es }).player.invincible = false := by
          rw [spawnExplosion_player]
          exact hi
        obtain ⟨k1, k2, k3, k4⟩ := key _ hi2
        refine ⟨k1, k2, k3, k4.trans ?_⟩
        rw [spawnExplosion_eBullets]
      | none =>
        simp only [hd] at h ⊢
        split_ifs at h ⊢ with hbb
        exact key s hi
  · simp only [hi, Bool.not_true, Bool.false_eq_true, if_false] at h

theorem checkStageClear_powerUps (g : Game) : (checkStageClear g).powerUps = g.powerUps := by
  unfold checkStageClear
  split <;> rfl

/-- C24, as amended. The compaction of `updatePlaying` runs before the lethal
checks.  Right after it none of `pBullets`, `eBullets`, `powerUps` holds an
inactive element.  A call in which the player is not killed ends in that
state of the three collections.  A call in which the player is killed ends
with `pBullets` and `powerUps` empty and with every enemy bullet that
survived the compaction still in `eBullets`, inactive. -/
theorem inactive_items_compacted_before_lethal_checks (L : Libm) (inp : Input) (g : Game) :
    ((∀ b ∈ (playingFrame L inp g).pBullets, b.active = true) ∧
      (∀ b ∈ (playingFrame L inp g).eBullets, b.active = true) ∧
      (∀ p ∈ (playingFrame L inp g).powerUps, p.active = true)) ∧
    ((lethalChecks L (playingFrame L inp g)).2 = false →
      (∀ b ∈ (updatePlaying L inp g).pBullets, b.active = true) ∧
      (∀ b ∈ (updatePlaying L inp g).eBullets, b.active = true) ∧
      (∀ p ∈ (updatePlaying L inp g).powerUps, p.active = true)) ∧
    ((lethalChecks L (playingFrame L inp g)).2 = true →
      (updatePlaying L inp g).pBullets = [] ∧ (updatePlaying L inp g).powerUps = [] ∧
      (∀ b ∈ (updatePlaying L inp g).eBullets, b.active = false) ∧
      (updatePlaying L inp g).eBullets.length = (playingFrame L inp g).eBullets.length) := by
  have ha := playingFrame_active L inp g
  refine ⟨ha, ?_, ?_⟩
  · intro hf
    unfold updatePlaying
    generalize playingFrame L inp g = s at ha hf ⊢
    rcases lethalChecks_cases L s with h | ⟨-, h2, -⟩
    · rw [h]
      simp only [Bool.false_eq_true, if_false]
      rw [(checkStageClear_rest s).2.2.2.1, (checkStageClear_rest s).2.2.1,
        checkStageClear_powerUps]
      exact ha
    · rw [h2] at hf
      exact absurd hf (by simp)
  · intro hf
    unfold updatePlaying
    generalize playingFrame L inp g = s at hf ⊢
    simp only [hf, if_true]
    exact lethalChecks_lists L s hf

set_option maxRecDepth 1000000 in
/-- C24, counterexample. In `lastEnemyShotUnderFire` an enemy bullet hits the
player.  At the end of the `updatePlaying` call, and of the `update` call of
that frame, `eBullets` still holds that bullet, with its active flag false;
it is still there after the next frame, spent in PLAYER_DEAD. -/
theorem inactive_bullet_left_after_player_death :
    lastEnemyShotUnderFire.state = GameState.PLAYING ∧
    lastEnemyShotUnderFire.eBullets.map (fun b => b.active) = [true] ∧
    (updatePlaying refLibm { dt := 1 / 60 } lastEnemyShotUnderFire).eBullets.map
      (fun b => b.active) = [false] ∧
    (update refLibm { dt := 1 / 60 } lastEnemyShotUnderFire).eBullets.map
      (fun b => b.active) = [false] ∧
    (update refLibm { dt := 1 / 60 } lastEnemyShotUnderFire).state = GameState.PLAYER_DEAD ∧
    (update refLibm { dt := 1 / 60 }
      (update refLibm { dt := 1 / 60 } lastEnemyShotUnderFire)).eBullets.map
      (fun b => b.active) = [false] := by
  decide!

set_option maxRecDepth 1000000 in
theorem inactive_items_compacted_before_lethal_checks_witness :
    (littered.eBullets.map (fun b => b.active) = [true, true, false] ∧
      littered.pBullets.map (fun b => b.active) = [false] ∧
      littered.powerUps.map (fun p => p.active) = [false]) ∧
    ((updatePlaying refLibm { dt := 1 / 60 } littered).eBullets.length = 2 ∧
      (updatePlaying refLibm { dt := 1 / 60 } littered).pBullets = [] ∧
      (updatePlaying refLibm { dt := 1 / 60 } littered).powerUps = []) ∧
    (∀ b ∈ (updatePlaying refLibm { dt := 1 / 60 } littered).eBullets, b.active = true) ∧
    (updatePlaying refLibm { dt := 1 / 60 } lastEnemyShotUnderFire).pBullets = [] :=
  ⟨by decide!, by decide!,
    ((inactive_items_compacted_before_lethal_checks refLibm { dt := 1 / 60 } littered).2.1
      (by decide!)).2.1,
    ((inactive_items_compacted_before_lethal_checks refLibm { dt := 1 / 60 }
      lastEnemyShotUnderFire).2.2 (by decide!)).1⟩

/-! ## Player shots -/

theorem firePlayerShot_eq (o : ℚ) (g : Game) :
    firePlayerShot o g = { g with pBullets := g.pBullets ++ [shotBullet g.player o] } := rfl

theorem movePlayer_keeps (inp : Input) (g : Game) :
    (movePlayer inp g).player.shotTimer = g.player.shotTimer ∧
    (movePlayer inp g).player.shotLevel = g.player.shotLevel ∧
    (movePlayer inp g).player.shotCooldown = g.player.shotCooldown ∧
    (movePlayer inp g).player.y = g.player.y ∧
    (movePlayer inp g).pBullets = g.pBullets := by
  simp only [movePlayer, apply_ite Game.player, apply_ite Player.shotTimer,
    apply_ite Player.shotLevel, apply_ite Player.shotCooldown, apply_ite Player.y,
    apply_ite Game.pBullets, ite_self, and_self]

theorem tickTimers_keeps (dt : ℚ) (g : Game) :
    (tickTimers dt g).player.shotLevel = g.player.shotLevel ∧
    (tickTimers dt g).player.shotCooldown = g.player.shotCooldown ∧
    (tickTimers dt g).player.x = g.player.x ∧ (tickTimers dt g).player.vx = g.player.vx ∧
    (tickTimers dt g).player.y = g.player.y ∧
    (tickTimers dt g).pBullets = g.pBullets := by
  simp only [tickTimers, apply_ite Game.player, apply_ite Player.shotLevel,
    apply_ite Player.shotCooldown, apply_ite Player.x, apply_ite Player.vx, apply_ite Player.y,
    apply_ite Game.pBullets, ite_self, and_self]

/-- C22. Rate-limited multi-shot firing.  In the shooting step of
`updatePlaying`, on the state `s` it runs on: if fire is held and
`shotTimer <= 0`, the bullets of `firePlayerShot` are appended to `pBullets`
at the offsets 0 (shot level 1), -7 and +7 (level 2) or -10, 0 and +10 (level
3) from `player.x`, each at `y = player.y - 14` with velocity
`(0, -BULLET_SPEED)`, so exactly `shotLevel` bullets for a level in 1..3, and
`shotTimer` is set to `shotCooldown` whatever the level; otherwise the step
changes nothing.  In an `updatePlaying` call on `g` that state is `g` after
the timers and the movement: its `shotTimer` is the one the timer step
leaves, its shot level and cooldown are those of `g`. -/
theorem multi_shot_firing (inp : Input) (s : Game) :
    (inp.downSpace = true → s.player.shotTimer ≤ 0 →
      (playerShoot inp s).player.shotTimer = s.player.shotCooldown ∧
      (s.player.shotLevel = 1 →
        (playerShoot inp s).pBullets = s.pBullets ++ [shotBullet s.player 0]) ∧
      (s.player.shotLevel = 2 →
        (playerShoot inp s).pBullets =
          s.pBullets ++ [shotBullet s.player (-7), shotBullet s.player 7]) ∧
      (s.player.shotLevel = 3 →
        (playerShoot inp s).pBullets =
          s.pBullets ++ [shotBullet s.player (-10), shotBullet s.player 0,
            shotBullet s.player 10]) ∧
      (1 ≤ s.player.shotLevel → s.player.shotLevel ≤ 3 →
        ((playerShoot inp s).pBullets.length : Int) =
          s.pBullets.length + s.player.shotLevel)) ∧
    (¬ (inp.downSpace = true ∧ s.player.shotTimer ≤ 0) → playerShoot inp s = s) ∧
    (∀ g : Game, s = movePlayer inp (tickTimers inp.dt g) →
      s.player.shotTimer = (tickTimers inp.dt g).player.shotTimer ∧
      s.player.shotLevel = g.player.shotLevel ∧
      s.player.shotCooldown = g.player.shotCooldown ∧
      s.pBullets = g.pBullets) := by
  have e1 : s.player.shotLevel = 1 → inp.downSpace = true → s.player.shotTimer ≤ 0 →
      (playerShoot inp s).pBullets = s.pBullets ++ [shotBullet s.player 0] := by
    intro hl hd ht
    have : s.player.shotLevel ≤ 1 := by omega
    simp only [playerShoot, hd, ht, and_self, if_true, this, firePlayerShot_eq]
  have e2 : s.player.shotLevel = 2 → inp.downSpace = true → s.player.shotTimer ≤ 0 →
      (playerShoot inp s).pBullets =
        s.pBullets ++ [shotBullet s.player (-7), shotBullet s.player 7] := by
    intro hl hd ht
    have h1 : ¬ s.player.shotLevel ≤ 1 := by omega
    simp only [playerShoot, hd, ht, and_self, if_true, firePlayerShot_eq]
    rw [if_neg h1, if_pos hl]
    simp only [List.append_assoc, List.singleton_append]
  have e3 : s.player.shotLevel = 3 → inp.downSpace = true → s.player.shotTimer ≤ 0 →
      (playerShoot inp s).pBullets =
        s.pBullets ++ [shotBullet s.player (-10), shotBullet s.player 0,
          shotBullet s.player 10] := by
    intro hl hd ht
    have h1 : ¬ s.player.shotLevel ≤ 1 := by omega
    have h2 : ¬ s.player.shotLevel = 2 := by omega
    simp only [playerShoot, hd, ht, and_self, if_true, firePlayerShot_eq]
    rw [if_neg h1, if_neg h2]
    simp only [List.append_assoc, List.singleton_append, List.cons_append, List.nil_append]
  refine ⟨?_, ?_, ?_⟩
  · intro hd ht
    refine ⟨?_, fun hl => e1 hl hd ht, fun hl => e2 hl hd ht, fun hl => e3 hl hd ht, ?_⟩
    · simp only [playerShoot, hd, ht, and_self, if_true, firePlayerShot_eq]
      split_ifs <;> rfl
    · intro h1 h3
      have hc : s.player.shotLevel = 1 ∨ s.player.shotLevel = 2 ∨ s.player.shotLevel = 3 := by
        omega
      rcases hc with hl | hl | hl
      · rw [e1 hl hd ht, hl]
        simp
      · rw [e2 hl hd ht, hl]
        simp
      · rw [e3 hl hd ht, hl]
        simp
  · intro hn
    simp only [playerShoot, hn, if_false]
  · intro g hg
    obtain ⟨m1, m2, m3, -, m5⟩ := movePlayer_keeps inp (tickTimers inp.dt g)
    obtain ⟨t1, t2, -, -, -, t6⟩ := tickTimers_keeps inp.dt g
    rw [hg]
    exact ⟨m1, m2.trans t1, m3.trans t2, m5.trans t6⟩

set_option maxRecDepth 1000000 in
theorem multi_shot_firing_witness :
    (playerShoot { downSpace := true } { player := { shotLevel := 3 } }).pBullets =
      [{ active := true, x := 230, y := 626, vy := -520 },
       { active := true, x := 240, y := 626, vy := -520 },
       { active := true, x := 250, y := 626, vy := -520 }] ∧
    (playerShoot { downSpace := true } { player := { shotLevel := 3 } }).player.shotTimer =
      0.22 ∧
    playerShoot { downSpace := true } { player := { shotLevel := 3, shotTimer := 0.1 } } =
      { player := { shotLevel := 3, shotTimer := 0.1 } } :=
  ⟨(((multi_shot_firing { downSpace := true } { player := { shotLevel := 3 } }).1
      rfl (by decide!)).2.2.2.1 rfl).trans (by decide!),
    (((multi_shot_firing { downSpace := true } { player := { shotLevel := 3 } }).1
      rfl (by decide!)).1).trans (by decide!),
    (multi_shot_firing { downSpace := true }
      { player := { shotLevel := 3, shotTimer := 0.1 } }).2.1 (by decide!)⟩

/-! ## Drop odds -/

theorem GetRandomValue_cons (lo hi : Int) (g : Game) (r : Nat) (rs : List Nat)
    (h : g.rng = r :: rs) :
    GetRandomValue lo hi g = (lo + (r : Int) % (hi - lo + 1), { g with rng := rs }) := by
  unfold GetRandomValue
  rw [h]

/-- A roll of `GetRandomValue(lo, hi)` lies in `lo..hi`. -/
theorem GetRandomValue_range (lo hi : Int) (g : Game) (h : lo ≤ hi) :
    lo ≤ (GetRandomValue lo hi g).1 ∧ (GetRandomValue lo hi g).1 ≤ hi := by
  unfold GetRandomValue
  split
  · exact ⟨le_refl _, h⟩
  · rename_i r rs _
    have hpos : (0 : Int) < hi - lo + 1 := by omega
    have h1 := Int.emod_nonneg (r : Int) (ne_of_gt hpos)
    have h2 := Int.emod_lt_of_pos (r : Int) hpos
    constructor
    · show lo ≤ lo + (r : Int) % (hi - lo + 1)
      omega
    · show lo + (r : Int) % (hi - lo + 1) ≤ hi
      omega

/-- The drop of `spawnPowerUp` as a function of the next two raw values of the
generator, when both are in 0..99. -/
theorem spawnPowerUp_rolls (x y : ℚ) (g : Game) (r1 r2 : Nat) (rest : List Nat)
    (h1 : r1 < 100) (h2 : r2 < 100) (hr : g.rng = r1 :: r2 :: rest) :
    (spawnPowerUp x y g).powerUps =
      if r1 ≤ 22 then
        g.powerUps ++
          [{ type := if r2 < 50 then PowerUpType.FIRE_RATE
                     else if r2 < 80 then PowerUpType.DOUBLE_SHOT
                     else PowerUpType.TRIPLE_SHOT,
             x := x, y := y, vy := 100, active := true }]
      else g.powerUps := by
  have e1 : ((r1 : Int) % (99 - 0 + 1)) = (r1 : Int) := by
    have : (r1 : Int) < 100 := by exact_mod_cast h1
    omega
  have e2 : ((r2 : Int) % (99 - 0 + 1)) = (r2 : Int) := by
    have : (r2 : Int) < 100 := by exact_mod_cast h2
    omega
  rw [spawnPowerUp_powerUps, GetRandomValue_cons 0 99 g r1 (r2 :: rest) hr]
  simp only
  rw [GetRandomValue_cons 0 99 { g with rng := r2 :: rest } r2 rest rfl]
  simp only [zero_add, e1, e2]
  by_cases hc : r1 ≤ 22
  · have : ¬ (r1 : Int) > 22 := by
      have : (r1 : Int) ≤ 22 := by exact_mod_cast hc
      omega
    rw [if_neg this, if_pos hc]
    congr 3
    by_cases c1 : r2 < 50
    · have : (r2 : Int) < 50 := by exact_mod_cast c1
      rw [if_pos c1, if_pos this]
    · have n1 : ¬ (r2 : Int) < 50 := by
        intro h
        exact c1 (by exact_mod_cast h)
      rw [if_neg c1, if_neg n1]
      by_cases c2 : r2 < 80
      · have : (r2 : Int) < 80 := by exact_mod_cast c2
        rw [if_pos c2, if_pos this]
      · have n2 : ¬ (r2 : Int) < 80 := by
          intro h
          exact c2 (by exact_mod_cast h)
        rw [if_neg c2, if_neg n2]
  · have : (r1 : Int) > 22 := by
      have : ¬ (r1 : Int) ≤ 22 := by
        intro h
        exact hc (by exact_mod_cast h)
      omega
    rw [if_pos this, if_neg hc]

theorem dropOf_eq (x y : ℚ) (r1 r2 : Nat) (h1 : r1 < 100) (h2 : r2 < 100) :
    dropOf x y r1 r2 =
      if r1 ≤ 22 then
        [{ type := if r2 < 50 then PowerUpType.FIRE_RATE
                   else if r2 < 80 then PowerUpType.DOUBLE_SHOT
                   else PowerUpType.TRIPLE_SHOT,
           x := x, y := y, vy := 100, active := true }]
      else [] := by
  unfold dropOf
  rw [spawnPowerUp_rolls x y { rng := [r1, r2] } r1 r2 [] h1 h2 rfl]
  rfl

theorem dropOf_counts (x y : ℚ) :
    (∀ r2 < 100,
      ((List.range 100).filter (fun a => decide ((dropOf x y a r2).length = 1))).length = 23 ∧
      ((List.range 100).filter (fun a => decide (dropOf x y a r2 = []))).length = 77) ∧
    (∀ r1 ≤ 22,
      ((List.range 100).filter (fun b =>
        decide ((dropOf x y r1 b).map (fun p => p.type) = [PowerUpType.FIRE_RATE]))).length
          = 50 ∧
      ((List.range 100).filter (fun b =>
        decide ((dropOf x y r1 b).map (fun p => p.type) = [PowerUpType.DOUBLE_SHOT]))).length
          = 30 ∧
      ((List.range 100).filter (fun b =>
        decide ((dropOf x y r1 b).map (fun p => p.type) = [PowerUpType.TRIPLE_SHOT]))).length
          = 20) := by
  constructor
  · intro r2 h2
    constructor
    · rw [List.filter_congr (q := fun a => decide (a ≤ 22))]
      · decide
      · intro a ha
        rw [dropOf_eq x y a r2 (List.mem_range.mp ha) h2]
        by_cases hc : a ≤ 22 <;> simp [hc]
    · rw [List.filter_congr (q := fun a => decide (22 < a))]
      · decide
      · intro a ha
        rw [dropOf_eq x y a r2 (List.mem_range.mp ha) h2]
        by_cases hc : a ≤ 22
        · have : ¬ 22 < a := by omega
          simp [hc, this]
        · have : 22 < a := by omega
          simp [hc, this]
  · intro r1 h1
    have h1' : r1 < 100 := by omega
    refine ⟨?_, ?_, ?_⟩
    · rw [List.filter_congr (q := fun b => decide (b < 50))]
      · decide
      · intro b hb
        rw [dropOf_eq x y r1 b h1' (List.mem_range.mp hb), if_pos h1]
        by_cases c1 : b < 50
        · simp [c1]
        · by_cases c2 : b < 80 <;> simp [c1, c2]
    · rw [List.filter_congr (q := fun b => decide (50 ≤ b ∧ b < 80))]
      · decide
      · intro b hb
        rw [dropOf_eq x y r1 b h1' (List.mem_range.mp hb), if_pos h1]
        by_cases c1 : b < 50
        · have : ¬ 50 ≤ b := by omega
          simp [c1, this]
        · have h50 : 50 ≤ b := by omega
          by_cases c2 : b < 80 <;> simp [c1, c2, h50]
    · rw [List.filter_congr (q := fun b => decide (80 ≤ b))]
      · decide
      · intro b hb
        rw [dropOf_eq x y r1 b h1' (List.mem_range.mp hb), if_pos h1]
        by_cases c1 : b < 50
        · have : ¬ 80 ≤ b := by omega
          simp [c1, this]
        · by_cases c2 : b < 80
          · have : ¬ 80 ≤ b := by omega
            simp [c1, c2, this]
          · have : 80 ≤ b := by omega
            simp [c1, c2, this]

/-- C23. Drop odds.  With the generator's next two raw values `r1`, `r2` in
0..99 (the two rolls), `spawnPowerUp(x, y)` adds a power-up exactly when
`r1 <= 22`: one power-up, at `(x, y)`, active, falling at 100, of type
FIRE_RATE for `r2 < 50`, DOUBLE_SHOT for `50 <= r2 < 80` and TRIPLE_SHOT for
`r2 >= 80`; for `r1 > 22` it adds none.  Of the 100 values of `r1`, 23 give
a drop and 77 none; of the 100 values of `r2`, 50 give FIRE_RATE, 30
DOUBLE_SHOT and 20 TRIPLE_SHOT. -/
theorem drop_odds (x y : ℚ) (g : Game) (r1 r2 : Nat) (rest : List Nat)
    (h1 : r1 < 100) (h2 : r2 < 100) (hr : g.rng = r1 :: r2 :: rest) :
    (r1 ≤ 22 →
      (spawnPowerUp x y g).powerUps =
        g.powerUps ++
          [{ type := if r2 < 50 then PowerUpType.FIRE_RATE
                     else if r2 < 80 then PowerUpType.DOUBLE_SHOT
                     else PowerUpType.TRIPLE_SHOT,
             x := x, y := y, vy := 100, active := true }]) ∧
    (22 < r1 → (spawnPowerUp x y g).powerUps = g.powerUps) ∧
    ((List.range 100).filter (fun a => decide ((dropOf x y a r2).length = 1))).length = 23 ∧
    ((List.range 100).filter (fun a => decide (dropOf x y a r2 = []))).length = 77 ∧
    (r1 ≤ 22 →
      ((List.range 100).filter (fun b =>
        decide ((dropOf x y r1 b).map (fun p => p.type) = [PowerUpType.FIRE_RATE]))).length
          = 50 ∧
      ((List.range 100).filter (fun b =>
        decide ((dropOf x y r1 b).map (fun p => p.type) = [PowerUpType.DOUBLE_SHOT]))).length
          = 30 ∧
      ((List.range 100).filter (fun b =>
        decide ((dropOf x y r1 b).map (fun p => p.type) = [PowerUpType.TRIPLE_SHOT]))).length
          = 20) := by
  have hs := spawnPowerUp_rolls x y g r1 r2 rest h1 h2 hr
  refine ⟨fun hc => ?_, fun hc => ?_, ((dropOf_counts x y).1 r2 h2).1,
    ((dropOf_counts x y).1 r2 h2).2, fun hc => (dropOf_counts x y).2 r1 hc⟩
  · rw [hs, if_pos hc]
  · rw [hs, if_neg (by omega)]

set_option maxRecDepth 1000000 in
theorem drop_odds_witness :
    (spawnPowerUp 100 200 { rng := [22, 79] }).powerUps =
      [{ type := PowerUpType.DOUBLE_SHOT, x := 100, y := 200, vy := 100, active := true }] ∧
    (spawnPowerUp 100 200 { rng := [23, 79] }).powerUps = [] ∧
    ((List.range 100).filter (fun a => decide ((dropOf 100 200 a 79).length = 1))).length
      = 23 :=
  ⟨((drop_odds 100 200 { rng := [22, 79] } 22 79 [] (by decide) (by decide) rfl).1
      (by decide)).trans (by decide!),
    (drop_odds 100 200 { rng := [23, 79] } 23 79 [] (by decide) (by decide) rfl).2.1
      (by decide),
    (drop_odds 100 200 { rng := [22, 79] } 22 79 [] (by decide) (by decide) rfl).2.2.1⟩

/-! ## What a frame does to the player's position and the boss's health -/

theorem stat_GetRandomValue (lo hi : Int) (g : Game) :
    stat (GetRandomValue lo hi g).2 = stat g := by
  simp only [stat, GetRandomValue_player, GetRandomValue_boss]

theorem stat_spawnExplosion (L : Libm) (cx cy : ℚ) (g : Game) :
    stat (spawnExplosion L cx cy g) = stat g := by
  simp only [stat, spawnExplosion_player, spawnExplosion_boss]

theorem stat_spawnPowerUp (x y : ℚ) (g : Game) : stat (spawnPowerUp x y g) = stat g := by
  simp only [stat, spawnPowerUp_player, spawnPowerUp_boss]

theorem stat_starsUpdate (dt : ℚ) (g : Game) : stat (starsUpdate dt g) = stat g := by
  simp only [stat, starsUpdate_player, starsUpdate_boss]

theorem stat_starsInit (g : Game) : stat (starsInit g) = stat g := by
  simp only [stat, starsInit_player, starsInit_boss]

theorem stat_updateParticles (dt : ℚ) (g : Game) : stat (updateParticles dt g) = stat g := rfl

theorem stat_playerShoot (inp : Input) (g : Game) : stat (playerShoot inp g) = stat g := by
  simp only [playerShoot, firePlayerShot, stat, apply_ite Game.player, apply_ite Game.boss, apply_ite Player.x,
    apply_ite Player.vx, apply_ite Boss.active, apply_ite Boss.hp, apply_ite Boss.maxHp, ite_self]

theorem stat_updateFormationMotion (L : Libm) (dt : ℚ) (g : Game) :
    stat (updateFormationMotion L dt g) = stat g := by
  simp only [updateFormationMotion, stat, apply_ite Game.player, apply_ite Game.boss, apply_ite Player.x,
    apply_ite Player.vx, apply_ite Boss.active, apply_ite Boss.hp, apply_ite Boss.maxHp, ite_self]

theorem stat_launchDive (g : Game) (e : Enemy) : stat (launchDive g e).2 = stat g := by
  unfold launchDive
  simp only
  split_ifs <;> (try split) <;> simp only [stat_GetRandomValue]

theorem stat_launchAt (i : Nat) (g : Game) : stat (launchAt i g) = stat g := by
  unfold launchAt
  split
  · rfl
  · exact stat_launchDive g _

theorem stat_foldl_launchAt (is : List Nat) (g : Game) :
    stat (is.foldl (fun g i => launchAt i g) g) = stat g := by
  induction is generalizing g with
  | nil => rfl
  | cons i is ih => simp only [List.foldl_cons, ih, stat_launchAt]

theorem stat_randomGroup (L : Libm) (c : List Nat) (g : Game) :
    stat (randomGroup L c g).2 = stat g := by
  simp only [randomGroup, stat_GetRandomValue]

theorem stat_startDive (L : Libm) (g : Game) : stat (startDive L g) = stat g := by
  unfold startDive
  by_cases hc : (diveCandidates g.enemies).isEmpty = true
  · simp only [hc, if_true]
  · simp only [hc, Bool.false_eq_true, if_false]
    rw [stat_foldl_launchAt]
    cases List.find? (fun i => decide ((enemyAt g i).type = EnemyType.FLAGSHIP))
        (diveCandidates g.enemies) with
    | none => exact stat_randomGroup L _ g
    | some f =>
      simp only
      split_ifs
      · exact stat_GetRandomValue _ _ _
      · rw [stat_randomGroup, stat_GetRandomValue]

theorem stat_diveTimerStep (L : Libm) (dt : ℚ) (g : Game) :
    stat (diveTimerStep L dt g) = stat g := by
  unfold diveTimerStep
  simp only
  split_ifs
  · show stat (GetRandomValue 200 400 (startDive L _)).2 = _
    rw [stat_GetRandomValue, stat_startDive]
    rfl
  · rfl

theorem stat_updateDiving (L : Libm) (g : Game) (e : Enemy) (dt : ℚ) :
    stat (updateDiving L g e dt).2 = stat g := by
  unfold updateDiving
  simp only
  split_ifs <;> rfl

theorem stat_updateDivers (L : Libm) (dt : ℚ) (es : List Enemy) (g : Game) :
    stat (updateDivers L dt es g).2 = stat g := by
  induction es generalizing g with
  | nil => rfl
  | cons e es ih =>
    simp only [updateDivers]
    rw [ih]
    split_ifs <;> first | rfl | exact stat_updateDiving L g e dt

theorem stat_diversStep (L : Libm) (dt : ℚ) (g : Game) : stat (diversStep L dt g) = stat g :=
  stat_updateDivers L dt g.enemies g

theorem stat_fireBossBullets (L : Libm) (rels : List ℚ) (g : Game) :
    stat (fireBossBullets L rels g) = stat g := by
  induction rels generalizing g with
  | nil => rfl
  | cons r rs ih => simp only [fireBossBullets]; rw [ih]; rfl

theorem stat_updateBoss (L : Libm) (dt : ℚ) (g : Game) : stat (updateBoss L dt g) = stat g := by
  unfold updateBoss
  simp only [fireBossVolley]
  split_ifs <;> rfl

theorem stat_bossStep (L : Libm) (dt : ℚ) (g : Game) : stat (bossStep L dt g) = stat g := by
  unfold bossStep
  split
  · exact stat_updateBoss L dt g
  · rfl

theorem stat_compact (g : Game) : stat (compact g) = stat g := rfl

theorem stat_blinkStep (dt : ℚ) (g : Game) : stat (blinkStep dt g) = stat g := by
  simp only [blinkStep, stat, apply_ite Game.player, apply_ite Game.boss, apply_ite Player.x,
    apply_ite Player.vx, apply_ite Boss.active, apply_ite Boss.hp, apply_ite Boss.maxHp, ite_self]

theorem stat_tickTimers (dt : ℚ) (g : Game) : stat (tickTimers dt g) = stat g := by
  simp only [tickTimers, stat, apply_ite Game.player, apply_ite Game.boss, apply_ite Player.x,
    apply_ite Player.vx, apply_ite Boss.active, apply_ite Boss.hp, apply_ite Boss.maxHp, ite_self]

/-- The movement step in terms of the ramp velocity: the position advances by
`v * dt`; left of 16 it is set to 16 and a negative velocity to 0; right of
`SW - 16` it is set to `SW - 16` and a positive velocity to 0. -/
theorem movePlayer_player (inp : Input) (g : Game) :
    (movePlayer inp g).player =
      if g.player.x + rampVelocity inp g * inp.dt < 16 then
        { g.player with x := 16, vx := if rampVelocity inp g < 0 then 0 else rampVelocity inp g }
      else if g.player.x + rampVelocity inp g * inp.dt > (SW : ℚ) - 16 then
        { g.player with
          x := (SW : ℚ) - 16,
          vx := if rampVelocity inp g > 0 then 0 else rampVelocity inp g }
      else
        { g.player with x := g.player.x + rampVelocity inp g * inp.dt,
                        vx := rampVelocity inp g } := by
  have hsw : ¬ ((16 : ℚ) > (SW : ℚ) - 16) := by
    simp only [SW]
    norm_num
  unfold movePlayer
  simp only
  rw [show (if (if inp.downRight || inp.downD then
            (if inp.downLeft || inp.downA then (0 : ℚ) - 1 else 0) + 1
          else if inp.downLeft || inp.downA then (0 : ℚ) - 1 else 0) ≠ 0 then
        clamp (g.player.vx + (if inp.downRight || inp.downD then
            (if inp.downLeft || inp.downA then (0 : ℚ) - 1 else 0) + 1
          else if inp.downLeft || inp.downA then (0 : ℚ) - 1 else 0) * PLAYER_ACCEL * inp.dt)
          (-PLAYER_MAX_SPEED) PLAYER_MAX_SPEED
      else if |g.player.vx| ≤ PLAYER_DECEL * inp.dt then 0
        else g.player.vx - copysign (PLAYER_DECEL * inp.dt) g.player.vx) = rampVelocity inp g
    from rfl]
  generalize rampVelocity inp g = v
  by_cases h1 : g.player.x + v * inp.dt < 16
  · simp only [h1, if_true, hsw, if_false]
  · by_cases h2 : g.player.x + v * inp.dt > (SW : ℚ) - 16
    · simp only [h1, if_false, h2, if_true]
    · simp only [h1, if_false, h2]

theorem stat_applyPowerUp (t : PowerUpType) (g : Game) : stat (applyPowerUp t g) = stat g := by
  cases t <;> rfl

theorem stat_updatePowerUps (dt : ℚ) (ps : List PowerUp) (g : Game) :
    stat (updatePowerUps dt ps g).2 = stat g := by
  induction ps generalizing g with
  | nil => rfl
  | cons p ps ih =>
    simp only [updatePowerUps]
    rw [ih]
    split_ifs <;> first | rfl | exact stat_applyPowerUp _ g

theorem stat_powerUpStep (dt : ℚ) (g : Game) : stat (powerUpStep dt g) = stat g :=
  stat_updatePowerUps dt g.powerUps g

theorem bossStep_refl (s : Stat) : BossStep s s := ⟨rfl, rfl, rfl, le_refl _, id, id⟩

theorem bossStep_of_eq {s s' : Stat} (h : s' = s) : BossStep s s' := h ▸ bossStep_refl s

theorem bossStep_trans {a b c : Stat} (h₁ : BossStep a b) (h₂ : BossStep b c) : BossStep a c :=
  ⟨h₂.px.trans h₁.px, h₂.pvx.trans h₁.pvx, h₂.maxHp.trans h₁.maxHp, le_trans h₂.hp h₁.hp,
    fun h => h₁.active (h₂.active h), fun h => h₂.inv (h₁.inv h)⟩

theorem stat_hitBoss (L : Libm) (pb : Bullet) (g : Game) :
    stat (hitBoss L pb g) =
      if g.boss.hp - 1 ≤ 0 then { stat g with bossHp := g.boss.hp - 1, bossActive := false }
      else { stat g with bossHp := g.boss.hp - 1 } := by
  have hb := hitBoss_boss L pb g
  have hp : (hitBoss L pb g).player = g.player := by
    simp only [hitBoss, addScore, spawnExplosion_boss, spawnExplosion_player,
      spawnPowerUp_player, apply_ite Game.player, ite_self]
  simp only [stat, hb, hp]
  split_ifs <;> rfl

/-- A hit on the active boss lowers its health by one and keeps it
well-behaved. -/
theorem bossStep_hitBoss (L : Libm) (pb : Bullet) (g : Game) (h : g.boss.active = true) :
    BossStep (stat g) (stat (hitBoss L pb g)) := by
  rw [stat_hitBoss]
  split_ifs with h0
  · refine ⟨rfl, rfl, rfl, ?_, fun _ => h, ?_⟩
    · show g.boss.hp - 1 ≤ g.boss.hp
      omega
    · intro hi
      have h1 : 1 ≤ g.boss.hp := hi.live h
      have h2 : g.boss.hp ≤ g.boss.maxHp := hi.hpHi
      refine ⟨?_, ?_, ?_⟩
      · show 0 ≤ g.boss.hp - 1
        omega
      · show g.boss.hp - 1 ≤ g.boss.maxHp
        omega
      · intro hc
        exact absurd hc (by simp)
  · refine ⟨rfl, rfl, rfl, ?_, fun _ => h, ?_⟩
    · show g.boss.hp - 1 ≤ g.boss.hp
      omega
    · intro hi
      have h2 : g.boss.hp ≤ g.boss.maxHp := hi.hpHi
      refine ⟨?_, ?_, ?_⟩
      · show 0 ≤ g.boss.hp - 1
        omega
      · show g.boss.hp - 1 ≤ g.boss.maxHp
        omega
      · intro _
        show 1 ≤ g.boss.hp - 1
        omega

theorem stat_killEnemy (L : Libm) (e : Enemy) (es : List Enemy) (g : Game) :
    stat (killEnemy L e es g) = stat g := by
  unfold killEnemy
  simp only
  rw [stat_spawnPowerUp, stat_spawnExplosion]
  rfl

theorem bossStep_collideBullet (L : Libm) (pb : Bullet) (g : Game) :
    BossStep (stat g) (stat (collideBullet L pb g).2) := by
  unfold collideBullet
  simp only
  split_ifs with h1 h2
  · exact bossStep_refl _
  · have ha : g.boss.active = true := by
      simp only [Bool.and_eq_true] at h2
      exact h2.1
    exact bossStep_hitBoss L pb g ha
  · split
    · exact bossStep_refl _
    · exact bossStep_of_eq (stat_killEnemy L _ _ g)

theorem bossStep_collideBullets (L : Libm) (pbs : List Bullet) (g : Game) :
    BossStep (stat g) (stat (collideBullets L pbs g).2) := by
  induction pbs generalizing g with
  | nil => exact bossStep_refl _
  | cons pb pbs ih =>
    simp only [collideBullets]
    exact bossStep_trans (bossStep_collideBullet L pb g) (ih _)

theorem bossStep_collisionStep (L : Libm) (g : Game) :
    BossStep (stat g) (stat (collisionStep L g)) :=
  bossStep_collideBullets L g.pBullets g

/-- The part of `updatePlaying` between the movement and the power-up loop
leaves the player's position and the boss's health alone. -/
theorem stat_afterMove (L : Libm) (inp : Input) (g : Game) :
    stat (powerUpStep inp.dt (bossStep L inp.dt (moveEnemyBullets inp.dt (diversStep L inp.dt
      (diveTimerStep L inp.dt (syncFormation L (updateFormationMotion L inp.dt
        (movePlayerBullets inp.dt (playerShoot inp g)))))))))
      = stat g := by
  rw [stat_powerUpStep, stat_bossStep]
  show stat (diversStep L inp.dt _) = _
  rw [stat_diversStep, stat_diveTimerStep]
  show stat (updateFormationMotion L inp.dt _) = _
  rw [stat_updateFormationMotion]
  show stat (playerShoot inp _) = _
  rw [stat_playerShoot]

/-- Everything `updatePlaying` does between the movement and the lethal checks
is a `BossStep`. -/
theorem bossStep_playingFrame (L : Libm) (inp : Input) (g : Game) :
    BossStep (stat (movePlayer inp (tickTimers inp.dt g))) (stat (playingFrame L inp g)) := by
  unfold playingFrame
  simp only
  have h : ∀ s : Game, stat (compact s) = stat s := fun _ => rfl
  rw [h]
  exact bossStep_trans (bossStep_of_eq (stat_afterMove L inp _)) (bossStep_collisionStep L _)

theorem stat_killPlayer (L : Libm) (g : Game) : stat (killPlayer L g) = stat g := by
  unfold killPlayer
  split
  · rfl
  · simp only [stat, spawnExplosion_player, spawnExplosion_boss]

theorem stat_lethalChecks (L : Libm) (g : Game) : stat (lethalChecks L g).1 = stat g := by
  unfold lethalChecks
  by_cases hi : (!g.player.invincible) = true
  · rw [if_pos hi]
    cases hb : hitByBullet g.player.hitbox g.eBullets with
    | some bs =>
      simp only
      exact stat_killPlayer L { g with eBullets := bs }
    | none =>
      simp only
      cases hd : hitByDiver g.player.hitbox g.enemies with
      | some r =>
        obtain ⟨e, es⟩ := r
        simp only
        rw [stat_killPlayer, stat_spawnExplosion]
        rfl
      | none =>
        simp only
        split_ifs
        · exact stat_killPlayer L g
        · rfl
  · rw [if_neg hi]

theorem stat_checkStageClear (g : Game) : stat (checkStageClear g) = stat g := by
  unfold checkStageClear
  split <;> rfl

/-- After the movement step, `updatePlaying` is a `BossStep`. -/
theorem bossStep_updatePlaying (L : Libm) (inp : Input) (g : Game) :
    BossStep (stat (movePlayer inp (tickTimers inp.dt g))) (stat (updatePlaying L inp g)) := by
  have h1 := bossStep_playingFrame L inp g
  unfold updatePlaying
  generalize playingFrame L inp g = s at h1 ⊢
  have h2 : stat (if (lethalChecks L s).2 = true then (lethalChecks L s).1
      else checkStageClear (lethalChecks L s).1) = stat s := by
    split_ifs
    · exact stat_lethalChecks L s
    · rw [stat_checkStageClear, stat_lethalChecks]
  exact bossStep_trans h1 (bossStep_of_eq h2)

theorem stat_buildFormation (g : Game) :
    stat (buildFormation g) =
      if Int.tmod g.round 3 = 0 then
        { stat g with bossActive := true, bossHp := 10 + Int.tdiv g.round 3 * 2,
                      bossMaxHp := 10 + Int.tdiv g.round 3 * 2 }
      else { stat g with bossActive := false, bossHp := 0, bossMaxHp := 0 } := by
  simp only [buildFormation, stat, apply_ite Game.player, apply_ite Game.boss, apply_ite Player.x,
    apply_ite Player.vx, apply_ite Boss.active, apply_ite Boss.hp, apply_ite Boss.maxHp, ite_self]
  split_ifs <;> rfl

theorem stat_init (g : Game) :
    stat (init g) =
      { px := (SW : ℚ) / 2, pvx := 0, bossActive := false, bossHp := 0, bossMaxHp := 0 } := by
  unfold init
  simp only
  rw [stat_buildFormation]
  have h : Int.tmod 1 3 ≠ 0 := by decide
  simp only [h, if_false, stat]

theorem stat_updateAttract (L : Libm) (inp : Input) (g : Game) :
    stat (updateAttract L inp g) =
      if inp.pressedEnter || inp.pressedSpace then
        { px := (SW : ℚ) / 2, pvx := 0, bossActive := false, bossHp := 0, bossMaxHp := 0 }
      else stat g := by
  have hs : ∀ x : Game, stat { x with state := GameState.PLAYING } = stat x := fun _ => rfl
  unfold updateAttract
  by_cases h1 : (inp.pressedEnter || inp.pressedSpace) = true
  · rw [if_pos h1, if_pos h1, hs, stat_init]
  · rw [if_neg h1, if_neg h1, stat_blinkStep, stat_updateFormationMotion]

theorem stat_updateDead (dt : ℚ) (g : Game) :
    stat (updateDead dt g) =
      if g.stateTimer - dt ≤ 0 ∧ ¬ g.player.lives ≤ 0 then
        { stat g with px := (SW : ℚ) / 2, pvx := 0 }
      else stat g := by
  simp only [updateDead, stat, apply_ite Game.player, apply_ite Game.boss, apply_ite Player.x,
    apply_ite Player.vx, apply_ite Boss.active, apply_ite Boss.hp, apply_ite Boss.maxHp, ite_self, starsUpdate_stateTimer, starsUpdate_player, starsUpdate_boss]
  by_cases h1 : g.stateTimer - dt ≤ 0
  · by_cases h2 : g.player.lives ≤ 0
    · simp only [h1, h2, if_true, not_true_eq_false, and_false, if_false]
    · simp only [h1, h2, if_true, if_false, not_false_eq_true, and_self]
  · simp only [h1, if_false, false_and]

theorem stat_updateGameOver (dt : ℚ) (g : Game) : stat (updateGameOver dt g) = stat g := by
  simp only [updateGameOver, stat]
  split_ifs <;> rfl

theorem stat_updateClear (dt : ℚ) (g : Game) :
    stat (updateClear dt g) =
      if g.stateTimer - dt ≤ 0 then
        (if Int.tmod (g.round + 1) 3 = 0 then
          { stat g with bossActive := true, bossHp := 10 + Int.tdiv (g.round + 1) 3 * 2,
                        bossMaxHp := 10 + Int.tdiv (g.round + 1) 3 * 2 }
         else { stat g with bossActive := false, bossHp := 0, bossMaxHp := 0 })
      else stat g := by
  have hs : ∀ x : Game, stat { x with state := GameState.PLAYING } = stat x := fun _ => rfl
  unfold updateClear
  simp only
  split_ifs with h1 h2
  · rw [hs, stat_buildFormation]
    simp only [h2, if_true]
    rfl
  · rw [hs, stat_buildFormation]
    simp only [h2, if_false]
    rfl
  · rfl

theorem stat_preFrame (dt : ℚ) (g : Game) : stat (preFrame dt g) = stat g := by
  unfold preFrame
  rw [stat_updateParticles, stat_starsUpdate]

/-! ## Player movement -/

theorem rampVelocity_bound (inp : Input) (g : Game) (hdt : 0 ≤ inp.dt)
    (h : |g.player.vx| ≤ PLAYER_MAX_SPEED) : |rampVelocity inp g| ≤ PLAYER_MAX_SPEED := by
  have hm : (0 : ℚ) ≤ PLAYER_MAX_SPEED := by
    simp only [PLAYER_MAX_SPEED]
    norm_num
  have hd : (0 : ℚ) ≤ PLAYER_DECEL * inp.dt := by
    simp only [PLAYER_DECEL]
    positivity
  obtain ⟨h1, h2⟩ := abs_le.mp h
  have key : ∀ m : ℚ,
      |(if m ≠ 0 then
          clamp (g.player.vx + m * PLAYER_ACCEL * inp.dt) (-PLAYER_MAX_SPEED) PLAYER_MAX_SPEED
        else if |g.player.vx| ≤ PLAYER_DECEL * inp.dt then 0
          else g.player.vx - copysign (PLAYER_DECEL * inp.dt) g.player.vx)| ≤
        PLAYER_MAX_SPEED := by
    intro m
    split_ifs with c1 c2
    · obtain ⟨b1, b2⟩ := clamp_bounds (g.player.vx + m * PLAYER_ACCEL * inp.dt)
        (-PLAYER_MAX_SPEED) PLAYER_MAX_SPEED (by linarith)
      exact abs_le.mpr ⟨b1, b2⟩
    · rw [abs_zero]
      exact hm
    · have c3 : PLAYER_DECEL * inp.dt < |g.player.vx| := lt_of_not_le c2
      unfold copysign
      rw [abs_of_nonneg hd]
      split_ifs with c4
      · rw [abs_of_neg c4] at c3
        exact abs_le.mpr ⟨by linarith, by linarith⟩
      · have c5 : 0 ≤ g.player.vx := le_of_not_lt c4
        rw [abs_of_nonneg c5] at c3
        exact abs_le.mpr ⟨by linarith, by linarith⟩
  exact key _

theorem movePlayer_bounds (inp : Input) (g : Game) :
    16 ≤ (movePlayer inp g).player.x ∧ (movePlayer inp g).player.x ≤ (SW : ℚ) - 16 ∧
    (|rampVelocity inp g| ≤ PLAYER_MAX_SPEED →
      |(movePlayer inp g).player.vx| ≤ PLAYER_MAX_SPEED) := by
  have hsw : (16 : ℚ) ≤ (SW : ℚ) - 16 := by
    simp only [SW]
    norm_num
  have hm : (0 : ℚ) ≤ PLAYER_MAX_SPEED := by
    simp only [PLAYER_MAX_SPEED]
    norm_num
  rw [movePlayer_player]
  by_cases h1 : g.player.x + rampVelocity inp g * inp.dt < 16
  · rw [if_pos h1]
    refine ⟨le_refl _, hsw, fun hv => ?_⟩
    show |if rampVelocity inp g < 0 then 0 else rampVelocity inp g| ≤ PLAYER_MAX_SPEED
    split_ifs
    · rw [abs_zero]; exact hm
    · exact hv
  · rw [if_neg h1]
    by_cases h2 : g.player.x + rampVelocity inp g * inp.dt > (SW : ℚ) - 16
    · rw [if_pos h2]
      refine ⟨hsw, le_refl _, fun hv => ?_⟩
      show |if rampVelocity inp g > 0 then 0 else rampVelocity inp g| ≤ PLAYER_MAX_SPEED
      split_ifs
      · rw [abs_zero]; exact hm
      · exact hv
    · rw [if_neg h2]
      exact ⟨le_of_not_lt h1, le_of_not_lt h2, id⟩

theorem rampVelocity_congr (inp : Input) (g g' : Game) (h : g'.player = g.player) :
    rampVelocity inp g' = rampVelocity inp g := by
  simp only [rampVelocity, h]

theorem movePlayer_player_congr (inp : Input) (g g' : Game) (h : g'.player = g.player) :
    (movePlayer inp g').player = (movePlayer inp g).player := by
  rw [movePlayer_player, movePlayer_player, rampVelocity_congr inp g g' h, h]

theorem movePlayer_boss (inp : Input) (g : Game) : (movePlayer inp g).boss = g.boss := by
  simp only [movePlayer, apply_ite Game.boss, ite_self]

/-- C21. Player motion is hard-clamped.  For every `dt >= 0` and every
directional input, after the movement step of `updatePlaying` the player's x
lies in `16 .. SW - 16`; `|vx| <= PLAYER_MAX_SPEED` is kept by the step; when
the advanced position is left of 16 the player is put at 16 and a velocity to
the left is set to 0 (the velocity is `max v 0`, never reflected), when it is
right of `SW - 16` the player is put at `SW - 16` and a velocity to the right
is set to 0 (`min v 0`), and otherwise position and velocity are the advanced
ones; here `v` is the velocity of the acceleration and deceleration ramps.
The rest of `updatePlaying` leaves the player's x and vx as the movement step
computed them. -/
theorem player_motion_clamped (L : Libm) (inp : Input) (g : Game) (hdt : 0 ≤ inp.dt) :
    (16 ≤ (movePlayer inp g).player.x ∧ (movePlayer inp g).player.x ≤ (SW : ℚ) - 16) ∧
    (|g.player.vx| ≤ PLAYER_MAX_SPEED → |(movePlayer inp g).player.vx| ≤ PLAYER_MAX_SPEED) ∧
    (g.player.x + rampVelocity inp g * inp.dt < 16 →
      (movePlayer inp g).player.x = 16 ∧
      (movePlayer inp g).player.vx = max (rampVelocity inp g) 0 ∧
      0 ≤ (movePlayer inp g).player.vx) ∧
    ((SW : ℚ) - 16 < g.player.x + rampVelocity inp g * inp.dt →
      (movePlayer inp g).player.x = (SW : ℚ) - 16 ∧
      (movePlayer inp g).player.vx = min (rampVelocity inp g) 0 ∧
      (movePlayer inp g).player.vx ≤ 0) ∧
    (16 ≤ g.player.x + rampVelocity inp g * inp.dt →
      g.player.x + rampVelocity inp g * inp.dt ≤ (SW : ℚ) - 16 →
      (movePlayer inp g).player.x = g.player.x + rampVelocity inp g * inp.dt ∧
      (movePlayer inp g).player.vx = rampVelocity inp g) ∧
    ((updatePlaying L inp g).player.x = (movePlayer inp (tickTimers inp.dt g)).player.x ∧
      (updatePlaying L inp g).player.vx = (movePlayer inp (tickTimers inp.dt g)).player.vx ∧
      (tickTimers inp.dt g).player.x = g.player.x ∧
      (tickTimers inp.dt g).player.vx = g.player.vx) := by
  have hsw : (16 : ℚ) < (SW : ℚ) - 16 := by
    simp only [SW]
    norm_num
  obtain ⟨b1, b2, b3⟩ := movePlayer_bounds inp g
  refine ⟨⟨b1, b2⟩, fun h => b3 (rampVelocity_bound inp g hdt h), ?_, ?_, ?_, ?_⟩
  · intro h
    rw [movePlayer_player, if_pos h]
    refine ⟨rfl, ?_, ?_⟩
    · show (if rampVelocity inp g < 0 then 0 else rampVelocity inp g) = _
      split_ifs with c
      · exact (max_eq_right (le_of_lt c)).symm
      · exact (max_eq_left (le_of_not_lt c)).symm
    · show 0 ≤ (if rampVelocity inp g < 0 then 0 else rampVelocity inp g)
      split_ifs with c
      · exact le_refl _
      · exact le_of_not_lt c
  · intro h
    have h1 : ¬ g.player.x + rampVelocity inp g * inp.dt < 16 := by
      intro c
      linarith
    rw [movePlayer_player, if_neg h1, if_pos h]
    refine ⟨rfl, ?_, ?_⟩
    · show (if rampVelocity inp g > 0 then 0 else rampVelocity inp g) = _
      split_ifs with c
      · exact (min_eq_right (le_of_lt c)).symm
      · exact (min_eq_left (le_of_not_lt c)).symm
    · show (if rampVelocity inp g > 0 then 0 else rampVelocity inp g) ≤ 0
      split_ifs with c
      · exact le_refl _
      · exact le_of_not_lt c
  · intro h1 h2
    rw [movePlayer_player, if_neg (not_lt.mpr h1), if_neg (not_lt.mpr h2)]
    exact ⟨rfl, rfl⟩
  · have hs := bossStep_updatePlaying L inp g
    have ht := stat_tickTimers inp.dt g
    exact ⟨hs.px, hs.pvx, congrArg Stat.px ht, congrArg Stat.pvx ht⟩

set_option maxRecDepth 1000000 in
theorem player_motion_clamped_witness :
    (0 : ℚ) ≤ holdLeft.dt ∧
    (movePlayer holdLeft nearLeftWall).player.x = 16 ∧
    (movePlayer holdLeft nearLeftWall).player.vx = 0 ∧
    (updatePlaying refLibm holdLeft nearLeftWall).player.x = 16 ∧
    (updatePlaying refLibm holdLeft nearLeftWall).player.vx = 0 :=
  have h := player_motion_clamped refLibm holdLeft nearLeftWall (by decide!)
  have hc : nearLeftWall.player.x + rampVelocity holdLeft nearLeftWall * holdLeft.dt < 16 := by
    decide!
  have hm : movePlayer holdLeft (tickTimers holdLeft.dt nearLeftWall) =
      movePlayer holdLeft nearLeftWall := rfl
  ⟨by decide!, (h.2.2.1 hc).1, (h.2.2.1 hc).2.1.trans (by decide!),
    (h.2.2.2.2.2.1.trans (congrArg (fun s => s.player.x) hm)).trans (h.2.2.1 hc).1,
    (h.2.2.2.2.2.2.1.trans (congrArg (fun s => s.player.vx) hm)).trans
      ((h.2.2.1 hc).2.1.trans (by decide!))⟩

/-! ## Boss health -/

theorem bossInv_of_boss {s s' : Stat} (h1 : s'.bossActive = s.bossActive)
    (h2 : s'.bossHp = s.bossHp) (h3 : s'.bossMaxHp = s.bossMaxHp) (h : BossInv s) :
    BossInv s' :=
  ⟨by rw [h2]; exact h.hpLo, by rw [h2, h3]; exact h.hpHi,
    fun ha => by rw [h2]; exact h.live (h1 ▸ ha)⟩

/-- The timers and the movement step leave the boss alone. -/
theorem moved_boss (inp : Input) (g : Game) :
    (stat (movePlayer inp (tickTimers inp.dt g))).bossActive = g.boss.active ∧
    (stat (movePlayer inp (tickTimers inp.dt g))).bossHp = g.boss.hp ∧
    (stat (movePlayer inp (tickTimers inp.dt g))).bossMaxHp = g.boss.maxHp := by
  have hm := movePlayer_boss inp (tickTimers inp.dt g)
  have ht := stat_tickTimers inp.dt g
  refine ⟨?_, ?_, ?_⟩
  · show (movePlayer inp (tickTimers inp.dt g)).boss.active = _
    rw [hm]
    exact congrArg Stat.bossActive ht
  · show (movePlayer inp (tickTimers inp.dt g)).boss.hp = _
    rw [hm]
    exact congrArg Stat.bossHp ht
  · show (movePlayer inp (tickTimers inp.dt g)).boss.maxHp = _
    rw [hm]
    exact congrArg Stat.bossMaxHp ht

/-- An `updatePlaying` call keeps the boss invariant, never raises the boss's
health and never activates the boss. -/
theorem updatePlaying_boss (L : Libm) (inp : Input) (g : Game) :
    (BossInv (stat g) → BossInv (stat (updatePlaying L inp g))) ∧
    (updatePlaying L inp g).boss.hp ≤ g.boss.hp ∧
    (updatePlaying L inp g).boss.maxHp = g.boss.maxHp ∧
    ((updatePlaying L inp g).boss.active = true → g.boss.active = true) := by
  have hs := bossStep_updatePlaying L inp g
  obtain ⟨m1, m2, m3⟩ := moved_boss inp g
  refine ⟨fun h => hs.inv (bossInv_of_boss m1 m2 m3 h), ?_, ?_, ?_⟩
  · exact le_of_le_of_eq hs.hp m2
  · exact hs.maxHp.trans m3
  · intro h
    rw [← m1]
    exact hs.active h

/-- An `updatePlaying` call that ends in STAGE_CLEAR without having started
there ends with no boss active. -/
theorem updatePlaying_clear_boss (L : Libm) (inp : Input) (g : Game)
    (hs : g.state ≠ GameState.STAGE_CLEAR)
    (h : (updatePlaying L inp g).state = GameState.STAGE_CLEAR) :
    (updatePlaying L inp g).boss.active = false := by
  have hp : (playingFrame L inp g).state = g.state := (playStep_playingFrame L inp g).state
  unfold updatePlaying at h ⊢
  generalize playingFrame L inp g = s at hp h ⊢
  rcases lethalChecks_cases L s with hl | ⟨-, h2, h3⟩
  · rw [hl] at h ⊢
    simp only [Bool.false_eq_true, if_false] at h ⊢
    unfold checkStageClear at h ⊢
    split_ifs at h ⊢ with hc
    · exact hc.2
    · exact absurd (h.symm.trans hp).symm hs
  · exfalso
    have hk : (lethalChecks L s).1.state = GameState.PLAYER_DEAD := congrArg Core.state h3
    have hh : (lethalChecks L s).1.state = GameState.STAGE_CLEAR := by
      generalize lethalChecks L s = r at h h2
      obtain ⟨r1, r2⟩ := r
      simp only at h2
      subst h2
      exact h
    rw [hk] at hh
    exact absurd hh (by decide)

theorem bossField_start (rolls : List Nat) : BossField (Game.start rolls) := by
  have hc := coreInv_start rolls
  have hb : stat (Game.start rolls) =
      { stat (starsInit { rng := rolls }) with bossActive := false, bossHp := 0, bossMaxHp := 0 } := by
    unfold Game.start
    rw [stat_buildFormation]
    have h : (starsInit { rng := rolls }).round = 1 := starsInit_round _
    rw [h]
    rfl
  refine ⟨?_, ?_, hc.round⟩
  · rw [hb]
    exact ⟨le_refl _, le_refl _, fun h => Bool.noConfusion h⟩
  · intro _
    exact congrArg Stat.bossActive hb

theorem coreStep_round {b : Bool} {c c' : Core} (h : CoreStep b c c') (hr : 1 ≤ c.round) :
    1 ≤ c'.round := by
  cases h with
  | attractIdle _ _ => exact hr
  | attractStart _ _ => exact le_refl _
  | play m _ hm => exact le_of_le_of_eq hr hm.round.symm
  | playKilled m _ hm => exact le_of_le_of_eq hr hm.round.symm
  | playClear m _ hm => exact le_of_le_of_eq hr hm.round.symm
  | deadWait _ => exact hr
  | deadOver _ _ => exact hr
  | deadRespawn _ _ => exact hr
  | overWait _ => exact hr
  | overAttract _ => exact hr
  | clearWait _ => exact hr
  | clearNext _ =>
    show 1 ≤ c.round + 1
    omega

/-- What one `update` call does to the player's position and the boss's
health, state by state. -/
theorem stat_update (L : Libm) (inp : Input) (g : Game) :
    (g.state = GameState.ATTRACT →
      stat (update L inp g) =
        if inp.pressedEnter || inp.pressedSpace then
          { px := (SW : ℚ) / 2, pvx := 0, bossActive := false, bossHp := 0, bossMaxHp := 0 }
        else stat g) ∧
    (g.state = GameState.PLAYING →
      update L inp g = updatePlaying L inp (preFrame inp.dt g)) ∧
    (g.state = GameState.PLAYER_DEAD →
      stat (update L inp g) =
        if g.stateTimer - inp.dt ≤ 0 ∧ ¬ g.player.lives ≤ 0 then
          { stat g with px := (SW : ℚ) / 2, pvx := 0 }
        else stat g) ∧
    (g.state = GameState.GAME_OVER → stat (update L inp g) = stat g) ∧
    (g.state = GameState.STAGE_CLEAR →
      stat (update L inp g) =
        if g.stateTimer - inp.dt ≤ 0 then
          (if Int.tmod (g.round + 1) 3 = 0 then
            { stat g with bossActive := true, bossHp := 10 + Int.tdiv (g.round + 1) 3 * 2,
                          bossMaxHp := 10 + Int.tdiv (g.round + 1) 3 * 2 }
           else { stat g with bossActive := false, bossHp := 0, bossMaxHp := 0 })
        else stat g) := by
  have hst := stat_preFrame inp.dt g
  obtain ⟨-, hpp, -, -, -, -, -, -, -, hpr, -, -, hpt⟩ := preFrame_fields inp.dt g
  refine ⟨?_, ?_, ?_, ?_, ?_⟩
  · intro hs
    rw [update_eq, hs]
    simp only
    rw [stat_updateAttract, hst]
  · intro hs
    rw [update_eq, hs]
  · intro hs
    rw [update_eq, hs]
    simp only
    rw [stat_updateDead, hst, hpt, hpp]
  · intro hs
    rw [update_eq, hs]
    simp only
    rw [stat_updateGameOver, hst]
  · intro hs
    rw [update_eq, hs]
    simp only
    rw [stat_updateClear, hst, hpt, hpr]

/-- The boss invariant is kept by every `update` call, and a call on a state
with the boss active does not raise the boss's health. -/
theorem bossField_update (L : Libm) (inp : Input) (g : Game) (h : BossField g) :
    BossField (update L inp g) ∧
    (g.boss.active = true → (update L inp g).boss.hp ≤ g.boss.hp) := by
  have hr : 1 ≤ (update L inp g).round := coreStep_round (update_coreStep L inp g) h.round
  obtain ⟨f1, f2, f3, f4, f5⟩ := update_flow L inp g
  obtain ⟨s1, s2, s3, s4, s5⟩ := stat_update L inp g
  obtain ⟨i1, i2, i3⟩ := h
  have same : stat (update L inp g) = stat g → (update L inp g).state ≠ GameState.STAGE_CLEAR →
      BossField (update L inp g) ∧
      (g.boss.active = true → (update L inp g).boss.hp ≤ g.boss.hp) := by
    intro he hn
    refine ⟨⟨by rw [he]; exact i1, fun hc => absurd hc hn, hr⟩, fun _ => ?_⟩
    exact le_of_eq (congrArg Stat.bossHp he)
  cases hs : g.state
  · -- ATTRACT
    have e := s1 hs
    by_cases hk : (inp.pressedEnter || inp.pressedSpace) = true
    · rw [if_pos hk] at e
      have hst := (f1 hs).1 hk
      refine ⟨⟨?_, ?_, hr⟩, ?_⟩
      · rw [e]
        exact ⟨le_refl _, le_refl _, fun h => Bool.noConfusion h⟩
      · intro hc
        rw [hst] at hc
        exact absurd hc (by decide)
      · intro ha
        have e1 : (update L inp g).boss.hp = 0 := congrArg Stat.bossHp e
        rw [e1]
        exact le_trans (by decide) (i1.live ha)
    · rw [if_neg hk] at e
      have hst := (f1 hs).2 hk
      exact same e (by rw [hst]; decide)
  · -- PLAYING
    have e := s2 hs
    obtain ⟨-, -, -, -, -, -, hpb, -⟩ := preFrame_fields inp.dt g
    have hpst : (preFrame inp.dt g).state ≠ GameState.STAGE_CLEAR := by
      rw [(preFrame_fields inp.dt g).1, hs]
      decide
    have hinv : BossInv (stat (preFrame inp.dt g)) := by
      rw [stat_preFrame]
      exact i1
    obtain ⟨u1, u2, -, -⟩ := updatePlaying_boss L inp (preFrame inp.dt g)
    rw [e]
    refine ⟨⟨u1 hinv, updatePlaying_clear_boss L inp _ hpst, ?_⟩, fun _ => ?_⟩
    · rw [← e]
      exact hr
    · rw [hpb] at u2
      exact u2
  · -- PLAYER_DEAD
    have e := s3 hs
    have hn : (update L inp g).state ≠ GameState.STAGE_CLEAR := by
      obtain ⟨d1, d2, d3⟩ := f3 hs
      by_cases ht : g.stateTimer - inp.dt ≤ 0
      · by_cases hl : g.player.lives ≤ 0
        · rw [(d2 ht hl).1]
          decide
        · rw [(d3 ht hl).1]
          decide
      · rw [(d1 ht).1]
        decide
    have hb : (stat (update L inp g)).bossActive = (stat g).bossActive ∧
        (stat (update L inp g)).bossHp = (stat g).bossHp ∧
        (stat (update L inp g)).bossMaxHp = (stat g).bossMaxHp := by
      rw [e]
      split_ifs <;> exact ⟨rfl, rfl, rfl⟩
    refine ⟨⟨bossInv_of_boss hb.1 hb.2.1 hb.2.2 i1, fun hc => absurd hc hn, hr⟩, fun _ => ?_⟩
    exact le_of_eq hb.2.1
  · -- GAME_OVER
    have e := s4 hs
    have hn : (update L inp g).state ≠ GameState.STAGE_CLEAR := by
      obtain ⟨-, d2, d3⟩ := f4 hs
      by_cases ht : g.stateTimer - inp.dt ≤ 0
      · rw [d3 ht]
        decide
      · rw [d2 ht]
        decide
    exact same e hn
  · -- STAGE_CLEAR
    have e := s5 hs
    have hoff : g.boss.active = false := i2 hs
    obtain ⟨-, d2, d3⟩ := f5 hs
    by_cases ht : g.stateTimer - inp.dt ≤ 0
    · rw [if_pos ht] at e
      have hn : (update L inp g).state ≠ GameState.STAGE_CLEAR := by
        rw [d3 ht]
        decide
      refine ⟨⟨?_, fun hc => absurd hc hn, hr⟩, fun ha => ?_⟩
      · rw [e]
        split_ifs with hm
        · have hk : 0 ≤ Int.tdiv (g.round + 1) 3 := Int.tdiv_nonneg (by omega) (by decide)
          refine ⟨?_, le_refl _, fun _ => ?_⟩
          · show (0 : Int) ≤ 10 + Int.tdiv (g.round + 1) 3 * 2
            omega
          · show (1 : Int) ≤ 10 + Int.tdiv (g.round + 1) 3 * 2
            omega
        · exact ⟨le_refl _, le_refl _, fun h => Bool.noConfusion h⟩
      · rw [hoff] at ha
        exact Bool.noConfusion ha
    · rw [if_neg ht] at e
      refine ⟨⟨by rw [e]; exact i1, fun _ => ?_, hr⟩, fun ha => ?_⟩
      · exact (congrArg Stat.bossActive e).trans hoff
      · rw [hoff] at ha
        exact Bool.noConfusion ha

/-- Every reachable state satisfies the boss invariant. -/
theorem reachable_bossField (L : Libm) (g : Game) (h : Reachable L g) : BossField g := by
  induction h with
  | start rolls => exact bossField_start rolls
  | frame g inp _ _ ih => exact (bossField_update L inp g ih).1

/-- With no boss active, a player bullet leaves the boss's health alone. -/
theorem collideBullet_boss_off (L : Libm) (pb : Bullet) (g : Game) (h : g.boss.active = false) :
    stat (collideBullet L pb g).2 = stat g := by
  unfold collideBullet
  simp only [h, Bool.false_and, Bool.false_eq_true, if_false]
  split_ifs
  · rfl
  · split
    · rfl
    · exact stat_killEnemy L _ _ g

theorem collideBullets_boss_off (L : Libm) (pbs : List Bullet) (g : Game)
    (h : g.boss.active = false) : stat (collideBullets L pbs g).2 = stat g := by
  induction pbs generalizing g with
  | nil => rfl
  | cons pb pbs ih =>
    simp only [collideBullets]
    have h1 := collideBullet_boss_off L pb g h
    have h2 : (collideBullet L pb g).2.boss.active = false :=
      (congrArg Stat.bossActive h1).trans h
    exact (ih _ h2).trans h1

/-- An active player bullet on the active boss takes one hit point, is used
up, and deactivates the boss when that was the last hit point. -/
theorem collideBullet_boss_damage (L : Libm) (pb : Bullet) (g : Game)
    (ha : g.boss.active = true) (hp : pb.active = true)
    (hc : CheckCollisionRecs pb.rect g.boss.hitbox = true) :
    (collideBullet L pb g).1.active = false ∧
    (collideBullet L pb g).2.boss.hp = g.boss.hp - 1 ∧
    ((collideBullet L pb g).2.boss.active = true ↔ 2 ≤ g.boss.hp) := by
  rw [collideBullet_boss_hit L pb g hp ha hc]
  have hb := hitBoss_boss L pb g
  refine ⟨rfl, ?_, ?_⟩
  · show (hitBoss L pb g).boss.hp = _
    rw [hb]
    split_ifs <;> rfl
  · show (hitBoss L pb g).boss.active = true ↔ _
    rw [hb]
    split_ifs with h0
    · constructor
      · intro h
        exact h.elim
      · intro h
        omega
    · constructor
      · intro _
        omega
      · intro _
        exact ha

/-- C27. Boss health is well-behaved.  `BossField` (health in `0 .. maxHp`, an
active boss has at least one hit point, no boss is active in STAGE_CLEAR,
round at least 1) holds in every reachable state and is kept by every `update`
call; so in every reachable state with the boss active
`1 <= boss.hp <= boss.maxHp`, an `update` call on it does not raise `boss.hp`,
and `boss.hp` is never negative.  In the bullet loop of a frame the health
never drops below 0 however many player bullets of `pbs` overlap the boss: an
active bullet on the active boss takes exactly one hit point and deactivates
the boss when none is left, and with the boss inactive the remaining bullets
leave its health alone. -/
theorem boss_health_well_behaved (L : Libm) (inp : Input) (g : Game) (h : BossField g) :
    (g.boss.active = true → 1 ≤ g.boss.hp ∧ g.boss.hp ≤ g.boss.maxHp) ∧
    (0 ≤ g.boss.hp ∧ g.boss.hp ≤ g.boss.maxHp) ∧
    BossField (update L inp g) ∧
    (g.boss.active = true → (update L inp g).boss.hp ≤ g.boss.hp) ∧
    0 ≤ (update L inp g).boss.hp ∧
    (∀ s : Game, Reachable L s →
      BossField s ∧ 0 ≤ s.boss.hp ∧
      (s.boss.active = true →
        1 ≤ s.boss.hp ∧ s.boss.hp ≤ s.boss.maxHp ∧
        ∀ i : Input, (update L i s).boss.hp ≤ s.boss.hp)) ∧
    (∀ pbs : List Bullet,
      0 ≤ (collideBullets L pbs g).2.boss.hp ∧
      (collideBullets L pbs g).2.boss.hp ≤ g.boss.hp ∧
      ((collideBullets L pbs g).2.boss.active = true → 1 ≤ (collideBullets L pbs g).2.boss.hp)) ∧
    (∀ pb : Bullet, g.boss.active = true → pb.active = true →
      CheckCollisionRecs pb.rect g.boss.hitbox = true →
      (collideBullet L pb g).1.active = false ∧
      (collideBullet L pb g).2.boss.hp = g.boss.hp - 1 ∧
      ((collideBullet L pb g).2.boss.active = true ↔ 2 ≤ g.boss.hp)) ∧
    (∀ (s : Game) (pbs : List Bullet), s.boss.active = false →
      (collideBullets L pbs s).2.boss.hp = s.boss.hp ∧
      (collideBullets L pbs s).2.boss.active = false) := by
  obtain ⟨u1, u2⟩ := bossField_update L inp g h
  refine ⟨fun ha => ⟨h.inv.live ha, h.inv.hpHi⟩, ⟨h.inv.hpLo, h.inv.hpHi⟩, u1, u2, u1.inv.hpLo,
    ?_, ?_, ?_, ?_⟩
  · intro s hs
    have hb := reachable_bossField L s hs
    exact ⟨hb, hb.inv.hpLo, fun ha =>
      ⟨hb.inv.live ha, hb.inv.hpHi, fun i => (bossField_update L i s hb).2 ha⟩⟩
  · intro pbs
    have hstep := bossStep_collideBullets L pbs g
    have hi := hstep.inv h.inv
    exact ⟨hi.hpLo, hstep.hp, hi.live⟩
  · intro pb ha hp hc
    exact collideBullet_boss_damage L pb g ha hp hc
  · intro s pbs hs
    have e := collideBullets_boss_off L pbs s hs
    exact ⟨congrArg Stat.bossHp e, (congrArg Stat.bossActive e).trans hs⟩

set_option maxRecDepth 1000000 in
theorem boss_health_well_behaved_witness :
    (tripleHit.boss.active = true ∧ tripleHit.boss.hp = 1 ∧ tripleHit.boss.maxHp = 12) ∧
    (0 ≤ (update refLibm { dt := 1 / 60 } tripleHit).boss.hp ∧
      (update refLibm { dt := 1 / 60 } tripleHit).boss.hp ≤ 1) ∧
    (collideBullets refLibm tripleHit.pBullets tripleHit).2.boss.hp = 0 ∧
    (collideBullets refLibm tripleHit.pBullets tripleHit).2.boss.active = false ∧
    (collideBullets refLibm tripleHit.pBullets tripleHit).1.map (fun b => b.active) =
      [false, true, true] ∧
    (tripleHit.pBullets.map
      (fun b => b.active && CheckCollisionRecs b.rect tripleHit.boss.hitbox)) =
      [true, true, true] :=
  have hf : BossField tripleHit :=
    ⟨⟨by decide!, by decide!, fun _ => by decide!⟩, fun hc => absurd hc (by decide!), by decide!⟩
  have h := boss_health_well_behaved refLibm { dt := 1 / 60 } tripleHit hf
  ⟨⟨by decide!, by decide!, by decide!⟩,
    ⟨h.2.2.2.2.1, le_of_le_of_eq (h.2.2.2.1 (by decide!)) (by decide!)⟩,
    by decide!, by decide!, by decide!, by decide!⟩

/-! ## Dive-group selection -/

theorem startDive_eq (L : Libm) (g : Game) :
    startDive L g =
      if (diveCandidates g.enemies).isEmpty then g
      else (diveGroup L g).1.foldl (fun g i => launchAt i g) (diveGroup L g).2 := by
  unfold startDive diveGroup
  rfl

theorem launchDive_launched (g : Game) (e : Enemy) : Launched e (launchDive g e).1 := by
  unfold launchDive Launched
  simp only
  split_ifs <;> exact ⟨rfl, rfl, rfl, rfl, rfl⟩

theorem launched_trans {a b c : Enemy} (h1 : Launched a b) (h2 : Launched b c) : Launched a c :=
  ⟨h2.1, h2.2.1.trans h1.2.1, h2.2.2.1.trans h1.2.2.1, h2.2.2.2.1.trans h1.2.2.2.1,
    h2.2.2.2.2.trans h1.2.2.2.2⟩

/-- The call `launchAt i` replaces the enemy at position `i` by its launched
self and leaves the other positions alone. -/
theorem launchAt_get (i : Nat) (g : Game) :
    (launchAt i g).enemies.length = g.enemies.length ∧
    (∀ j, j ≠ i → (launchAt i g).enemies.get? j = g.enemies.get? j) ∧
    (∀ e, g.enemies.get? i = some e →
      (launchAt i g).enemies.get? i = some (launchDive g e).1) := by
  unfold launchAt
  cases he : g.enemies.get? i with
  | none => exact ⟨rfl, fun _ _ => rfl, fun e h => Option.noConfusion h⟩
  | some e =>
    simp only [launchDive_enemies]
    have hl : i < g.enemies.length := by
      rcases Nat.lt_or_ge i g.enemies.length with hl | hl
      · exact hl
      · rw [List.get?_eq_none.mpr hl] at he
        exact Option.noConfusion he
    refine ⟨List.length_set _ _ _, fun j hj => ?_, fun e1 he1 => ?_⟩
    · rw [List.get?_eq_getElem?, List.get?_eq_getElem?, List.getElem?_set_ne (Ne.symm hj)]
    · have : e = e1 := Option.some.inj he1
      subst this
      rw [List.get?_eq_getElem?, List.getElem?_set_self hl]

/-- The launch loop over `group`: positions outside the group keep their
enemy, positions in the group hold the launched enemy. -/
theorem foldl_launchAt_get (group : List Nat) (g : Game) :
    (group.foldl (fun g i => launchAt i g) g).enemies.length = g.enemies.length ∧
    ∀ j, (j ∉ group →
        (group.foldl (fun g i => launchAt i g) g).enemies.get? j = g.enemies.get? j) ∧
      (j ∈ group → ∀ e, g.enemies.get? j = some e →
        ∃ e', (group.foldl (fun g i => launchAt i g) g).enemies.get? j = some e' ∧
          Launched e e') := by
  induction group generalizing g with
  | nil =>
    refine ⟨rfl, fun j => ⟨fun _ => rfl, fun h => ?_⟩⟩
    exact absurd h (List.not_mem_nil j)
  | cons i is ih =>
    simp only [List.foldl_cons]
    obtain ⟨a1, a2, a3⟩ := launchAt_get i g
    obtain ⟨b1, b2⟩ := ih (launchAt i g)
    refine ⟨b1.trans a1, fun j => ⟨fun hj => ?_, fun hj e he => ?_⟩⟩
    · have hji : j ≠ i := fun h => hj (h ▸ List.mem_cons_self _ _)
      have hjs : j ∉ is := fun h => hj (List.mem_cons_of_mem _ h)
      exact ((b2 j).1 hjs).trans (a2 j hji)
    · by_cases hji : j = i
      · subst hji
        have h1 := a3 e he
        by_cases hjs : j ∈ is
        · obtain ⟨e', h2, h3⟩ := (b2 j).2 hjs _ h1
          exact ⟨e', h2, launched_trans (launchDive_launched g e) h3⟩
        · exact ⟨_, ((b2 j).1 hjs).trans h1, launchDive_launched g e⟩
      · have hjs : j ∈ is := by
          rcases List.mem_cons.mp hj with h | h
          · exact absurd h hji
          · exact h
        have h1 : (launchAt i g).enemies.get? j = some e := (a2 j hji).trans he
        exact (b2 j).2 hjs e h1

theorem enemyAt_congr (g g' : Game) (h : g'.enemies = g.enemies) (i : Nat) :
    enemyAt g' i = enemyAt g i := by
  unfold enemyAt
  rw [h]

/-- The escort loop appends to the group only escorts of the candidates within
two columns of the flagship, and never grows the group beyond three. -/
theorem addEscorts_spec (g : Game) (f : Nat) (cands group : List Nat) :
    ∃ extra, addEscorts g f cands group = group ++ extra ∧
      (∀ i ∈ extra, i ∈ cands ∧ (enemyAt g i).type = EnemyType.ESCORT ∧
        |(enemyAt g i).col - (enemyAt g f).col| ≤ 2) ∧
      (group.length ≤ 3 → (group ++ extra).length ≤ 3) := by
  induction cands generalizing group with
  | nil => exact ⟨[], by simp [addEscorts], fun _ h => absurd h (List.not_mem_nil _), by simp⟩
  | cons c cs ih =>
    unfold addEscorts
    split_ifs with hc
    · obtain ⟨extra, e1, e2, e3⟩ := ih (group ++ [c])
      refine ⟨c :: extra, ?_, ?_, ?_⟩
      · rw [e1]
        simp
      · intro i hi
        rcases List.mem_cons.mp hi with h | h
        · subst h
          exact ⟨List.mem_cons_self _ _, hc.1, hc.2.1⟩
        · obtain ⟨x1, x2⟩ := e2 i h
          exact ⟨List.mem_cons_of_mem _ x1, x2⟩
      · intro _
        have h3 : (group ++ [c]).length ≤ 3 := by
          rw [List.length_append]
          simp only [List.length_singleton]
          omega
        have := e3 h3
        simpa using this
    · obtain ⟨extra, e1, e2, e3⟩ := ih group
      refine ⟨extra, e1, ?_, e3⟩
      intro i hi
      obtain ⟨x1, x2⟩ := e2 i hi
      exact ⟨List.mem_cons_of_mem _ x1, x2⟩

theorem shuffle_length (L : Libm) (seed : Int) (xs : List Nat) :
    (shuffle L seed xs).length = xs.length := by
  unfold shuffle
  cases xs with
  | nil => rfl
  | cons a as => exact (shuffleLoop_mem _ _ _ (by simp)).1

/-- The random branch keeps one or two candidates. -/
theorem randomGroup_length (L : Libm) (cands : List Nat) (g : Game) :
    (randomGroup L cands g).1.length ≤ 2 ∧
    (cands ≠ [] → (randomGroup L cands g).1 ≠ []) := by
  unfold randomGroup
  simp only
  obtain ⟨r1, r2⟩ := GetRandomValue_range 1 2 (GetRandomValue 0 99999 g).2 (by decide)
  generalize (GetRandomValue 1 2 (GetRandomValue 0 99999 g).2).1 = cnt at r1 r2
  constructor
  · rw [List.length_take]
    have : cnt.toNat ≤ 2 := by omega
    exact le_trans (min_le_left _ _) this
  · intro hc
    have hl : 0 < cands.length := List.length_pos.mpr hc
    intro he
    have h0 := congrArg List.length he
    rw [List.length_take, shuffle_length] at h0
    simp only [List.length_nil] at h0
    have : 1 ≤ cnt.toNat := by omega
    have h2 : 1 ≤ min cnt.toNat cands.length := le_min this hl
    omega

theorem diveGroup_none (L : Libm) (g : Game)
    (hf : (diveCandidates g.enemies).find?
      (fun i => decide ((enemyAt g i).type = EnemyType.FLAGSHIP)) = none) :
    diveGroup L g = randomGroup L (diveCandidates g.enemies) g ∧ flagshipBranch g = false := by
  unfold diveGroup flagshipBranch
  simp only [hf, and_self]

theorem diveGroup_some (L : Libm) (g : Game) (f : Nat)
    (hf : (diveCandidates g.enemies).find?
      (fun i => decide ((enemyAt g i).type = EnemyType.FLAGSHIP)) = some f) :
    diveGroup L g =
      (if (GetRandomValue 0 1 g).1 = 0 then
        (addEscorts (GetRandomValue 0 1 g).2 f (diveCandidates g.enemies) [f],
          (GetRandomValue 0 1 g).2)
      else randomGroup L (diveCandidates g.enemies) (GetRandomValue 0 1 g).2) ∧
    flagshipBranch g = decide ((GetRandomValue 0 1 g).1 = 0) := by
  unfold diveGroup flagshipBranch
  simp only [hf, and_self]

/-- The group `startDive` selects: candidates only, at least one when there is
a candidate; in the flagship branch the flagship followed by at most two
escorts of the candidates within two columns of it, otherwise at most two. -/
theorem diveGroup_spec (L : Libm) (g : Game) :
    (diveGroup L g).2.enemies = g.enemies ∧
    (∀ i ∈ (diveGroup L g).1, i ∈ diveCandidates g.enemies) ∧
    (diveCandidates g.enemies ≠ [] → (diveGroup L g).1 ≠ []) ∧
    (flagshipBranch g = true →
      ∃ f extra,
        (diveCandidates g.enemies).find?
          (fun i => decide ((enemyAt g i).type = EnemyType.FLAGSHIP)) = some f ∧
        (diveGroup L g).1 = f :: extra ∧ extra.length ≤ 2 ∧
        ∀ i ∈ extra, i ∈ diveCandidates g.enemies ∧ (enemyAt g i).type = EnemyType.ESCORT ∧
          |(enemyAt g i).col - (enemyAt g f).col| ≤ 2) ∧
    (flagshipBranch g = false → (diveGroup L g).1.length ≤ 2) := by
  cases hf : List.find? (fun i => decide ((enemyAt g i).type = EnemyType.FLAGSHIP))
      (diveCandidates g.enemies) with
  | none =>
    obtain ⟨d1, d2⟩ := diveGroup_none L g hf
    rw [d1, d2]
    obtain ⟨m1, m2⟩ := randomGroup_mem L (diveCandidates g.enemies) g
    obtain ⟨l1, l2⟩ := randomGroup_length L (diveCandidates g.enemies) g
    exact ⟨m2, m1, l2, fun h => Bool.noConfusion h, fun _ => l1⟩
  | some f =>
    obtain ⟨d1, d2⟩ := diveGroup_some L g f hf
    rw [d1, d2]
    have hfc : f ∈ diveCandidates g.enemies := List.mem_of_find?_eq_some hf
    by_cases hr : (GetRandomValue 0 1 g).1 = 0
    · rw [if_pos hr]
      simp only [GetRandomValue_enemies, hr, decide_True, true_implies, Bool.true_eq_false,
        false_implies, and_true, true_and]
      obtain ⟨extra, e1, e2, e3⟩ :=
        addEscorts_spec (GetRandomValue 0 1 g).2 f (diveCandidates g.enemies) [f]
      have hcg : ∀ i, enemyAt (GetRandomValue 0 1 g).2 i = enemyAt g i :=
        enemyAt_congr g _ (GetRandomValue_enemies 0 1 g)
      have hlen : extra.length ≤ 2 := by
        have := e3 (by simp)
        simp only [List.singleton_append, List.length_cons] at this
        omega
      refine ⟨?_, ?_, ?_⟩
      · intro i hi
        rw [e1] at hi
        rcases List.mem_append.mp hi with h | h
        · have : i = f := by simpa using h
          rw [this]
          exact hfc
        · exact (e2 i h).1
      · intro _
        rw [e1]
        simp
      · refine ⟨f, extra, rfl, by rw [e1]; rfl, hlen, fun i hi => ?_⟩
        obtain ⟨x1, x2, x3⟩ := e2 i hi
        rw [hcg, hcg] at x3
        rw [hcg] at x2
        exact ⟨x1, x2, x3⟩
    · rw [if_neg hr]
      simp only [hr, decide_False, Bool.false_eq_true, false_implies, true_implies, true_and]
      obtain ⟨m1, m2⟩ := randomGroup_mem L (diveCandidates g.enemies) (GetRandomValue 0 1 g).2
      obtain ⟨l1, l2⟩ := randomGroup_length L (diveCandidates g.enemies) (GetRandomValue 0 1 g).2
      exact ⟨by rw [m2, GetRandomValue_enemies], m1, l2, l1⟩

theorem diveCandidates_get (es : List Enemy) (j : Nat) (h : j ∈ diveCandidates es) :
    ∃ e, es.get? j = some e ∧ e.alive = true ∧ e.state = EnemyState.IN_FORMATION := by
  obtain ⟨h1, h2⟩ := diveCandidates_alive es j h
  have hl : j < es.length := by
    unfold diveCandidates at h
    exact List.mem_range.mp (List.mem_filter.mp h).1
  have he : es.get? j = some (es.get ⟨j, hl⟩) := List.get?_eq_get hl
  exact ⟨_, he, h1 _ he, h2 _ he⟩

theorem enemyAt_of_get (g : Game) (j : Nat) (e : Enemy) (h : g.enemies.get? j = some e) :
    enemyAt g j = e := by
  unfold enemyAt
  rw [List.getD_eq_getElem?_getD, ← List.get?_eq_getElem?, h]
  rfl

theorem mem_changedAt (es es' : List Enemy) (j : Nat) :
    j ∈ changedAt es es' ↔ j < es.length ∧ es.get? j ≠ es'.get? j := by
  unfold changedAt
  rw [List.mem_filter, List.mem_range, decide_eq_true_eq]

theorem changedAt_nodup (es es' : List Enemy) : (changedAt es es').Nodup :=
  List.Nodup.filter _ (List.nodup_range _)

/-- With a candidate, the positions `startDive` changes are exactly those of
the selected group. -/
theorem startDive_changed (L : Libm) (g : Game) (hc : diveCandidates g.enemies ≠ []) :
    startDive L g = (diveGroup L g).1.foldl (fun g i => launchAt i g) (diveGroup L g).2 ∧
    ∀ j, j ∈ changedAt g.enemies (startDive L g).enemies ↔ j ∈ (diveGroup L g).1 := by
  have he : (diveCandidates g.enemies).isEmpty = false := by
    cases h : diveCandidates g.enemies with
    | nil => exact absurd h hc
    | cons a as => rfl
  have hs : startDive L g =
      (diveGroup L g).1.foldl (fun g i => launchAt i g) (diveGroup L g).2 := by
    rw [startDive_eq, he]
    rfl
  refine ⟨hs, fun j => ?_⟩
  obtain ⟨d1, d2, -, -, -⟩ := diveGroup_spec L g
  obtain ⟨f1, f2⟩ := foldl_launchAt_get (diveGroup L g).1 (diveGroup L g).2
  rw [mem_changedAt, hs]
  constructor
  · rintro ⟨-, hne⟩
    by_contra hj
    apply hne
    rw [(f2 j).1 hj, d1]
  · intro hj
    obtain ⟨e, h1, -, h3⟩ := diveCandidates_get g.enemies j (d2 j hj)
    have hl : j < g.enemies.length := by
      rcases Nat.lt_or_ge j g.enemies.length with hl | hl
      · exact hl
      · rw [List.get?_eq_none.mpr hl] at h1
        exact Option.noConfusion h1
    obtain ⟨e', h4, h5⟩ := (f2 j).2 hj e (by rw [d1]; exact h1)
    refine ⟨hl, ?_⟩
    rw [h1, h4]
    intro heq
    have : e = e' := Option.some.inj heq
    have hd := h5.1
    rw [← this, h3] at hd
    exact absurd hd (by decide)

theorem startDive_no_candidate (L : Libm) (g : Game) (h : diveCandidates g.enemies = []) :
    startDive L g = g := by
  rw [startDive_eq, h]
  rfl

/-- C28. Dive-group selection drafts only in-formation survivors.  `startDive`
keeps the length of the roster; every enemy is either left as it was or was
alive and IN_FORMATION (a candidate) and is now the same enemy DIVING.  The
positions it changes (`changedAt`) are candidates; there is at least one when
there is a candidate, never more than there are candidates; in the flagship
branch (a flagship candidate exists and `GetRandomValue(0,1)` gives 0) they
are at most 3, the flagship among them, every other one an escort whose column
differs from the flagship's by at most 2; otherwise they are at most 2.  With
no candidate `startDive` changes nothing. -/
theorem dive_group_selection (L : Libm) (g : Game) :
    (startDive L g).enemies.length = g.enemies.length ∧
    (∀ j e, g.enemies.get? j = some e →
      (startDive L g).enemies.get? j = some e ∨
      (e.alive = true ∧ e.state = EnemyState.IN_FORMATION ∧ j ∈ diveCandidates g.enemies ∧
        ∃ e', (startDive L g).enemies.get? j = some e' ∧ Launched e e')) ∧
    (∀ j ∈ changedAt g.enemies (startDive L g).enemies,
      j ∈ diveCandidates g.enemies ∧ (enemyAt g j).alive = true ∧
      (enemyAt g j).state = EnemyState.IN_FORMATION ∧
      (enemyAt (startDive L g) j).state = EnemyState.DIVING) ∧
    (diveCandidates g.enemies ≠ [] →
      1 ≤ (changedAt g.enemies (startDive L g).enemies).length) ∧
    (changedAt g.enemies (startDive L g).enemies).length ≤ (diveCandidates g.enemies).length ∧
    (flagshipBranch g = true →
      (changedAt g.enemies (startDive L g).enemies).length ≤ 3 ∧
      ∃ f, (diveCandidates g.enemies).find?
          (fun i => decide ((enemyAt g i).type = EnemyType.FLAGSHIP)) = some f ∧
        f ∈ changedAt g.enemies (startDive L g).enemies ∧
        ∀ j ∈ changedAt g.enemies (startDive L g).enemies, j ≠ f →
          (enemyAt g j).type = EnemyType.ESCORT ∧
          |(enemyAt g j).col - (enemyAt g f).col| ≤ 2) ∧
    (flagshipBranch g = false →
      (changedAt g.enemies (startDive L g).enemies).length ≤ 2) ∧
    (diveCandidates g.enemies = [] → startDive L g = g) := by
  by_cases hc : diveCandidates g.enemies = []
  · have hs := startDive_no_candidate L g hc
    have hch : changedAt g.enemies (startDive L g).enemies = [] := by
      rw [hs]
      unfold changedAt
      rw [List.filter_eq_nil_iff]
      intro j _
      simp
    have hfb : flagshipBranch g = false := by
      unfold flagshipBranch
      rw [hc]
      rfl
    rw [hch, hfb]
    refine ⟨by rw [hs], fun j e he => Or.inl (by rw [hs]; exact he),
      fun j hj => absurd hj (List.not_mem_nil j), fun h => absurd hc h, Nat.zero_le _,
      fun h => Bool.noConfusion h, fun _ => Nat.zero_le _, fun _ => hs⟩
  · obtain ⟨hs, hmem⟩ := startDive_changed L g hc
    obtain ⟨d1, d2, d3, d4, d5⟩ := diveGroup_spec L g
    obtain ⟨f1, f2⟩ := foldl_launchAt_get (diveGroup L g).1 (diveGroup L g).2
    rw [← hs] at f1 f2
    have hcand : ∀ j ∈ changedAt g.enemies (startDive L g).enemies,
        j ∈ diveCandidates g.enemies := fun j hj => d2 j ((hmem j).mp hj)
    have hsub : changedAt g.enemies (startDive L g).enemies ⊆ (diveGroup L g).1 :=
      fun j hj => (hmem j).mp hj
    have hlen : (changedAt g.enemies (startDive L g).enemies).length ≤
        (diveGroup L g).1.length :=
      (List.subperm_of_subset (changedAt_nodup _ _) hsub).length_le
    have hcl : (changedAt g.enemies (startDive L g).enemies).length ≤
        (diveCandidates g.enemies).length :=
      (List.subperm_of_subset (changedAt_nodup _ _) hcand).length_le
    refine ⟨f1.trans (congrArg List.length d1), ?_, ?_, ?_, hcl, ?_, ?_, fun h => absurd h hc⟩
    · intro j e he
      by_cases hj : j ∈ (diveGroup L g).1
      · right
        obtain ⟨e0, h1, h2, h3⟩ := diveCandidates_get g.enemies j (d2 j hj)
        have : e0 = e := Option.some.inj (h1.symm.trans he)
        subst this
        exact ⟨h2, h3, d2 j hj, (f2 j).2 hj e0 (by rw [d1]; exact h1)⟩
      · left
        rw [(f2 j).1 hj, d1]
        exact he
    · intro j hj
      have hg := (hmem j).mp hj
      obtain ⟨e, h1, h2, h3⟩ := diveCandidates_get g.enemies j (d2 j hg)
      obtain ⟨e', h4, h5⟩ := (f2 j).2 hg e (by rw [d1]; exact h1)
      rw [enemyAt_of_get g j e h1, enemyAt_of_get _ j e' h4]
      exact ⟨d2 j hg, h2, h3, h5.1⟩
    · intro _
      obtain ⟨i, hi⟩ := List.exists_mem_of_ne_nil _ (d3 hc)
      exact List.length_pos_of_mem ((hmem i).mpr hi)
    · intro hb
      obtain ⟨f, extra, x1, x2, x3, x4⟩ := d4 hb
      refine ⟨?_, f, x1, ?_, ?_⟩
      · refine le_trans hlen ?_
        rw [x2, List.length_cons]
        omega
      · refine (hmem f).mpr ?_
        rw [x2]
        exact List.mem_cons_self _ _
      · intro j hj hne
        have hg := (hmem j).mp hj
        rw [x2] at hg
        rcases List.mem_cons.mp hg with h | h
        · exact absurd h hne
        · exact (x4 j h).2
    · intro hb
      exact le_trans hlen (d5 hb)

set_option maxRecDepth 1000000 in
theorem dive_group_selection_witness :
    diveCandidates flagshipWing.enemies = [0, 1, 3, 4, 5] ∧
    flagshipBranch flagshipWing = true ∧
    changedAt flagshipWing.enemies (startDive refLibm flagshipWing).enemies = [1, 3, 4] ∧
    (changedAt flagshipWing.enemies (startDive refLibm flagshipWing).enemies).length ≤ 3 ∧
    flagshipBranch { flagshipWing with rng := [1, 0, 1] } = false ∧
    changedAt flagshipWing.enemies
      (startDive refLibm { flagshipWing with rng := [1, 0, 1] }).enemies = [0, 4] :=
  ⟨by decide!, by decide!, by decide!,
    ((dive_group_selection refLibm flagshipWing).2.2.2.2.2.1 (by decide!)).1,
    by decide!, by decide!⟩

/-! ## The course of a dive -/

/-- The first component of `launchDive` in terms of the aim error `a` it
draws: everything but the shooting fields. -/
theorem launchDive_target (g : Game) (e : Enemy) :
    ∃ a : Int, -aimSpread e.type ≤ a ∧ a ≤ aimSpread e.type ∧
      (launchDive g e).1.diveTargetX = clamp (g.player.x + (a : ℚ)) 24 ((SW : ℚ) - 24) ∧
      (launchDive g e).1.p0 = { x := e.x, y := e.y } ∧
      (launchDive g e).1.p3 =
        { x := clamp (g.player.x + (a : ℚ)) 24 ((SW : ℚ) - 24), y := (SH : ℚ) + 60 } ∧
      (launchDive g e).1.state = EnemyState.DIVING ∧ (launchDive g e).1.t = 0 ∧
      (launchDive g e).1.x = e.x ∧ (launchDive g e).1.y = e.y := by
  cases ht : e.type
  · obtain ⟨r1, r2⟩ := GetRandomValue_range (-36) 36 g (by decide)
    refine ⟨(GetRandomValue (-36) 36 g).1, r1, r2, ?_⟩
    simp only [launchDive, ht, GetRandomValue_player, if_true, and_self]
  · obtain ⟨r1, r2⟩ := GetRandomValue_range (-52) 52 g (by decide)
    refine ⟨(GetRandomValue (-52) 52 g).1, r1, r2, ?_⟩
    simp only [launchDive, ht, GetRandomValue_player, if_true, reduceCtorEq, if_false, and_self]
  · obtain ⟨r1, r2⟩ := GetRandomValue_range (-70) 70 g (by decide)
    refine ⟨(GetRandomValue (-70) 70 g).1, r1, r2, ?_⟩
    simp only [launchDive, ht, GetRandomValue_player, if_true, reduceCtorEq, if_false, and_self]
  · obtain ⟨r1, r2⟩ := GetRandomValue_range (-70) 70 g (by decide)
    refine ⟨(GetRandomValue (-70) 70 g).1, r1, r2, ?_⟩
    simp only [launchDive, ht, GetRandomValue_player, if_true, reduceCtorEq, if_false, and_self]
  · obtain ⟨r1, r2⟩ := GetRandomValue_range (-70) 70 g (by decide)
    refine ⟨(GetRandomValue (-70) 70 g).1, r1, r2, ?_⟩
    simp only [launchDive, ht, GetRandomValue_player, if_true, reduceCtorEq, if_false, and_self]

/-- The call `updateDiving` never touches the control points, the target or
the speed of the dive, nor the slot, the type and the life of the enemy. -/
theorem updateDiving_curve (L : Libm) (g : Game) (e : Enemy) (dt : ℚ) :
    (updateDiving L g e dt).1.p0 = e.p0 ∧ (updateDiving L g e dt).1.p1 = e.p1 ∧
    (updateDiving L g e dt).1.p2 = e.p2 ∧ (updateDiving L g e dt).1.p3 = e.p3 ∧
    (updateDiving L g e dt).1.diveTargetX = e.diveTargetX ∧
    (updateDiving L g e dt).1.diveSpeed = e.diveSpeed ∧
    (updateDiving L g e dt).1.shootInterval = e.shootInterval := by
  unfold updateDiving returnToFormation
  simp only
  split_ifs <;> exact ⟨rfl, rfl, rfl, rfl, rfl, rfl, rfl⟩

/-- The dive part of the enemy after `updateDiving` is a function of the dive
part before it and of `dt`: the session (the player's position, the formation)
has no influence on it. -/
theorem updateDiving_path (L : Libm) (g g' : Game) (e e' : Enemy) (dt : ℚ)
    (h : divePath e = divePath e') :
    divePath (updateDiving L g e dt).1 = divePath (updateDiving L g' e' dt).1 := by
  have h1 : e.state = e'.state := congrArg DivePath.state h
  have h2 : e.t = e'.t := congrArg DivePath.t h
  have h3 : e.x = e'.x := congrArg DivePath.x h
  have h4 : e.y = e'.y := congrArg DivePath.y h
  have h5 : e.p0 = e'.p0 := congrArg DivePath.p0 h
  have h6 : e.p1 = e'.p1 := congrArg DivePath.p1 h
  have h7 : e.p2 = e'.p2 := congrArg DivePath.p2 h
  have h8 : e.p3 = e'.p3 := congrArg DivePath.p3 h
  have h9 : e.diveTargetX = e'.diveTargetX := congrArg DivePath.diveTargetX h
  have h10 : e.diveSpeed = e'.diveSpeed := congrArg DivePath.diveSpeed h
  have h11 : e.shootTimer = e'.shootTimer := congrArg DivePath.shootTimer h
  have h12 : e.shootInterval = e'.shootInterval := congrArg DivePath.shootInterval h
  have h13 : e.bulletsLeft = e'.bulletsLeft := congrArg DivePath.bulletsLeft h
  unfold updateDiving returnToFormation
  simp only [h2, h5, h6, h7, h8, h10, h11, h13]
  split_ifs <;> simp only [divePath, h1, h5, h6, h7, h8, h9, h10, h11, h12, h13]

/-- A step of a dive that is still a dive afterwards: the curve parameter has
advanced by `diveSpeed / 600 * dt`, is below 1, and the enemy is at that point
of its curve. -/
theorem updateDiving_diving (L : Libm) (g : Game) (d : Enemy) (dt : ℚ)
    (h : (updateDiving L g d dt).1.state = EnemyState.DIVING) :
    (updateDiving L g d dt).1.t = d.t + d.diveSpeed / 600 * dt ∧
    (updateDiving L g d dt).1.t < 1 ∧
    (updateDiving L g d dt).1.x = (bezier d.p0 d.p1 d.p2 d.p3 (d.t + d.diveSpeed / 600 * dt)).x ∧
    (updateDiving L g d dt).1.y = (bezier d.p0 d.p1 d.p2 d.p3 (d.t + d.diveSpeed / 600 * dt)).y := by
  unfold updateDiving returnToFormation at h ⊢
  simp only at h ⊢
  split_ifs at h ⊢ with c1 c2 c3
  · exact ⟨rfl, lt_of_not_le c1, rfl, rfl⟩
  · exact ⟨rfl, lt_of_not_le c1, rfl, rfl⟩
  · exact ⟨rfl, lt_of_not_le c1, rfl, rfl⟩

theorem diveRun_idle (L : Libm) (fs : List (Game × ℚ)) (e : Enemy)
    (h : e.state ≠ EnemyState.DIVING) : diveRun L fs e = e := by
  induction fs with
  | nil => rfl
  | cons f fs ih =>
    obtain ⟨g, dt⟩ := f
    simp only [diveRun, h, if_false]
    exact ih

/-- Two runs over the same frame times give the same dive, whatever the
sessions (the player's positions) of the frames are. -/
theorem diveRun_path (L : Libm) (fs fs' : List (Game × ℚ)) (e e' : Enemy)
    (hd : fs.map Prod.snd = fs'.map Prod.snd) (h : divePath e = divePath e') :
    divePath (diveRun L fs e) = divePath (diveRun L fs' e') := by
  induction fs generalizing fs' e e' with
  | nil =>
    cases fs' with
    | nil => exact h
    | cons f fs' => exact absurd hd (by simp)
  | cons f fs ih =>
    cases fs' with
    | nil => exact absurd hd (by simp)
    | cons f' fs' =>
      obtain ⟨g, dt⟩ := f
      obtain ⟨g', dt'⟩ := f'
      simp only [List.map_cons, List.cons.injEq] at hd
      obtain ⟨hdt, hd⟩ := hd
      subst hdt
      simp only [diveRun]
      apply ih fs' _ _ hd
      have h1 : e.state = e'.state := congrArg DivePath.state h
      rw [h1]
      split_ifs
      · exact updateDiving_path L g g' e e' dt h
      · exact h

/-- While the enemy is still DIVING at the end of a run, it is on the curve
fixed at the start of the run, at the parameter the frame times add up to. -/
theorem diveRun_on_curve (L : Libm) (fs : List (Game × ℚ)) (d : Enemy)
    (hs : d.state = EnemyState.DIVING)
    (h : (diveRun L fs d).state = EnemyState.DIVING) :
    (diveRun L fs d).t = d.t + d.diveSpeed / 600 * (fs.map Prod.snd).sum ∧
    (fs ≠ [] →
      (diveRun L fs d).x = (bezier d.p0 d.p1 d.p2 d.p3 (diveRun L fs d).t).x ∧
      (diveRun L fs d).y = (bezier d.p0 d.p1 d.p2 d.p3 (diveRun L fs d).t).y) := by
  induction fs generalizing d with
  | nil =>
    refine ⟨?_, fun h => absurd rfl h⟩
    simp [diveRun]
  | cons f fs ih =>
    obtain ⟨g, dt⟩ := f
    simp only [diveRun, hs, if_true] at h ⊢
    have h1 : (updateDiving L g d dt).1.state = EnemyState.DIVING := by
      by_contra hn
      rw [diveRun_idle L fs _ hn] at h
      exact hn h
    obtain ⟨s1, -, s3, s4⟩ := updateDiving_diving L g d dt h1
    obtain ⟨c0, c1, c2, c3, -, c5, -⟩ := updateDiving_curve L g d dt
    obtain ⟨i1, i2⟩ := ih _ h1 h
    rw [s1, c5] at i1
    rw [c0, c1, c2, c3] at i2
    refine ⟨?_, fun _ => ?_⟩
    · rw [i1, List.map_cons, List.sum_cons]
      ring
    · by_cases hf : fs = []
      · subst hf
        simp only [diveRun]
        rw [s1]
        exact ⟨s3, s4⟩
      · exact i2 hf

theorem diveRun_curve (L : Libm) (fs : List (Game × ℚ)) (d : Enemy) :
    (diveRun L fs d).p0 = d.p0 ∧ (diveRun L fs d).p1 = d.p1 ∧ (diveRun L fs d).p2 = d.p2 ∧
    (diveRun L fs d).p3 = d.p3 ∧ (diveRun L fs d).diveTargetX = d.diveTargetX ∧
    (diveRun L fs d).diveSpeed = d.diveSpeed ∧
    (diveRun L fs d).shootInterval = d.shootInterval := by
  induction fs generalizing d with
  | nil => exact ⟨rfl, rfl, rfl, rfl, rfl, rfl, rfl⟩
  | cons f fs ih =>
    obtain ⟨g, dt⟩ := f
    simp only [diveRun]
    obtain ⟨i0, i1, i2, i3, i4, i5, i6⟩ :=
      ih (if d.state = EnemyState.DIVING then (updateDiving L g d dt).1 else d)
    obtain ⟨c0, c1, c2, c3, c4, c5, c6⟩ := updateDiving_curve L g d dt
    rw [i0, i1, i2, i3, i4, i5, i6]
    split_ifs
    · exact ⟨c0, c1, c2, c3, c4, c5, c6⟩
    · exact ⟨rfl, rfl, rfl, rfl, rfl, rfl, rfl⟩

/-- C29. The dive target is fixed at launch (no homing).  `launchDive` draws an
integer aim error `a` with `|a| <= 36` for FLAGSHIP, 52 for ESCORT and 70
otherwise (`aimSpread`), sets `diveTargetX = clamp(player.x + a, 24, SW - 24)`,
`p0` to the enemy's position and `p3 = (diveTargetX, SH + 60)`, below the
bottom edge `SH`, and the state to DIVING with `t = 0`.  `updateDiving` never
modifies `p0`, `p1`, `p2`, `p3` or `diveTargetX`, and the dive part of the
enemy it returns does not depend on the session it runs in.  So over any run of
frames the dive is the same whatever the sessions of the frames (where the
player is), and while the enemy is DIVING it is on the curve of the launch
control points, at the parameter `diveSpeed / 600` times the elapsed time. -/
theorem dive_target_fixed_at_launch (L : Libm) (g : Game) (e : Enemy) :
    (∃ a : Int, |a| ≤ aimSpread e.type ∧
      (launchDive g e).1.diveTargetX = clamp (g.player.x + (a : ℚ)) 24 ((SW : ℚ) - 24)) ∧
    (24 ≤ (launchDive g e).1.diveTargetX ∧ (launchDive g e).1.diveTargetX ≤ (SW : ℚ) - 24) ∧
    (launchDive g e).1.p0 = { x := e.x, y := e.y } ∧
    (launchDive g e).1.p3 = { x := (launchDive g e).1.diveTargetX, y := (SH : ℚ) + 60 } ∧
    (SH : ℚ) < (launchDive g e).1.p3.y ∧
    ((launchDive g e).1.state = EnemyState.DIVING ∧ (launchDive g e).1.t = 0) ∧
    (∀ (s : Game) (d : Enemy) (dt : ℚ),
      (updateDiving L s d dt).1.p0 = d.p0 ∧ (updateDiving L s d dt).1.p1 = d.p1 ∧
      (updateDiving L s d dt).1.p2 = d.p2 ∧ (updateDiving L s d dt).1.p3 = d.p3 ∧
      (updateDiving L s d dt).1.diveTargetX = d.diveTargetX) ∧
    (∀ (s s' : Game) (d : Enemy) (dt : ℚ),
      divePath (updateDiving L s d dt).1 = divePath (updateDiving L s' d dt).1) ∧
    (∀ fs fs' : List (Game × ℚ), fs.map Prod.snd = fs'.map Prod.snd →
      divePath (diveRun L fs (launchDive g e).1) =
        divePath (diveRun L fs' (launchDive g e).1)) ∧
    (∀ fs : List (Game × ℚ),
      (diveRun L fs (launchDive g e).1).p0 = (launchDive g e).1.p0 ∧
      (diveRun L fs (launchDive g e).1).p1 = (launchDive g e).1.p1 ∧
      (diveRun L fs (launchDive g e).1).p2 = (launchDive g e).1.p2 ∧
      (diveRun L fs (launchDive g e).1).p3 = (launchDive g e).1.p3 ∧
      (diveRun L fs (launchDive g e).1).diveTargetX = (launchDive g e).1.diveTargetX ∧
      ((diveRun L fs (launchDive g e).1).state = EnemyState.DIVING →
        (diveRun L fs (launchDive g e).1).t =
          (launchDive g e).1.diveSpeed / 600 * (fs.map Prod.snd).sum ∧
        (fs ≠ [] →
          (diveRun L fs (launchDive g e).1).x =
            (bezier (launchDive g e).1.p0 (launchDive g e).1.p1 (launchDive g e).1.p2
              (launchDive g e).1.p3 (diveRun L fs (launchDive g e).1).t).x ∧
          (diveRun L fs (launchDive g e).1).y =
            (bezier (launchDive g e).1.p0 (launchDive g e).1.p1 (launchDive g e).1.p2
              (launchDive g e).1.p3 (diveRun L fs (launchDive g e).1).t).y))) := by
  obtain ⟨a, a1, a2, a3, a4, a5, a6, a7, -, -⟩ := launchDive_target g e
  have hsw : (24 : ℚ) ≤ (SW : ℚ) - 24 := by
    simp only [SW]
    norm_num
  have hb := clamp_bounds (g.player.x + (a : ℚ)) 24 ((SW : ℚ) - 24) hsw
  refine ⟨⟨a, abs_le.mpr ⟨a1, a2⟩, a3⟩, by rw [a3]; exact hb, a4, by rw [a5, a3], ?_, ⟨a6, a7⟩,
    ?_, ?_, ?_, ?_⟩
  · rw [a5]
    show (SH : ℚ) < (SH : ℚ) + 60
    linarith
  · intro s d dt
    obtain ⟨c0, c1, c2, c3, c4, -, -⟩ := updateDiving_curve L s d dt
    exact ⟨c0, c1, c2, c3, c4⟩
  · intro s s' d dt
    exact updateDiving_path L s s' d d dt rfl
  · intro fs fs' hd
    exact diveRun_path L fs fs' _ _ hd rfl
  · intro fs
    obtain ⟨c0, c1, c2, c3, c4, -, -⟩ := diveRun_curve L fs (launchDive g e).1
    refine ⟨c0, c1, c2, c3, c4, fun hs => ?_⟩
    obtain ⟨r1, r2⟩ := diveRun_on_curve L fs (launchDive g e).1 a6 hs
    rw [a7, zero_add] at r1
    exact ⟨r1, r2⟩

set_option maxRecDepth 1000000 in
theorem dive_target_fixed_at_launch_witness :
    (launchDive (playerAt 240) (slotOf EnemyType.ESCORT 3)).1.diveTargetX = 198 ∧
    (launchDive (playerAt 240) (slotOf EnemyType.ESCORT 3)).1.p3 = { x := 198, y := 780 } ∧
    divePath (diveRun refLibm [(playerAt 30, 1 / 2), (playerAt 60, 1 / 4)]
        (launchDive (playerAt 240) (slotOf EnemyType.ESCORT 3)).1) =
      divePath (diveRun refLibm [(playerAt 400, 1 / 2), (playerAt 450, 1 / 4)]
        (launchDive (playerAt 240) (slotOf EnemyType.ESCORT 3)).1) ∧
    (diveRun refLibm [(playerAt 30, 1 / 2), (playerAt 60, 1 / 4)]
        (launchDive (playerAt 240) (slotOf EnemyType.ESCORT 3)).1).state = EnemyState.DIVING ∧
    (diveRun refLibm [(playerAt 30, 1 / 2), (playerAt 60, 1 / 4)]
        (launchDive (playerAt 240) (slotOf EnemyType.ESCORT 3)).1).t = 3171 / 10000 :=
  have h := dive_target_fixed_at_launch refLibm (playerAt 240) (slotOf EnemyType.ESCORT 3)
  ⟨by decide!, h.2.2.2.1.trans (by decide!),
    h.2.2.2.2.2.2.2.2.1 [(playerAt 30, 1 / 2), (playerAt 60, 1 / 4)]
      [(playerAt 400, 1 / 2), (playerAt 450, 1 / 4)] (by decide!),
    by decide!,
    (((h.2.2.2.2.2.2.2.2.2 [(playerAt 30, 1 / 2), (playerAt 60, 1 / 4)]).2.2.2.2.2
      (by decide!)).1).trans (by decide!)⟩

/-! ## The bullet budget of a dive -/

/-- The shooting fields `launchDive` sets, by type. -/
theorem launchDive_budget (g : Game) (e : Enemy) :
    (e.type = EnemyType.FLAGSHIP →
      (launchDive g e).1.bulletsLeft = 3 ∧ (launchDive g e).1.shootInterval = 0.4) ∧
    (e.type = EnemyType.ESCORT →
      (launchDive g e).1.bulletsLeft = 2 ∧ (launchDive g e).1.shootInterval = 0.5) ∧
    (e.type ≠ EnemyType.FLAGSHIP → e.type ≠ EnemyType.ESCORT →
      ((launchDive g e).1.bulletsLeft = 1 ∨ (launchDive g e).1.bulletsLeft = 2) ∧
      (launchDive g e).1.shootInterval = 0.6) ∧
    (launchDive g e).1.shootTimer = (launchDive g e).1.shootInterval * 0.5 ∧
    (launchDive g e).1.type = e.type := by
  refine ⟨fun h => ?_, fun h => ?_, fun h1 h2 => ?_, ?_, ?_⟩
  · unfold launchDive
    simp only [h, if_true, and_self]
  · unfold launchDive
    simp only [h, reduceCtorEq, if_true, if_false, and_self]
  · unfold launchDive
    simp only [h1, h2, if_false, and_true]
    have key : ∀ s : Game, (GetRandomValue 1 2 s).1 = 1 ∨ (GetRandomValue 1 2 s).1 = 2 := by
      intro s
      obtain ⟨r1, r2⟩ := GetRandomValue_range 1 2 s (by decide)
      omega
    exact key _
  · unfold launchDive
    simp only
  · exact (launchDive_launched g e).2.2.2.2

/-- One `updateDiving` call either fires nothing and keeps `bulletsLeft`, or
appends exactly one bullet and takes one off a positive `bulletsLeft`. -/
theorem updateDiving_shot (L : Libm) (s : Game) (d : Enemy) (dt : ℚ) :
    ((updateDiving L s d dt).2.eBullets = s.eBullets ∧
      (updateDiving L s d dt).1.bulletsLeft = d.bulletsLeft) ∨
    (∃ b : Bullet, (updateDiving L s d dt).2.eBullets = s.eBullets ++ [b] ∧
      (updateDiving L s d dt).1.bulletsLeft = d.bulletsLeft - 1 ∧ 0 < d.bulletsLeft ∧
      b.enemy = true ∧ b.active = true) := by
  unfold updateDiving
  simp only
  split_ifs with c1 c2 c3
  · exact Or.inl ⟨rfl, rfl⟩
  · exact Or.inr ⟨_, rfl, rfl, c2, rfl, rfl⟩
  · exact Or.inl ⟨rfl, rfl⟩
  · exact Or.inl ⟨rfl, rfl⟩

/-- Over a run, the bullets fired and the bullets left add up to the bullets
left at its start, and `bulletsLeft` stays non-negative. -/
theorem diveRun_budget (L : Libm) (fs : List (Game × ℚ)) (d : Enemy) (h : 0 ≤ d.bulletsLeft) :
    0 ≤ (diveRun L fs d).bulletsLeft ∧
    (diveShots L fs d : Int) + (diveRun L fs d).bulletsLeft = d.bulletsLeft := by
  induction fs generalizing d with
  | nil =>
    refine ⟨h, ?_⟩
    simp [diveShots, diveRun]
  | cons f fs ih =>
    obtain ⟨g, dt⟩ := f
    by_cases hs : d.state = EnemyState.DIVING
    · simp only [diveRun, diveShots, hs, if_true]
      rcases updateDiving_shot L g d dt with ⟨u1, u2⟩ | ⟨b, u1, u2, u3, -, -⟩
      · obtain ⟨i1, i2⟩ := ih (updateDiving L g d dt).1 (by rw [u2]; exact h)
        refine ⟨i1, ?_⟩
        rw [u1, u2] at *
        simp only [Nat.sub_self, Nat.zero_add]
        exact i2
      · obtain ⟨i1, i2⟩ := ih (updateDiving L g d dt).1 (by rw [u2]; omega)
        refine ⟨i1, ?_⟩
        rw [u1, List.length_append, List.length_singleton, Nat.add_sub_cancel_left]
        rw [u2] at i2
        push_cast
        omega
    · simp only [diveRun, diveShots, hs, if_false]
      rw [diveRun_idle L fs d hs]
      exact ⟨h, by simp⟩

/-- C30. A diving enemy never exceeds its bullet budget.  `launchDive` sets
`(bulletsLeft, shootInterval)` to (3, 0.4) for FLAGSHIP, (2, 0.5) for ESCORT
and (1 or 2, 0.6) for the other types, so a budget in 1..3, and `shootTimer`
to half the interval.  Each `updateDiving` call either appends nothing to
`eBullets` and keeps `bulletsLeft`, or appends exactly one enemy bullet and
takes one off a positive `bulletsLeft`; a non-negative `bulletsLeft` stays
non-negative.  Over any run of frames after the launch, the bullets fired plus
`bulletsLeft` equal the budget set at launch, `bulletsLeft` is never negative,
and the bullets fired are at most the budget. -/
theorem dive_bullet_budget (L : Libm) (g : Game) (e : Enemy) :
    (e.type = EnemyType.FLAGSHIP →
      (launchDive g e).1.bulletsLeft = 3 ∧ (launchDive g e).1.shootInterval = 0.4) ∧
    (e.type = EnemyType.ESCORT →
      (launchDive g e).1.bulletsLeft = 2 ∧ (launchDive g e).1.shootInterval = 0.5) ∧
    (e.type ≠ EnemyType.FLAGSHIP → e.type ≠ EnemyType.ESCORT →
      ((launchDive g e).1.bulletsLeft = 1 ∨ (launchDive g e).1.bulletsLeft = 2) ∧
      (launchDive g e).1.shootInterval = 0.6) ∧
    (1 ≤ (launchDive g e).1.bulletsLeft ∧ (launchDive g e).1.bulletsLeft ≤ 3) ∧
    (∀ (s : Game) (d : Enemy) (dt : ℚ),
      ((updateDiving L s d dt).2.eBullets = s.eBullets ∧
        (updateDiving L s d dt).1.bulletsLeft = d.bulletsLeft) ∨
      (∃ b : Bullet, (updateDiving L s d dt).2.eBullets = s.eBullets ++ [b] ∧
        (updateDiving L s d dt).1.bulletsLeft = d.bulletsLeft - 1 ∧ 0 < d.bulletsLeft ∧
        b.enemy = true ∧ b.active = true)) ∧
    (∀ (s : Game) (d : Enemy) (dt : ℚ),
      (updateDiving L s d dt).2.eBullets.length ≤ s.eBullets.length + 1 ∧
      (0 ≤ d.bulletsLeft → 0 ≤ (updateDiving L s d dt).1.bulletsLeft)) ∧
    (∀ fs : List (Game × ℚ),
      0 ≤ (diveRun L fs (launchDive g e).1).bulletsLeft ∧
      (diveShots L fs (launchDive g e).1 : Int) + (diveRun L fs (launchDive g e).1).bulletsLeft =
        (launchDive g e).1.bulletsLeft ∧
      (diveShots L fs (launchDive g e).1 : Int) ≤ (launchDive g e).1.bulletsLeft) := by
  obtain ⟨b1, b2, b3, -, -⟩ := launchDive_budget g e
  have hb : 1 ≤ (launchDive g e).1.bulletsLeft ∧ (launchDive g e).1.bulletsLeft ≤ 3 := by
    by_cases h1 : e.type = EnemyType.FLAGSHIP
    · rw [(b1 h1).1]
      decide
    · by_cases h2 : e.type = EnemyType.ESCORT
      · rw [(b2 h2).1]
        decide
      · rcases (b3 h1 h2).1 with h | h
        · rw [h]
          decide
        · rw [h]
          decide
  refine ⟨b1, b2, b3, hb, fun s d dt => updateDiving_shot L s d dt, fun s d dt => ?_, fun fs => ?_⟩
  · rcases updateDiving_shot L s d dt with ⟨u1, u2⟩ | ⟨b, u1, u2, u3, -, -⟩
    · rw [u1, u2]
      exact ⟨Nat.le_succ _, id⟩
    · rw [u1, u2, List.length_append, List.length_singleton]
      exact ⟨le_refl _, fun _ => by omega⟩
  · obtain ⟨r1, r2⟩ := diveRun_budget L fs (launchDive g e).1 (by omega)
    exact ⟨r1, r2, by omega⟩

set_option maxRecDepth 1000000 in
theorem dive_bullet_budget_witness :
    (launchDive (playerAt 240) (slotOf EnemyType.ESCORT 3)).1.bulletsLeft = 2 ∧
    diveShots refLibm (List.replicate 4 (playerAt 240, 3 / 10))
      (launchDive (playerAt 240) (slotOf EnemyType.ESCORT 3)).1 = 2 ∧
    (diveRun refLibm (List.replicate 4 (playerAt 240, 3 / 10))
      (launchDive (playerAt 240) (slotOf EnemyType.ESCORT 3)).1).bulletsLeft = 0 ∧
    (diveRun refLibm (List.replicate 4 (playerAt 240, 3 / 10))
      (launchDive (playerAt 240) (slotOf EnemyType.ESCORT 3)).1).state = EnemyState.DIVING ∧
    diveShots refLibm (List.replicate 7 (playerAt 240, 3 / 10))
      (launchDive (playerAt 240) (slotOf EnemyType.ESCORT 3)).1 = 2 :=
  have h := dive_bullet_budget refLibm (playerAt 240) (slotOf EnemyType.ESCORT 3)
  have h2 : (launchDive (playerAt 240) (slotOf EnemyType.ESCORT 3)).1.bulletsLeft = 2 :=
    (h.2.1 rfl).1
  ⟨h2, by decide!, by decide!, by decide!, by decide!⟩

/-! ## Cubic curves -/

/-- A Bernstein combination of four values in `lo .. hi`, at a parameter in
`0 .. 1`, lies in `lo .. hi`. -/
theorem bernstein_hull (x0 x1 x2 x3 lo hi t : ℚ) (h0 : 0 ≤ t) (h1 : t ≤ 1)
    (l0 : lo ≤ x0) (l1 : lo ≤ x1) (l2 : lo ≤ x2) (l3 : lo ≤ x3)
    (u0 : x0 ≤ hi) (u1 : x1 ≤ hi) (u2 : x2 ≤ hi) (u3 : x3 ≤ hi) :
    lo ≤ (1 - t) * (1 - t) * (1 - t) * x0 + 3 * (1 - t) * (1 - t) * t * x1 +
        3 * (1 - t) * t * t * x2 + t * t * t * x3 ∧
    (1 - t) * (1 - t) * (1 - t) * x0 + 3 * (1 - t) * (1 - t) * t * x1 +
        3 * (1 - t) * t * t * x2 + t * t * t * x3 ≤ hi := by
  have hu : 0 ≤ 1 - t := by linarith
  have w0 : 0 ≤ (1 - t) * (1 - t) * (1 - t) := mul_nonneg (mul_nonneg hu hu) hu
  have w1 : 0 ≤ 3 * (1 - t) * (1 - t) * t :=
    mul_nonneg (mul_nonneg (mul_nonneg (by norm_num) hu) hu) h0
  have w2 : 0 ≤ 3 * (1 - t) * t * t :=
    mul_nonneg (mul_nonneg (mul_nonneg (by norm_num) hu) h0) h0
  have w3 : 0 ≤ t * t * t := mul_nonneg (mul_nonneg h0 h0) h0
  constructor
  · have e : (1 - t) * (1 - t) * (1 - t) * x0 + 3 * (1 - t) * (1 - t) * t * x1 +
        3 * (1 - t) * t * t * x2 + t * t * t * x3 - lo =
        (1 - t) * (1 - t) * (1 - t) * (x0 - lo) + 3 * (1 - t) * (1 - t) * t * (x1 - lo) +
        3 * (1 - t) * t * t * (x2 - lo) + t * t * t * (x3 - lo) := by ring
    have p0 := mul_nonneg w0 (sub_nonneg.mpr l0)
    have p1 := mul_nonneg w1 (sub_nonneg.mpr l1)
    have p2 := mul_nonneg w2 (sub_nonneg.mpr l2)
    have p3 := mul_nonneg w3 (sub_nonneg.mpr l3)
    linarith
  · have e : hi - ((1 - t) * (1 - t) * (1 - t) * x0 + 3 * (1 - t) * (1 - t) * t * x1 +
        3 * (1 - t) * t * t * x2 + t * t * t * x3) =
        (1 - t) * (1 - t) * (1 - t) * (hi - x0) + 3 * (1 - t) * (1 - t) * t * (hi - x1) +
        3 * (1 - t) * t * t * (hi - x2) + t * t * t * (hi - x3) := by ring
    have p0 := mul_nonneg w0 (sub_nonneg.mpr u0)
    have p1 := mul_nonneg w1 (sub_nonneg.mpr u1)
    have p2 := mul_nonneg w2 (sub_nonneg.mpr u2)
    have p3 := mul_nonneg w3 (sub_nonneg.mpr u3)
    linarith

theorem min4_le (a b c d : ℚ) :
    min a (min b (min c d)) ≤ a ∧ min a (min b (min c d)) ≤ b ∧
    min a (min b (min c d)) ≤ c ∧ min a (min b (min c d)) ≤ d :=
  ⟨min_le_left _ _, le_trans (min_le_right _ _) (min_le_left _ _),
    le_trans (min_le_right _ _) (le_trans (min_le_right _ _) (min_le_left _ _)),
    le_trans (min_le_right _ _) (le_trans (min_le_right _ _) (min_le_right _ _))⟩

theorem le_max4 (a b c d : ℚ) :
    a ≤ max a (max b (max c d)) ∧ b ≤ max a (max b (max c d)) ∧
    c ≤ max a (max b (max c d)) ∧ d ≤ max a (max b (max c d)) :=
  ⟨le_max_left _ _, le_trans (le_max_left _ _) (le_max_right _ _),
    le_trans (le_trans (le_max_left _ _) (le_max_right _ _)) (le_max_right _ _),
    le_trans (le_trans (le_max_right _ _) (le_max_right _ _)) (le_max_right _ _)⟩

/-- C39. Cubic-curve evaluation interpolates its end points and stays in the
control hull (exact arithmetic).  For all control points
`bezier(p0, p1, p2, p3, 0) = p0` and `bezier(p0, p1, p2, p3, 1) = p3`, and for
every `t` in `0 .. 1` each coordinate of `bezier(p0, p1, p2, p3, t)` lies
between the minimum and the maximum of that coordinate of the four control
points. -/
theorem bezier_interpolates_within_hull (p0 p1 p2 p3 : Vector2) (t : ℚ) :
    bezier p0 p1 p2 p3 0 = p0 ∧ bezier p0 p1 p2 p3 1 = p3 ∧
    (0 ≤ t → t ≤ 1 →
      (min p0.x (min p1.x (min p2.x p3.x)) ≤ (bezier p0 p1 p2 p3 t).x ∧
        (bezier p0 p1 p2 p3 t).x ≤ max p0.x (max p1.x (max p2.x p3.x))) ∧
      (min p0.y (min p1.y (min p2.y p3.y)) ≤ (bezier p0 p1 p2 p3 t).y ∧
        (bezier p0 p1 p2 p3 t).y ≤ max p0.y (max p1.y (max p2.y p3.y)))) := by
  refine ⟨?_, ?_, fun h0 h1 => ⟨?_, ?_⟩⟩
  · unfold bezier
    simp
  · unfold bezier
    simp
  · obtain ⟨a0, a1, a2, a3⟩ := min4_le p0.x p1.x p2.x p3.x
    obtain ⟨b0, b1, b2, b3⟩ := le_max4 p0.x p1.x p2.x p3.x
    exact bernstein_hull p0.x p1.x p2.x p3.x _ _ t h0 h1 a0 a1 a2 a3 b0 b1 b2 b3
  · obtain ⟨a0, a1, a2, a3⟩ := min4_le p0.y p1.y p2.y p3.y
    obtain ⟨b0, b1, b2, b3⟩ := le_max4 p0.y p1.y p2.y p3.y
    exact bernstein_hull p0.y p1.y p2.y p3.y _ _ t h0 h1 a0 a1 a2 a3 b0 b1 b2 b3

set_option maxRecDepth 1000000 in
theorem bezier_interpolates_within_hull_witness :
    bezier lastDiver.p0 lastDiver.p1 lastDiver.p2 lastDiver.p3 (1 / 2) =
      { x := 1071 / 4, y := 360 } ∧
    (170 : ℚ) ≤ (bezier lastDiver.p0 lastDiver.p1 lastDiver.p2 lastDiver.p3 (1 / 2)).x ∧
    (bezier lastDiver.p0 lastDiver.p1 lastDiver.p2 lastDiver.p3 (1 / 2)).x ≤ 438 :=
  have h := (bezier_interpolates_within_hull lastDiver.p0 lastDiver.p1 lastDiver.p2
    lastDiver.p3 (1 / 2)).2.2 (by decide!) (by decide!)
  ⟨by decide!, le_trans (by decide!) h.1.1, le_trans h.1.2 (by decide!)⟩

/-! ## The death of the player -/

/-- The roster `killPlayer` leaves: every enemy is the one it was, alive
divers and returners put back IN_FORMATION. -/
theorem killPlayer_enemies (L : Libm) (g : Game) (h : g.player.invincible = false) :
    (killPlayer L g).enemies = g.enemies.map (fun e =>
      if e.alive && (decide (e.state = EnemyState.DIVING) ||
          decide (e.state = EnemyState.RETURNING)) then
        { e with state := EnemyState.IN_FORMATION }
      else e) := by
  simp only [killPlayer, h, Bool.false_eq_true, if_false, spawnExplosion_enemies]

/-- C36. Player death resets the board.  After `killPlayer` on a player that
is not invincible: the lives are lower by exactly 1, `player.alive` is false,
`shotLevel = 1`, `shotCooldown = 0.22`, `shotTimer = 0`, `pBullets` and
`powerUps` are empty, the enemy bullets are the old ones with every active
flag false, the roster has the same enemies in the same order with the same
life, slot and type, every alive enemy is IN_FORMATION (so none is DIVING or
RETURNING), dead enemies are untouched, and the flow state is PLAYER_DEAD with
`stateTimer = 2`; score, high score and round are unchanged.  On an
invincible player `killPlayer` changes nothing. -/
theorem player_death_resets_board (L : Libm) (g : Game) :
    (g.player.invincible = false →
      (killPlayer L g).player.lives = g.player.lives - 1 ∧
      (killPlayer L g).player.alive = false ∧
      (killPlayer L g).player.shotLevel = 1 ∧
      (killPlayer L g).player.shotCooldown = 0.22 ∧
      (killPlayer L g).player.shotTimer = 0 ∧
      (killPlayer L g).pBullets = [] ∧ (killPlayer L g).powerUps = [] ∧
      (killPlayer L g).eBullets = g.eBullets.map (fun b => { b with active := false }) ∧
      (∀ b ∈ (killPlayer L g).eBullets, b.active = false) ∧
      (∀ e ∈ (killPlayer L g).enemies, e.alive = true → e.state = EnemyState.IN_FORMATION) ∧
      (∀ e ∈ (killPlayer L g).enemies, e.alive = true →
        e.state ≠ EnemyState.DIVING ∧ e.state ≠ EnemyState.RETURNING) ∧
      List.Forall₂ (fun e e' => e'.alive = e.alive ∧ e'.row = e.row ∧ e'.col = e.col ∧
          e'.type = e.type ∧ (e.alive = false → e' = e))
        g.enemies (killPlayer L g).enemies ∧
      (killPlayer L g).state = GameState.PLAYER_DEAD ∧ (killPlayer L g).stateTimer = 2 ∧
      (killPlayer L g).score = g.score ∧ (killPlayer L g).highScore = g.highScore ∧
      (killPlayer L g).round = g.round) ∧
    (g.player.invincible = true → killPlayer L g = g) := by
  constructor
  · intro h
    have he := killPlayer_enemies L g h
    obtain ⟨l1, l2, l3⟩ := killPlayer_lists L g h
    have hc := core_killPlayer L g h
    have hin : ∀ e ∈ (killPlayer L g).enemies, e.alive = true →
        e.state = EnemyState.IN_FORMATION := by
      intro e hm ha
      rw [he] at hm
      obtain ⟨e0, -, rfl⟩ := List.mem_map.mp hm
      by_cases hc : (e0.alive && (decide (e0.state = EnemyState.DIVING) ||
          decide (e0.state = EnemyState.RETURNING))) = true
      · rw [if_pos hc]
      · rw [if_neg hc] at ha ⊢
        rw [ha] at hc
        cases hs : e0.state
        · rfl
        · rw [hs] at hc
          exact absurd rfl hc
        · rw [hs] at hc
          exact absurd rfl hc
    refine ⟨congrArg Core.lives hc, ?_, congrArg Core.shotLevel hc, ?_, ?_, l1, l2, l3, ?_, hin,
      ?_, ?_, congrArg Core.state hc, ?_, congrArg Core.score hc, congrArg Core.highScore hc,
      congrArg Core.round hc⟩
    · simp only [killPlayer, h, Bool.false_eq_true, if_false]
    · simp only [killPlayer, h, Bool.false_eq_true, if_false]
    · simp only [killPlayer, h, Bool.false_eq_true, if_false]
    · intro b hb
      rw [l3] at hb
      obtain ⟨b0, -, rfl⟩ := List.mem_map.mp hb
      rfl
    · intro e hm ha
      have := hin e hm ha
      rw [this]
      exact ⟨by decide, by decide⟩
    · rw [he]
      generalize g.enemies = es
      induction es with
      | nil => exact List.Forall₂.nil
      | cons e es ih =>
        refine List.Forall₂.cons ?_ ih
        dsimp only
        by_cases hc : (e.alive && (decide (e.state = EnemyState.DIVING) ||
            decide (e.state = EnemyState.RETURNING))) = true
        · rw [if_pos hc]
          refine ⟨rfl, rfl, rfl, rfl, fun hd => ?_⟩
          rw [hd] at hc
          exact absurd hc (by simp)
        · rw [if_neg hc]
          exact ⟨rfl, rfl, rfl, rfl, fun _ => rfl⟩
    · simp only [killPlayer, h, Bool.false_eq_true, if_false]
  · intro h
    simp only [killPlayer, h, if_true]

set_option maxRecDepth 1000000 in
theorem player_death_resets_board_witness :
    crowded.player.invincible = false ∧ crowded.player.lives = 3 ∧
    crowded.enemies.map (fun e => e.state) = [EnemyState.DIVING, EnemyState.DIVING] ∧
    (killPlayer refLibm crowded).player.lives = 2 ∧
    (killPlayer refLibm crowded).enemies.map (fun e => e.state) =
      [EnemyState.IN_FORMATION, EnemyState.IN_FORMATION] ∧
    (killPlayer refLibm crowded).eBullets.map (fun b => b.active) = [false, false] ∧
    (killPlayer refLibm crowded).state = GameState.PLAYER_DEAD ∧
    killPlayer refLibm crowdedInvincible = crowdedInvincible :=
  have h := player_death_resets_board refLibm crowded
  have hi : crowded.player.invincible = false := by decide!
  ⟨hi, by decide!, by decide!, ((h.1 hi).1).trans (by decide!), by decide!, by decide!,
    (h.1 hi).2.2.2.2.2.2.2.2.2.2.2.2.1,
    (player_death_resets_board refLibm crowdedInvincible).2 (by decide!)⟩

/-! ## The dive step -/

/-- C31. Dive step and exit.  For a DIVING enemy `updateDiving` advances `t`
by `diveSpeed / 600 * dt`.  If the new `t` is at least 1 the enemy switches to
RETURNING with `t = 1`, `retT = 0`, position `(p3.x, SH + 60)` and the return
curve of `returnToFormation`, from `(p3.x, SH + 40)` to the current formation
target `(formationX(col), formationY(row, col))` of its slot, and the session
is left as it was (no bullet is fired in that call).  Otherwise it stays
DIVING, `t` is the new value and its position is the cubic Bezier of
`(p0, p1, p2, p3)` at the new `t`. -/
theorem dive_step_and_exit (L : Libm) (g : Game) (e : Enemy) (dt : ℚ)
    (hs : e.state = EnemyState.DIVING) :
    (1 ≤ e.t + e.diveSpeed / 600 * dt →
      (updateDiving L g e dt).1.state = EnemyState.RETURNING ∧
      (updateDiving L g e dt).1.t = 1 ∧ (updateDiving L g e dt).1.retT = 0 ∧
      (updateDiving L g e dt).1.x = e.p3.x ∧ (updateDiving L g e dt).1.y = (SH : ℚ) + 60 ∧
      (updateDiving L g e dt).1.retP0 = { x := e.p3.x, y := (SH : ℚ) + 40 } ∧
      (updateDiving L g e dt).1.retP1 =
        { x := e.p3.x + (if e.p3.x < (SW : ℚ) / 2 then -1 else 1) * 160, y := (SH : ℚ) / 2 } ∧
      (updateDiving L g e dt).1.retP2 = { x := formationX g e.col, y := FORM_START_Y - 80 } ∧
      (updateDiving L g e dt).1.retP3 =
        { x := formationX g e.col, y := formationY L g e.row e.col } ∧
      (updateDiving L g e dt).2 = g ∧
      (updateDiving L g e dt).1.bulletsLeft = e.bulletsLeft) ∧
    (e.t + e.diveSpeed / 600 * dt < 1 →
      (updateDiving L g e dt).1.state = EnemyState.DIVING ∧
      (updateDiving L g e dt).1.t = e.t + e.diveSpeed / 600 * dt ∧
      (updateDiving L g e dt).1.x =
        (bezier e.p0 e.p1 e.p2 e.p3 (e.t + e.diveSpeed / 600 * dt)).x ∧
      (updateDiving L g e dt).1.y =
        (bezier e.p0 e.p1 e.p2 e.p3 (e.t + e.diveSpeed / 600 * dt)).y) := by
  have hb : (bezier e.p0 e.p1 e.p2 e.p3 1).x = e.p3.x := by
    unfold bezier
    simp
  constructor
  · intro h1
    have hc : e.t + e.diveSpeed / 600 * dt ≥ 1 := h1
    unfold updateDiving returnToFormation
    simp only [hc, if_true, hb, and_self]
  · intro h1
    have hc : ¬ e.t + e.diveSpeed / 600 * dt ≥ 1 := not_le.mpr h1
    unfold updateDiving
    simp only [hc, if_false]
    split_ifs <;> exact ⟨hs, rfl, rfl, rfl⟩

set_option maxRecDepth 1000000 in
theorem dive_step_and_exit_witness :
    lastDiver.state = EnemyState.DIVING ∧
    (updateDiving refLibm (playerAt 240) lastDiver (1 / 2)).1.state = EnemyState.DIVING ∧
    (updateDiving refLibm (playerAt 240) lastDiver (1 / 2)).1.t = 71 / 100 ∧
    (updateDiving refLibm (playerAt 240) lastDiver 2).1.state = EnemyState.RETURNING ∧
    (updateDiving refLibm (playerAt 240) lastDiver 2).1.x = 240 ∧
    (updateDiving refLibm (playerAt 240) lastDiver 2).1.y = 780 ∧
    (updateDiving refLibm (playerAt 240) lastDiver 2).1.retP3.x = 438 ∧
    (updateDiving refLibm (playerAt 240) lastDiver 2).2 = playerAt 240 :=
  have h1 := (dive_step_and_exit refLibm (playerAt 240) lastDiver (1 / 2) rfl).2 (by decide!)
  have h2 := (dive_step_and_exit refLibm (playerAt 240) lastDiver 2 rfl).1 (by decide!)
  ⟨rfl, h1.1, h1.2.1.trans (by decide!), h2.1, h2.2.2.2.1.trans (by decide!),
    h2.2.2.2.2.1.trans (by decide!),
    (congrArg Vector2.x h2.2.2.2.2.2.2.2.2.1).trans (by decide!), h2.2.2.2.2.2.2.2.2.2.1⟩

/-! ## Dive shots -/

/-- The bullet `updateDiving` fires, if it fires one: at the enemy's new
position, aimed by the player's offset from it. -/
theorem updateDiving_bullet (L : Libm) (g : Game) (e : Enemy) (dt : ℚ) :
    (updateDiving L g e dt).2.eBullets = g.eBullets ∨
    (updateDiving L g e dt).2.eBullets = g.eBullets ++
      [{ active := true, enemy := true,
         x := (updateDiving L g e dt).1.x, y := (updateDiving L g e dt).1.y + 8,
         vx := ((g.player.x - (updateDiving L g e dt).1.x) /
                 (|g.player.x - (updateDiving L g e dt).1.x| + 200)) * EBULLET_SPEED * 0.3,
         vy := EBULLET_SPEED }] := by
  unfold updateDiving
  simp only
  split_ifs
  · exact Or.inl rfl
  · exact Or.inr rfl
  · exact Or.inl rfl
  · exact Or.inl rfl

/-- The soft lead: `dx / (|dx| + 200)` lies strictly between -1 and 1 and has
the sign of `dx`. -/
theorem soft_lead (dx : ℚ) :
    200 ≤ |dx| + 200 ∧ |dx / (|dx| + 200)| < 1 ∧
    (0 < dx → 0 < dx / (|dx| + 200)) ∧ (dx < 0 → dx / (|dx| + 200) < 0) ∧
    (dx = 0 → dx / (|dx| + 200) = 0) := by
  have ha : 0 ≤ |dx| := abs_nonneg dx
  have hp : 0 < |dx| + 200 := by linarith
  refine ⟨by linarith, ?_, fun h => div_pos h hp, fun h => div_neg_of_neg_of_pos h hp, ?_⟩
  · rw [abs_div, abs_of_pos hp, div_lt_one hp]
    linarith
  · intro h
    rw [h]
    simp

/-- The horizontal velocity of a dive shot as a function of `dx`. -/
theorem soft_lead_velocity (dx : ℚ) :
    dx / (|dx| + 200) * EBULLET_SPEED * 0.3 = 0.3 * EBULLET_SPEED * dx / (|dx| + 200) ∧
    (0 < dx → 0 < dx / (|dx| + 200) * EBULLET_SPEED * 0.3) ∧
    (dx < 0 → dx / (|dx| + 200) * EBULLET_SPEED * 0.3 < 0) ∧
    (dx = 0 → dx / (|dx| + 200) * EBULLET_SPEED * 0.3 = 0) ∧
    |dx / (|dx| + 200) * EBULLET_SPEED * 0.3| < 0.3 * EBULLET_SPEED ∧
    |dx / (|dx| + 200) * EBULLET_SPEED * 0.3| < 72 := by
  have hE : EBULLET_SPEED = 240 := rfl
  obtain ⟨-, s2, s3, s4, s5⟩ := soft_lead dx
  have hv : dx / (|dx| + 200) * EBULLET_SPEED * 0.3 = 72 * (dx / (|dx| + 200)) := by
    rw [hE]
    ring
  have habs : |dx / (|dx| + 200) * EBULLET_SPEED * 0.3| < 72 := by
    rw [hv, abs_mul]
    have : |(72 : ℚ)| = 72 := abs_of_pos (by norm_num)
    rw [this]
    linarith
  refine ⟨?_, ?_, ?_, ?_, ?_, habs⟩
  · ring
  · intro hd
    rw [hv]
    have := s3 hd
    linarith
  · intro hd
    rw [hv]
    have := s4 hd
    linarith
  · intro hd
    rw [hv, s5 hd]
    norm_num
  · have h72 : (0.3 : ℚ) * EBULLET_SPEED = 72 := by
      rw [hE]
      norm_num
    rw [h72]
    exact habs

/-- C32. Dive shots are a bounded soft lead.  Every bullet `b` that an
`updateDiving` call appends to `eBullets` is an active enemy bullet at the
enemy's position (8 below it) with `vy = EBULLET_SPEED = 240` and
`vx = 0.3 * EBULLET_SPEED * dx / (|dx| + 200)`, where `dx` is `player.x` minus
the enemy's x at fire time.  The divisor is at least 200, `vx` has the sign of
`dx`, and `|vx| < 0.3 * vy = 72`, so the bullet is never fired purely
sideways (exact arithmetic). -/
theorem dive_shot_soft_lead (L : Libm) (g : Game) (e : Enemy) (dt : ℚ) (b : Bullet)
    (hb : (updateDiving L g e dt).2.eBullets = g.eBullets ++ [b]) :
    (b.active = true ∧ b.enemy = true ∧ b.x = (updateDiving L g e dt).1.x ∧
      b.y = (updateDiving L g e dt).1.y + 8) ∧
    (b.vy = EBULLET_SPEED ∧ b.vy = 240) ∧
    b.vx = 0.3 * EBULLET_SPEED * (g.player.x - (updateDiving L g e dt).1.x) /
      (|g.player.x - (updateDiving L g e dt).1.x| + 200) ∧
    200 ≤ |g.player.x - (updateDiving L g e dt).1.x| + 200 ∧
    (0 < g.player.x - (updateDiving L g e dt).1.x → 0 < b.vx) ∧
    (g.player.x - (updateDiving L g e dt).1.x < 0 → b.vx < 0) ∧
    (g.player.x - (updateDiving L g e dt).1.x = 0 → b.vx = 0) ∧
    (|b.vx| < 0.3 * b.vy ∧ |b.vx| < 72) := by
  rcases updateDiving_bullet L g e dt with h | h
  · rw [h] at hb
    have := congrArg List.length hb
    simp at this
  · rw [h] at hb
    have hb' := List.append_cancel_left hb
    simp only [List.cons.injEq, and_true] at hb'
    subst hb'
    obtain ⟨v1, v2, v3, v4, v5, v6⟩ :=
      soft_lead_velocity (g.player.x - (updateDiving L g e dt).1.x)
    exact ⟨⟨rfl, rfl, rfl, rfl⟩, ⟨rfl, rfl⟩, v1,
      (soft_lead (g.player.x - (updateDiving L g e dt).1.x)).1, v2, v3, v4, v5, v6⟩

set_option maxRecDepth 1000000 in
theorem dive_shot_soft_lead_witness :
    (updateDiving refLibm (playerAt 240) readyDiver 0).2.eBullets =
      (playerAt 240).eBullets ++
        [{ active := true, enemy := true, x := 1071 / 4, y := 368,
           vx := -7992 / 911, vy := 240 }] ∧
    (playerAt 240).player.x - (updateDiving refLibm (playerAt 240) readyDiver 0).1.x = -111 / 4 ∧
    (-7992 / 911 : ℚ) < 0 ∧ |(-7992 / 911 : ℚ)| < 72 :=
  have hb : (updateDiving refLibm (playerAt 240) readyDiver 0).2.eBullets =
      (playerAt 240).eBullets ++
        [{ active := true, enemy := true, x := 1071 / 4, y := 368,
           vx := -7992 / 911, vy := 240 }] := by decide!
  have h := dive_shot_soft_lead refLibm (playerAt 240) readyDiver 0 _ hb
  ⟨hb, by decide!, h.2.2.2.2.2.1 (by decide!), h.2.2.2.2.2.2.2.2⟩

/-! ## The lateral step of the formation -/

theorem formMaxX_eq : formMaxX = 10 := by
  norm_num [formMaxX, SW, COLS, CELL_W]

/-- The lateral offset and velocity after `updateFormationMotion`, in terms of
the stepped offset `formOffX + formStep`: reflected at `formMaxX`, then at
`-formMaxX`. -/
theorem updateFormationMotion_lateral (L : Libm) (dt : ℚ) (g : Game) :
    (updateFormationMotion L dt g).formOffX =
      (if g.formOffX + formStep dt g > formMaxX then
        (if formMaxX - (g.formOffX + formStep dt g - formMaxX) < -formMaxX then
          -formMaxX + (-formMaxX - (formMaxX - (g.formOffX + formStep dt g - formMaxX)))
        else formMaxX - (g.formOffX + formStep dt g - formMaxX))
      else if g.formOffX + formStep dt g < -formMaxX then
        -formMaxX + (-formMaxX - (g.formOffX + formStep dt g))
      else g.formOffX + formStep dt g) ∧
    (updateFormationMotion L dt g).formVX =
      (if g.formOffX + formStep dt g > formMaxX then
        (if formMaxX - (g.formOffX + formStep dt g - formMaxX) < -formMaxX then
          |(-|g.formVX|)|
        else -|g.formVX|)
      else if g.formOffX + formStep dt g < -formMaxX then |g.formVX|
      else g.formVX) := by
  have e : g.formOffX + formStep dt g =
      g.formOffX + (if g.formVX ≥ 0 then (1 : ℚ) else -1) *
        (|g.formVX| * (if g.state = GameState.PLAYING then speedFactor g else 1)) *
        (if (if (if g.formVX ≥ 0 then (1 : ℚ) else -1) > 0
              then ((SW : ℚ) - (COLS : ℚ) * CELL_W) / 2 - 10 - g.formOffX
              else g.formOffX + (((SW : ℚ) - (COLS : ℚ) * CELL_W) / 2 - 10)) < 26
          then clamp ((if (if g.formVX ≥ 0 then (1 : ℚ) else -1) > 0
              then ((SW : ℚ) - (COLS : ℚ) * CELL_W) / 2 - 10 - g.formOffX
              else g.formOffX + (((SW : ℚ) - (COLS : ℚ) * CELL_W) / 2 - 10)) / 26) 0.35 1
          else 1) * dt := rfl
  generalize g.formOffX + formStep dt g = x1 at e ⊢
  unfold updateFormationMotion
  simp only [← e]
  unfold formMaxX
  by_cases h1 : x1 > ((SW : ℚ) - (COLS : ℚ) * CELL_W) / 2 - 10
  · simp only [h1, if_true]
    by_cases h2 : ((SW : ℚ) - (COLS : ℚ) * CELL_W) / 2 - 10 -
        (x1 - (((SW : ℚ) - (COLS : ℚ) * CELL_W) / 2 - 10)) <
        -(((SW : ℚ) - (COLS : ℚ) * CELL_W) / 2 - 10)
    · simp only [h2, if_true, and_self]
    · simp only [h2, if_false, and_self]
  · simp only [h1, if_false]
    by_cases h2 : x1 < -(((SW : ℚ) - (COLS : ℚ) * CELL_W) / 2 - 10)
    · simp only [h2, if_true, and_self]
    · simp only [h2, if_false, and_self]

/-- C34. Overshoot-preserving bounce.  In `updateFormationMotion`, if the step
carries the offset to `maxX + o` with `0 < o <= 2 * maxX`, the resulting
`formOffX` is `maxX - o` (the excess is reflected back in, not clamped) and
`formVX` becomes `-|formVX|`; if it carries it to `-maxX - o`, the result is
`-maxX + o` with `formVX = |formVX|`; a stepped offset within the margin is
kept, with `formVX`; and in every case `|formVX|` is left unchanged by the
call.  Here `maxX = 10`. -/
theorem overshoot_preserving_bounce (L : Libm) (dt : ℚ) (g : Game) :
    (∀ o : ℚ, g.formOffX + formStep dt g = formMaxX + o → 0 < o → o ≤ 2 * formMaxX →
      (updateFormationMotion L dt g).formOffX = formMaxX - o ∧
      (updateFormationMotion L dt g).formVX = -|g.formVX|) ∧
    (∀ o : ℚ, g.formOffX + formStep dt g = -formMaxX - o → 0 < o → o ≤ 2 * formMaxX →
      (updateFormationMotion L dt g).formOffX = -formMaxX + o ∧
      (updateFormationMotion L dt g).formVX = |g.formVX|) ∧
    (-formMaxX ≤ g.formOffX + formStep dt g → g.formOffX + formStep dt g ≤ formMaxX →
      (updateFormationMotion L dt g).formOffX = g.formOffX + formStep dt g ∧
      (updateFormationMotion L dt g).formVX = g.formVX) ∧
    |(updateFormationMotion L dt g).formVX| = |g.formVX| ∧
    formMaxX = 10 := by
  obtain ⟨hx, hv⟩ := updateFormationMotion_lateral L dt g
  have hm := formMaxX_eq
  refine ⟨?_, ?_, ?_, ?_, hm⟩
  · intro o ho h0 h2
    rw [hx, hv, ho]
    have c1 : formMaxX + o > formMaxX := by linarith
    have c2 : ¬ formMaxX - (formMaxX + o - formMaxX) < -formMaxX := by
      rw [hm] at h2 ⊢
      intro c
      linarith
    rw [if_pos c1, if_neg c2, if_pos c1, if_neg c2]
    exact ⟨by ring, rfl⟩
  · intro o ho h0 h2
    rw [hx, hv, ho]
    have c1 : ¬ -formMaxX - o > formMaxX := by
      rw [hm]
      intro c
      linarith
    have c2 : -formMaxX - o < -formMaxX := by linarith
    rw [if_neg c1, if_pos c2, if_neg c1, if_pos c2]
    exact ⟨by ring, rfl⟩
  · intro h1 h2
    rw [hx, hv, if_neg (not_lt.mpr h2), if_neg (not_lt.mpr h1), if_neg (not_lt.mpr h2),
      if_neg (not_lt.mpr h1)]
    exact ⟨rfl, rfl⟩
  · rw [hv]
    split_ifs
    · rw [abs_abs, abs_neg, abs_abs]
    · rw [abs_neg, abs_abs]
    · rw [abs_abs]
    · rfl

set_option maxRecDepth 1000000 in
theorem overshoot_preserving_bounce_witness :
    nearRightEdge.formOffX + formStep 1 nearRightEdge = formMaxX + 2921 / 250 ∧
    (updateFormationMotion refLibm 1 nearRightEdge).formOffX = -421 / 250 ∧
    (updateFormationMotion refLibm 1 nearRightEdge).formVX = -30 :=
  have ho : nearRightEdge.formOffX + formStep 1 nearRightEdge = formMaxX + 2921 / 250 := by
    decide!
  have h := (overshoot_preserving_bounce refLibm 1 nearRightEdge).1 (2921 / 250) ho
    (by decide!) (by decide!)
  ⟨ho, h.1.trans (by decide!), h.2.trans (by decide!)⟩

theorem formDir_cases (g : Game) : formDir g = 1 ∨ formDir g = -1 := by
  unfold formDir
  split_ifs
  · exact Or.inl rfl
  · exact Or.inr rfl

/-- C38. The formation never moves at undamped speed.  The margin `maxX` is 10
and the soft zone 26, so for every `formOffX` in `-maxX .. maxX` the distance
to the edge being approached lies in `0 .. 20`, below the soft zone; the edge
factor is `clamp(distToEdge / 26, 0.35, 1)` and lies in `0.35 .. 20/26`; and
for `dt >= 0` the lateral step of `updateFormationMotion` has magnitude
`|formVX| * sf * edgeFactor * dt`, between 0.35 and 10/13 of
`|formVX| * sf * dt`, where `sf` is the speed factor in force in the call:
`speedFactor()` in PLAYING and 1 in every other state.  The step is what the
call adds to `formOffX` before the bounce. -/
theorem formation_never_undamped (L : Libm) (dt : ℚ) (g : Game)
    (hlo : -formMaxX ≤ g.formOffX) (hhi : g.formOffX ≤ formMaxX) :
    (formMaxX = 10 ∧ 0 ≤ formDistToEdge g ∧ formDistToEdge g ≤ 20 ∧ formDistToEdge g < 26) ∧
    formEdgeFactor g = clamp (formDistToEdge g / 26) 0.35 1 ∧
    (0.35 ≤ formEdgeFactor g ∧ formEdgeFactor g ≤ 20 / 26 ∧ formEdgeFactor g < 1) ∧
    (g.state = GameState.PLAYING → formSpeedFactor g = speedFactor g) ∧
    (g.state ≠ GameState.PLAYING → formSpeedFactor g = 1) ∧
    (0 ≤ dt → 0 ≤ formSpeedFactor g →
      |formStep dt g| = |g.formVX| * formSpeedFactor g * formEdgeFactor g * dt ∧
      0.35 * (|g.formVX| * formSpeedFactor g * dt) ≤ |formStep dt g| ∧
      |formStep dt g| ≤ 10 / 13 * (|g.formVX| * formSpeedFactor g * dt)) ∧
    (-formMaxX ≤ g.formOffX + formStep dt g → g.formOffX + formStep dt g ≤ formMaxX →
      (updateFormationMotion L dt g).formOffX = g.formOffX + formStep dt g) := by
  have hm := formMaxX_eq
  rw [hm] at hlo hhi
  have hd : 0 ≤ formDistToEdge g ∧ formDistToEdge g ≤ 20 := by
    unfold formDistToEdge
    rw [hm]
    split_ifs <;> constructor <;> linarith
  have hlt : formDistToEdge g < 26 := by linarith [hd.2]
  have hef : formEdgeFactor g = clamp (formDistToEdge g / 26) 0.35 1 := by
    unfold formEdgeFactor
    rw [if_pos hlt]
  have hb : 0.35 ≤ formEdgeFactor g ∧ formEdgeFactor g ≤ 20 / 26 := by
    rw [hef]
    unfold clamp
    have h1 : formDistToEdge g / 26 ≤ 20 / 26 := by
      apply div_le_div_of_nonneg_right hd.2
      norm_num
    split_ifs with c1 c2
    · constructor <;> norm_num
    · exfalso
      linarith
    · exact ⟨not_lt.mp c1, h1⟩
  refine ⟨⟨hm, hd.1, hd.2, hlt⟩, hef, ⟨hb.1, hb.2, by linarith [hb.2]⟩, ?_, ?_, ?_, ?_⟩
  · intro hs
    unfold formSpeedFactor
    rw [if_pos hs]
  · intro hs
    unfold formSpeedFactor
    rw [if_neg hs]
  · intro hdt hsf
    have he0 : 0 ≤ formEdgeFactor g := le_trans (by norm_num) hb.1
    have hP : 0 ≤ |g.formVX| * formSpeedFactor g * dt :=
      mul_nonneg (mul_nonneg (abs_nonneg _) hsf) hdt
    have hmag : |formStep dt g| = |g.formVX| * formSpeedFactor g * formEdgeFactor g * dt := by
      unfold formStep
      rw [abs_mul, abs_mul, abs_mul, abs_mul, abs_abs, abs_of_nonneg hsf, abs_of_nonneg he0,
        abs_of_nonneg hdt]
      rcases formDir_cases g with h | h
      · rw [h]
        norm_num
      · rw [h]
        norm_num
    have e : |g.formVX| * formSpeedFactor g * formEdgeFactor g * dt =
        formEdgeFactor g * (|g.formVX| * formSpeedFactor g * dt) := by ring
    refine ⟨hmag, ?_, ?_⟩
    · rw [hmag, e]
      exact mul_le_mul_of_nonneg_right hb.1 hP
    · rw [hmag, e]
      have : formEdgeFactor g ≤ 10 / 13 := le_trans hb.2 (by norm_num)
      exact mul_le_mul_of_nonneg_right this hP
  · intro h1 h2
    rw [← hm] at *
    rw [(updateFormationMotion_lateral L dt g).1, if_neg (not_lt.mpr h2), if_neg (not_lt.mpr h1)]

set_option maxRecDepth 1000000 in
theorem formation_never_undamped_witness :
    formDistToEdge nearRightEdge = 1 ∧ formEdgeFactor nearRightEdge = 7 / 20 ∧
    formSpeedFactor nearRightEdge = 151 / 125 ∧
    |formStep (1 / 20) nearRightEdge| = 3171 / 5000 ∧
    |formStep (1 / 20) nearRightEdge| ≤
      10 / 13 * (|nearRightEdge.formVX| * formSpeedFactor nearRightEdge * (1 / 20)) ∧
    (updateFormationMotion refLibm (1 / 20) nearRightEdge).formOffX = 48171 / 5000 :=
  have h := formation_never_undamped refLibm (1 / 20) nearRightEdge (by decide!) (by decide!)
  have hs := h.2.2.2.2.2.1 (by decide!) (by decide!)
  ⟨by decide!, by decide!, by decide!, hs.1.trans (by decide!), hs.2.2,
    (h.2.2.2.2.2.2 (by decide!) (by decide!)).trans (by decide!)⟩

/-! ## The boss volley -/

theorem fireBossBullets_eq (L : Libm) (rels : List ℚ) (g : Game) :
    fireBossBullets L rels g = { g with eBullets := g.eBullets ++ rels.map (bossBullet L g) } := by
  induction rels generalizing g with
  | nil => simp [fireBossBullets]
  | cons rel rels ih =>
    unfold fireBossBullets
    simp only
    rw [ih]
    simp only [List.map_cons, List.append_assoc, List.singleton_append]
    rfl

/-- The velocity of a boss bullet when the library square root of
`dx * dx + dy * dy` is at least `dy`: the distance is at least 24, the bullet
travels downward, and sideways in the direction of `dx`. -/
theorem bossBullet_aim (L : Libm) (g : Game) (rel : ℚ)
    (hs : (bossAim g rel).2 ≤
      L.sqrtf ((bossAim g rel).1 * (bossAim g rel).1 + (bossAim g rel).2 * (bossAim g rel).2)) :
    24 ≤ (bossAim g rel).2 ∧
    24 ≤ L.sqrtf ((bossAim g rel).1 * (bossAim g rel).1 +
      (bossAim g rel).2 * (bossAim g rel).2) ∧
    0 < (bossBullet L g rel).vy ∧
    (0 < (bossAim g rel).1 → 0 < (bossBullet L g rel).vx) ∧
    ((bossAim g rel).1 < 0 → (bossBullet L g rel).vx < 0) ∧
    ((bossAim g rel).1 = 0 → (bossBullet L g rel).vx = 0) := by
  have hdy : 24 ≤ (bossAim g rel).2 := le_max_left _ _
  have hdist : 24 ≤ L.sqrtf ((bossAim g rel).1 * (bossAim g rel).1 +
      (bossAim g rel).2 * (bossAim g rel).2) := le_trans hdy hs
  have hvx : (bossBullet L g rel).vx =
      (bossAim g rel).1 / L.sqrtf ((bossAim g rel).1 * (bossAim g rel).1 +
        (bossAim g rel).2 * (bossAim g rel).2) * (EBULLET_SPEED * 1.05) * 0.75 := rfl
  have hvy : (bossBullet L g rel).vy =
      (bossAim g rel).2 / L.sqrtf ((bossAim g rel).1 * (bossAim g rel).1 +
        (bossAim g rel).2 * (bossAim g rel).2) * (EBULLET_SPEED * 1.05) := rfl
  rw [hvx, hvy]
  generalize L.sqrtf ((bossAim g rel).1 * (bossAim g rel).1 +
      (bossAim g rel).2 * (bossAim g rel).2) = dist at hdist ⊢
  generalize (bossAim g rel).1 = dx
  generalize (bossAim g rel).2 = dy at hdy
  have hd : 0 < dist := by linarith
  have hy : 0 < dy := by linarith
  have hE : (0 : ℚ) < EBULLET_SPEED * 1.05 := by
    unfold EBULLET_SPEED
    norm_num
  refine ⟨hdy, hdist, ?_, ?_, ?_, ?_⟩
  · exact mul_pos (div_pos hy hd) hE
  · intro h
    exact mul_pos (mul_pos (div_pos h hd) hE) (by norm_num)
  · intro h
    have h1 : dx / dist < 0 := div_neg_of_neg_of_pos h hd
    have h2 : dx / dist * (EBULLET_SPEED * 1.05) < 0 := mul_neg_of_neg_of_pos h1 hE
    exact mul_neg_of_neg_of_pos h2 (by norm_num)
  · intro h
    rw [h]
    simp

/-- C35. Boss volley.  `fireBossVolley` appends exactly 3 active enemy bullets
and changes nothing else; they are emitted at `x = boss.x + k * boss.size` for
`k` = -0.32, 0, +0.32 and `y = boss.y + 0.2 * boss.size`.  For each, with
`dx = player.x - b.x` and `dy = max(24, player.y - b.y)`, `dy` is at least 24;
with a library square root that returns at least `dy` on `dx*dx + dy*dy` (as
the exact square root does) the distance is at least 24, so the division is
never by zero, `vy = 1.05 * EBULLET_SPEED * dy / dist` is strictly positive
and `vx = 0.75 * 1.05 * EBULLET_SPEED * dx / dist` has the sign of `dx`. -/
theorem boss_volley (L : Libm) (g : Game)
    (hs : ∀ rel ∈ [(-0.32 : ℚ), 0, 0.32], (bossAim g rel).2 ≤
      L.sqrtf ((bossAim g rel).1 * (bossAim g rel).1 +
        (bossAim g rel).2 * (bossAim g rel).2)) :
    fireBossVolley L g =
      { g with eBullets := g.eBullets ++
          [bossBullet L g (-0.32), bossBullet L g 0, bossBullet L g 0.32] } ∧
    (fireBossVolley L g).eBullets.length = g.eBullets.length + 3 ∧
    ∀ rel ∈ [(-0.32 : ℚ), 0, 0.32],
      ((bossBullet L g rel).active = true ∧ (bossBullet L g rel).enemy = true ∧
        (bossBullet L g rel).x = g.boss.x + rel * g.boss.size ∧
        (bossBullet L g rel).y = g.boss.y + 0.2 * g.boss.size) ∧
      ((bossAim g rel).1 = g.player.x - (bossBullet L g rel).x ∧
        (bossAim g rel).2 = max 24 (g.player.y - (bossBullet L g rel).y) ∧
        24 ≤ (bossAim g rel).2) ∧
      24 ≤ L.sqrtf ((bossAim g rel).1 * (bossAim g rel).1 +
        (bossAim g rel).2 * (bossAim g rel).2) ∧
      ((bossBullet L g rel).vy =
          1.05 * EBULLET_SPEED * (bossAim g rel).2 /
            L.sqrtf ((bossAim g rel).1 * (bossAim g rel).1 +
              (bossAim g rel).2 * (bossAim g rel).2) ∧
        0 < (bossBullet L g rel).vy) ∧
      ((bossBullet L g rel).vx =
          0.75 * 1.05 * EBULLET_SPEED * (bossAim g rel).1 /
            L.sqrtf ((bossAim g rel).1 * (bossAim g rel).1 +
              (bossAim g rel).2 * (bossAim g rel).2) ∧
        (0 < (bossAim g rel).1 → 0 < (bossBullet L g rel).vx) ∧
        ((bossAim g rel).1 < 0 → (bossBullet L g rel).vx < 0) ∧
        ((bossAim g rel).1 = 0 → (bossBullet L g rel).vx = 0)) := by
  have he : fireBossVolley L g =
      { g with eBullets := g.eBullets ++
          [bossBullet L g (-0.32), bossBullet L g 0, bossBullet L g 0.32] } := by
    unfold fireBossVolley
    rw [fireBossBullets_eq]
    rfl
  refine ⟨he, ?_, fun rel hr => ?_⟩
  · rw [he]
    simp
  · obtain ⟨a1, a2, a3, a4, a5, a6⟩ := bossBullet_aim L g rel (hs rel hr)
    refine ⟨⟨rfl, rfl, rfl, ?_⟩, ⟨rfl, rfl, a1⟩, a2, ⟨?_, a3⟩, ⟨?_, a4, a5, a6⟩⟩
    · show g.boss.y + g.boss.size * 0.2 = _
      ring
    · show (bossAim g rel).2 / L.sqrtf ((bossAim g rel).1 * (bossAim g rel).1 +
        (bossAim g rel).2 * (bossAim g rel).2) * (EBULLET_SPEED * 1.05) = _
      ring
    · show (bossAim g rel).1 / L.sqrtf ((bossAim g rel).1 * (bossAim g rel).1 +
        (bossAim g rel).2 * (bossAim g rel).2) * (EBULLET_SPEED * 1.05) * 0.75 = _
      ring

set_option maxRecDepth 1000000 in
theorem boss_volley_witness :
    (fireBossVolley refLibm bossRound).eBullets.length = 3 ∧
    (fireBossVolley refLibm bossRound).eBullets.map (fun b => (b.x, b.y)) =
      [(5232 / 25, 746 / 5), (240, 746 / 5), (6768 / 25, 746 / 5)] ∧
    bossAim bossRound 0 = (0, 2454 / 5) ∧
    refLibm.sqrtf ((bossAim bossRound 0).1 * (bossAim bossRound 0).1 +
      (bossAim bossRound 0).2 * (bossAim bossRound 0).2) = 2454 / 5 ∧
    (bossBullet refLibm bossRound 0).vx = 0 ∧ (bossBullet refLibm bossRound 0).vy = 252 ∧
    0 < (bossBullet refLibm bossRound (-0.32)).vx ∧
    (bossBullet refLibm bossRound 0.32).vx < 0 :=
  have h := boss_volley refLibm bossRound (by decide!)
  ⟨h.2.1.trans (by decide!), by decide!, by decide!, by decide!,
    (h.2.2 0 (by decide!)).2.2.2.2.2.2.2 (by decide!), by decide!,
    (h.2.2 (-0.32) (by decide!)).2.2.2.2.2.1 (by decide!),
    (h.2.2 0.32 (by decide!)).2.2.2.2.2.2.1 (by decide!)⟩

/-! ## The types of the roster -/

theorem kinds_map (f : Enemy → Enemy) (hf : ∀ e, (f e).type = e.type) (es : List Enemy) :
    kinds (es.map f) = kinds es := by
  unfold kinds
  rw [List.map_map]
  apply List.map_congr_left
  intro e _
  exact hf e

theorem kinds_kill (pre post : List Enemy) (e e' : Enemy) (h : e'.type = e.type) :
    kinds (pre ++ e' :: post) = kinds (pre ++ e :: post) := by
  unfold kinds
  simp only [List.map_append, List.map_cons, h]

theorem kinds_set (es : List Enemy) (i : Nat) (a : Enemy)
    (h : ∀ e, es.get? i = some e → a.type = e.type) : kinds (es.set i a) = kinds es := by
  induction es generalizing i with
  | nil => rfl
  | cons e es ih =>
    cases i with
    | zero =>
      unfold kinds
      simp only [List.set_cons_zero, List.map_cons, h e rfl]
    | succ i =>
      have := ih i (fun x hx => h x hx)
      unfold kinds at this ⊢
      simp only [List.set_cons_succ, List.map_cons, this]

theorem kinds_length (es : List Enemy) : (kinds es).length = es.length := by
  unfold kinds
  rw [List.length_map]

theorem launchAt_kinds (i : Nat) (g : Game) :
    kinds (launchAt i g).enemies = kinds g.enemies := by
  rcases launchAt_enemies i g with h1 | ⟨e, he, h1⟩
  · rw [h1]
  · rw [h1]
    apply kinds_set
    intro x hx
    rw [he] at hx
    have : x = e := by simpa using hx.symm
    rw [this]
    exact (launchDive_launched g e).2.2.2.2

theorem foldl_launchAt_kinds (group : List Nat) (g : Game) :
    kinds (group.foldl (fun g i => launchAt i g) g).enemies = kinds g.enemies := by
  induction group generalizing g with
  | nil => rfl
  | cons i is ih =>
    simp only [List.foldl_cons]
    rw [ih, launchAt_kinds]

theorem startDive_kinds (L : Libm) (g : Game) :
    kinds (startDive L g).enemies = kinds g.enemies := by
  rcases startDive_group L g with h | ⟨group, g', h1, h2, -⟩
  · rw [h]
  · rw [h1, foldl_launchAt_kinds, h2]

theorem diveTimerStep_kinds (L : Libm) (dt : ℚ) (g : Game) :
    kinds (diveTimerStep L dt g).enemies = kinds g.enemies := by
  unfold diveTimerStep
  simp only
  split_ifs
  · show kinds (GetRandomValue 200 400 (startDive L _)).2.enemies = _
    rw [GetRandomValue_enemies]
    exact startDive_kinds L { g with diveTimer := g.diveTimer - dt }
  · rfl

theorem syncFormation_kinds (L : Libm) (g : Game) :
    kinds (syncFormation L g).enemies = kinds g.enemies := by
  unfold syncFormation
  apply kinds_map
  intro e
  unfold syncEnemy
  split_ifs <;> rfl

theorem updateDiving_type (L : Libm) (g : Game) (e : Enemy) (dt : ℚ) :
    (updateDiving L g e dt).1.type = e.type := by
  unfold updateDiving returnToFormation
  simp only
  split_ifs <;> rfl

theorem updateReturning_type (L : Libm) (g : Game) (e : Enemy) (dt : ℚ) :
    (updateReturning L g e dt).type = e.type := by
  unfold updateReturning
  simp only
  split_ifs <;> rfl

theorem updateDivers_kinds (L : Libm) (dt : ℚ) (es : List Enemy) (g : Game) :
    kinds (updateDivers L dt es g).1 = kinds es := by
  induction es generalizing g with
  | nil => rfl
  | cons e es ih =>
    simp only [updateDivers]
    have h := ih
    unfold kinds at h ⊢
    simp only [List.map_cons, h, List.cons.injEq, and_true]
    split_ifs
    · rfl
    · exact updateDiving_type L g e dt
    · exact updateReturning_type L g e dt
    · rfl

theorem diversStep_kinds (L : Libm) (dt : ℚ) (g : Game) :
    kinds (diversStep L dt g).enemies = kinds g.enemies :=
  updateDivers_kinds L dt g.enemies g

theorem collideBullets_kinds (L : Libm) (pbs : List Bullet) (g : Game) :
    kinds (collideBullets L pbs g).2.enemies = kinds g.enemies := by
  induction pbs generalizing g with
  | nil => rfl
  | cons pb pbs ih =>
    simp only [collideBullets]
    refine (ih _).trans ?_
    rcases collideBullet_roster L pb g with h | ⟨-, -, pre, e, post, e1, -, -, -, e5, -⟩
    · rw [h]
    · rw [e5, e1]
      exact kinds_kill pre post e _ rfl

theorem collisionStep_kinds (L : Libm) (g : Game) :
    kinds (collisionStep L g).enemies = kinds g.enemies :=
  collideBullets_kinds L g.pBullets g

theorem killPlayer_kinds (L : Libm) (g : Game) :
    kinds (killPlayer L g).enemies = kinds g.enemies := by
  unfold killPlayer
  split
  · rfl
  · simp only [spawnExplosion_enemies]
    apply kinds_map
    intro e
    split_ifs <;> rfl

theorem lethalChecks_kinds (L : Libm) (g : Game) :
    kinds (lethalChecks L g).1.enemies = kinds g.enemies := by
  unfold lethalChecks
  by_cases hi : (!g.player.invincible) = true
  · rw [if_pos hi]
    cases hb : hitByBullet g.player.hitbox g.eBullets with
    | some bs =>
      simp only
      exact killPlayer_kinds L { g with eBullets := bs }
    | none =>
      simp only
      cases hd : hitByDiver g.player.hitbox g.enemies with
      | some r =>
        obtain ⟨e, es⟩ := r
        simp only
        obtain ⟨-, -, pre, post, k3, k4⟩ := hitByDiver_some _ _ _ _ hd
        refine (killPlayer_kinds L _).trans ?_
        rw [spawnExplosion_enemies]
        show kinds es = kinds g.enemies
        rw [k3, k4]
        exact kinds_kill pre post e _ rfl
      | none =>
        simp only
        split_ifs
        · exact killPlayer_kinds L g
        · rfl
  · rw [if_neg hi]

theorem beforeDiveTimer_kinds (L : Libm) (inp : Input) (g : Game) :
    kinds (beforeDiveTimer L inp g).enemies = kinds g.enemies := by
  unfold beforeDiveTimer
  rw [syncFormation_kinds, beforeSync_enemies]

theorem beforeDivers_eq (L : Libm) (inp : Input) (g : Game) :
    beforeDivers L inp g = diveTimerStep L inp.dt (beforeDiveTimer L inp g) := rfl

/-- A call of `updatePlaying` keeps the types of the roster. -/
theorem updatePlaying_kinds (L : Libm) (inp : Input) (g : Game) :
    kinds (updatePlaying L inp g).enemies = kinds g.enemies := by
  have h0 : kinds (beforeDivers L inp g).enemies = kinds g.enemies := by
    rw [beforeDivers_eq, diveTimerStep_kinds, beforeDiveTimer_kinds]
  have h1 : kinds (playingFrame L inp g).enemies = kinds g.enemies := by
    rw [playingFrame_eq]
    show kinds (collisionStep L _).enemies = _
    rw [collisionStep_kinds]
    have hpw : ∀ s : Game, (powerUpStep inp.dt s).enemies = s.enemies :=
      fun s => (formCore_updatePowerUps inp.dt s.powerUps s).2
    rw [hpw]
    have hb : ∀ s : Game, (bossStep L inp.dt s).enemies = s.enemies := by
      intro s
      unfold bossStep
      split
      · exact updateBoss_enemies L inp.dt s
      · rfl
    rw [hb]
    show kinds (diversStep L inp.dt _).enemies = _
    rw [diversStep_kinds, h0]
  unfold updatePlaying
  have h2 := lethalChecks_kinds L (playingFrame L inp g)
  show kinds (if (lethalChecks L (playingFrame L inp g)).2 = true then
    (lethalChecks L (playingFrame L inp g)).1
    else checkStageClear (lethalChecks L (playingFrame L inp g)).1).enemies = _
  split_ifs
  · exact h2.trans h1
  · rw [(checkStageClear_rest _).2.1]
    exact h2.trans h1

/-- A frame that does not rebuild the formation keeps the types of the
roster. -/
theorem update_kinds (L : Libm) (inp : Input) (g : Game) (h : ¬ Rebuilds inp g) :
    kinds (update L inp g).enemies = kinds g.enemies := by
  obtain ⟨p1, p2, p3, p4, p5, p6, p7, p8, p9, p10, p11, p12, p13⟩ := preFrame_fields inp.dt g
  unfold Rebuilds at h
  rw [update_eq]
  generalize preFrame inp.dt g = p at *
  cases hs : g.state
  · -- ATTRACT
    simp only
    have hk : ¬ (inp.pressedEnter || inp.pressedSpace) = true := fun hk => h (Or.inl ⟨hs, hk⟩)
    unfold updateAttract
    rw [if_neg hk]
    simp only [blinkStep, updateFormationMotion, apply_ite Game.enemies, ite_self]
    rw [p3]
  · -- PLAYING
    simp only
    rw [← p3]
    exact updatePlaying_kinds L inp p
  · -- PLAYER_DEAD
    simp only
    simp only [updateDead, apply_ite Game.enemies, starsUpdate_enemies, ite_self]
    rw [p3]
  · -- GAME_OVER
    simp only
    simp only [updateGameOver, apply_ite Game.enemies, ite_self]
    rw [p3]
  · -- STAGE_CLEAR
    simp only
    have ht : ¬ p.stateTimer - inp.dt ≤ 0 := by
      rw [p13]
      exact fun ht => h (Or.inr ⟨hs, ht⟩)
    unfold updateClear
    simp only
    rw [if_neg ht]
    show kinds p.enemies = _
    rw [p3]

theorem regular_kinds : kinds ((List.range ROWS.toNat).flatMap buildRow) = regularKinds := by
  decide

theorem buildFormation_kinds (g : Game) :
    kinds (buildFormation g).enemies = if Int.tmod g.round 3 = 0 then [] else regularKinds := by
  simp only [buildFormation, apply_ite Game.enemies, apply_ite kinds, regular_kinds]
  rfl

/-- A frame that rebuilds the formation leaves the roster of a boss round
(empty) or of a regular round. -/
theorem update_rebuilds_kinds (L : Libm) (inp : Input) (g : Game) (h : Rebuilds inp g) :
    kinds (update L inp g).enemies = [] ∨ kinds (update L inp g).enemies = regularKinds := by
  obtain ⟨-, -, -, -, -, -, -, -, -, -, -, -, p13⟩ := preFrame_fields inp.dt g
  have key : ∀ s : Game, kinds (buildFormation s).enemies = [] ∨
      kinds (buildFormation s).enemies = regularKinds := by
    intro s
    rw [buildFormation_kinds]
    split_ifs
    · exact Or.inl rfl
    · exact Or.inr rfl
  rw [update_eq]
  rcases h with ⟨hs, hk⟩ | ⟨hs, ht⟩
  · rw [hs]
    simp only
    unfold updateAttract
    rw [if_pos hk]
    unfold init
    exact key _
  · rw [hs]
    simp only
    unfold updateClear
    simp only
    rw [p13, if_pos ht]
    exact key _

theorem rosterOk_of_kinds {g : Game} (h : kinds g.enemies = [] ∨ kinds g.enemies = regularKinds)
    (hr : 1 ≤ g.round) : RosterOk g := by
  have hl := kinds_length g.enemies
  rcases h with h | h
  · rw [h] at hl
    refine ⟨?_, ?_, hr⟩
    · rw [h]
      intro t ht
      exact absurd ht (List.not_mem_nil t)
    · rw [← hl]
      decide
  · rw [h] at hl
    refine ⟨?_, ?_, hr⟩
    · rw [h]
      decide
    · rw [← hl]
      decide

theorem rosterOk_start (rolls : List Nat) : RosterOk (Game.start rolls) := by
  have hc := coreInv_start rolls
  apply rosterOk_of_kinds _ hc.round
  unfold Game.start
  rw [buildFormation_kinds]
  have h : (starsInit { rng := rolls }).round = 1 := starsInit_round _
  rw [h]
  exact Or.inr rfl

theorem rosterOk_update (L : Libm) (inp : Input) (g : Game) (h : RosterOk g) :
    RosterOk (update L inp g) := by
  have hr : 1 ≤ (update L inp g).round := coreStep_round (update_coreStep L inp g) h.round
  by_cases hb : Rebuilds inp g
  · exact rosterOk_of_kinds (update_rebuilds_kinds L inp g hb) hr
  · have hk := update_kinds L inp g hb
    refine ⟨?_, ?_, hr⟩
    · rw [hk]
      exact h.types
    · rw [← kinds_length, hk, kinds_length]
      exact h.size

/-- Every reachable state has a roster of at most 26 enemies of the types
ZAKO_GREEN, ZAKO_BLUE and ESCORT. -/
theorem reachable_rosterOk (L : Libm) (g : Game) (h : Reachable L g) : RosterOk g := by
  induction h with
  | start rolls => exact rosterOk_start rolls
  | frame g inp _ _ ih => exact rosterOk_update L inp g ih

/-! ## The flagship branch -/

/-- Without a FLAGSHIP in the roster `startDive` finds no flagship and takes
the random branch. -/
theorem no_flagship_branch (s : Game) (h : ∀ t ∈ kinds s.enemies, t ≠ EnemyType.FLAGSHIP) :
    (diveCandidates s.enemies).find?
      (fun i => decide ((enemyAt s i).type = EnemyType.FLAGSHIP)) = none ∧
    flagshipBranch s = false := by
  have hf : (diveCandidates s.enemies).find?
      (fun i => decide ((enemyAt s i).type = EnemyType.FLAGSHIP)) = none := by
    rw [List.find?_eq_none]
    intro i hi
    obtain ⟨e, he, -, -⟩ := diveCandidates_get s.enemies i hi
    rw [enemyAt_of_get s i e he]
    have hm : e ∈ s.enemies := List.get?_mem he
    have hk : e.type ∈ kinds s.enemies := List.mem_map_of_mem _ hm
    simpa using h _ hk
  exact ⟨hf, (diveGroup_none refLibm s hf).2⟩

/-- In the random branch `startDive` changes at most two enemies. -/
theorem startDive_random_count (L : Libm) (g : Game) (hb : flagshipBranch g = false) :
    (changedAt g.enemies (startDive L g).enemies).length ≤ 2 := by
  by_cases hc : diveCandidates g.enemies = []
  · rw [startDive_no_candidate L g hc]
    have : changedAt g.enemies g.enemies = [] := by
      unfold changedAt
      rw [List.filter_eq_nil_iff]
      intro j _
      simp
    rw [this]
    exact Nat.zero_le _
  · obtain ⟨-, hmem⟩ := startDive_changed L g hc
    obtain ⟨-, -, -, -, d5⟩ := diveGroup_spec L g
    have hsub : changedAt g.enemies (startDive L g).enemies ⊆ (diveGroup L g).1 :=
      fun j hj => (hmem j).mp hj
    exact le_trans (List.subperm_of_subset (changedAt_nodup _ _) hsub).length_le (d5 hb)

theorem diveCall_kinds (L : Libm) (inp : Input) (g : Game) :
    kinds (diveCall L inp g).enemies = kinds g.enemies := by
  show kinds (beforeDiveTimer L inp (preFrame inp.dt g)).enemies = _
  rw [beforeDiveTimer_kinds, (preFrame_fields inp.dt g).2.2.1]

/-- The dive timer step is the emptiness-guarded call of `startDive` on the
session `diveCall`, and `updatePlaying` runs it there. -/
theorem diveTimerStep_call (L : Libm) (inp : Input) (g : Game) :
    beforeDivers L inp (preFrame inp.dt g) =
      (if (diveCall L inp g).diveTimer ≤ 0 ∧ (diveCall L inp g).boss.active = false then
        { (GetRandomValue 200 400 (startDive L (diveCall L inp g))).2 with
          diveTimer := ((GetRandomValue 200 400 (startDive L (diveCall L inp g))).1 : ℚ) / 100 /
            speedFactor (GetRandomValue 200 400 (startDive L (diveCall L inp g))).2 }
      else diveCall L inp g) := by
  rw [beforeDivers_eq]
  unfold diveTimerStep diveCall
  rfl

theorem kinds_mem {es : List Enemy} {e : Enemy} (h : e ∈ es) : e.type ∈ kinds es :=
  List.mem_map_of_mem _ h

/-- C37. The Flagship dive group never forms.  `buildFormation` gives every
enemy the type `rowType[row]`: ZAKO_GREEN in rows 0 and 1, ZAKO_BLUE in row 2,
ESCORT in row 3, so its roster has the types `regularKinds` (or is empty in a
boss round); a frame that does not rebuild the formation leaves the types of
the roster as they are.  So in every reachable state every enemy is a
ZAKO_GREEN, a ZAKO_BLUE or an ESCORT, none a FLAGSHIP or a ZAKO_BLUE2.
Consequently the call of `startDive` in a frame from a reachable state (on
the session `diveCall`) finds no flagship, takes the random branch and changes
at most 2 enemies; so does every call on a roster without a FLAGSHIP. -/
theorem flagship_group_never_forms (L : Libm) (inp : Input) (g : Game) (hr : Reachable L g) :
    ((∀ (r : Nat) (c : Int), (newEnemy r c).type = rowType r) ∧
      rowType 0 = EnemyType.ZAKO_GREEN ∧ rowType 1 = EnemyType.ZAKO_GREEN ∧
      rowType 2 = EnemyType.ZAKO_BLUE ∧ rowType 3 = EnemyType.ESCORT) ∧
    (∀ s : Game, kinds (buildFormation s).enemies =
      if Int.tmod s.round 3 = 0 then [] else regularKinds) ∧
    (¬ Rebuilds inp g → kinds (update L inp g).enemies = kinds g.enemies) ∧
    (∀ e ∈ g.enemies,
      (e.type = EnemyType.ZAKO_GREEN ∨ e.type = EnemyType.ZAKO_BLUE ∨
        e.type = EnemyType.ESCORT) ∧
      e.type ≠ EnemyType.FLAGSHIP ∧ e.type ≠ EnemyType.ZAKO_BLUE2) ∧
    (beforeDivers L inp (preFrame inp.dt g) = diveTimerStep L inp.dt
        (beforeDiveTimer L inp (preFrame inp.dt g)) ∧
      (diveCandidates (diveCall L inp g).enemies).find?
        (fun i => decide ((enemyAt (diveCall L inp g) i).type = EnemyType.FLAGSHIP)) = none ∧
      flagshipBranch (diveCall L inp g) = false ∧
      (changedAt (diveCall L inp g).enemies
        (startDive L (diveCall L inp g)).enemies).length ≤ 2) ∧
    (∀ s : Game, (∀ e ∈ s.enemies, e.type ≠ EnemyType.FLAGSHIP) →
      flagshipBranch s = false ∧
      (changedAt s.enemies (startDive L s).enemies).length ≤ 2) := by
  have hro := reachable_rosterOk L g hr
  have hno : ∀ t ∈ kinds g.enemies, t ≠ EnemyType.FLAGSHIP := by
    intro t ht
    rcases hro.types t ht with h | h | h <;> rw [h] <;> decide
  refine ⟨⟨fun _ _ => rfl, rfl, rfl, rfl, rfl⟩, buildFormation_kinds, update_kinds L inp g, ?_,
    ?_, ?_⟩
  · intro e he
    have ht := hro.types e.type (kinds_mem he)
    refine ⟨ht, ?_, ?_⟩
    · rcases ht with h | h | h <;> rw [h] <;> decide
    · rcases ht with h | h | h <;> rw [h] <;> decide
  · have hk : ∀ t ∈ kinds (diveCall L inp g).enemies, t ≠ EnemyType.FLAGSHIP := by
      rw [diveCall_kinds]
      exact hno
    obtain ⟨n1, n2⟩ := no_flagship_branch _ hk
    exact ⟨rfl, n1, n2, startDive_random_count L _ n2⟩
  · intro s hs
    have hk : ∀ t ∈ kinds s.enemies, t ≠ EnemyType.FLAGSHIP := by
      intro t ht
      obtain ⟨e, he, rfl⟩ := List.mem_map.mp ht
      exact hs e he
    obtain ⟨-, n2⟩ := no_flagship_branch _ hk
    exact ⟨n2, startDive_random_count L _ n2⟩

set_option maxRecDepth 1000000 in
theorem flagship_group_never_forms_witness :
    Reachable refLibm newGame ∧ newGame.state = GameState.PLAYING ∧
    kinds newGame.enemies = regularKinds ∧
    flagshipBranch (diveCall refLibm { dt := 3 } newGame) = false ∧
    (diveCall refLibm { dt := 3 } newGame).diveTimer = 0 ∧
    (changedAt (diveCall refLibm { dt := 3 } newGame).enemies
      (startDive refLibm (diveCall refLibm { dt := 3 } newGame)).enemies).length ≤ 2 :=
  have h := flagship_group_never_forms refLibm { dt := 3 } newGame newGame_reachable
  ⟨newGame_reachable, by decide!, by decide!, h.2.2.2.2.1.2.2.1, by decide!,
    h.2.2.2.2.1.2.2.2⟩

/-! ## The dive countdown -/

theorem aliveCount_le (g : Game) : aliveCount g ≤ (g.enemies.length : Int) := by
  unfold aliveCount
  exact_mod_cast List.length_filter_le _ _

/-- With at most 26 enemies and from round 1 on the speed factor is at least
1. -/
theorem speedFactor_ge_one (g : Game) (hr : 1 ≤ g.round) (hs : g.enemies.length ≤ 26) :
    1 ≤ speedFactor g := by
  have ha := aliveCount_le g
  have hk : (0 : ℚ) ≤ ((26 - aliveCount g : Int) : ℚ) := by
    have : (0 : Int) ≤ 26 - aliveCount g := by omega
    exact_mod_cast this
  have hq : (0 : ℚ) ≤ ((g.round - 1 : Int) : ℚ) := by
    have : (0 : Int) ≤ g.round - 1 := by omega
    exact_mod_cast this
  unfold speedFactor
  simp only
  nlinarith

theorem speedFactor_congr (g g' : Game) (he : g'.enemies = g.enemies) (hr : g'.round = g.round) :
    speedFactor g' = speedFactor g := by
  unfold speedFactor aliveCount
  rw [he, hr]

theorem speedFactor_formula (g : Game) :
    speedFactor g =
      1 + 0.008 * ((26 - aliveCount g : Int) : ℚ) + 0.1 * ((g.round - 1 : Int) : ℚ) := by
  unfold speedFactor
  simp only
  ring

/-- The session at the dive timer has the dive timer, the boss, the round and
the number of enemies of the state the frame started from. -/
theorem beforeDiveTimer_fields (L : Libm) (inp : Input) (g : Game) :
    (beforeDiveTimer L inp g).diveTimer = g.diveTimer ∧
    (beforeDiveTimer L inp g).boss = g.boss ∧
    (beforeDiveTimer L inp g).round = g.round ∧
    (beforeDiveTimer L inp g).enemies.length = g.enemies.length := by
  have h1 : ∀ s : Game, (updateFormationMotion L inp.dt s).diveTimer = s.diveTimer ∧
      (updateFormationMotion L inp.dt s).boss = s.boss ∧
      (updateFormationMotion L inp.dt s).round = s.round := by
    intro s
    simp only [updateFormationMotion, apply_ite Game.diveTimer, apply_ite Game.boss,
      apply_ite Game.round, ite_self, and_self]
  have h2 : ∀ s : Game, (playerShoot inp s).diveTimer = s.diveTimer ∧
      (playerShoot inp s).boss = s.boss ∧ (playerShoot inp s).round = s.round := by
    intro s
    simp only [playerShoot, firePlayerShot, apply_ite Game.diveTimer, apply_ite Game.boss,
      apply_ite Game.round, ite_self, and_self]
  have h3 : ∀ s : Game, (movePlayer inp s).diveTimer = s.diveTimer ∧
      (movePlayer inp s).boss = s.boss ∧ (movePlayer inp s).round = s.round := by
    intro s
    simp only [movePlayer, apply_ite Game.diveTimer, apply_ite Game.boss,
      apply_ite Game.round, ite_self, and_self]
  have h4 : ∀ s : Game, (tickTimers inp.dt s).diveTimer = s.diveTimer ∧
      (tickTimers inp.dt s).boss = s.boss ∧ (tickTimers inp.dt s).round = s.round := by
    intro s
    simp only [tickTimers, apply_ite Game.diveTimer, apply_ite Game.boss,
      apply_ite Game.round, ite_self, and_self]
  have hl : (beforeDiveTimer L inp g).enemies.length = g.enemies.length := by
    rw [← kinds_length, beforeDiveTimer_kinds, kinds_length]
  refine ⟨?_, ?_, ?_, hl⟩
  · show (updateFormationMotion L inp.dt _).diveTimer = _
    rw [(h1 _).1]
    show (playerShoot inp _).diveTimer = _
    rw [(h2 _).1, (h3 _).1, (h4 _).1]
  · show (updateFormationMotion L inp.dt _).boss = _
    rw [(h1 _).2.1]
    show (playerShoot inp _).boss = _
    rw [(h2 _).2.1, (h3 _).2.1, (h4 _).2.1]
  · show (updateFormationMotion L inp.dt _).round = _
    rw [(h1 _).2.2]
    show (playerShoot inp _).round = _
    rw [(h2 _).2.2, (h3 _).2.2, (h4 _).2.2]

theorem diveCall_fields (L : Libm) (inp : Input) (g : Game) :
    (diveCall L inp g).diveTimer = g.diveTimer - inp.dt ∧
    (diveCall L inp g).boss = g.boss ∧
    (diveCall L inp g).round = g.round ∧
    (diveCall L inp g).enemies.length = g.enemies.length := by
  obtain ⟨b1, b2, b3, b4⟩ := beforeDiveTimer_fields L inp (preFrame inp.dt g)
  obtain ⟨-, -, p3, -, -, -, p7, -, -, p10, -, p12, -⟩ := preFrame_fields inp.dt g
  have pd : (preFrame inp.dt g).diveTimer = g.diveTimer := by
    unfold preFrame
    rw [updateParticles_diveTimer, starsUpdate_diveTimer]
  refine ⟨?_, ?_, ?_, ?_⟩
  · show (beforeDiveTimer L inp (preFrame inp.dt g)).diveTimer - inp.dt = _
    rw [b1, pd]
  · exact b2.trans p7
  · exact b3.trans p10
  · show (beforeDiveTimer L inp (preFrame inp.dt g)).enemies.length = _
    rw [b4, p3]

theorem updateDiving_diveTimer (L : Libm) (g : Game) (e : Enemy) (dt : ℚ) :
    (updateDiving L g e dt).2.diveTimer = g.diveTimer := by
  unfold updateDiving
  simp only
  split_ifs <;> rfl

theorem updateDivers_diveTimer (L : Libm) (dt : ℚ) (es : List Enemy) (g : Game) :
    (updateDivers L dt es g).2.diveTimer = g.diveTimer := by
  induction es generalizing g with
  | nil => rfl
  | cons e es ih =>
    simp only [updateDivers]
    rw [ih]
    split_ifs <;> first | rfl | exact updateDiving_diveTimer L g e dt

theorem fireBossBullets_diveTimer (L : Libm) (rels : List ℚ) (g : Game) :
    (fireBossBullets L rels g).diveTimer = g.diveTimer := by
  rw [fireBossBullets_eq]

theorem updateBoss_diveTimer (L : Libm) (dt : ℚ) (g : Game) :
    (updateBoss L dt g).diveTimer = g.diveTimer := by
  unfold updateBoss
  simp only [fireBossVolley]
  split_ifs <;> rfl

theorem updatePowerUps_diveTimer (dt : ℚ) (ps : List PowerUp) (g : Game) :
    (updatePowerUps dt ps g).2.diveTimer = g.diveTimer := by
  induction ps generalizing g with
  | nil => rfl
  | cons p ps ih =>
    simp only [updatePowerUps]
    rw [ih]
    have ha : ∀ t : PowerUpType, (applyPowerUp t g).diveTimer = g.diveTimer := by
      intro t
      cases t <;> rfl
    split_ifs <;> first | rfl | exact ha _

theorem hitBoss_diveTimer (L : Libm) (pb : Bullet) (g : Game) :
    (hitBoss L pb g).diveTimer = g.diveTimer := by
  simp only [hitBoss, addScore, spawnExplosion_boss, spawnExplosion_diveTimer,
    spawnPowerUp_diveTimer, apply_ite Game.diveTimer, ite_self]

theorem killEnemy_diveTimer (L : Libm) (e : Enemy) (es : List Enemy) (g : Game) :
    (killEnemy L e es g).diveTimer = g.diveTimer := by
  simp only [killEnemy, addScore, spawnExplosion_diveTimer, spawnPowerUp_diveTimer]

theorem collideBullet_diveTimer (L : Libm) (pb : Bullet) (g : Game) :
    (collideBullet L pb g).2.diveTimer = g.diveTimer := by
  unfold collideBullet
  simp only
  split_ifs
  · rfl
  · exact hitBoss_diveTimer L pb g
  · split
    · rfl
    · exact killEnemy_diveTimer L _ _ g

theorem collideBullets_diveTimer (L : Libm) (pbs : List Bullet) (g : Game) :
    (collideBullets L pbs g).2.diveTimer = g.diveTimer := by
  induction pbs generalizing g with
  | nil => rfl
  | cons pb pbs ih =>
    simp only [collideBullets]
    rw [ih, collideBullet_diveTimer]

theorem killPlayer_diveTimer (L : Libm) (g : Game) :
    (killPlayer L g).diveTimer = g.diveTimer := by
  unfold killPlayer
  split
  · rfl
  · simp only [spawnExplosion_diveTimer]

theorem lethalChecks_diveTimer (L : Libm) (g : Game) :
    (lethalChecks L g).1.diveTimer = g.diveTimer := by
  unfold lethalChecks
  by_cases hi : (!g.player.invincible) = true
  · rw [if_pos hi]
    cases hb : hitByBullet g.player.hitbox g.eBullets with
    | some bs =>
      simp only
      exact killPlayer_diveTimer L { g with eBullets := bs }
    | none =>
      simp only
      cases hd : hitByDiver g.player.hitbox g.enemies with
      | some r =>
        obtain ⟨e, es⟩ := r
        simp only
        rw [killPlayer_diveTimer, spawnExplosion_diveTimer]
      | none =>
        simp only
        split_ifs
        · exact killPlayer_diveTimer L g
        · rfl
  · rw [if_neg hi]

/-- After the dive timer statement `updatePlaying` leaves `diveTimer` alone. -/
theorem updatePlaying_diveTimer (L : Libm) (inp : Input) (g : Game) :
    (updatePlaying L inp g).diveTimer = (beforeDivers L inp g).diveTimer := by
  have h1 : (playingFrame L inp g).diveTimer = (beforeDivers L inp g).diveTimer := by
    rw [playingFrame_eq]
    show (collisionStep L _).diveTimer = _
    unfold collisionStep
    simp only
    rw [collideBullets_diveTimer]
    unfold powerUpStep
    simp only
    rw [updatePowerUps_diveTimer]
    have hb : ∀ s : Game, (bossStep L inp.dt s).diveTimer = s.diveTimer := by
      intro s
      unfold bossStep
      split
      · exact updateBoss_diveTimer L inp.dt s
      · rfl
    rw [hb]
    show (diversStep L inp.dt _).diveTimer = _
    unfold diversStep
    simp only
    rw [updateDivers_diveTimer]
  have hc : ∀ s : Game, (checkStageClear s).diveTimer = s.diveTimer := by
    intro s
    unfold checkStageClear
    split <;> rfl
  unfold updatePlaying
  generalize playingFrame L inp g = s at h1 ⊢
  have h2 : (if (lethalChecks L s).2 = true then (lethalChecks L s).1
      else checkStageClear (lethalChecks L s).1).diveTimer = s.diveTimer := by
    split_ifs
    · exact lethalChecks_diveTimer L s
    · rw [hc, lethalChecks_diveTimer]
  exact h2.trans h1

/-- A roll of 200..400 hundredths, divided by a speed factor of at least 1,
lies in (0, 4]. -/
theorem reroll_bounds (r : Int) (sf : ℚ) (h1 : 200 ≤ r) (h2 : r ≤ 400) (hs : 1 ≤ sf) :
    0 < (r : ℚ) / 100 / sf ∧ (r : ℚ) / 100 / sf ≤ 4 := by
  have hr1 : (200 : ℚ) ≤ (r : ℚ) := by exact_mod_cast h1
  have hr2 : (r : ℚ) ≤ 400 := by exact_mod_cast h2
  have hp : (0 : ℚ) < sf := by linarith
  have hq : (0 : ℚ) < (r : ℚ) / 100 := by
    apply div_pos
    · linarith
    · norm_num
  refine ⟨div_pos hq hp, ?_⟩
  rw [div_le_iff₀ hp]
  have : (r : ℚ) / 100 ≤ 4 := by
    rw [div_le_iff₀ (by norm_num)]
    linarith
  nlinarith

/-- C33. The dive countdown re-roll is well defined and bounded.  In every
reachable state `speedFactor() = 1 + 0.008 * (26 - aliveCount) +
0.1 * (round - 1)` is at least 1.  In a frame from a reachable state in
PLAYING, the dive timer statement runs on the session `diveCall`, whose
`diveTimer` is the old one lowered by `dt` and whose boss is the old one.  If
that `diveTimer` is 0 or less and no boss is active, `startDive` is called and
the countdown is re-rolled: with the roll `r` of `GetRandomValue(200, 400)`
and the speed factor `sf >= 1` of the session after `startDive`, the new
`diveTimer` is `(r / 100) / sf`, which lies in (0, 4], and it is the
`diveTimer` at the end of the `update` call.  Otherwise no dive is started
and nothing is rolled: the session after the statement is `diveCall`, and the
`diveTimer` at the end of the call is the old one lowered by `dt`. -/
theorem dive_countdown_reroll (L : Libm) (inp : Input) (g : Game) (hr : Reachable L g) :
    (1 ≤ speedFactor g ∧
      speedFactor g =
        1 + 0.008 * ((26 - aliveCount g : Int) : ℚ) + 0.1 * ((g.round - 1 : Int) : ℚ)) ∧
    ((diveCall L inp g).diveTimer = g.diveTimer - inp.dt ∧
      (diveCall L inp g).boss.active = g.boss.active ∧
      beforeDivers L inp (preFrame inp.dt g) =
        diveTimerStep L inp.dt (beforeDiveTimer L inp (preFrame inp.dt g))) ∧
    (g.state = GameState.PLAYING → g.diveTimer - inp.dt ≤ 0 → g.boss.active = false →
      ∃ (r : Int) (sf : ℚ), 200 ≤ r ∧ r ≤ 400 ∧
        r = (GetRandomValue 200 400 (startDive L (diveCall L inp g))).1 ∧
        sf = speedFactor (startDive L (diveCall L inp g)) ∧ 1 ≤ sf ∧
        (beforeDivers L inp (preFrame inp.dt g)).diveTimer = (r : ℚ) / 100 / sf ∧
        (beforeDivers L inp (preFrame inp.dt g)).enemies =
          (startDive L (diveCall L inp g)).enemies ∧
        (update L inp g).diveTimer = (r : ℚ) / 100 / sf ∧
        0 < (update L inp g).diveTimer ∧ (update L inp g).diveTimer ≤ 4) ∧
    (g.state = GameState.PLAYING → ¬ (g.diveTimer - inp.dt ≤ 0 ∧ g.boss.active = false) →
      beforeDivers L inp (preFrame inp.dt g) = diveCall L inp g ∧
      (update L inp g).diveTimer = g.diveTimer - inp.dt) := by
  have hro := reachable_rosterOk L g hr
  obtain ⟨d1, d2, d3, d4⟩ := diveCall_fields L inp g
  have hcall := diveTimerStep_call L inp g
  have hupd : g.state = GameState.PLAYING →
      (update L inp g).diveTimer = (beforeDivers L inp (preFrame inp.dt g)).diveTimer := by
    intro hs
    rw [(stat_update L inp g).2.1 hs]
    exact updatePlaying_diveTimer L inp _
  refine ⟨⟨speedFactor_ge_one g hro.round hro.size, speedFactor_formula g⟩,
    ⟨d1, congrArg Boss.active d2, rfl⟩, ?_, ?_⟩
  · intro hs ht hb
    have hc : (diveCall L inp g).diveTimer ≤ 0 ∧ (diveCall L inp g).boss.active = false := by
      rw [d1, d2]
      exact ⟨ht, hb⟩
    rw [if_pos hc] at hcall
    obtain ⟨r1, r2⟩ := GetRandomValue_range 200 400 (startDive L (diveCall L inp g)) (by decide)
    have hsf : speedFactor (GetRandomValue 200 400 (startDive L (diveCall L inp g))).2 =
        speedFactor (startDive L (diveCall L inp g)) :=
      speedFactor_congr _ _ (GetRandomValue_enemies _ _ _) (GetRandomValue_round _ _ _)
    have hround : (startDive L (diveCall L inp g)).round = g.round :=
      (congrArg Core.round (core_startDive L (diveCall L inp g))).trans d3
    have hlen : (startDive L (diveCall L inp g)).enemies.length = g.enemies.length := by
      rw [← kinds_length, startDive_kinds, kinds_length, d4]
    have hge : 1 ≤ speedFactor (startDive L (diveCall L inp g)) :=
      speedFactor_ge_one _ (by rw [hround]; exact hro.round) (by rw [hlen]; exact hro.size)
    have hdt : (beforeDivers L inp (preFrame inp.dt g)).diveTimer =
        ((GetRandomValue 200 400 (startDive L (diveCall L inp g))).1 : ℚ) / 100 /
          speedFactor (startDive L (diveCall L inp g)) := by
      rw [hcall, ← hsf]
    have hen : (beforeDivers L inp (preFrame inp.dt g)).enemies =
        (startDive L (diveCall L inp g)).enemies := by
      rw [hcall]
      exact GetRandomValue_enemies _ _ _
    obtain ⟨b1, b2⟩ := reroll_bounds _ _ r1 r2 hge
    have hu := (hupd hs).trans hdt
    refine ⟨_, _, r1, r2, rfl, rfl, hge, hdt, hen, hu, ?_, ?_⟩
    · rw [hu]
      exact b1
    · rw [hu]
      exact b2
  · intro hs hn
    have hc : ¬ ((diveCall L inp g).diveTimer ≤ 0 ∧ (diveCall L inp g).boss.active = false) := by
      rw [d1, d2]
      exact hn
    rw [if_neg hc] at hcall
    refine ⟨hcall, ?_⟩
    rw [hupd hs, hcall, d1]

set_option maxRecDepth 1000000 in
theorem dive_countdown_reroll_witness :
    Reachable refLibm newGame ∧ newGame.state = GameState.PLAYING ∧
    newGame.diveTimer = 3 ∧ newGame.boss.active = false ∧ speedFactor newGame = 1 ∧
    (GetRandomValue 200 400 (startDive refLibm (diveCall refLibm { dt := 3 } newGame))).1 =
      390 ∧
    (update refLibm { dt := 3 } newGame).diveTimer = 39 / 10 ∧
    0 < (update refLibm { dt := 3 } newGame).diveTimer ∧
    (update refLibm { dt := 3 } newGame).diveTimer ≤ 4 ∧
    (update refLibm { dt := 1 } newGame).diveTimer = 2 :=
  have h := dive_countdown_reroll refLibm { dt := 3 } newGame newGame_reachable
  have h' := dive_countdown_reroll refLibm { dt := 1 } newGame newGame_reachable
  have hx := h.2.2.1 (by decide!) (by decide!) (by decide!)
  ⟨newGame_reachable, by decide!, by decide!, by decide!, by decide!, by decide!, by decide!,
    hx.choose_spec.choose_spec.2.2.2.2.2.2.2.2.1, hx.choose_spec.choose_spec.2.2.2.2.2.2.2.2.2,
    ((h'.2.2.2 (by decide!) (by decide!)).2).trans (by decide!)⟩

/-! # The sprite tool -/

theorem kPalette_valid : ∀ c ∈ kPalette, c.valid := by decide

theorem kPalette_length : kPalette.length = 32 := rfl

theorem sq_le_of_channels (a b : Nat) (ha : a ≤ 255) (hb : b ≤ 255) :
    0 ≤ ((a : Int) - (b : Int)) * ((a : Int) - (b : Int)) ∧
    ((a : Int) - (b : Int)) * ((a : Int) - (b : Int)) ≤ 65025 := by
  have h1 : (-255 : Int) ≤ (a : Int) - (b : Int) := by omega
  have h2 : (a : Int) - (b : Int) ≤ 255 := by omega
  constructor
  · exact mul_self_nonneg _
  · nlinarith

/-- The squared distance of two colours with `unsigned char` channels lies in
`0 .. 3 * 255 * 255`, well inside the `int` range. -/
theorem sqDist_bounds (p q : Color) (hp : p.valid) (hq : q.valid) :
    0 ≤ sqDist p q ∧ sqDist p q ≤ 195075 ∧ sqDist p q < INT_MAX := by
  obtain ⟨p1, p2, p3, -⟩ := hp
  obtain ⟨q1, q2, q3, -⟩ := hq
  obtain ⟨a1, a2⟩ := sq_le_of_channels p.r q.r p1 q1
  obtain ⟨b1, b2⟩ := sq_le_of_channels p.g q.g p2 q2
  obtain ⟨c1, c2⟩ := sq_le_of_channels p.b q.b p3 q3
  unfold sqDist INT_MAX
  simp only
  refine ⟨by omega, by omega, by omega⟩

theorem kPalette_getD_valid (i : Nat) : (kPalette.getD i {}).valid := by
  by_cases h : i < kPalette.length
  · rw [List.getD_eq_getElem _ _ h]
    exact kPalette_valid _ (List.getElem_mem h)
  · rw [List.getD_eq_default _ _ (not_lt.mp h)]
    decide

/-- The loop of `nearestPaletteIndex` over increasing indices at or above
`bestIdx`: the distance it ends with is the least of `bestDist` and the
distances of the indices; the index is the old one exactly when none was
strictly nearer, and otherwise the first index of least distance. -/
theorem paletteLoop_spec (px : Color) (l : List Nat) (b : Nat) (d : Int)
    (hs : l.Pairwise (fun x y => x < y)) (hb : ∀ j ∈ l, b ≤ j) :
    (paletteLoop px l (b, d)).2 ≤ d ∧
    (∀ j ∈ l, (paletteLoop px l (b, d)).2 ≤ sqDist px (kPalette.getD j {})) ∧
    (paletteLoop px l (b, d) = (b, d) ∨
      ((paletteLoop px l (b, d)).1 ∈ l ∧
        (paletteLoop px l (b, d)).2 =
          sqDist px (kPalette.getD (paletteLoop px l (b, d)).1 {}) ∧
        (paletteLoop px l (b, d)).2 < d)) ∧
    (∀ j ∈ l, sqDist px (kPalette.getD j {}) = (paletteLoop px l (b, d)).2 →
      (paletteLoop px l (b, d)).1 ≤ j) := by
  induction l generalizing b d with
  | nil =>
    refine ⟨le_refl _, fun j hj => absurd hj (List.not_mem_nil j), Or.inl rfl,
      fun j hj => absurd hj (List.not_mem_nil j)⟩
  | cons i is ih =>
    obtain ⟨hi, his⟩ := List.pairwise_cons.mp hs
    by_cases hc : sqDist px (kPalette.getD i {}) < d
    · have he : paletteLoop px (i :: is) (b, d) =
          paletteLoop px is (i, sqDist px (kPalette.getD i {})) := by
        simp only [paletteLoop, hc, if_true]
      rw [he]
      obtain ⟨k1, k2, k3, k4⟩ := ih i (sqDist px (kPalette.getD i {})) his
        (fun j hj => le_of_lt (hi j hj))
      generalize paletteLoop px is (i, sqDist px (kPalette.getD i {})) = r at k1 k2 k3 k4 ⊢
      refine ⟨le_of_lt (lt_of_le_of_lt k1 hc), ?_, Or.inr ?_, ?_⟩
      · intro j hj
        rcases List.mem_cons.mp hj with h | h
        · rw [h]
          exact k1
        · exact k2 j h
      · rcases k3 with h | ⟨h1, h2, h3⟩
        · rw [h]
          exact ⟨List.mem_cons_self _ _, rfl, hc⟩
        · exact ⟨List.mem_cons_of_mem _ h1, h2, lt_trans h3 hc⟩
      · intro j hj hd
        rcases List.mem_cons.mp hj with h | h
        · rcases k3 with h' | ⟨-, -, h3⟩
          · rw [h', h]
          · rw [h] at hd
            rw [hd] at h3
            exact absurd h3 (lt_irrefl _)
        · exact k4 j h hd
    · have he : paletteLoop px (i :: is) (b, d) = paletteLoop px is (b, d) := by
        simp only [paletteLoop, hc, if_false]
      rw [he]
      obtain ⟨k1, k2, k3, k4⟩ := ih b d his (fun j hj => hb j (List.mem_cons_of_mem _ hj))
      generalize paletteLoop px is (b, d) = r at k1 k2 k3 k4 ⊢
      have hle : d ≤ sqDist px (kPalette.getD i {}) := not_lt.mp hc
      refine ⟨k1, ?_, ?_, ?_⟩
      · intro j hj
        rcases List.mem_cons.mp hj with h | h
        · rw [h]
          exact le_trans k1 hle
        · exact k2 j h
      · rcases k3 with h | ⟨h1, h2, h3⟩
        · exact Or.inl h
        · exact Or.inr ⟨List.mem_cons_of_mem _ h1, h2, h3⟩
      · intro j hj hd
        rcases List.mem_cons.mp hj with h | h
        · rcases k3 with h' | ⟨-, -, h3⟩
          · rw [h', h]
            exact hb i (List.mem_cons_self _ _)
          · rw [h] at hd
            rw [← hd] at h3
            exact absurd (lt_of_lt_of_le h3 hle) (lt_irrefl _)
        · exact k4 j h hd

/-- The index the palette loop of `nearestPaletteIndex` returns: in 1..31, of
least distance, the smallest such index. -/
theorem paletteLoop_nearest (px : Color) (hp : px.valid) :
    1 ≤ (paletteLoop px (List.range' 1 (kPalette.length - 1)) (1, INT_MAX)).1 ∧
    (paletteLoop px (List.range' 1 (kPalette.length - 1)) (1, INT_MAX)).1 ≤ 31 ∧
    (∀ j, 1 ≤ j → j ≤ 31 →
      sqDist px (kPalette.getD
          (paletteLoop px (List.range' 1 (kPalette.length - 1)) (1, INT_MAX)).1 {}) ≤
        sqDist px (kPalette.getD j {})) ∧
    (∀ j, 1 ≤ j → j ≤ 31 →
      sqDist px (kPalette.getD j {}) =
        sqDist px (kPalette.getD
          (paletteLoop px (List.range' 1 (kPalette.length - 1)) (1, INT_MAX)).1 {}) →
      (paletteLoop px (List.range' 1 (kPalette.length - 1)) (1, INT_MAX)).1 ≤ j) := by
  have hl : kPalette.length - 1 = 31 := rfl
  rw [hl]
  have hmem : ∀ j, j ∈ List.range' 1 31 ↔ 1 ≤ j ∧ j ≤ 31 := by
    intro j
    rw [List.mem_range'_1]
    omega
  have hs : (List.range' 1 31).Pairwise (fun x y => x < y) := List.pairwise_lt_range' 1 31
  obtain ⟨k1, k2, k3, k4⟩ := paletteLoop_spec px (List.range' 1 31) 1 INT_MAX hs
    (fun j hj => ((hmem j).mp hj).1)
  have h1 : (paletteLoop px (List.range' 1 31) (1, INT_MAX)).2 < INT_MAX :=
    lt_of_le_of_lt (k2 1 ((hmem 1).mpr ⟨le_refl _, by decide⟩))
      (sqDist_bounds px _ hp (kPalette_getD_valid 1)).2.2
  generalize paletteLoop px (List.range' 1 31) (1, INT_MAX) = r at k1 k2 k3 k4 h1 ⊢
  rcases k3 with h | ⟨m1, m2, -⟩
  · rw [h] at h1
    exact absurd h1 (lt_irrefl _)
  · obtain ⟨r1, r2⟩ := (hmem r.1).mp m1
    refine ⟨r1, r2, ?_, ?_⟩
    · intro j j1 j2
      rw [← m2]
      exact k2 j ((hmem j).mpr ⟨j1, j2⟩)
    · intro j j1 j2 hd
      rw [← m2] at hd
      exact k4 j ((hmem j).mpr ⟨j1, j2⟩) hd

/-- C40. Palette quantisation in the sprite tool.  For every pixel (channels
0..255) and options: `isVisiblePixel` is false exactly when the alpha is below
the threshold, or the colour key is enabled and the squared RGB distance to
the key is at most the tolerance squared; `nearestPaletteIndex` returns 0
exactly when `isVisiblePixel` is false; otherwise it returns the index `i` in
1..31 whose palette colour has the least squared RGB distance to the pixel,
the smallest such `i` on ties.  The result is always a valid index 0..31 of
the 32-colour palette.  The distances to the palette colours stay far inside
the `int` range, and so do the distance to the colour key and the squared
tolerance for options in the ranges the argument parser enforces. -/
theorem palette_quantisation (px : Color) (opt : Options) (hp : px.valid) :
    (isVisiblePixel px opt = false ↔
      ((px.a : Int) < opt.alphaThreshold ∨
        (opt.useColorKey = true ∧
          sqDist px opt.colorKey ≤ opt.colorKeyTolerance * opt.colorKeyTolerance))) ∧
    (nearestPaletteIndex px opt = 0 ↔ isVisiblePixel px opt = false) ∧
    (isVisiblePixel px opt = true →
      1 ≤ nearestPaletteIndex px opt ∧ nearestPaletteIndex px opt ≤ 31 ∧
      (∀ j, 1 ≤ j → j ≤ 31 →
        sqDist px (kPalette.getD (nearestPaletteIndex px opt) {}) ≤
          sqDist px (kPalette.getD j {})) ∧
      (∀ j, 1 ≤ j → j ≤ 31 →
        sqDist px (kPalette.getD j {}) =
          sqDist px (kPalette.getD (nearestPaletteIndex px opt) {}) →
        nearestPaletteIndex px opt ≤ j)) ∧
    (nearestPaletteIndex px opt ≤ 31 ∧ nearestPaletteIndex px opt < kPalette.length ∧
      kPalette.length = 32) ∧
    (∀ j, 0 ≤ sqDist px (kPalette.getD j {}) ∧ sqDist px (kPalette.getD j {}) < INT_MAX) ∧
    (opt.valid →
      (0 ≤ sqDist px opt.colorKey ∧ sqDist px opt.colorKey < INT_MAX) ∧
      (0 ≤ opt.colorKeyTolerance * opt.colorKeyTolerance ∧
        opt.colorKeyTolerance * opt.colorKeyTolerance < INT_MAX)) := by
  obtain ⟨n1, n2, n3, n4⟩ := paletteLoop_nearest px hp
  have hvis : isVisiblePixel px opt = false ↔
      ((px.a : Int) < opt.alphaThreshold ∨
        (opt.useColorKey = true ∧
          sqDist px opt.colorKey ≤ opt.colorKeyTolerance * opt.colorKeyTolerance)) := by
    unfold isVisiblePixel
    by_cases c1 : (px.a : Int) < opt.alphaThreshold
    · simp only [c1, if_true, true_or]
    · by_cases c2 : opt.useColorKey = true ∧
          sqDist px opt.colorKey ≤ opt.colorKeyTolerance * opt.colorKeyTolerance
      · rw [if_neg c1, if_pos c2]
        exact ⟨fun _ => Or.inr c2, fun _ => rfl⟩
      · rw [if_neg c1, if_neg c2]
        constructor
        · intro h
          exact Bool.noConfusion h
        · rintro (h | h)
          · exact absurd h c1
          · exact absurd h c2
  have hcases : (isVisiblePixel px opt = false ∧ nearestPaletteIndex px opt = 0) ∨
      (isVisiblePixel px opt = true ∧ nearestPaletteIndex px opt =
        (paletteLoop px (List.range' 1 (kPalette.length - 1)) (1, INT_MAX)).1) := by
    unfold isVisiblePixel nearestPaletteIndex
    by_cases c1 : (px.a : Int) < opt.alphaThreshold
    · left
      rw [if_pos c1, if_pos c1]
      exact ⟨rfl, rfl⟩
    · by_cases c2 : opt.useColorKey = true ∧
          sqDist px opt.colorKey ≤ opt.colorKeyTolerance * opt.colorKeyTolerance
      · left
        rw [if_neg c1, if_pos c2, if_neg c1, if_pos c2]
        exact ⟨rfl, rfl⟩
      · right
        rw [if_neg c1, if_neg c2, if_neg c1, if_neg c2]
        exact ⟨rfl, rfl⟩
  have hov : opt.valid →
      (0 ≤ sqDist px opt.colorKey ∧ sqDist px opt.colorKey < INT_MAX) ∧
      (0 ≤ opt.colorKeyTolerance * opt.colorKeyTolerance ∧
        opt.colorKeyTolerance * opt.colorKeyTolerance < INT_MAX) := by
    rintro ⟨-, -, o3, o4, o5⟩
    have hk := sqDist_bounds px opt.colorKey hp o5
    refine ⟨⟨hk.1, hk.2.2⟩, mul_self_nonneg _, ?_⟩
    unfold INT_MAX
    nlinarith
  refine ⟨hvis, ?_, ?_, ?_, fun j => ?_, hov⟩
  · rcases hcases with ⟨h1, h2⟩ | ⟨h1, h2⟩
    · exact ⟨fun _ => h1, fun _ => h2⟩
    · constructor
      · intro h0
        rw [h2] at h0
        omega
      · intro hf
        rw [h1] at hf
        exact Bool.noConfusion hf
  · intro hv
    rcases hcases with ⟨h1, -⟩ | ⟨-, h2⟩
    · rw [h1] at hv
      exact Bool.noConfusion hv
    · rw [h2]
      exact ⟨n1, n2, n3, n4⟩
  · rcases hcases with ⟨-, h2⟩ | ⟨-, h2⟩
    · rw [h2]
      exact ⟨by decide, by decide, rfl⟩
    · rw [h2]
      exact ⟨n2, lt_of_le_of_lt n2 (by decide), rfl⟩
  · have := sqDist_bounds px _ hp (kPalette_getD_valid j)
    exact ⟨this.1, this.2.2⟩

set_option maxRecDepth 1000000 in
theorem palette_quantisation_witness :
    nearestPaletteIndex { r := 250, g := 235, b := 70 } {} = 5 ∧
    sqDist { r := 250, g := 235, b := 70 } (kPalette.getD 5 {}) = 150 ∧
    sqDist { r := 250, g := 235, b := 70 } (kPalette.getD 13 {}) = 150 ∧
    isVisiblePixel { r := 250, g := 235, b := 70 } {} = true ∧
    nearestPaletteIndex { r := 250, g := 235, b := 70, a := 31 } {} = 0 ∧
    nearestPaletteIndex { r := 10, g := 10, b := 10 } { useColorKey := true } = 0 ∧
    nearestPaletteIndex { r := 10, g := 10, b := 10 } {} = 27 :=
  have h := palette_quantisation { r := 250, g := 235, b := 70 } {} (by decide)
  have hv : isVisiblePixel { r := 250, g := 235, b := 70 } {} = true := by decide
  have h5 : nearestPaletteIndex { r := 250, g := 235, b := 70 } {} = 5 :=
    le_antisymm
      ((h.2.2.1 hv).2.2.2 5 (by decide) (by decide)
        (le_antisymm (by decide) ((h.2.2.1 hv).2.2.1 5 (by decide) (by decide))))
      (by decide)
  ⟨h5, by decide, by decide, hv,
    (palette_quantisation { r := 250, g := 235, b := 70, a := 31 } {}
      (by decide)).2.1.mpr (by decide),
    by decide, by decide⟩

end Galaxian
